import Mathlib

/-!
# SoFCRenderer: bucket classification, cache index and key suppression

A shallow embedding of the scene ingestion and overlay bookkeeping of
`src/Gui/Inventor/SoFCRenderer.cpp`:

* `CacheKeyCompare`, the ordering of the cache index and of the key sets;
* `pushDrawEntry`, `setScene`, and the bucket lists they fill;
* `applyKey`, `applyKeys`, `clearHighlight`, `setHighlight`, the suppress
  counters of the base draw units.

`std::vector` is a `List`, an index into a vector is a `Nat`, the ordered
containers `std::map` and `std::set` are lists kept in the order of their
comparator, and the renderer object is a record passed from call to call.
-/

namespace SoFCRenderer

/-! ## Data model -/

/-- Modelled from the spec: a cache key, `SoFCRenderCache::CacheKey` of
`SoFCRenderCache.h`, an ordered sequence of integers. -/
abbrev CacheKey := List Int

/-- Modelled from the spec: the target of a non-null `CacheKeyPtr` of
`SoFCRenderCache.h`: the address the shared pointer holds and the key stored
at that address.  Two pointers with one address refer to one key, so pointer
equality is equality of this pair, while two pointers with different addresses
may well hold equal keys. -/
structure CacheKeyRef where
  addr : Nat
  key : CacheKey
deriving DecidableEq, Repr

/-- Modelled from the spec: a shared pointer to a cache key, `CacheKeyPtr` of
`SoFCRenderCache.h`; `none` is the null pointer. -/
abbrev CacheKeyPtr := Option CacheKeyRef

/-- The integer sequence a key pointer holds, if it is not null. -/
def keyContent (k : CacheKeyPtr) : Option CacheKey := k.map CacheKeyRef.key

/-- Modelled from the spec: the primitive kind of a material, `Material::Type`
of `SoFCRenderCache.h` (triangle/line/point). -/
inductive MaterialType where
  | Triangle
  | Line
  | Point
deriving DecidableEq, Repr

/-- Modelled from the spec: the draw style of a material,
`SoDrawStyleElement::Style` of Coin; `INVISIBLE` units are skipped. -/
inductive DrawStyle where
  | FILLED
  | LINES
  | POINTS
  | INVISIBLE
deriving DecidableEq, Repr

/-- Modelled from the spec: the depth function of a material,
`SoDepthBuffer::DepthWriteFunction` of Coin. -/
inductive DepthFunc where
  | NEVER
  | ALWAYS
  | LESS
  | LEQUAL
  | EQUAL
  | GEQUAL
  | GREATER
  | NOTEQUAL
deriving DecidableEq, Repr

/-- Modelled from the spec: the light model of a material,
`SoLazyElement::LightModel` of Coin; `BASE_COLOR` is flat, unlit colour. -/
inductive LightModel where
  | BASE_COLOR
  | PHONG
deriving DecidableEq, Repr

/-- Modelled from the spec: the front-face winding of a material,
`SoLazyElement::VertexOrdering` of Coin. -/
inductive VertexOrdering where
  | CW
  | CCW
deriving DecidableEq, Repr

/-- Modelled from the spec: one entry of a clip-plane or light list of a
material (`SoFCRenderCache.h`): the node to render and its optional local
transform, `identity` when there is none.  A node and a matrix are named by a
number. -/
structure NodeInfo where
  node : Nat
  identity : Bool := true
  matrix : Nat := 0
deriving DecidableEq, Repr

/-- Modelled from the spec: one entry of the texture list of a material
(`SoFCRenderCache.h`): the texture node and its optional texture matrix. -/
structure TextureInfo where
  texture : Nat
  identity : Bool := true
  matrix : Nat := 0
deriving DecidableEq, Repr

/-- Modelled from the spec: the fields of `SoFCRenderCache::Material`
(declared in `SoFCRenderCache.h`) that the renderer reads.  `ontop` is the
value of `isOnTop()`, `haslinepattern` the value of `hasLinePattern()`,
`overridetransp` the value of `overrideflags.test(Material::FLAG_TRANSPARENCY)`
and `overrideother` the remaining bits of `overrideflags`; `diffuse` and the
other colours are packed 32-bit values, the low byte of `diffuse` being the
alpha channel; the float fields are rationals; `textures` pairs each texture
unit with its entry. -/
structure Material where
  type : MaterialType := MaterialType.Triangle
  drawstyle : DrawStyle := DrawStyle.FILLED
  diffuse : Nat := 0xff
  transptexture : Bool := false
  pervertexcolor : Bool := false
  ontop : Bool := false
  partialhighlight : Bool := false
  overridetransp : Bool := false
  overrideother : Nat := 0
  depthtest : Bool := true
  depthwrite : Bool := true
  depthclamp : Bool := false
  depthfunc : DepthFunc := DepthFunc.LEQUAL
  lightmodel : LightModel := LightModel.PHONG
  shadowstyle : Nat := 3
  clippers : List NodeInfo := []
  textures : List (Nat × TextureInfo) := []
  lights : List NodeInfo := []
  ambient : Nat := 0
  emissive : Nat := 0
  specular : Nat := 0
  shininess : Rat := 0
  linewidth : Rat := 1
  linepattern : Nat := 0xffff
  haslinepattern : Bool := false
  pointsize : Rat := 1
  vertexordering : VertexOrdering := VertexOrdering.CCW
  twoside : Int := 0
  culling : Int := 0
  polygonoffsetstyle : Nat := 0
  polygonoffsetfactor : Rat := 0
  polygonoffsetunits : Rat := 0
  outline : Bool := false
deriving DecidableEq, Repr

/-- The method `Material::isOnTop()`. -/
def Material.isOnTop (m : Material) : Bool := m.ontop

/-- Modelled from the spec: a bounding box, `SbBox3f` of Coin: two corner
points, empty when the first coordinate of the maximum lies below that of the
minimum. -/
structure SbBox3f where
  minpt : Int × Int × Int := (0, 0, 0)
  maxpt : Int × Int × Int := (-1, -1, -1)
deriving DecidableEq, Repr

/-- The method `SbBox3f::isEmpty()`. -/
def SbBox3f.isEmpty (b : SbBox3f) : Bool := decide (b.maxpt.1 < b.minpt.1)

/-- Modelled from the spec: what the renderer asks of a vertex cache
(`SoFCVertexCache`): whether it has opaque parts, whether it has transparent
parts, whether it is its own whole cache (`cache == cache->getWholeCache()`),
its node id, whether it has a normal array (`getNormalArray()`), and the
parts `renderOutline` asks for: the number of face parts (`getNumFaceParts()`)
and the indices of the non-flat parts (`getNonFlatParts()`, of which
`getNumNonFlatParts()` is the length). -/
structure SoFCVertexCache where
  hasOpaqueParts : Bool := true
  hasTransparency : Bool := false
  isWholeCache : Bool := true
  nodeId : Nat := 0
  hasNormalArray : Bool := true
  numFaceParts : Nat := 0
  nonFlatParts : List Int := []
deriving DecidableEq, Repr

/-- Modelled from the spec: a geometry batch, `SoFCRenderCache::VertexCacheEntry`.
`bbox` is the box that `cache->getBoundingBox(identity ? nullptr : &matrix, _)`
yields for this entry; `partidx < 0` means the whole object. -/
structure VertexCacheEntry where
  cache : SoFCVertexCache := {}
  bbox : SbBox3f := {}
  partidx : Int := -1
  key : CacheKeyPtr := none
deriving DecidableEq, Repr

/-- Modelled from the spec: the (material, batches) groups of a scene or of an
overlay in iteration order, `VertexCacheMap` of `SoFCRenderCache.h`. -/
abbrev VertexCacheMap := List (Material × List VertexCacheEntry)

/-- The struct `DrawEntry`: material, batch, the bounding box computed at
construction and the suppress counter `skip` (the sphere radius, a float read
only when a section is drawn, is left out). -/
structure DrawEntry where
  material : Material
  ventry : VertexCacheEntry
  bbox : SbBox3f
  skip : Int
deriving DecidableEq, Repr

/-- The constructor `DrawEntry::DrawEntry(m, v)`: `skip(0)` and the box of the batch. -/
def DrawEntry.create (m : Material) (v : VertexCacheEntry) : DrawEntry :=
  { material := m, ventry := v, bbox := v.bbox, skip := 0 }

/-- The struct `DrawEntryIndex`: an index into a draw list and the distance
used for sorting, a float taken as an exact rational, which the constructor
leaves unset (0 here). -/
structure DrawEntryIndex where
  idx : Nat
  distance : Rat := 0
deriving DecidableEq, Repr

/-- A plane as the renderer uses `SbPlane` of Coin: the normal and the offset
of the plane from the origin along it, floats taken as exact rationals.  The
default constructor of Coin leaves both unset; they are 0 here, which no view
plane has for its normal. -/
structure SbPlane where
  normal : Rat × Rat × Rat := (0, 0, 0)
  offset : Rat := 0
deriving DecidableEq, Repr

/-- The method `SbPlane::getNormal()`. -/
def SbPlane.getNormal (pl : SbPlane) : Rat × Rat × Rat := pl.normal

/-- The method `SbPlane::getDistance(point)`: the signed distance of the point
from the plane, the product of the point with the normal less the offset. -/
def SbPlane.getDistance (pl : SbPlane) (pt : Rat × Rat × Rat) : Rat :=
  pt.1 * pl.normal.1 + pt.2.1 * pl.normal.2.1 + pt.2.2 * pl.normal.2.2 - pl.offset

/-- The method `SbBox3f::getCenter()`: the midpoint of the two corners. -/
def SbBox3f.getCenter (b : SbBox3f) : Rat × Rat × Rat :=
  (((b.minpt.1 + b.maxpt.1 : Int) : Rat) / 2,
   ((b.minpt.2.1 + b.maxpt.2.1 : Int) : Rat) / 2,
   ((b.minpt.2.2 + b.maxpt.2.2 : Int) : Rat) / 2)

/-! ## CacheKeyCompare -/

/-- The comparison `operator<` of two vectors, `std::lexicographical_compare`. -/
def vectorLess : CacheKey → CacheKey → Bool
  | _, [] => false
  | [], _ :: _ => true
  | x :: xs, y :: ys =>
    if x < y then true
    else if y < x then false
    else vectorLess xs ys

/-- The functor `CacheKeyCompare`. -/
def CacheKeyCompare (a b : CacheKeyPtr) : Bool :=
  if a = b then false
  else match a, b with
    | none, _ => true
    | some _, none => false
    | some x, some y =>
      if x.key.length < y.key.length then true
      else if x.key.length > y.key.length then false
      else vectorLess x.key y.key

/-- The order `CacheKeyCompare` induces on key contents (`none` for the null
pointer): null first, then shorter before longer, then `operator<` of the vectors. -/
def contentLess : Option CacheKey → Option CacheKey → Bool
  | none, none => false
  | none, some _ => true
  | some _, none => false
  | some x, some y =>
    if x.length < y.length then true
    else if x.length > y.length then false
    else vectorLess x y

/-! ## pushDrawEntry -/

/-- The function `SoFCRendererP::pushDrawEntry`: the new list and the returned value. -/
def pushDrawEntry (draw_entries : List DrawEntry) (material : Material)
    (ventry : VertexCacheEntry) : List DrawEntry × Nat :=
  let pushed := draw_entries ++ [DrawEntry.create material ventry]
  if (DrawEntry.create material ventry).bbox.isEmpty then
    (pushed.dropLast, 0)
  else
    (pushed, pushed.length)

/-! ## The renderer state -/

/-- The class `SoFCRendererP`: the draw lists, the buckets, the selection
tables, the cache index `cachetable` and the key sets.  `cachetable` and the
two key sets are ordered by `CacheKeyCompare`; `selections` and
`selectionsontop` are ordered by id; `material` is the tracked pipeline
state and `prevmaterial` the material applied last, `none` for the null
pointer at the start of a frame; `prevplane` is the view plane of the last
sort, `identity` tells whether the model matrix of the frame is the identity,
`recheckmaterial` and `prevpass` govern when the draw loops apply a material
again.  The bounding-box aggregates, which the operations below write but
never read, the model matrix itself and the flag `shadowrenderpaused`, which
only switches the shader program, are not part of the record. -/
structure SoFCRendererP where
  drawentries : List DrawEntry := []
  slentries : List DrawEntry := []
  hlentries : List DrawEntry := []
  opaquevcache : List Nat := []
  opaqueontop : List Nat := []
  opaqueselections : List Nat := []
  opaquehighlight : List Nat := []
  opaquelineshighlight : List Nat := []
  linesontop : List Nat := []
  trianglesontop : List Nat := []
  transpvcache : List DrawEntryIndex := []
  transpontop : List DrawEntryIndex := []
  transpselections : List DrawEntryIndex := []
  transphighlight : List DrawEntryIndex := []
  selections : List (Int × VertexCacheMap) := []
  selectionsontop : List (Int × VertexCacheMap) := []
  transpselectionsontop : List DrawEntryIndex := []
  selstriangleontop : List Nat := []
  selsontop : List Nat := []
  selslineontop : List Nat := []
  selspointontop : List Nat := []
  updateselection : Bool := false
  cachetable : List (CacheKeyPtr × List Nat) := []
  highlightcaches : VertexCacheMap := []
  highlightkeys : List CacheKeyPtr := []
  selectionkeys : List CacheKeyPtr := []
  selkey : CacheKeyPtr := none
  hlwholeontop : Bool := false
  material : Material := {}
  prevmaterial : Option Material := none
  notexture : Bool := false
  depthwriteonly : Bool := false
  shadowmapping : Bool := false
  transpshadowmapping : Bool := false
  shadowrendering : Bool := false
  recheckmaterial : Bool := false
  prevpass : Nat := 0
  prevplane : SbPlane := {}
  identity : Bool := true
deriving DecidableEq, Repr

/-! ## Ordered containers -/

/-- The statement `cachetable[key].push_back(idx)`: the list stored under the
equivalent key grows by `idx`, and a key with no equivalent in the table is
entered at its place in the order. -/
def cachetablePush (key : CacheKeyPtr) (idx : Nat) :
    List (CacheKeyPtr × List Nat) → List (CacheKeyPtr × List Nat)
  | [] => [(key, [idx])]
  | (k, l) :: rest =>
    if CacheKeyCompare key k then (key, [idx]) :: (k, l) :: rest
    else if CacheKeyCompare k key then (k, l) :: cachetablePush key idx rest
    else (k, l ++ [idx]) :: rest

/-- The call `cachetable.find(key)`: the list stored under the equivalent key, if any. -/
def cachetableFind (key : CacheKeyPtr) : List (CacheKeyPtr × List Nat) → Option (List Nat)
  | [] => none
  | (k, l) :: rest =>
    if CacheKeyCompare key k then none
    else if CacheKeyCompare k key then cachetableFind key rest
    else some l

/-- The call `CacheKeySet::insert(key)`: the set afterwards and whether the key was new. -/
def keySetInsert (key : CacheKeyPtr) : List CacheKeyPtr → List CacheKeyPtr × Bool
  | [] => ([key], true)
  | k :: rest =>
    if CacheKeyCompare key k then (key :: k :: rest, true)
    else if CacheKeyCompare k key then
      ((k :: (keySetInsert key rest).1), (keySetInsert key rest).2)
    else (k :: rest, false)

/-! ## Suppress counters -/

/-- The statement `drawentries[idx].skip += skip`.  The counter is a C `int`;
it moves by one per key and call and stays far from the ends of its range, so
it is an `Int` here. -/
def addSkip (skip : Int) : Nat → List DrawEntry → List DrawEntry
  | _, [] => []
  | 0, e :: es => { e with skip := e.skip + skip } :: es
  | idx + 1, e :: es => e :: addSkip skip idx es

/-- The loop `for (idx : it->second) drawentries[idx].skip += skip`. -/
def addSkipAll (skip : Int) (indices : List Nat) (entries : List DrawEntry) : List DrawEntry :=
  indices.foldl (fun es idx => addSkip skip idx es) entries

/-- The function `SoFCRendererP::applyKey`. -/
def applyKey (key : CacheKeyPtr) (skip : Int) (p : SoFCRendererP) : SoFCRendererP :=
  match cachetableFind key p.cachetable with
  | none => p
  | some indices => { p with drawentries := addSkipAll skip indices p.drawentries }

/-- The function `SoFCRendererP::applyKeys`. -/
def applyKeys (keys : List CacheKeyPtr) (skip : Int) (p : SoFCRendererP) : SoFCRendererP :=
  keys.foldl (fun q key => applyKey key skip q) p

/-- The function `SoFCRenderer::clearHighlight`. -/
def clearHighlight (p : SoFCRendererP) : SoFCRendererP :=
  let p1 := { p with
    hlwholeontop := false
    highlightcaches := []
    opaquehighlight := []
    opaquelineshighlight := []
    transphighlight := []
    hlentries := [] }
  let p2 := applyKeys p1.highlightkeys (-1) p1
  { p2 with highlightkeys := [] }

/-! ## setScene -/

/-- The flag `fulltransp` that `setScene`, `setHighlight` and `updateSelection`
compute for a material. -/
def fullTransp (material : Material) : Bool :=
  let fulltransp := material.transptexture
  if !fulltransp && !material.pervertexcolor then
    (if material.diffuse &&& 0xff = 0xff then false else true)
  else fulltransp

/-- The body of the inner loop of `setScene`, for one batch of a group. -/
def setSceneEntry (material : Material) (fulltransp : Bool) (p : SoFCRendererP)
    (ventry : VertexCacheEntry) : SoFCRendererP :=
  let r := pushDrawEntry p.drawentries material ventry
  if r.2 = 0 then { p with drawentries := r.1 }
  else
    let idx := r.2 - 1
    let p1 := { p with
      drawentries := r.1
      cachetable := cachetablePush ventry.key idx p.cachetable }
    let p2 :=
      if material.isOnTop && material.type = MaterialType.Triangle then
        { p1 with trianglesontop := p1.trianglesontop ++ [idx] }
      else p1
    let p3 :=
      if !fulltransp && (!material.pervertexcolor || ventry.cache.hasOpaqueParts) then
        if material.isOnTop then
          if material.type ≠ MaterialType.Triangle then
            { p2 with linesontop := p2.linesontop ++ [idx] }
          else
            { p2 with opaqueontop := p2.opaqueontop ++ [idx] }
        else
          { p2 with opaquevcache := p2.opaquevcache ++ [idx] }
      else p2
    if fulltransp || (material.pervertexcolor && ventry.cache.hasTransparency) then
      if material.isOnTop then
        { p3 with transpontop := p3.transpontop ++ [{ idx := idx }] }
      else
        { p3 with transpvcache := p3.transpvcache ++ [{ idx := idx }] }
    else p3

/-- The body of the outer loop of `setScene`, for one (material, batches) group. -/
def setSceneGroup (p : SoFCRendererP) (v : Material × List VertexCacheEntry) : SoFCRendererP :=
  if v.2.isEmpty then p
  else if v.1.drawstyle = DrawStyle.INVISIBLE then p
  else v.2.foldl (setSceneEntry v.1 (fullTransp v.1)) p

/-- The state `setScene` starts its loop from: the recorded view plane reset,
base buckets, cache index and draw list cleared. -/
def setSceneReset (p : SoFCRendererP) : SoFCRendererP :=
  { p with
    prevplane := {}
    opaquevcache := []
    opaqueontop := []
    transpvcache := []
    transpontop := []
    cachetable := []
    drawentries := []
    linesontop := []
    trianglesontop := [] }

/-- The function `SoFCRenderer::setScene`, on the groups `cache->getVertexCaches(true)` yields. -/
def setScene (caches : VertexCacheMap) (p : SoFCRendererP) : SoFCRendererP :=
  let p1 := caches.foldl setSceneGroup (setSceneReset p)
  let p2 := applyKeys p1.highlightkeys 1 p1
  { p2 with selectionkeys := [], updateselection := true }

/-! ## setHighlight -/

/-- The body of the inner loop of `setHighlight`, for one batch of a group. -/
def setHighlightEntry (material : Material) (fulltransp : Bool) (p : SoFCRendererP)
    (ventry : VertexCacheEntry) : SoFCRendererP :=
  let r := pushDrawEntry p.hlentries material ventry
  if r.2 = 0 then { p with hlentries := r.1 }
  else
    let idx := r.2 - 1
    let p1 := { p with hlentries := r.1 }
    let p2 :=
      if material.isOnTop
          && (material.partialhighlight
              || (decide (ventry.partidx < 0) && ventry.cache.isWholeCache)) then
        { p1 with highlightkeys := (keySetInsert ventry.key p1.highlightkeys).1 }
      else p1
    if material.overridetransp then
      if material.diffuse &&& 0xff ≠ 0xff then
        { p2 with transphighlight := p2.transphighlight ++ [{ idx := idx }] }
      else if material.type = MaterialType.Triangle then
        { p2 with opaquehighlight := p2.opaquehighlight ++ [idx] }
      else
        { p2 with opaquelineshighlight := p2.opaquelineshighlight ++ [idx] }
    else
      let p3 :=
        if !fulltransp && (!material.pervertexcolor || ventry.cache.hasOpaqueParts) then
          if material.type = MaterialType.Triangle then
            { p2 with opaquehighlight := p2.opaquehighlight ++ [idx] }
          else
            { p2 with opaquelineshighlight := p2.opaquelineshighlight ++ [idx] }
        else p2
      if fulltransp || (material.pervertexcolor && ventry.cache.hasTransparency) then
        { p3 with transphighlight := p3.transphighlight ++ [{ idx := idx }] }
      else p3

/-- The body of the outer loop of `setHighlight`, for one (material, batches) group. -/
def setHighlightGroup (p : SoFCRendererP) (v : Material × List VertexCacheEntry) : SoFCRendererP :=
  if v.2.isEmpty then p
  else if v.1.drawstyle = DrawStyle.INVISIBLE then p
  else v.2.foldl (setHighlightEntry v.1 (fullTransp v.1)) p

/-- The function `SoFCRenderer::setHighlight`. -/
def setHighlight (caches : VertexCacheMap) (wholeontop : Bool) (p : SoFCRendererP) :
    SoFCRendererP :=
  let p0 := clearHighlight p
  let p1 := { p0 with highlightcaches := caches, hlwholeontop := wholeontop }
  let p2 := p1.highlightcaches.foldl setHighlightGroup p1
  applyKeys p2.highlightkeys 1 p2

/-! ## The material state diff engine: applyMaterial -/

/-- Modelled from the spec: the global rendering toggles and factors the
renderer reads from `ViewParams` (`ViewParams.h`); each field is the value of
the getter of that name.  The float parameters are rationals. -/
structure ViewParams where
  NoSectionOnTop : Bool := false
  SectionConcave : Bool := false
  TransparencyOnTop : Rat := 1
  SelectionLinePattern : Nat := 0
  SelectionLinePatternScale : Nat := 1
  SelectionLineThicken : Rat := 1
  SelectionLineMaxWidth : Rat := 0
  SelectionPointScale : Rat := 1
  SelectionPointMaxSize : Rat := 0
  SectionFill : Bool := true
  HiddenLineHideFace : Bool := false
  HiddenLineHideVertex : Bool := false
  ShowPreSelectedFaceOutline : Bool := false
deriving DecidableEq, Repr

/-- The OpenGL capabilities `applyMaterial` switches with `glEnable` and `glDisable`. -/
inductive GLCap where
  | DEPTH_TEST
  | DEPTH_CLAMP
  | LIGHTING
  | LINE_STIPPLE
  | CULL_FACE
  | POLYGON_OFFSET_FILL
  | POLYGON_OFFSET_LINE
  | POLYGON_OFFSET_POINT
deriving DecidableEq, Repr

/-- The material colours `setGLColor` sets. -/
inductive GLMaterialName where
  | EMISSION
  | AMBIENT
  | SPECULAR
deriving DecidableEq, Repr

/-- The modes of `glPolygonMode`. -/
inductive PolygonMode where
  | LINE
  | POINT
  | FILL
deriving DecidableEq, Repr

/-- The pipeline operations `applyMaterial` issues, in the order of issue:
calls on the scene state (`state->pop()`, `state->push()`, the model and
texture matrix elements, `setCacheOpen`, `GLRender` of a node) and OpenGL
calls.  `glBlendFunc true` is the pair of constant-alpha factors,
`glBlendFunc false` the pair of source-alpha factors; `FC_GLERROR_CHECK` only
reads the error flag and is not an operation. -/
inductive GLOp where
  | statePop
  | statePush
  | setModelMatrix (matrix : Nat)
  | makeIdentity
  | setCacheOpen (flag : Bool)
  | nodeGLRender (node : Nat)
  | setTextureMatrix (unit : Nat) (matrix : Option Nat)
  | setTextureUnit (unit : Nat)
  | glEnable (cap : GLCap)
  | glDisable (cap : GLCap)
  | glDepthMask (flag : Bool)
  | glDepthFunc (func : DepthFunc)
  | glColor4ub (r g b a : Nat)
  | glBlendColor (alpha : Rat)
  | glBlendFunc (constantAlpha : Bool)
  | setGLColor (name : GLMaterialName) (col : Nat)
  | glMaterialShininess (value : Rat)
  | glLineWidth (width : Rat)
  | glLineStipple (factor pattern : Nat)
  | glPointSize (size : Rat)
  | glFrontFace (cw : Bool)
  | glLightModelTwoSide (flag : Bool)
  | glPolygonMode (mode : PolygonMode)
  | glPolygonOffset (factor units : Rat)
deriving DecidableEq, Repr

/-- The operations on the scene state, by which clip planes, textures and
lights are submitted, as opposed to the OpenGL calls. -/
def GLOp.isSubmission : GLOp → Bool
  | GLOp.statePop => true
  | GLOp.statePush => true
  | GLOp.setModelMatrix _ => true
  | GLOp.makeIdentity => true
  | GLOp.setCacheOpen _ => true
  | GLOp.nodeGLRender _ => true
  | GLOp.setTextureMatrix _ _ => true
  | GLOp.setTextureUnit _ => true
  | _ => false

/-- The values of `enum RenderPass`. -/
def RenderPassNormal : Nat := 0

/-- The pass that draws the visible on-top lines solid. -/
def RenderPassLineSolid : Nat := 1

/-- The pass that draws the on-top lines with the configured pattern. -/
def RenderPassLinePattern : Nat := 2

/-- The bits of a pass that hold the line mode. -/
def RenderPassLineMask : Nat := 3

/-- The highlight flag of a pass. -/
def RenderPassHighlight : Nat := 4

/-- The flag `SoShadowStyleElement::CASTS_SHADOW`. -/
def CASTS_SHADOW : Nat := 1

/-- The working state of `applyMaterial`: the tracked material
`this->material` and the operations issued so far. -/
abbrev Applied := Material × List GLOp

/-- The loop that renders a clip-plane or light list: for each entry the local
transform is set when there is one, the node is rendered, and the transform is
reset. -/
def renderNodes (nodes : List NodeInfo) : List GLOp :=
  if nodes.length ≠ 0 then
    nodes.flatMap (fun info =>
      (if !info.identity then [GLOp.setModelMatrix info.matrix] else [])
        ++ [GLOp.setCacheOpen false, GLOp.nodeGLRender info.node]
        ++ (if !info.identity then [GLOp.makeIdentity] else []))
  else []

/-- The loop that renders the texture list of the target material: an entry
the tracked list holds unchanged at the same unit is passed over. -/
def renderTextures (tracked textures : List (Nat × TextureInfo)) : List GLOp :=
  if textures.length ≠ 0 then
    textures.flatMap (fun texentry =>
      if tracked.lookup texentry.1 = some texentry.2 then []
      else
        [GLOp.setTextureMatrix texentry.1
           (if texentry.2.identity then none else some texentry.2.matrix),
         GLOp.setTextureUnit texentry.1,
         GLOp.setCacheOpen false,
         GLOp.nodeGLRender texentry.2.texture])
  else []

/-- The local `clippers` of `applyMaterial`: the clip planes of the target
material, cleared in a shadow-map pass and, for an on-top material, when
sections on top are disabled or concave sections meet more than one plane. -/
def effectiveClippers (vp : ViewParams) (shadowmapping : Bool) (next : Material) :
    List NodeInfo :=
  if shadowmapping
      || ((vp.NoSectionOnTop || (vp.SectionConcave && decide (next.clippers.length > 1)))
          && next.isOnTop) then []
  else next.clippers

/-- The block of `applyMaterial` that resubmits clip planes, textures and lights. -/
def applyNodes (vp : ViewParams) (shadowmapping notexture first : Bool) (next : Material)
    (st : Applied) : Applied :=
  let clippers := effectiveClippers vp shadowmapping next
  let clipperchanged : Bool := first || decide (st.1.clippers ≠ clippers)
  let texturechanged : Bool := clipperchanged
    || (decide (next.type = MaterialType.Triangle) && decide (st.1.textures ≠ next.textures))
  let lightchanged : Bool := texturechanged
    || (decide (next.type = MaterialType.Triangle) && decide (st.1.lights ≠ next.lights))
  if clipperchanged || texturechanged || lightchanged then
    let st1 : Applied :=
      ({ st.1 with clippers := clippers },
       st.2 ++ [GLOp.statePop, GLOp.statePush] ++ renderNodes clippers)
    let st2 : Applied :=
      if !notexture && texturechanged then
        ({ st1.1 with textures := next.textures },
         st1.2 ++ renderTextures st1.1.textures next.textures)
      else st1
    if lightchanged then
      ({ st2.1 with lights := next.lights }, st2.2 ++ renderNodes next.lights)
    else st2
  else st

/-- The effective line width of a highlight pass: the width scaled by the
line-thicken factor (at least 1) and, when the configured maximum exceeds 1,
capped by the larger of the width and that maximum. -/
def highlightLineWidth (vp : ViewParams) (linewidth : Rat) : Rat :=
  let scale := if vp.SelectionLineThicken < 1 then 1 else vp.SelectionLineThicken
  let w := linewidth * scale
  if vp.SelectionLineMaxWidth > 1 then min w (max linewidth vp.SelectionLineMaxWidth) else w

/-- The effective point size of a highlight pass: the size scaled by the point
scale (by the line scale when the point scale is below 1) and, when the
configured maximum exceeds 1, capped by the larger of the size and that maximum. -/
def highlightPointSize (vp : ViewParams) (pointsize : Rat) : Rat :=
  let scale := if vp.SelectionLineThicken < 1 then 1 else vp.SelectionLineThicken
  let pscale := if vp.SelectionPointScale < 1 then scale else vp.SelectionPointScale
  let w := pointsize * pscale
  if vp.SelectionPointMaxSize > 1 then min w (max pointsize vp.SelectionPointMaxSize) else w

/-- The locals of `applyMaterial` once the pass-specific blocks have run. -/
structure PassValues where
  transp : Bool
  depthtest : Bool
  depthwrite : Bool
  depthfunc : DepthFunc
  linepattern : Nat
  col : Nat
  emissive : Nat
  overridetransp : Bool
  overrideother : Nat
  linewidth : Rat
  pointsize : Rat
deriving DecidableEq, Repr

/-- The local `sellinepattern`: the configured selection line pattern, with
the pattern scale in the upper 16 bits when the pattern is set and the scale
exceeds 1. -/
def selectionLinePattern (vp : ViewParams) : Nat :=
  if vp.SelectionLinePattern ≠ 0 ∧ vp.SelectionLinePatternScale > 1 then
    (vp.SelectionLinePattern ||| (vp.SelectionLinePatternScale <<< 16)) % 2 ^ 32
  else vp.SelectionLinePattern

/-- The locals `depthtest`, `depthwrite`, `depthfunc`, `linepattern`, `col`,
`emissive`, `overrideflags`, `linewidth`, `pointsize` and the parameter
`transp` of `applyMaterial`, after the line-pattern, line-solid and highlight
blocks. -/
def passValues (vp : ViewParams) (next : Material) (transp : Bool) (pass : Nat) : PassValues :=
  let v0 : PassValues :=
    { transp := transp
      depthtest := if next.isOnTop then false else next.depthtest
      depthwrite := if !next.isOnTop && transp then false else next.depthwrite
      depthfunc := next.depthfunc
      linepattern := next.linepattern
      col := next.diffuse
      emissive := next.emissive
      overridetransp := next.overridetransp
      overrideother := next.overrideother
      linewidth := next.linewidth
      pointsize := next.pointsize }
  let v1 : PassValues :=
    if pass &&& RenderPassLineMask = RenderPassLinePattern then
      let v : PassValues :=
        if pass = RenderPassLinePattern then
          let alpha : Nat := (Rat.floor (vp.TransparencyOnTop * 255)).toNat % 2 ^ 32
          { v0 with
            transp := true
            col := if alpha < v0.col &&& 0xff then (v0.col &&& 0xffffff00) ||| alpha else v0.col
            overridetransp := true }
        else v0
      { v with
        depthtest := false
        linepattern :=
          if selectionLinePattern vp ≠ 0 ∧ next.haslinepattern = false then
            selectionLinePattern vp
          else v.linepattern }
    else if pass &&& RenderPassLineMask = RenderPassLineSolid then
      { v0 with depthtest := true, depthfunc := DepthFunc.LEQUAL, depthwrite := false }
    else v0
  if pass &&& RenderPassHighlight ≠ 0 then
    { v1 with
      linewidth := highlightLineWidth vp v1.linewidth
      pointsize := highlightPointSize vp v1.pointsize }
  else v1

/-- The function `setGLFeature`: the capability is switched only when the
masked bit of the tracked value and of the next value differ. -/
def setGLFeature (name : GLCap) (current next mask : Nat) : List GLOp :=
  if current &&& mask ≠ 0 ∧ next &&& mask = 0 then [GLOp.glDisable name]
  else if current &&& mask = 0 ∧ next &&& mask ≠ 0 then [GLOp.glEnable name]
  else []

/-- The pattern `if (first || differs) { operations; tracked = value; }` of `applyMaterial`. -/
def syncStep (first differs : Bool) (ops : List GLOp) (update : Material → Material)
    (st : Applied) : Applied :=
  if first || differs then (update st.1, st.2 ++ ops) else st

/-- The depth-test step of `applyMaterial`. -/
def applyDepthTest (first depthtest : Bool) (st : Applied) : Applied :=
  syncStep first (decide (st.1.depthtest ≠ depthtest))
    [if depthtest then GLOp.glEnable GLCap.DEPTH_TEST else GLOp.glDisable GLCap.DEPTH_TEST]
    (fun m => { m with depthtest := depthtest }) st

/-- The depth-clamp step of `applyMaterial`. -/
def applyDepthClamp (first : Bool) (next : Material) (st : Applied) : Applied :=
  syncStep first (decide (st.1.depthclamp ≠ next.depthclamp))
    [if next.depthclamp then GLOp.glEnable GLCap.DEPTH_CLAMP
     else GLOp.glDisable GLCap.DEPTH_CLAMP]
    (fun m => { m with depthclamp := next.depthclamp }) st

/-- The depth-write step of `applyMaterial`. -/
def applyDepthWrite (first depthwrite : Bool) (st : Applied) : Applied :=
  syncStep first (decide (st.1.depthwrite ≠ depthwrite)) [GLOp.glDepthMask depthwrite]
    (fun m => { m with depthwrite := depthwrite }) st

/-- The depth-function step of `applyMaterial`: the `switch` issues the
`glDepthFunc` of the same name for each of the eight functions. -/
def applyDepthFunc (first : Bool) (depthfunc : DepthFunc) (st : Applied) : Applied :=
  syncStep first (decide (st.1.depthfunc ≠ depthfunc)) [GLOp.glDepthFunc depthfunc]
    (fun m => { m with depthfunc := depthfunc }) st

/-- The lighting step of `applyMaterial`. -/
def applyLightModel (first : Bool) (next : Material) (st : Applied) : Applied :=
  syncStep first (decide (st.1.lightmodel ≠ next.lightmodel))
    [if next.lightmodel = LightModel.PHONG then GLOp.glEnable GLCap.LIGHTING
     else GLOp.glDisable GLCap.LIGHTING]
    (fun m => { m with lightmodel := next.lightmodel }) st

/-- The colour operation `applyMaterial` issues on every call: `glColor4ub`
with the four bytes of the colour. -/
def colorOp (col : Nat) : GLOp :=
  GLOp.glColor4ub ((col >>> 24) &&& 0xff) ((col >>> 16) &&& 0xff) ((col >>> 8) &&& 0xff)
    (col &&& 0xff)

/-- The blend block of `applyMaterial`: the blend function is issued when the
override flags differ from the tracked ones or, under the transparency
override, the alpha byte differs from the tracked one; with the constant
alpha of the colour under the transparency override.  `hasBlendColor` is true. -/
def blendOps (v : PassValues) (tracked : Material) : List GLOp :=
  if (v.overridetransp ≠ tracked.overridetransp ∨ v.overrideother ≠ tracked.overrideother)
      ∨ (v.overridetransp = true ∧ v.col &&& 0xff ≠ tracked.diffuse &&& 0xff) then
    (if v.overridetransp then
       [GLOp.glBlendColor (((v.col &&& 0xff : Nat) : Rat) / 255), GLOp.glBlendFunc true]
     else [GLOp.glBlendFunc false])
  else []

/-- The colour and blend step of `applyMaterial`: the colour is always issued,
then the blend block runs, then the override flags and the colour are recorded. -/
def applyColor (v : PassValues) (st : Applied) : Applied :=
  ({ st.1 with
      overridetransp := v.overridetransp
      overrideother := v.overrideother
      diffuse := v.col },
   st.2 ++ [colorOp v.col] ++ blendOps v st.1)

/-- The emission step of `applyMaterial`: the emission colour is cleared when
the tracked light model is `BASE_COLOR`. -/
def applyEmissive (first : Bool) (emissive : Nat) (st : Applied) : Applied :=
  let emissive := if st.1.lightmodel = LightModel.BASE_COLOR then 0 else emissive
  syncStep first (decide (st.1.emissive ≠ emissive))
    [GLOp.setGLColor GLMaterialName.EMISSION emissive]
    (fun m => { m with emissive := emissive }) st

/-- The line-width step of `applyMaterial`. -/
def applyLineWidth (first : Bool) (linewidth : Rat) (st : Applied) : Applied :=
  syncStep first (decide (st.1.linewidth ≠ linewidth)) [GLOp.glLineWidth linewidth]
    (fun m => { m with linewidth := linewidth }) st

/-- The line-pattern step of `applyMaterial`. -/
def applyLinePattern (first : Bool) (linepattern : Nat) (st : Applied) : Applied :=
  syncStep first (decide (st.1.linepattern ≠ linepattern))
    (if linepattern &&& 0xffff = 0xffff then [GLOp.glDisable GLCap.LINE_STIPPLE]
     else [GLOp.glEnable GLCap.LINE_STIPPLE,
           GLOp.glLineStipple (linepattern >>> 16) (linepattern &&& 0xffff)])
    (fun m => { m with linepattern := linepattern }) st

/-- The point-size step of `applyMaterial`. -/
def applyPointSize (first : Bool) (pointsize : Rat) (st : Applied) : Applied :=
  syncStep first (decide (st.1.pointsize ≠ pointsize)) [GLOp.glPointSize pointsize]
    (fun m => { m with pointsize := pointsize }) st

/-- The ambient-colour step of `applyMaterial`. -/
def applyAmbient (first : Bool) (next : Material) (st : Applied) : Applied :=
  syncStep first (decide (st.1.ambient ≠ next.ambient))
    [GLOp.setGLColor GLMaterialName.AMBIENT next.ambient]
    (fun m => { m with ambient := next.ambient }) st

/-- The specular-colour step of `applyMaterial`. -/
def applySpecular (first : Bool) (next : Material) (st : Applied) : Applied :=
  syncStep first (decide (st.1.specular ≠ next.specular))
    [GLOp.setGLColor GLMaterialName.SPECULAR next.specular]
    (fun m => { m with specular := next.specular }) st

/-- The shininess step of `applyMaterial`. -/
def applyShininess (first : Bool) (next : Material) (st : Applied) : Applied :=
  syncStep first (decide (st.1.shininess ≠ next.shininess))
    [GLOp.glMaterialShininess (next.shininess * 128)]
    (fun m => { m with shininess := next.shininess }) st

/-- The front-face step of `applyMaterial`. -/
def applyVertexOrdering (first : Bool) (next : Material) (st : Applied) : Applied :=
  syncStep first (decide (st.1.vertexordering ≠ next.vertexordering))
    [GLOp.glFrontFace (decide (next.vertexordering = VertexOrdering.CW))]
    (fun m => { m with vertexordering := next.vertexordering }) st

/-- The two-sided lighting step of `applyMaterial`: forced on when `transp`. -/
def applyTwoside (first transp : Bool) (next : Material) (st : Applied) : Applied :=
  let twoside : Int := if transp then 1 else next.twoside
  syncStep first (decide (st.1.twoside ≠ twoside))
    [GLOp.glLightModelTwoSide (decide (twoside ≠ 0))]
    (fun m => { m with twoside := twoside }) st

/-- The face-culling step of `applyMaterial`: forced off when `transp`. -/
def applyCulling (first transp : Bool) (next : Material) (st : Applied) : Applied :=
  let culling : Int := if transp then 0 else next.culling
  syncStep first (decide (st.1.culling ≠ culling))
    [if culling ≠ 0 then GLOp.glEnable GLCap.CULL_FACE else GLOp.glDisable GLCap.CULL_FACE]
    (fun m => { m with culling := culling }) st

/-- The polygon-mode step of `applyMaterial`. -/
def applyDrawStyle (first : Bool) (next : Material) (st : Applied) : Applied :=
  syncStep first (decide (st.1.drawstyle ≠ next.drawstyle))
    [GLOp.glPolygonMode
      (match next.drawstyle with
        | DrawStyle.LINES => PolygonMode.LINE
        | DrawStyle.POINTS => PolygonMode.POINT
        | _ => PolygonMode.FILL)]
    (fun m => { m with drawstyle := next.drawstyle }) st

/-- The polygon-offset enable step of `applyMaterial`: three calls of
`setGLFeature` with the masks `FILLED = 1`, `LINES = 2`, `POINTS = 4` of
`SoPolygonOffsetElement`. -/
def applyPolygonOffsetStyle (first : Bool) (next : Material) (st : Applied) : Applied :=
  syncStep first (decide (st.1.polygonoffsetstyle ≠ next.polygonoffsetstyle))
    (setGLFeature GLCap.POLYGON_OFFSET_FILL st.1.polygonoffsetstyle next.polygonoffsetstyle 1
      ++ setGLFeature GLCap.POLYGON_OFFSET_LINE st.1.polygonoffsetstyle
          next.polygonoffsetstyle 2
      ++ setGLFeature GLCap.POLYGON_OFFSET_POINT st.1.polygonoffsetstyle
          next.polygonoffsetstyle 4)
    (fun m => { m with polygonoffsetstyle := next.polygonoffsetstyle }) st

/-- The polygon-offset value step of `applyMaterial`. -/
def applyPolygonOffset (first : Bool) (next : Material) (st : Applied) : Applied :=
  syncStep first
    (decide (st.1.polygonoffsetfactor ≠ next.polygonoffsetfactor
      ∨ st.1.polygonoffsetunits ≠ next.polygonoffsetunits))
    [GLOp.glPolygonOffset next.polygonoffsetfactor next.polygonoffsetunits]
    (fun m => { m with
      polygonoffsetfactor := next.polygonoffsetfactor
      polygonoffsetunits := next.polygonoffsetunits }) st

/-- The depth-write-only branch of `applyMaterial`: textures off, flat
lighting, per-vertex colour off, depth write on, depth function `LESS`, depth
test on. -/
def applyDepthWriteOnly (st : Applied) : Applied :=
  let st1 : Applied :=
    if st.1.textures.length ≠ 0 then
      ({ st.1 with textures := [] }, st.2 ++ [GLOp.statePop, GLOp.statePush])
    else st
  let st2 : Applied :=
    if st1.1.lightmodel ≠ LightModel.BASE_COLOR then
      ({ st1.1 with lightmodel := LightModel.BASE_COLOR },
       st1.2 ++ [GLOp.glDisable GLCap.LIGHTING])
    else st1
  let st3 : Applied := ({ st2.1 with pervertexcolor := false }, st2.2)
  let st4 : Applied :=
    if st3.1.depthwrite = false then
      ({ st3.1 with depthwrite := true }, st3.2 ++ [GLOp.glDepthMask true])
    else st3
  let st5 : Applied :=
    if st4.1.depthfunc ≠ DepthFunc.LESS then
      ({ st4.1 with depthfunc := DepthFunc.LESS }, st4.2 ++ [GLOp.glDepthFunc DepthFunc.LESS])
    else st4
  if st5.1.depthtest = false then
    ({ st5.1 with depthtest := true }, st5.2 ++ [GLOp.glEnable GLCap.DEPTH_TEST])
  else st5

/-- The steps of `applyMaterial` every primitive kind runs: depth test, depth
clamp, depth write, depth function, lighting, colour and blend, emission. -/
def applyCommon (first : Bool) (v : PassValues) (next : Material) (st : Applied) : Applied :=
  applyEmissive first v.emissive
    (applyColor v
      (applyLightModel first next
        (applyDepthFunc first v.depthfunc
          (applyDepthWrite first v.depthwrite
            (applyDepthClamp first next
              (applyDepthTest first v.depthtest st))))))

/-- The steps of `applyMaterial` after the line and point blocks: ambient,
specular, shininess, front face, two-sided lighting, culling, polygon mode,
polygon offset. -/
def applyFace (first transp : Bool) (next : Material) (st : Applied) : Applied :=
  applyPolygonOffset first next
    (applyPolygonOffsetStyle first next
      (applyDrawStyle first next
        (applyCulling first transp next
          (applyTwoside first transp next
            (applyVertexOrdering first next
              (applyShininess first next
                (applySpecular first next
                  (applyAmbient first next st))))))))

/-- What a call of `applyMaterial` yields: the returned value, the tracked
material `this->material` after the call, and the operations issued. -/
structure ApplyResult where
  ok : Bool
  material : Material
  ops : List GLOp
deriving DecidableEq, Repr

/-- The function `SoFCRendererP::applyMaterial`.  It reads the members
`prevmaterial`, `shadowmapping`, `depthwriteonly`, `notexture` and `material`
and writes `material` only. -/
def applyMaterial (vp : ViewParams) (p : SoFCRendererP) (next : Material) (transp : Bool)
    (pass : Nat) : ApplyResult :=
  let first : Bool := p.prevmaterial.isNone
  if p.shadowmapping && (next.isOnTop || decide (next.shadowstyle &&& CASTS_SHADOW = 0)) then
    { ok := false, material := p.material, ops := [] }
  else if p.depthwriteonly then
    let st := applyDepthWriteOnly (p.material, [])
    { ok := true, material := st.1, ops := st.2 }
  else
    let st0 : Applied := ({ p.material with pervertexcolor := next.pervertexcolor }, [])
    let st1 := applyNodes vp p.shadowmapping p.notexture first next st0
    let v := passValues vp next transp pass
    let st2 := applyCommon first v next st1
    let st3 : Applied :=
      if next.type = MaterialType.Line then
        applyLinePattern first v.linepattern (applyLineWidth first v.linewidth st2)
      else st2
    if next.type = MaterialType.Line ∧ first = false then
      { ok := true, material := st3.1, ops := st3.2 }
    else
      let st4 : Applied :=
        if next.type = MaterialType.Point then applyPointSize first v.pointsize st3 else st3
      if next.type = MaterialType.Point ∧ first = false then
        { ok := true, material := st4.1, ops := st4.2 }
      else
        let st5 := applyFace first v.transp next st4
        { ok := true, material := st5.1, ops := st5.2 }

/-- The state `applyMaterial` reaches after its common steps, on the path
that is neither refused nor depth-write-only. -/
def mainCommon (vp : ViewParams) (p : SoFCRendererP) (next : Material) (transp : Bool)
    (pass : Nat) : Applied :=
  applyCommon p.prevmaterial.isNone (passValues vp next transp pass) next
    (applyNodes vp p.shadowmapping p.notexture p.prevmaterial.isNone next
      ({ p.material with pervertexcolor := next.pervertexcolor }, []))

/-- The state `applyMaterial` reaches after its line and point blocks, on the
path that is neither refused nor depth-write-only. -/
def mainKind (vp : ViewParams) (p : SoFCRendererP) (next : Material) (transp : Bool)
    (pass : Nat) : Applied :=
  match next.type with
  | MaterialType.Line =>
    applyLinePattern p.prevmaterial.isNone (passValues vp next transp pass).linepattern
      (applyLineWidth p.prevmaterial.isNone (passValues vp next transp pass).linewidth
        (mainCommon vp p next transp pass))
  | MaterialType.Point =>
    applyPointSize p.prevmaterial.isNone (passValues vp next transp pass).pointsize
      (mainCommon vp p next transp pass)
  | MaterialType.Triangle => mainCommon vp p next transp pass

/-! ## Notions used to state the properties -/

/-- The tracked clip planes are the effective ones of the target material
and, for a triangle material, the tracked textures and lights are its own. -/
def NodesSynced (vp : ViewParams) (shadowmapping : Bool) (next m : Material) : Prop :=
  m.clippers = effectiveClippers vp shadowmapping next ∧
  (next.type = MaterialType.Triangle → m.textures = next.textures ∧ m.lights = next.lights)

/-- The tracked depth, lighting, colour and emission state is the one the
target material asks for in this pass. -/
def CommonSynced (v : PassValues) (next m : Material) : Prop :=
  m.depthtest = v.depthtest ∧ m.depthclamp = next.depthclamp ∧ m.depthwrite = v.depthwrite ∧
  m.depthfunc = v.depthfunc ∧ m.lightmodel = next.lightmodel ∧
  m.overridetransp = v.overridetransp ∧ m.overrideother = v.overrideother ∧
  m.diffuse = v.col ∧
  m.emissive = (if next.lightmodel = LightModel.BASE_COLOR then 0 else v.emissive)

/-- The tracked line width and pattern are the ones of this pass. -/
def LineSynced (v : PassValues) (m : Material) : Prop :=
  m.linewidth = v.linewidth ∧ m.linepattern = v.linepattern

/-- The tracked surface state (ambient, specular, shininess, front face,
two-sided lighting, culling, polygon mode, polygon offset) is the one the
target material asks for in this pass. -/
def FaceSynced (transp : Bool) (next m : Material) : Prop :=
  m.ambient = next.ambient ∧ m.specular = next.specular ∧ m.shininess = next.shininess ∧
  m.vertexordering = next.vertexordering ∧
  m.twoside = (if transp then 1 else next.twoside) ∧
  m.culling = (if transp then 0 else next.culling) ∧
  m.drawstyle = next.drawstyle ∧ m.polygonoffsetstyle = next.polygonoffsetstyle ∧
  m.polygonoffsetfactor = next.polygonoffsetfactor ∧
  m.polygonoffsetunits = next.polygonoffsetunits

/-- The positions of a list whose element satisfies `P`, in increasing order. -/
def indicesWhere {α : Type} (P : α → Bool) (us : List α) : List Nat :=
  (List.range us.length).filter (fun i => (us[i]?).any P)

/-- The material and the batch a draw unit pairs. -/
def DrawEntry.unit (e : DrawEntry) : Material × VertexCacheEntry := (e.material, e.ventry)

/-- The (material, batch) pairs of a scene that `setScene` accepts, in
iteration order: the group is not invisible and the box of the batch is not empty. -/
def acceptedUnits (caches : VertexCacheMap) : List (Material × VertexCacheEntry) :=
  caches.flatMap (fun g =>
    if g.1.drawstyle = DrawStyle.INVISIBLE then []
    else (g.2.filter (fun v => !v.bbox.isEmpty)).map (fun v => (g.1, v)))

/-- The test of `setScene` that sends a unit to an opaque bucket. -/
def opaqueUnit (u : Material × VertexCacheEntry) : Bool :=
  !fullTransp u.1 && (!u.1.pervertexcolor || u.2.cache.hasOpaqueParts)

/-- The test of `setScene` that sends a unit to a transparent bucket. -/
def transpUnit (u : Material × VertexCacheEntry) : Bool :=
  fullTransp u.1 || (u.1.pervertexcolor && u.2.cache.hasTransparency)

/-- How many times index `i` is stored in the cache index, over all its lists. -/
def cachetableCount (i : Nat) (table : List (CacheKeyPtr × List Nat)) : Nat :=
  (table.map (fun kl => kl.2.count i)).sum

/-- The indices `applyKeys` visits: for each key of the set in order, the list
the table holds for it. -/
def foundIndices (keys : List CacheKeyPtr) (table : List (CacheKeyPtr × List Nat)) : List Nat :=
  keys.flatMap (fun k => (cachetableFind k table).getD [])

/-- The keys of an ordered container stand in strictly increasing order. -/
def keysSorted (keys : List CacheKeyPtr) : Prop :=
  keys.Pairwise (fun a b => CacheKeyCompare a b = true)

/-- What scene ingestion maintains: every bucket holds, in increasing order,
the positions of the draw units that pass its test; the cache index is sorted,
stores each position once, and stores it under a
key with the content of the key of the unit. -/
structure SceneInv (q : SoFCRendererP) : Prop where
  opaquevcache : q.opaquevcache =
    indicesWhere (fun u => opaqueUnit u && !u.1.isOnTop) (q.drawentries.map DrawEntry.unit)
  opaqueontop : q.opaqueontop =
    indicesWhere
      (fun u => opaqueUnit u && u.1.isOnTop && decide (u.1.type = MaterialType.Triangle))
      (q.drawentries.map DrawEntry.unit)
  linesontop : q.linesontop =
    indicesWhere
      (fun u => opaqueUnit u && u.1.isOnTop && !decide (u.1.type = MaterialType.Triangle))
      (q.drawentries.map DrawEntry.unit)
  trianglesontop : q.trianglesontop =
    indicesWhere (fun u => u.1.isOnTop && decide (u.1.type = MaterialType.Triangle))
      (q.drawentries.map DrawEntry.unit)
  transpvcache : q.transpvcache.map DrawEntryIndex.idx =
    indicesWhere (fun u => transpUnit u && !u.1.isOnTop) (q.drawentries.map DrawEntry.unit)
  transpontop : q.transpontop.map DrawEntryIndex.idx =
    indicesWhere (fun u => transpUnit u && u.1.isOnTop) (q.drawentries.map DrawEntry.unit)
  tableMem : ∀ kl ∈ q.cachetable, ∀ i ∈ kl.2,
    ∃ e, q.drawentries[i]? = some e ∧ keyContent e.ventry.key = keyContent kl.1
  tableCount : ∀ i, cachetableCount i q.cachetable = if i < q.drawentries.length then 1 else 0
  tableSorted : keysSorted (q.cachetable.map Prod.fst)

/-! ## Example scenes -/

/-- A cache key of one integer. -/
def exampleKeyA : CacheKeyPtr := some { addr := 1, key := [7] }

/-- A cache key of two integers. -/
def exampleKeyB : CacheKeyPtr := some { addr := 2, key := [7, 1] }

/-- A bounding box that is not empty. -/
def exampleBox : SbBox3f := { minpt := (0, 0, 0), maxpt := (1, 1, 1) }

/-- An opaque triangle material: diffuse alpha `0xff`. -/
def opaqueTriangles : Material := { type := MaterialType.Triangle, diffuse := 0xccccccff }

/-- A transparent line material: diffuse alpha `0x80`. -/
def transparentLines : Material := { type := MaterialType.Line, diffuse := 0xcccccc80 }

/-- A batch of key `exampleKeyA`. -/
def exampleBatchA : VertexCacheEntry := { bbox := exampleBox, key := exampleKeyA }

/-- A batch of key `exampleKeyB`. -/
def exampleBatchB : VertexCacheEntry := { bbox := exampleBox, key := exampleKeyB }

/-- A scene of one opaque triangle batch and one transparent line batch. -/
def exampleScene : VertexCacheMap :=
  [(opaqueTriangles, [exampleBatchA]), (transparentLines, [exampleBatchB])]

/-- A per-vertex-coloured material that also declares a transparent texture. -/
def texturedVertexColors : Material := { pervertexcolor := true, transptexture := true }

/-- A material without per-vertex colour, diffuse alpha `0xff`, that declares a
transparent texture. -/
def texturedOpaqueColor : Material := { diffuse := 0xccccccff, transptexture := true }

/-- A per-vertex-coloured material without transparent texture. -/
def vertexColors : Material := { pervertexcolor := true }

/-- A batch whose cache reports opaque parts as well as transparent parts. -/
def mixedBatch : VertexCacheEntry :=
  { cache := { hasOpaqueParts := true, hasTransparency := true }, bbox := exampleBox,
    key := exampleKeyA }

/-- An on-top line material, diffuse alpha `0xff`. -/
def ontopLines : Material :=
  { type := MaterialType.Line, diffuse := 0xccccccff, ontop := true }

/-- The base draw units of `q` are those of `base`, each suppressed once for
every visit `applyKeys` pays it through the highlight keys of `q`; the cache
index is that of `base`. -/
def SuppressedBy (base q : SoFCRendererP) : Prop :=
  q.cachetable = base.cachetable ∧
  q.drawentries =
    addSkipAll 1 (foundIndices q.highlightkeys base.cachetable) base.drawentries

/-- How many keys of a set hold the content `K`. -/
def keyHits (K : Option CacheKey) (keys : List CacheKeyPtr) : Nat :=
  keys.countP (fun k => decide (keyContent k = K))

/-- An on-top highlight material. -/
def ontopHighlight : Material := { diffuse := 0xffff00ff, ontop := true }

/-- A highlight material that is not on-top. -/
def plainHighlight : Material := { diffuse := 0xffff00ff }

/-- A whole-object highlight batch whose key, held by another pointer, has the
content of `exampleKeyA`. -/
def highlightBatch : VertexCacheEntry :=
  { bbox := exampleBox, partidx := -1, key := some { addr := 9, key := [7] } }

/-- The test by which `applyMaterial` refuses a material: the frame is a
shadow-map pass and the material is on-top or lacks the shadow-casting flag. -/
def refuses (p : SoFCRendererP) (next : Material) : Prop :=
  p.shadowmapping = true ∧ (next.isOnTop = true ∨ next.shadowstyle &&& CASTS_SHADOW = 0)

/-- The test `refuses` is decidable. -/
instance (p : SoFCRendererP) (next : Material) : Decidable (refuses p next) := by
  unfold refuses
  exact inferInstance

/-- A tracked state that differs from the default one in its line width. -/
def wideLineState : Material := { linewidth := 2 }

/-- A renderer in depth-write-only mode whose tracked material has a texture,
lit shading and a depth function other than `LESS`. -/
def depthWriteOnlyRenderer : SoFCRendererP :=
  { depthwriteonly := true
    material := { textures := [(0, { texture := 5 })], depthfunc := DepthFunc.ALWAYS,
                  depthtest := false, pervertexcolor := true } }

/-- Two tracked materials agree on every field `applyMaterial` sets for a
target of the given primitive kind: the per-vertex colour flag, the clip
planes, the depth, lighting, colour and emission state, for a line material
the line width and pattern, for a point material the point size, for a
triangle material the textures and lights, and for a triangle material or on
the first call of a frame the surface state. -/
def AgreeFor (type : MaterialType) (first : Bool) (a b : Material) : Prop :=
  a.pervertexcolor = b.pervertexcolor ∧ a.clippers = b.clippers ∧
  a.depthtest = b.depthtest ∧ a.depthclamp = b.depthclamp ∧ a.depthwrite = b.depthwrite ∧
  a.depthfunc = b.depthfunc ∧ a.lightmodel = b.lightmodel ∧
  a.overridetransp = b.overridetransp ∧ a.overrideother = b.overrideother ∧
  a.diffuse = b.diffuse ∧ a.emissive = b.emissive ∧
  (type = MaterialType.Line → a.linewidth = b.linewidth ∧ a.linepattern = b.linepattern) ∧
  (type = MaterialType.Point → a.pointsize = b.pointsize) ∧
  (type = MaterialType.Triangle → a.textures = b.textures ∧ a.lights = b.lights) ∧
  (type = MaterialType.Triangle ∨ first = true →
    a.ambient = b.ambient ∧ a.specular = b.specular ∧ a.shininess = b.shininess ∧
    a.vertexordering = b.vertexordering ∧ a.twoside = b.twoside ∧ a.culling = b.culling ∧
    a.drawstyle = b.drawstyle ∧ a.polygonoffsetstyle = b.polygonoffsetstyle ∧
    a.polygonoffsetfactor = b.polygonoffsetfactor ∧
    a.polygonoffsetunits = b.polygonoffsetunits)

/-- View parameters with a dashed selection line pattern of scale 2, lines
thickened twice up to width 3 and points scaled twice up to size 5. -/
def dashedSelection : ViewParams :=
  { SelectionLinePattern := 0x0f0f
    SelectionLinePatternScale := 2
    SelectionLineThicken := 2
    SelectionLineMaxWidth := 3
    SelectionPointScale := 2
    SelectionPointMaxSize := 5 }

/-- The operations a first call of a frame is said to issue for the depth
test, the depth clamp, the depth write, the depth function, the lighting and
the colour, in this order. -/
def firstDepthLightOps (v : PassValues) (next : Material) : List GLOp :=
  [ (if v.depthtest then GLOp.glEnable GLCap.DEPTH_TEST else GLOp.glDisable GLCap.DEPTH_TEST),
    (if next.depthclamp then GLOp.glEnable GLCap.DEPTH_CLAMP
     else GLOp.glDisable GLCap.DEPTH_CLAMP),
    GLOp.glDepthMask v.depthwrite,
    GLOp.glDepthFunc v.depthfunc,
    (if next.lightmodel = LightModel.PHONG then GLOp.glEnable GLCap.LIGHTING
     else GLOp.glDisable GLCap.LIGHTING),
    colorOp v.col ]

/-- The emission operation a first call of a frame is said to issue: the
emission colour of the pass, black under flat lighting. -/
def firstEmissionOp (v : PassValues) (next : Material) : GLOp :=
  GLOp.setGLColor GLMaterialName.EMISSION
    (if next.lightmodel = LightModel.BASE_COLOR then 0 else v.emissive)

/-- The operations a first call of a frame is said to issue for the primitive
kind: line width and line pattern for a line material, point size for a point
material, none for a triangle material. -/
def firstKindOps (v : PassValues) (next : Material) : List GLOp :=
  match next.type with
  | MaterialType.Line =>
    GLOp.glLineWidth v.linewidth ::
      (if v.linepattern &&& 0xffff = 0xffff then [GLOp.glDisable GLCap.LINE_STIPPLE]
       else [GLOp.glEnable GLCap.LINE_STIPPLE,
             GLOp.glLineStipple (v.linepattern >>> 16) (v.linepattern &&& 0xffff)])
  | MaterialType.Point => [GLOp.glPointSize v.pointsize]
  | MaterialType.Triangle => []

/-- The operations a first call of a frame is said to issue for the surface
state: ambient, specular, shininess, front face, two-sided lighting, culling
and polygon mode, in this order. -/
def firstFaceOps (transp : Bool) (next : Material) : List GLOp :=
  [ GLOp.setGLColor GLMaterialName.AMBIENT next.ambient,
    GLOp.setGLColor GLMaterialName.SPECULAR next.specular,
    GLOp.glMaterialShininess (next.shininess * 128),
    GLOp.glFrontFace (decide (next.vertexordering = VertexOrdering.CW)),
    GLOp.glLightModelTwoSide (decide ((if transp then (1 : Int) else next.twoside) ≠ 0)),
    (if (if transp then (0 : Int) else next.culling) ≠ 0 then GLOp.glEnable GLCap.CULL_FACE
     else GLOp.glDisable GLCap.CULL_FACE),
    GLOp.glPolygonMode
      (match next.drawstyle with
        | DrawStyle.LINES => PolygonMode.LINE
        | DrawStyle.POINTS => PolygonMode.POINT
        | _ => PolygonMode.FILL) ]

/-- The operations that switch a polygon-offset capability. -/
def polygonOffsetSwitches : List GLOp :=
  [ GLOp.glEnable GLCap.POLYGON_OFFSET_FILL, GLOp.glDisable GLCap.POLYGON_OFFSET_FILL,
    GLOp.glEnable GLCap.POLYGON_OFFSET_LINE, GLOp.glDisable GLCap.POLYGON_OFFSET_LINE,
    GLOp.glEnable GLCap.POLYGON_OFFSET_POINT, GLOp.glDisable GLCap.POLYGON_OFFSET_POINT ]

/-- The operations that set the line width, the line pattern, the point size
or the blend function. -/
def GLOp.isLinePointOrBlend : GLOp → Bool
  | GLOp.glLineWidth _ => true
  | GLOp.glLineStipple _ _ => true
  | GLOp.glEnable GLCap.LINE_STIPPLE => true
  | GLOp.glDisable GLCap.LINE_STIPPLE => true
  | GLOp.glPointSize _ => true
  | GLOp.glBlendFunc _ => true
  | GLOp.glBlendColor _ => true
  | _ => false

/-- View parameters under which clip planes are not applied to on-top materials. -/
def noSectionOnTop : ViewParams := { NoSectionOnTop := true }

/-- An on-top line material with one clip plane. -/
def clippedOntopLines : Material :=
  { type := MaterialType.Line, diffuse := 0xccccccff, ontop := true
    clippers := [{ node := 11 }] }

/-- A triangle material with one clip plane, one texture on unit 0 and one light. -/
def texturedLitTriangles : Material :=
  { type := MaterialType.Triangle, diffuse := 0xccccccff
    clippers := [{ node := 11 }]
    textures := [(0, { texture := 21 })]
    lights := [{ node := 31 }] }

/-! ## renderOpaque and renderTransparency: which units pass the suppress guard -/

/-- The guard at the head of the loop of `renderOpaque`: the unit is passed
over when its suppress counter is set, the frame is not a shadow-map pass, and
either neither concave sections nor the no-section-on-top toggle is on or the
material of the unit has no clip plane. -/
def renderOpaqueSkip (vp : ViewParams) (p : SoFCRendererP) (draw_entry : DrawEntry) : Bool :=
  decide (draw_entry.skip ≠ 0)
    && !p.shadowmapping
    && ((!vp.SectionConcave && !vp.NoSectionOnTop)
        || decide (draw_entry.material.clippers.length = 0))

/-- The indices whose unit `renderOpaque` takes past the suppress guard, in the
order of the loop: none in a transparent shadow-map pass, where the function
returns at once.  An index outside the draw list, which the source never
passes, yields no unit. -/
def renderOpaqueVisited (vp : ViewParams) (p : SoFCRendererP) (draw_entries : List DrawEntry)
    (indices : List Nat) : List Nat :=
  if p.transpshadowmapping then []
  else
    indices.filter (fun idx =>
      match draw_entries[idx]? with
      | some draw_entry => !renderOpaqueSkip vp p draw_entry
      | none => false)

/-- The guard at the head of the loop of `renderTransparency`. -/
def renderTransparencySkip (p : SoFCRendererP) (draw_entry : DrawEntry) : Bool :=
  decide (draw_entry.skip ≠ 0) && !p.shadowmapping

/-- The indices whose unit `renderTransparency` takes past the suppress guard,
in the order of the loop: none when the index list is empty or the frame is a
shadow-map pass that is not the transparent one, where the function returns
at once.  `indices` is the list as the loop iterates it, after the sort by
distance, which permutes it. -/
def renderTransparencyVisited (p : SoFCRendererP) (draw_entries : List DrawEntry)
    (indices : List DrawEntryIndex) : List Nat :=
  if indices.isEmpty then []
  else if p.shadowmapping && !p.transpshadowmapping then []
  else
    (indices.map (fun v => v.idx)).filter (fun idx =>
      match draw_entries[idx]? with
      | some draw_entry => !renderTransparencySkip p draw_entry
      | none => false)

/-- A draw list of one suppressed unit whose material has no clip plane. -/
def suppressedUnit : List DrawEntry :=
  [{ material := opaqueTriangles, ventry := exampleBatchA, bbox := exampleBox, skip := 1 }]

/-- A draw list of one suppressed unit whose material has a clip plane. -/
def suppressedClippedUnit : List DrawEntry :=
  [{ material := texturedLitTriangles, ventry := exampleBatchA, bbox := exampleBox, skip := 1 }]

/-! ## Selections: addSelection, removeSelection, updateSelection -/

/-- The statement `selections[id] = &caches` on a `std::map` ordered by id:
the entry of that id is replaced, and a new id is entered at its place in the
order. -/
def selectionsAssign (id : Int) (caches : VertexCacheMap) :
    List (Int × VertexCacheMap) → List (Int × VertexCacheMap)
  | [] => [(id, caches)]
  | (k, c) :: rest =>
    if id < k then (id, caches) :: (k, c) :: rest
    else if k < id then (k, c) :: selectionsAssign id caches rest
    else (k, caches) :: rest

/-- The function `SoFCRenderer::addSelection`. -/
def addSelection (id : Int) (caches : VertexCacheMap) (p : SoFCRendererP) : SoFCRendererP :=
  if id > 0 then
    { p with
      selectionsontop := selectionsAssign id caches p.selectionsontop
      updateselection := true }
  else
    { p with
      selections := selectionsAssign id caches p.selections
      updateselection := true }

/-- The call `erase(id)` on a `std::map` ordered by id: the map afterwards. -/
def selectionsErase (id : Int) (sels : List (Int × VertexCacheMap)) :
    List (Int × VertexCacheMap) :=
  sels.filter (fun sel => decide (sel.1 ≠ id))

/-- The function `SoFCRenderer::removeSelection`: the flag is raised when an
entry was erased. -/
def removeSelection (id : Int) (p : SoFCRendererP) : SoFCRendererP :=
  if id > 0 then
    if (p.selectionsontop.any (fun sel => decide (sel.1 = id))) then
      { p with
        selectionsontop := selectionsErase id p.selectionsontop
        updateselection := true }
    else p
  else if (p.selections.any (fun sel => decide (sel.1 = id))) then
    { p with
      selections := selectionsErase id p.selections
      updateselection := true }
  else p

/-- Modelled from the spec: the integer a primitive kind has as a value of
`Material::Type` of `SoFCRenderCache.h`; the three kinds have distinct values. -/
def MaterialType.toInt : MaterialType → Int
  | MaterialType.Triangle => 0
  | MaterialType.Line => 1
  | MaterialType.Point => 2

/-- The bit masks `SelIdSelected`, `SelIdPartial` and `SelIdFull` that
`updateSelection` tests a selection id against.  They are constants of
`SoFCRenderer.h`, so they are a parameter here. -/
structure SelIdBits where
  SelIdSelected : Nat
  SelIdPartial : Nat
  SelIdFull : Nat
deriving DecidableEq, Repr

/-- The test `sel.first & mask` of a 32-bit `int` id against a mask. -/
def selIdTest (id : Int) (mask : Nat) : Bool :=
  decide ((id % 2 ^ 32).toNat &&& mask ≠ 0)

/-- The renderer together with the locals `renderkeys` and `lastkey` of
`updateSelection`, which the closure `checkKey` reads and writes. -/
structure SelectionState where
  p : SoFCRendererP
  renderkeys : List CacheKeyPtr := []
  lastkey : CacheKeyPtr := none
deriving DecidableEq, Repr

/-- The statements `if (!selkey) selkey.reset(new CacheKey); *selkey = *key`:
the scratch key of the renderer holds a copy of the content; when it is
allocated it gets an address of its own, 0 here.  The address plays no part:
`CacheKeyCompare` of two keys of equal content is false both ways whether or
not they are one object. -/
def selkeyAssign (selkey : CacheKeyPtr) (content : CacheKey) : CacheKeyPtr :=
  match selkey with
  | none => some { addr := 0, key := content }
  | some r => some { r with key := content }

/-- The part of the closure `checkKey` that runs for a whole-object batch once
the scratch key holds the content of the key of the batch: node id and
primitive kind are appended, and the unit is kept when the key is new to the
selection key set or the extended key is new to `renderkeys`, and dropped
again otherwise.  `ret` is the value `pushDrawEntry` returned.  A null
`selkey` where the source dereferences it, which the guard on `lastkey` rules
out, stays null. -/
def checkKeyWhole (material : Material) (ventry : VertexCacheEntry) (s2 : SelectionState)
    (ret : Nat) : SelectionState × Nat :=
  let selkey : CacheKeyPtr :=
    s2.p.selkey.map (fun x =>
      { x with key := x.key ++ [(ventry.cache.nodeId : Int)] ++ [material.type.toInt] })
  let ins := keySetInsert ventry.key s2.p.selectionkeys
  if ins.2 then
    let p3 := applyKey ventry.key 1 { s2.p with selectionkeys := ins.1 }
    ({ p := { p3 with selkey := none }
       renderkeys := (keySetInsert selkey s2.renderkeys).1
       lastkey := none }, ret)
  else
    let ins2 := keySetInsert selkey s2.renderkeys
    if ins2.2 then
      ({ p := { s2.p with selkey := none }
         renderkeys := ins2.1
         lastkey := none }, ret)
    else
      ({ s2 with
         renderkeys := ins2.1
         p := { s2.p with
           selkey := selkey.map (fun x => { x with key := x.key.dropLast.dropLast })
           slentries := s2.p.slentries.dropLast } }, 0)

/-- The closure `checkKey` of `updateSelection`: the state afterwards and the
returned value, 0 when the unit is dropped and the position plus one otherwise. -/
def checkKey (material : Material) (ventry : VertexCacheEntry) (s : SelectionState) :
    SelectionState × Nat :=
  let r := pushDrawEntry s.p.slentries material ventry
  let s1 : SelectionState := { s with p := { s.p with slentries := r.1 } }
  if r.2 = 0 then (s1, 0)
  else
    match ventry.key with
    | none => (s1, r.2)
    | some k =>
      if ventry.partidx ≥ 0 ∨ ventry.cache.isWholeCache = false then (s1, r.2)
      else if s1.lastkey ≠ ventry.key then
        checkKeyWhole material ventry
          { s1 with
            lastkey := ventry.key
            p := { s1.p with selkey := selkeyAssign s1.p.selkey k.key } } r.2
      else checkKeyWhole material ventry s1 r.2

/-- The body of the innermost loop of `updateSelection` over the on-top
selections, for one batch of a group of the selection `id`. -/
def selectionOnTopEntry (ids : SelIdBits) (id : Int) (material : Material)
    (s : SelectionState) (ventry : VertexCacheEntry) : SelectionState :=
  let r := checkKey material ventry s
  if r.2 = 0 then r.1
  else
    let idx := r.2 - 1
    let q := r.1.p
    let q1 : SoFCRendererP :=
      match material.type with
      | MaterialType.Triangle =>
        let q0 := { q with transpselectionsontop := q.transpselectionsontop ++ [{ idx := idx }] }
        if !selIdTest id ids.SelIdSelected || material.partialhighlight then
          { q0 with selstriangleontop := q0.selstriangleontop ++ [idx] }
        else q0
      | MaterialType.Line =>
        if selIdTest id ids.SelIdPartial then
          { q with selslineontop := q.selslineontop ++ [idx] }
        else if !selIdTest id ids.SelIdFull || material.partialhighlight then
          { q with selsontop := q.selsontop ++ [idx] }
        else
          { q with transpselectionsontop := q.transpselectionsontop ++ [{ idx := idx }] }
      | MaterialType.Point =>
        if selIdTest id ids.SelIdPartial then
          { q with selspointontop := q.selspointontop ++ [idx] }
        else if !selIdTest id ids.SelIdFull || material.partialhighlight then
          { q with selsontop := q.selsontop ++ [idx] }
        else
          { q with transpselectionsontop := q.transpselectionsontop ++ [{ idx := idx }] }
    { r.1 with p := q1 }

/-- The body of the loop over the groups of an on-top selection. -/
def selectionOnTopGroup (ids : SelIdBits) (id : Int) (s : SelectionState)
    (v : Material × List VertexCacheEntry) : SelectionState :=
  if v.2.isEmpty then s
  else if v.1.drawstyle = DrawStyle.INVISIBLE then s
  else v.2.foldl (selectionOnTopEntry ids id v.1) s

/-- The body of the innermost loop of `updateSelection` over the other
selections, for one batch of a group. -/
def selectionEntry (material : Material) (fulltransp : Bool) (s : SelectionState)
    (ventry : VertexCacheEntry) : SelectionState :=
  let r := checkKey material ventry s
  if r.2 = 0 then r.1
  else
    let idx := r.2 - 1
    let q := r.1.p
    let q1 : SoFCRendererP :=
      if !fulltransp && (!material.pervertexcolor || ventry.cache.hasOpaqueParts) then
        { q with opaqueselections := q.opaqueselections ++ [idx] }
      else q
    let q2 : SoFCRendererP :=
      if fulltransp || (material.pervertexcolor && ventry.cache.hasTransparency) then
        { q1 with transpselections := q1.transpselections ++ [{ idx := idx }] }
      else q1
    { r.1 with p := q2 }

/-- The body of the loop over the groups of a selection that is not on top. -/
def selectionGroup (s : SelectionState) (v : Material × List VertexCacheEntry) :
    SelectionState :=
  if v.2.isEmpty then s
  else if v.1.drawstyle = DrawStyle.INVISIBLE then s
  else v.2.foldl (selectionEntry v.1 (fullTransp v.1)) s

/-- The state `updateSelection` starts its loops from: the flag lowered, the
selection buckets and the selection draw list cleared, the suppression of the
registered selection keys withdrawn and the key set cleared. -/
def updateSelectionReset (p : SoFCRendererP) : SoFCRendererP :=
  let p1 := { p with
    updateselection := false
    opaqueselections := []
    transpselections := []
    transpselectionsontop := []
    selstriangleontop := []
    selslineontop := []
    selspointontop := []
    selsontop := []
    slentries := [] }
  let p2 := applyKeys p1.selectionkeys (-1) p1
  { p2 with selectionkeys := [] }

/-- The function `SoFCRendererP::updateSelection`. -/
def updateSelection (ids : SelIdBits) (p : SoFCRendererP) : SoFCRendererP :=
  if !p.updateselection then p
  else
    let p1 := updateSelectionReset p
    let s0 : SelectionState := { p := p1 }
    let s1 := p1.selectionsontop.foldl
      (fun s sel => sel.2.foldl (selectionOnTopGroup ids sel.1) s) s0
    let s2 := p1.selections.foldl (fun s sel => sel.2.foldl selectionGroup s) s1
    s2.p

/-! ## Selection requests and their whole-object triples -/

/-- The batch stands for a whole object: it has a key, no sub-part index, and
its cache is its own whole cache. -/
def isWholeObject (v : VertexCacheEntry) : Bool :=
  v.key.isSome && decide (v.partidx < 0) && v.cache.isWholeCache

/-- The triple by which whole-object selections are told apart: the content of
the cache key, the node id of the cache and the primitive kind of the material. -/
abbrev SelectionTriple := Option CacheKey × Nat × MaterialType

/-- The triple of a (material, batch) pair. -/
def selectionTriple (u : Material × VertexCacheEntry) : SelectionTriple :=
  (keyContent u.2.key, u.2.cache.nodeId, u.1.type)

/-- The key under which `updateSelection` files a triple: the cache key
followed by the node id and the primitive kind. -/
def tripleKey (t : SelectionTriple) : CacheKey :=
  t.1.getD [] ++ [(t.2.1 : Int)] ++ [t.2.2.toInt]

/-- The (material, batch) pairs the selections request, in iteration order:
the on-top selections in the order of their table, then the other selections
in the order of theirs, each with its visible groups and the batches of
non-empty box. -/
def selectionRequests (p : SoFCRendererP) : List (Material × VertexCacheEntry) :=
  (p.selectionsontop ++ p.selections).flatMap (fun sel => acceptedUnits sel.2)

/-- One request against the triples seen so far: a whole-object request whose
triple has been seen yields nothing, any other request yields itself, and a
whole-object request adds its triple to the ones seen. -/
def dedupStep (seen : List SelectionTriple) (u : Material × VertexCacheEntry) :
    List (Material × VertexCacheEntry) × List SelectionTriple :=
  if isWholeObject u.2 then
    if selectionTriple u ∈ seen then ([], seen) else ([u], selectionTriple u :: seen)
  else ([u], seen)

/-- The requests that remain when every whole-object request whose triple an
earlier whole-object request has is left out. -/
def dedupWhole (seen : List SelectionTriple) :
    List (Material × VertexCacheEntry) → List (Material × VertexCacheEntry)
  | [] => []
  | u :: us => (dedupStep seen u).1 ++ dedupWhole (dedupStep seen u).2 us

/-- The triples seen once a list of requests has gone by. -/
def dedupSeen (seen : List SelectionTriple) :
    List (Material × VertexCacheEntry) → List SelectionTriple
  | [] => seen
  | u :: us => dedupSeen (dedupStep seen u).2 us

/-- The pair is a whole-object request of the given triple. -/
def wholeWith (t : SelectionTriple) (u : Material × VertexCacheEntry) : Bool :=
  isWholeObject u.2 && decide (selectionTriple u = t)

/-- The (material, batch) pairs of the selection draw list. -/
def slUnits (s : SelectionState) : List (Material × VertexCacheEntry) :=
  s.p.slentries.map DrawEntry.unit

/-- What the loops of `updateSelection` maintain between two batches, `seen`
being the triples of the whole-object units kept so far: both key sets are
sorted, `renderkeys` holds the filed keys of the triples seen, the selection
key set holds the cache key of each, and when `lastkey` is set the scratch key
holds its content. -/
structure SelInv (s : SelectionState) (seen : List SelectionTriple) : Prop where
  rsorted : keysSorted s.renderkeys
  ksorted : keysSorted s.p.selectionkeys
  rkeys : ∀ c, c ∈ s.renderkeys.map keyContent ↔ ∃ t ∈ seen, c = some (tripleKey t)
  skeys : ∀ t ∈ seen, t.1 ∈ s.p.selectionkeys.map keyContent
  somes : ∀ t ∈ seen, t.1.isSome = true
  last : s.lastkey ≠ none →
    s.p.selkey ≠ none ∧ keyContent s.p.selkey = keyContent s.lastkey

/-- The ids of the on-top selections are positive and ascend, the ids of the
other selections are not positive and ascend. -/
def SelectionsOrdered (p : SoFCRendererP) : Prop :=
  (p.selectionsontop.map Prod.fst).Pairwise (fun a b => a < b) ∧
  (∀ id ∈ p.selectionsontop.map Prod.fst, 0 < id) ∧
  (p.selections.map Prod.fst).Pairwise (fun a b => a < b) ∧
  (∀ id ∈ p.selections.map Prod.fst, id ≤ 0)

/-- The request one batch of a visible group makes: none when its box is empty. -/
def entryUnits (m : Material) (v : VertexCacheEntry) : List (Material × VertexCacheEntry) :=
  if v.bbox.isEmpty then [] else [(m, v)]

/-- The selection id bits used in the examples. -/
def exampleSelIds : SelIdBits := { SelIdSelected := 1, SelIdPartial := 2, SelIdFull := 4 }

/-- A renderer with two on-top selections: selection 1 requests batch A with
the opaque triangle material, selection 2 requests the batches A and B with
the plain highlight material. -/
def twoSelections : SoFCRendererP :=
  addSelection 2 [(plainHighlight, [exampleBatchA, exampleBatchB])]
    (addSelection 1 [(opaqueTriangles, [exampleBatchA])] {})

/-! ## The transparency sorter -/

/-- Which of the three draw lists of the renderer a render function is given:
`drawentries`, `slentries` or `hlentries`.  The source passes the list by
reference and tells the lists apart by address. -/
inductive DrawList where
  | base
  | selection
  | highlight
deriving DecidableEq, Repr

/-- The draw list a `DrawList` stands for. -/
def SoFCRendererP.entries (p : SoFCRendererP) : DrawList → List DrawEntry
  | DrawList.base => p.drawentries
  | DrawList.selection => p.slentries
  | DrawList.highlight => p.hlentries

/-- Which transparent bucket of the renderer `renderTransparency` is given by
reference. -/
inductive TranspBucket where
  | transpvcache
  | transpontop
  | transpselections
  | transphighlight
  | transpselectionsontop
deriving DecidableEq, Repr

/-- The bucket a `TranspBucket` stands for. -/
def SoFCRendererP.transpBucket (p : SoFCRendererP) : TranspBucket → List DrawEntryIndex
  | TranspBucket.transpvcache => p.transpvcache
  | TranspBucket.transpontop => p.transpontop
  | TranspBucket.transpselections => p.transpselections
  | TranspBucket.transphighlight => p.transphighlight
  | TranspBucket.transpselectionsontop => p.transpselectionsontop

/-- The renderer with a transparent bucket replaced. -/
def SoFCRendererP.setTranspBucket (p : SoFCRendererP) (b : TranspBucket)
    (indices : List DrawEntryIndex) : SoFCRendererP :=
  match b with
  | TranspBucket.transpvcache => { p with transpvcache := indices }
  | TranspBucket.transpontop => { p with transpontop := indices }
  | TranspBucket.transpselections => { p with transpselections := indices }
  | TranspBucket.transphighlight => { p with transphighlight := indices }
  | TranspBucket.transpselectionsontop => { p with transpselectionsontop := indices }

/-- What a frame reads from the render action and the traversal state: the
shape-style flags `SHADOWS`, `SHADOWMAP` and `0x01000000`, whether delayed
paths are being rendered, the view plane `getPlane(0.0)` of the view volume,
that plane carried through the inverse of the model matrix (Coin's matrix
arithmetic is not modelled), whether the model matrix is the identity,
`SoFCDisplayModeElement::showHiddenLines`, and the outcome of
`SoCullElement::cullTest` on a box.  `initMaterial` is the tracked material
as `Material::init()` leaves it; the method is declared in
`SoFCRenderCache.h`, so its value is a parameter here. -/
structure FrameInput where
  shadows : Bool := false
  shadowmap : Bool := false
  transpshadowmap : Bool := false
  delayedPaths : Bool := false
  viewPlane : SbPlane := { normal := (0, 0, 1) }
  objectPlane : SbPlane := { normal := (0, 0, 1) }
  identity : Bool := true
  showHiddenLines : Bool := false
  cullTest : SbBox3f → Bool := fun _ => false
  initMaterial : Material := {}

/-- The distance `plane.getDistance(draw_entries[idx].bbox.getCenter())`; an
index outside the draw list, which the source never stores, gives 0. -/
def distanceOf (plane : SbPlane) (draw_entries : List DrawEntry) (idx : Nat) : Rat :=
  match draw_entries[idx]? with
  | some draw_entry => plane.getDistance draw_entry.bbox.getCenter
  | none => 0

/-- The loop that stores the distance of each unit of a bucket and the call of
`std::sort` with the comparison `a.distance < b.distance`.  `std::sort` may
leave units of equal distance in any order; the insertion sort here keeps
them in the order they had. -/
def sortBucket (plane : SbPlane) (draw_entries : List DrawEntry)
    (indices : List DrawEntryIndex) : List DrawEntryIndex :=
  (indices.map (fun v => { v with distance := distanceOf plane draw_entries v.idx })).insertionSort
    (fun a b => a.distance ≤ b.distance)

/-- The flag `notriangle` of `renderTransparency`: the base list under hidden
lines with hidden faces. -/
def noTriangle (vp : ViewParams) (fi : FrameInput) (list : DrawList) : Bool :=
  decide (list = DrawList.base) && fi.showHiddenLines && vp.HiddenLineHideFace

/-- The part of `renderTransparency` before its draw loop, as far as it
writes the renderer: nothing when the bucket is empty or the frame is a
shadow-map pass that is not the transparent one; otherwise, when triangles
are drawn, sorting is asked for, and the normal of the view plane differs
from that of `prevplane`, the view plane is recorded and the bucket is
sorted by the distance from the plane (carried into object space when the
model matrix is not the identity). -/
def renderTransparencySort (vp : ViewParams) (fi : FrameInput) (list : DrawList)
    (bucket : TranspBucket) (sort : Bool) (p : SoFCRendererP) : SoFCRendererP :=
  if (p.transpBucket bucket).isEmpty then p
  else if p.shadowmapping && !p.transpshadowmapping then p
  else if !noTriangle vp fi list && sort then
    if fi.viewPlane.getNormal ≠ p.prevplane.getNormal then
      let plane := if !p.identity then fi.objectPlane else fi.viewPlane
      ({ p with prevplane := fi.viewPlane }).setTranspBucket bucket
        (sortBucket plane (p.entries list) (p.transpBucket bucket))
    else p
  else p
/-! ## renderSection and the draw loops -/

/-- The operations the draw loops and `render` issue, as far as the
properties speak of them: the operations of `applyMaterial`, the pushes and
pops of the scene state and of the GL attribute stack, the switches of clip
planes, the geometry submissions (`stencilTriangles` is the submission into
the stencil buffer of a section sub-pass, `fillQuad` the quad that fills the
section, `outlineTriangles` a submission of `renderOutline`), the colour mask,
and the switches of lighting, two-sided lighting and blending.  Matrix
operations, stencil and depth settings, colours and line widths set outside
`applyMaterial`, and the shader switch of `pauseShadowRender` are left out. -/
inductive DrawOp where
  | material (op : GLOp)
  | statePush
  | statePop
  | glPushAttrib
  | glPopAttrib
  | clipEnable (i : Nat)
  | clipDisable (i : Nat)
  | stencilTriangles (plane : Nat)
  | fillQuad (plane : Nat)
  | renderTriangles
  | renderLines
  | renderPoints
  | outlineTriangles (part : Int)
  | glColorMask (flag : Bool)
  | glLighting (flag : Bool)
  | glLightModelTwoSide (flag : Bool)
  | glBlend (flag : Bool)
  | addDelayedPath
deriving DecidableEq, Repr

/-- What a call of `renderSection` yields: the returned value, the reference
parameters `pass` and `pushed` afterwards, the operations issued, and the
number of invocations of the function by itself that the call led to. -/
structure SectionResult where
  ret : Bool
  pass : Nat
  pushed : Bool
  ops : List DrawOp
  calls : Nat := 0
deriving DecidableEq, Repr

/-- The loop `for i < numclip` of `renderSection` that enables the plane of
the current pass and disables the others. -/
def clipOnly (numclip curpass : Nat) : List DrawOp :=
  (List.range numclip).map (fun i =>
    if i = curpass then DrawOp.clipEnable i else DrawOp.clipDisable i)

/-- The local `concave` of `renderSection`: concave sections are asked for
and the tracked material has more than one clip plane. -/
def sectionConcave (vp : ViewParams) (p : SoFCRendererP) : Bool :=
  vp.SectionConcave && decide (p.material.clippers.length > 1)

/-- The test at the head of `renderSection` under which the function returns
at once: a depth-write-only pass, a pass beyond the clip planes, a unit that is
a part of an object, or sections that are neither filled nor concave. -/
def sectionGuard (vp : ViewParams) (p : SoFCRendererP) (draw_entry : DrawEntry)
    (curpass : Nat) : Bool :=
  p.depthwriteonly
    || decide (curpass ≥ p.material.clippers.length)
    || decide (draw_entry.ventry.partidx ≥ 0)
    || (!vp.SectionFill && !sectionConcave vp p)

/-- What `renderSection` issues for a line or point unit in concave mode: the
push of the attributes when it has not been done, the switch from the plane of
the pass before (in the first pass: from all planes) to the plane of this pass. -/
def sectionIsolate (numclip curpass : Nat) (pushed : Bool) : List DrawOp :=
  (if !pushed then [DrawOp.glPushAttrib] else [])
    ++ (if curpass = 0 then (List.range' 1 (numclip - 1)).map DrawOp.clipDisable
        else [DrawOp.clipDisable (curpass - 1)])
    ++ [DrawOp.clipEnable curpass]

/-- What `renderSection` issues for a triangle unit up to its choice between
the self-invocation and the concave end: the push of the attributes when it
has not been done, the plane of the pass alone enabled, the unit drawn into
the stencil buffer, outside concave mode the other planes enabled again, the
plane of the pass disabled, and the quad that fills the section. -/
def sectionStencilFill (numclip curpass : Nat) (concave pushed : Bool) : List DrawOp :=
  (if !pushed then [DrawOp.glPushAttrib] else [])
    ++ clipOnly numclip curpass
    ++ [DrawOp.glPushAttrib, DrawOp.glColorMask false, DrawOp.glLighting false,
        DrawOp.stencilTriangles curpass, DrawOp.glColorMask true, DrawOp.glPopAttrib]
    ++ (if !concave then
          ((List.range numclip).filter (fun i => decide (i ≠ curpass))).map DrawOp.clipEnable
        else [])
    ++ [DrawOp.clipDisable curpass, DrawOp.glPushAttrib, DrawOp.fillQuad curpass,
        DrawOp.glPopAttrib]

/-- The function `SoFCRendererP::renderSection`.  `fuel` bounds the nesting of
invocations: the call itself takes one unit and hands the rest to its
self-invocation; `none` is a call that would need more.  `pass` is an `int`
that the callers start at 0 and the function only increments, a natural number
here. -/
def renderSection (vp : ViewParams) (p : SoFCRendererP) (draw_entry : DrawEntry) :
    Nat → Nat → Bool → Option SectionResult
  | 0, _, _ => none
  | fuel + 1, pass, pushed =>
    let curpass := pass
    let numclip := p.material.clippers.length
    let concave : Bool := sectionConcave vp p
    if sectionGuard vp p draw_entry curpass then
      some { ret := decide (curpass = 0), pass := pass + 1, pushed := pushed, ops := [] }
    else if draw_entry.material.type ≠ MaterialType.Triangle then
      if !concave then
        some { ret := decide (curpass = 0), pass := pass + 1, pushed := pushed, ops := [] }
      else
        some
          { ret := true
            pass := pass + 1
            pushed := true
            ops := sectionIsolate numclip curpass pushed }
    else if !concave then
      match renderSection vp p draw_entry fuel (pass + 1) true with
      | none => none
      | some r =>
        some
          { ret := true
            pass := r.pass
            pushed := r.pushed
            ops := sectionStencilFill numclip curpass concave pushed ++ r.ops
              ++ (if curpass = 0 then (List.range numclip).map DrawOp.clipEnable else [])
            calls := r.calls + 1 }
    else
      some
        { ret := true
          pass := pass + 1
          pushed := true
          ops := sectionStencilFill numclip curpass concave pushed ++ clipOnly numclip curpass }

/-- What the loop `while (renderSection(...))` yields: the operations issued,
the variable `pushed` afterwards, and how often the body of the loop ran. -/
structure LoopResult where
  ops : List DrawOp
  pushed : Bool
  iterations : Nat
deriving DecidableEq, Repr

/-- The test at the head of the body of the section loop that passes over a
unit outside the view volume. -/
def sectionCulled (vp : ViewParams) (fi : FrameInput) (p : SoFCRendererP)
    (draw_entry : DrawEntry) : Bool :=
  !vp.SectionConcave && decide (p.material.clippers.length > 0) && fi.cullTest draw_entry.bbox

/-- The loop `while (renderSection(action, draw_entry, n, pushed)) body` of
the draw loops; `body` is what an iteration issues when the unit is not
culled.  `fuel` bounds the number of calls of `renderSection` the loop makes. -/
def sectionLoop (vp : ViewParams) (fi : FrameInput) (p : SoFCRendererP) (draw_entry : DrawEntry)
    (body : List DrawOp) : Nat → Nat → Bool → Option LoopResult
  | 0, _, _ => none
  | fuel + 1, n, pushed =>
    match renderSection vp p draw_entry (p.material.clippers.length + 1) n pushed with
    | none => none
    | some r =>
      if r.ret then
        match sectionLoop vp fi p draw_entry body fuel r.pass r.pushed with
        | none => none
        | some l =>
          some
            { ops := r.ops ++ (if sectionCulled vp fi p draw_entry then [] else body) ++ l.ops
              pushed := l.pushed
              iterations := l.iterations + 1 }
      else some { ops := r.ops, pushed := r.pushed, iterations := 0 }

/-- The function `SoFCRendererP::renderLines`. -/
def renderLines (p : SoFCRendererP) : List DrawOp :=
  if p.depthwriteonly || p.shadowmapping then [] else [DrawOp.renderLines]

/-- The function `SoFCRendererP::renderPoints`. -/
def renderPoints (vp : ViewParams) (p : SoFCRendererP) (draw_entry : DrawEntry) : List DrawOp :=
  if p.depthwriteonly || p.shadowmapping then []
  else if !vp.HiddenLineHideVertex
      || decide (draw_entry.ventry.partidx ≥ 0)
      || !draw_entry.material.outline then [DrawOp.renderPoints]
  else []

/-- The parts `renderOutline` goes through: with clip planes on the tracked
material and a whole-object unit the face parts by number; otherwise, for a
whole-object unit with non-flat parts, those; otherwise the part of the unit. -/
def outlineParts (p : SoFCRendererP) (draw_entry : DrawEntry) : List Int :=
  let drawidx := draw_entry.ventry.partidx
  if p.material.clippers.length ≠ 0 ∧ drawidx < 0 then
    (List.range draw_entry.ventry.cache.numFaceParts).map (fun i => (i : Int))
  else if draw_entry.ventry.cache.nonFlatParts.length ≠ 0 ∧ drawidx < 0 then
    draw_entry.ventry.cache.nonFlatParts
  else [drawidx]

/-- The function `SoFCRendererP::renderOutline`. -/
def renderOutline (vp : ViewParams) (p : SoFCRendererP) (highlight : Bool)
    (draw_entry : DrawEntry) : List DrawOp :=
  if p.shadowmapping
      || p.depthwriteonly
      || decide (draw_entry.material.type ≠ MaterialType.Triangle)
      || (!draw_entry.material.outline
          && (!vp.ShowPreSelectedFaceOutline
              || !highlight
              || decide (draw_entry.ventry.partidx < 0))) then []
  else if outlineParts p draw_entry = [] then []
  else
    [DrawOp.glPushAttrib]
      ++ (outlineParts p draw_entry).flatMap (fun part =>
          [DrawOp.glColorMask false, DrawOp.outlineTriangles part, DrawOp.glColorMask true,
           DrawOp.outlineTriangles part])
      ++ [DrawOp.glPopAttrib]

/-- The renderer and the operations issued so far, as a draw loop carries them. -/
structure DrawState where
  p : SoFCRendererP
  ops : List DrawOp := []
deriving DecidableEq, Repr

/-- What the `switch` of `renderOpaque` issues for a unit in one iteration of
the section loop: nothing for a triangle unit of the base list whose material
is outlined while faces are hidden. -/
def opaqueBody (vp : ViewParams) (p : SoFCRendererP) (list : DrawList) (draw_entry : DrawEntry) :
    List DrawOp :=
  match draw_entry.material.type with
  | MaterialType.Triangle =>
    if decide (list = DrawList.base) && draw_entry.material.outline && vp.HiddenLineHideFace then []
    else if !draw_entry.ventry.cache.hasTransparency then [DrawOp.renderTriangles]
    else if !p.material.pervertexcolor then [DrawOp.renderTriangles]
    else
      (if p.material.twoside = 0 then [DrawOp.glLightModelTwoSide true] else [])
        ++ [DrawOp.renderTriangles]
        ++ (if p.material.twoside = 0 then [DrawOp.glLightModelTwoSide false] else [])
  | MaterialType.Line => renderLines p
  | MaterialType.Point => renderPoints vp p draw_entry

/-- The test of the loop of `renderOpaque` under which the material of a unit
is applied: a recheck is asked for, the pass differs from the one the last
material was applied in, or the material differs from the one applied last.
The material pointers `prevmaterial` and `draw_entry.material` are compared by
the materials they point to. -/
def opaqueApplies (pass : Nat) (p : SoFCRendererP) (draw_entry : DrawEntry) : Bool :=
  p.recheckmaterial
    || decide (p.prevpass ≠ pass)
    || decide (p.prevmaterial ≠ some draw_entry.material)

/-- The renderer after the block of `renderOpaque` that applies the material
of a unit, when `applyMaterial` has not refused it. -/
def opaqueTrack (vp : ViewParams) (pass : Nat) (p : SoFCRendererP) (draw_entry : DrawEntry) :
    SoFCRendererP :=
  if opaqueApplies pass p draw_entry then
    { p with
      material := (applyMaterial vp p draw_entry.material false pass).material
      prevpass := pass
      recheckmaterial := false
      prevmaterial := some draw_entry.material }
  else p

/-- The test of the draw loops for a unit that is to be lit but has no normal
array. -/
def lacksNormals (p : SoFCRendererP) (draw_entry : DrawEntry) : Bool :=
  decide (p.material.lightmodel ≠ LightModel.BASE_COLOR)
    && !draw_entry.ventry.cache.hasNormalArray

/-- The renderer after the block of `renderOpaque` that puts the tracked light
model to `BASE_COLOR` for a unit without normal array. -/
def opaqueUnlit (p : SoFCRendererP) (draw_entry : DrawEntry) : SoFCRendererP :=
  if lacksNormals p draw_entry then
    { p with material := { p.material with lightmodel := LightModel.BASE_COLOR } }
  else p

/-- The body of the loop of `renderOpaque`, for one index of the bucket.  An
index outside the draw list, which the source never stores, is passed over. -/
def renderOpaqueEntry (vp : ViewParams) (fi : FrameInput) (list : DrawList) (pass : Nat)
    (s : DrawState) (idx : Nat) : Option DrawState :=
  match (s.p.entries list)[idx]? with
  | none => some s
  | some draw_entry =>
    if renderOpaqueSkip vp s.p draw_entry then some s
    else
      let r := applyMaterial vp s.p draw_entry.material false pass
      if opaqueApplies pass s.p draw_entry && !r.ok then
        some { p := { s.p with material := r.material }
               ops := s.ops ++ r.ops.map DrawOp.material }
      else
        let p1 := opaqueTrack vp pass s.p draw_entry
        let p2 := opaqueUnlit p1 draw_entry
        match sectionLoop vp fi p2 draw_entry (opaqueBody vp p2 list draw_entry)
            (p2.material.clippers.length + 2) 0 false with
        | none => none
        | some l =>
          some
            { p := p2
              ops := s.ops
                ++ (if opaqueApplies pass s.p draw_entry then r.ops.map DrawOp.material else [])
                ++ (if lacksNormals p1 draw_entry then [DrawOp.glLighting false] else [])
                ++ l.ops
                ++ (if l.pushed then [DrawOp.glPopAttrib] else [])
                ++ renderOutline vp p2 (decide (list = DrawList.highlight)) draw_entry }

/-- The function `SoFCRendererP::renderOpaque` on a draw list and the indices
of a bucket: the renderer afterwards and the operations issued. -/
def renderOpaque (vp : ViewParams) (fi : FrameInput) (list : DrawList) (indices : List Nat)
    (pass : Nat) (p : SoFCRendererP) : Option DrawState :=
  if p.transpshadowmapping then some { p := p }
  else indices.foldlM (renderOpaqueEntry vp fi list pass) { p := p }

/-- The test of the loop of `renderTransparency` under which the material of a
unit is applied. -/
def transpApplies (p : SoFCRendererP) (draw_entry : DrawEntry) : Bool :=
  p.recheckmaterial || decide (p.prevmaterial ≠ some draw_entry.material)

/-- The renderer after the block of `renderTransparency` that applies the
material of a unit, when `applyMaterial` has not refused it. -/
def transpTrack (vp : ViewParams) (p : SoFCRendererP) (draw_entry : DrawEntry) :
    SoFCRendererP :=
  if transpApplies p draw_entry then
    { p with
      material := (applyMaterial vp p draw_entry.material true RenderPassNormal).material
      recheckmaterial := false
      prevmaterial := some draw_entry.material }
  else p

/-- What an iteration of the section loop of `renderTransparency` issues for a
unit that is not culled: the triangles unless they are hidden, and the
outline. -/
def transpBody (vp : ViewParams) (fi : FrameInput) (p : SoFCRendererP) (list : DrawList)
    (draw_entry : DrawEntry) : List DrawOp :=
  (if !noTriangle vp fi list then [DrawOp.renderTriangles] else [])
    ++ renderOutline vp p (decide (list = DrawList.highlight)) draw_entry

/-- What the `switch` of `renderTransparency` issues for a unit: lines, points,
or for triangles the section loop and the pop of the attributes it pushed;
`none` when the section loop runs out of fuel. -/
def transpDraw (vp : ViewParams) (fi : FrameInput) (p : SoFCRendererP) (list : DrawList)
    (draw_entry : DrawEntry) : Option (List DrawOp) :=
  match draw_entry.material.type with
  | MaterialType.Line => some (renderLines p)
  | MaterialType.Point => some (renderPoints vp p draw_entry)
  | MaterialType.Triangle =>
    match sectionLoop vp fi p draw_entry (transpBody vp fi p list draw_entry)
        (p.material.clippers.length + 2) 0 false with
    | none => none
    | some l => some (l.ops ++ (if l.pushed then [DrawOp.glPopAttrib] else []))

/-- The body of the loop of `renderTransparency`, for one index of the bucket. -/
def renderTransparencyEntry (vp : ViewParams) (fi : FrameInput) (list : DrawList)
    (s : DrawState) (idx : Nat) : Option DrawState :=
  match (s.p.entries list)[idx]? with
  | none => some s
  | some draw_entry =>
    if renderTransparencySkip s.p draw_entry then some s
    else
      let r := applyMaterial vp s.p draw_entry.material true RenderPassNormal
      if transpApplies s.p draw_entry && !r.ok then
        some { p := { s.p with material := r.material }
               ops := s.ops ++ r.ops.map DrawOp.material }
      else
        let p1 := transpTrack vp s.p draw_entry
        let overridelightmodel := lacksNormals p1 draw_entry
        match transpDraw vp fi p1 list draw_entry with
        | none => none
        | some ops =>
          some
            { p := p1
              ops := s.ops
                ++ (if transpApplies s.p draw_entry then r.ops.map DrawOp.material else [])
                ++ (if overridelightmodel then [DrawOp.glLighting false] else [])
                ++ ops
                ++ (if overridelightmodel then [DrawOp.glLighting true] else []) }

/-- The function `SoFCRendererP::renderTransparency` on a draw list and a
transparent bucket of the renderer: the renderer afterwards, with the bucket
as the sort has left it, and the operations issued. -/
def renderTransparency (vp : ViewParams) (fi : FrameInput) (list : DrawList)
    (bucket : TranspBucket) (sort : Bool) (p : SoFCRendererP) : Option DrawState :=
  if (p.transpBucket bucket).isEmpty then some { p := p }
  else if p.shadowmapping && !p.transpshadowmapping then some { p := p }
  else
    let p1 := renderTransparencySort vp fi list bucket sort p
    match ((p1.transpBucket bucket).map (fun v => v.idx)).foldlM
        (renderTransparencyEntry vp fi list) { p := p1, ops := [DrawOp.glBlend true] } with
    | none => none
    | some s => some { s with ops := s.ops ++ [DrawOp.glBlend false] }
/-! ## render -/

/-- Which bucket of indices `renderOpaque` is given by reference. -/
inductive OpaqueBucket where
  | opaquevcache
  | opaqueontop
  | opaqueselections
  | opaquehighlight
  | opaquelineshighlight
  | linesontop
  | trianglesontop
  | selstriangleontop
  | selsontop
  | selslineontop
  | selspointontop
deriving DecidableEq, Repr

/-- The bucket an `OpaqueBucket` stands for. -/
def SoFCRendererP.opaqueBucket (p : SoFCRendererP) : OpaqueBucket → List Nat
  | OpaqueBucket.opaquevcache => p.opaquevcache
  | OpaqueBucket.opaqueontop => p.opaqueontop
  | OpaqueBucket.opaqueselections => p.opaqueselections
  | OpaqueBucket.opaquehighlight => p.opaquehighlight
  | OpaqueBucket.opaquelineshighlight => p.opaquelineshighlight
  | OpaqueBucket.linesontop => p.linesontop
  | OpaqueBucket.trianglesontop => p.trianglesontop
  | OpaqueBucket.selstriangleontop => p.selstriangleontop
  | OpaqueBucket.selsontop => p.selsontop
  | OpaqueBucket.selslineontop => p.selslineontop
  | OpaqueBucket.selspointontop => p.selspointontop

/-- One step of `render`: an operation `render` issues itself, or a call of
`renderOpaque` or of `renderTransparency` with its arguments, the value of
`depthwriteonly` at the call, and the operations the call issued. -/
inductive RenderStep where
  | op (o : DrawOp)
  | opaqueCall (list : DrawList) (bucket : OpaqueBucket) (pass : Nat) (depthwriteonly : Bool)
      (ops : List DrawOp)
  | transparencyCall (list : DrawList) (bucket : TranspBucket) (sort : Bool) (depthwriteonly : Bool)
      (ops : List DrawOp)
deriving DecidableEq, Repr

/-- The operations of a step. -/
def RenderStep.ops : RenderStep → List DrawOp
  | RenderStep.op o => [o]
  | RenderStep.opaqueCall _ _ _ _ ops => ops
  | RenderStep.transparencyCall _ _ _ _ ops => ops

/-- The renderer and the steps taken so far, as `render` carries them. -/
structure RenderState where
  p : SoFCRendererP
  steps : List RenderStep := []
deriving DecidableEq, Repr

/-- All operations of a frame in the order of issue. -/
def RenderState.flat (s : RenderState) : List DrawOp := s.steps.flatMap RenderStep.ops

/-- A statement, or a run of statements, of `render`. -/
abbrev Stage := RenderState → Option RenderState

/-- Statements in sequence. -/
def runStages : List Stage → Stage
  | [] => fun s => some s
  | f :: fs => fun s => (f s).bind (runStages fs)

/-- An assignment to members of the renderer. -/
def Stage.assign (f : SoFCRendererP → SoFCRendererP) : Stage :=
  fun s => some { s with p := f s.p }

/-- An operation `render` issues itself. -/
def Stage.issue (o : DrawOp) : Stage :=
  fun s => some { s with steps := s.steps ++ [RenderStep.op o] }

/-- The statement `if (c) { stages }`. -/
def Stage.guarded (c : Bool) (stages : List Stage) : Stage :=
  fun s => if c then runStages stages s else some s

/-- A call `renderOpaque(action, list, bucket, pass)`. -/
def Stage.callOpaque (vp : ViewParams) (fi : FrameInput) (list : DrawList)
    (bucket : OpaqueBucket) (pass : Nat) : Stage :=
  fun s =>
    match renderOpaque vp fi list (s.p.opaqueBucket bucket) pass s.p with
    | none => none
    | some d =>
      some { p := d.p
             steps := s.steps ++ [RenderStep.opaqueCall list bucket pass s.p.depthwriteonly d.ops] }

/-- A call `renderTransparency(action, list, bucket, sort)`. -/
def Stage.callTransparency (vp : ViewParams) (fi : FrameInput) (list : DrawList)
    (bucket : TranspBucket) (sort : Bool) : Stage :=
  fun s =>
    match renderTransparency vp fi list bucket sort s.p with
    | none => none
    | some d =>
      some { p := d.p
             steps := s.steps
               ++ [RenderStep.transparencyCall list bucket sort s.p.depthwriteonly d.ops] }

/-- The statement `recheckmaterial = true`. -/
def setRecheck : Stage := Stage.assign (fun p => { p with recheckmaterial := true })

/-- The statements `recheckmaterial = true; notexture = false`. -/
def setRecheckTexture : Stage :=
  Stage.assign (fun p => { p with recheckmaterial := true, notexture := false })

/-- The state `render` has set up when it pushes the stacks: the shadow flags
of the frame taken from the shape style, the selection brought up to date, the
material tracking reset, and the model matrix of the frame looked at. -/
def renderStart (ids : SelIdBits) (fi : FrameInput) (p : SoFCRendererP) : SoFCRendererP :=
  let p0 := { p with
    shadowrendering := fi.shadows
    shadowmapping := fi.shadowmap
    transpshadowmapping := fi.shadowmap && fi.transpshadowmap }
  let p1 := updateSelection ids p0
  { p1 with
    depthwriteonly := false
    notexture := false
    prevmaterial := none
    recheckmaterial := false
    material := fi.initMaterial
    identity := fi.identity }

/-- The block of `render` under `if (!action->isRenderingDelayedPaths())`, up
to its test of `shadowrendering`: the base scene and the selection overlays,
opaque then transparent, then the on-top base units. -/
def renderBase (vp : ViewParams) (fi : FrameInput) : Stage :=
  runStages
    [ Stage.callOpaque vp fi DrawList.base OpaqueBucket.opaquevcache RenderPassNormal,
      setRecheck,
      Stage.callOpaque vp fi DrawList.selection OpaqueBucket.opaqueselections
        RenderPassHighlight,
      setRecheckTexture,
      Stage.callTransparency vp fi DrawList.base TranspBucket.transpvcache true,
      setRecheck,
      Stage.callTransparency vp fi DrawList.selection TranspBucket.transpselections true,
      setRecheckTexture,
      Stage.callOpaque vp fi DrawList.base OpaqueBucket.opaqueontop RenderPassNormal,
      Stage.callTransparency vp fi DrawList.base TranspBucket.transpontop false ]

/-- The statements `state->pop(); glPopAttrib();` by which `render` ends, at
its early exits as well as at its end. -/
def renderExit : Stage :=
  runStages [Stage.issue DrawOp.statePop, Stage.issue DrawOp.glPopAttrib]

/-- The local `hassel` of `render`. -/
def hasSel (p : SoFCRendererP) : Bool :=
  decide (p.selsontop.length ≠ 0) || decide (p.selslineontop.length ≠ 0)

/-- The local `hasontop` of `render`. -/
def hasOnTop (p : SoFCRendererP) : Bool :=
  decide (p.trianglesontop.length ≠ 0) && decide (p.linesontop.length ≠ 0)

/-- The part of `render` from the locals `hassel` and `hasontop` to the end:
the depth-write-only pass, the lines and points on top in the pass it leaves,
the line-solid pass, the highlight when it is not wholly on top, the
explicitly selected points, and the pops of both stacks. -/
def renderOnTop (vp : ViewParams) (fi : FrameInput) : Stage :=
  fun s =>
    let hassel := hasSel s.p
    let hasontop := hasOnTop s.p
    let hl := s.p.hlwholeontop
    let prepass := hassel || hasontop || hl
    let pass := if prepass then RenderPassLinePattern else RenderPassNormal
    runStages
      [ Stage.guarded prepass
          [ setRecheck,
            Stage.assign (fun p => { p with depthwriteonly := true }),
            Stage.issue (DrawOp.glColorMask false),
            Stage.guarded hasontop
              [Stage.callOpaque vp fi DrawList.base OpaqueBucket.trianglesontop
                RenderPassNormal],
            Stage.guarded hassel
              [Stage.callOpaque vp fi DrawList.selection OpaqueBucket.selstriangleontop
                RenderPassNormal],
            Stage.guarded hl
              [ Stage.callOpaque vp fi DrawList.highlight OpaqueBucket.opaquehighlight
                  RenderPassHighlight,
                Stage.callTransparency vp fi DrawList.highlight TranspBucket.transphighlight
                  false ],
            Stage.assign (fun p => { p with depthwriteonly := false }),
            Stage.issue (DrawOp.glColorMask true) ],
        Stage.issue (DrawOp.glBlend true),
        Stage.callOpaque vp fi DrawList.base OpaqueBucket.linesontop pass,
        Stage.callOpaque vp fi DrawList.selection OpaqueBucket.selsontop pass,
        Stage.callOpaque vp fi DrawList.selection OpaqueBucket.selslineontop
          (pass ||| RenderPassHighlight),
        Stage.guarded hl
          [Stage.callOpaque vp fi DrawList.highlight OpaqueBucket.opaquelineshighlight pass],
        Stage.guarded prepass
          [ Stage.guarded hasontop
              [Stage.callOpaque vp fi DrawList.base OpaqueBucket.linesontop
                RenderPassLineSolid],
            Stage.guarded hassel
              [ Stage.callOpaque vp fi DrawList.selection OpaqueBucket.selsontop
                  RenderPassLineSolid,
                Stage.callOpaque vp fi DrawList.selection OpaqueBucket.selslineontop
                  (RenderPassLineSolid ||| RenderPassHighlight) ],
            Stage.guarded hl
              [Stage.callOpaque vp fi DrawList.highlight OpaqueBucket.opaquelineshighlight
                (RenderPassLineSolid ||| RenderPassHighlight)] ],
        Stage.issue (DrawOp.glBlend false),
        Stage.guarded (!hl)
          [ Stage.callOpaque vp fi DrawList.highlight OpaqueBucket.opaquehighlight
              RenderPassNormal,
            Stage.callTransparency vp fi DrawList.highlight TranspBucket.transphighlight false,
            Stage.callOpaque vp fi DrawList.highlight OpaqueBucket.opaquelineshighlight
              RenderPassHighlight ],
        Stage.callOpaque vp fi DrawList.selection OpaqueBucket.selspointontop
          RenderPassHighlight,
        renderExit ] s

/-- The part of `render` after the test of `shadowmapping`: the transparent
selections on top, the highlight when it is wholly on top, and the rest. -/
def renderOverlay (vp : ViewParams) (fi : FrameInput) : Stage :=
  fun s =>
    runStages
      [ setRecheck,
        Stage.callTransparency vp fi DrawList.selection TranspBucket.transpselectionsontop
          false,
        Stage.guarded s.p.hlwholeontop
          [ Stage.callOpaque vp fi DrawList.highlight OpaqueBucket.opaquehighlight
              RenderPassNormal,
            Stage.callTransparency vp fi DrawList.highlight TranspBucket.transphighlight
              false ],
        renderOnTop vp fi ] s

/-- The part of `render` from the test of `shadowmapping` on. -/
def renderAfterBase (vp : ViewParams) (fi : FrameInput) : Stage :=
  fun s => if s.p.shadowmapping then renderExit s else renderOverlay vp fi s

/-- The function `SoFCRenderer::render`: the renderer afterwards and the
steps taken, `none` when a call of `renderSection` needed more nesting than
the draw loops allow for. -/
def render (vp : ViewParams) (ids : SelIdBits) (fi : FrameInput) (p : SoFCRendererP) :
    Option RenderState :=
  let s0 : RenderState :=
    { p := renderStart ids fi p
      steps := [RenderStep.op DrawOp.glPushAttrib, RenderStep.op DrawOp.statePush] }
  if !fi.delayedPaths then
    match renderBase vp fi s0 with
    | none => none
    | some s1 =>
      if s1.p.shadowrendering then
        runStages [Stage.issue DrawOp.addDelayedPath, renderExit] s1
      else renderAfterBase vp fi s1
  else renderAfterBase vp fi s0

/-! ## Notions used to state the properties of the draw loops -/

/-- The plane of a stencil sub-pass, for the operation that draws a unit into
the stencil buffer. -/
def DrawOp.stencilPlane : DrawOp → Option Nat
  | DrawOp.stencilTriangles plane => some plane
  | _ => none

/-- The plane of a fill sub-pass, for the operation that draws the quad
filling a section. -/
def DrawOp.fillPlane : DrawOp → Option Nat
  | DrawOp.fillQuad plane => some plane
  | _ => none

/-- The submissions of the geometry of a unit by the body of a draw loop; the
submissions into the stencil buffer, the quads and the outlines are others. -/
def DrawOp.isGeometry : DrawOp → Bool
  | DrawOp.renderTriangles => true
  | DrawOp.renderLines => true
  | DrawOp.renderPoints => true
  | _ => false

/-- The operations `renderSection` issues. -/
def DrawOp.isSection : DrawOp → Bool
  | DrawOp.glPushAttrib => true
  | DrawOp.glPopAttrib => true
  | DrawOp.clipEnable _ => true
  | DrawOp.clipDisable _ => true
  | DrawOp.stencilTriangles _ => true
  | DrawOp.fillQuad _ => true
  | DrawOp.glColorMask _ => true
  | DrawOp.glLighting _ => true
  | _ => false

/-- Whether the body of the loop of `renderOpaque` submits the geometry of a
whole-object unit outside a shadow-map pass and outside depth-write-only mode:
not for a triangle unit of the base list whose material is outlined while
faces are hidden, and not for a point unit whose material is outlined while
vertices are hidden. -/
def submitsGeometry (vp : ViewParams) (list : DrawList) (draw_entry : DrawEntry) : Bool :=
  match draw_entry.material.type with
  | MaterialType.Triangle =>
    !(decide (list = DrawList.base) && draw_entry.material.outline && vp.HiddenLineHideFace)
  | MaterialType.Line => true
  | MaterialType.Point => !vp.HiddenLineHideVertex || !draw_entry.material.outline

/-- The clip planes enabled, the stack of saved enable flags, and the enable
flags seen at each geometry submission so far. -/
structure ClipState where
  enabled : List Bool
  saved : List (List Bool) := []
  seen : List (List Bool) := []
deriving DecidableEq, Repr

/-- The effect of one operation on the clip planes: a switch sets the flag of
its plane, `glPushAttrib` (every push of the renderer includes
`GL_ENABLE_BIT`) saves the flags, `glPopAttrib` restores them, and a geometry
submission is recorded with the flags it meets. -/
def clipStep (s : ClipState) (o : DrawOp) : ClipState :=
  match o with
  | DrawOp.clipEnable i => { s with enabled := s.enabled.set i true }
  | DrawOp.clipDisable i => { s with enabled := s.enabled.set i false }
  | DrawOp.glPushAttrib => { s with saved := s.enabled :: s.saved }
  | DrawOp.glPopAttrib =>
    match s.saved with
    | [] => s
    | e :: rest => { s with enabled := e, saved := rest }
  | _ => if o.isGeometry then { s with seen := s.seen ++ [s.enabled] } else s

/-- The effect of a run of operations on the clip planes. -/
def clipRun (s : ClipState) (ops : List DrawOp) : ClipState := ops.foldl clipStep s

/-- The enable flags of `numclip` planes of which exactly plane `i` is enabled. -/
def onlyPlane (numclip i : Nat) : List Bool := (List.range numclip).map (fun j => decide (j = i))

/-- A renderer whose tracked material has two clip planes. -/
def twoPlaneRenderer : SoFCRendererP :=
  { material := { clippers := [{ node := 1 }, { node := 2 }] } }

/-- A whole-object triangle unit. -/
def wholeTriangleUnit : DrawEntry := DrawEntry.create opaqueTriangles exampleBatchA

/-- A whole-object triangle unit whose material is outlined. -/
def outlinedTriangleUnit : DrawEntry :=
  DrawEntry.create { opaqueTriangles with outline := true } exampleBatchA

/-- The view parameters with hidden faces. -/
def hiddenFaces : ViewParams := { HiddenLineHideFace := true }

/-- A frame in which every box lies outside the view volume. -/
def allCulled : FrameInput := { cullTest := fun _ => true }

/-- The view parameters with concave sections. -/
def concaveSections : ViewParams := { SectionConcave := true }

/-- The view parameters with concave sections and hidden faces. -/
def concaveHiddenFaces : ViewParams := { SectionConcave := true, HiddenLineHideFace := true }

/-- A whole-object line unit. -/
def wholeLineUnit : DrawEntry :=
  DrawEntry.create { type := MaterialType.Line, diffuse := 0xccccccff } exampleBatchA

/-! ## The two stacks along a run of operations -/

/-- The operations that push the scene state: `state->push()` of `render` and
of `applyMaterial`. -/
def DrawOp.isStatePush : DrawOp → Bool
  | DrawOp.statePush => true
  | DrawOp.material GLOp.statePush => true
  | _ => false

/-- The operations that pop the scene state: `state->pop()` of `render` and of
`applyMaterial`. -/
def DrawOp.isStatePop : DrawOp → Bool
  | DrawOp.statePop => true
  | DrawOp.material GLOp.statePop => true
  | _ => false

/-- The operation `glPushAttrib`. -/
def DrawOp.isAttribPush : DrawOp → Bool
  | DrawOp.glPushAttrib => true
  | _ => false

/-- The operation `glPopAttrib`. -/
def DrawOp.isAttribPop : DrawOp → Bool
  | DrawOp.glPopAttrib => true
  | _ => false

/-- The depth of a stack after a run of operations, counted from the depth
`d` before it: `none` when an operation pops the stack at depth 0, that is,
below the depth the count started from. -/
def stackWalk (push pop : DrawOp → Bool) : Nat → List DrawOp → Option Nat
  | d, [] => some d
  | d, o :: ops =>
    if push o then stackWalk push pop (d + 1) ops
    else if pop o then
      match d with
      | 0 => none
      | d + 1 => stackWalk push pop d ops
    else stackWalk push pop d ops

/-- A run of operations that, entered at depth `k` or deeper, never goes more
than `k` below the depth it is entered at and leaves the stack at that depth. -/
def Keeps (push pop : DrawOp → Bool) (k : Nat) (ops : List DrawOp) : Prop :=
  ∀ d, stackWalk push pop (d + k) ops = some (d + k)

/-- The renderer with the members the draw loops write set to fixed values:
the tracked material, the material applied last, the pass it was applied in
and the flag that asks for it to be applied again. -/
def SoFCRendererP.untracked (p : SoFCRendererP) : SoFCRendererP :=
  { p with material := {}, prevmaterial := none, prevpass := 0, recheckmaterial := false }

/-- The operations of `applyMaterial` on the stack of the scene state. -/
def GLOp.isStateOp : GLOp → Bool
  | GLOp.statePop => true
  | GLOp.statePush => true
  | _ => false

/-- A draw loop has gone from the state `s` to the state `s1`: it has written
the renderer only in the members the draw loops track, and the operations it
has added leave the attribute stack and, entered below a push, the stack of
the scene state as they met them. -/
def DrawState.Extends (s s1 : DrawState) : Prop :=
  s1.p.untracked = s.p.untracked ∧
  ∃ new, s1.ops = s.ops ++ new
    ∧ Keeps DrawOp.isAttribPush DrawOp.isAttribPop 0 new
    ∧ Keeps DrawOp.isStatePush DrawOp.isStatePop 1 new

/-- A box whose centre lies 5 in front of the plane `z = 0`. -/
def farBox : SbBox3f := { minpt := (0, 0, 4), maxpt := (2, 2, 6) }

/-- A box whose centre lies 1 in front of the plane `z = 0`. -/
def nearBox : SbBox3f := { minpt := (0, 0, 0), maxpt := (2, 2, 2) }

/-- A transparent triangle material: diffuse alpha `0x80`. -/
def transparentTriangles : Material := { diffuse := 0xcccccc80 }

/-- A batch in the far box. -/
def farBatch : VertexCacheEntry := { bbox := farBox, partidx := 0 }

/-- A batch in the near box. -/
def nearBatch : VertexCacheEntry := { bbox := nearBox, partidx := 1 }

/-- A scene of two transparent units, the far one first. -/
def farNearScene : SoFCRendererP :=
  setScene [(transparentTriangles, [farBatch, nearBatch])] {}

/-- A frame under hidden-line display. -/
def hiddenLinesFrame : FrameInput := { showHiddenLines := true }

/-! ## Notions used to state the properties of a frame -/

/-- The renderer with the members a frame writes outside `updateSelection` set
to fixed values: the members the draw loops track, the flags `depthwriteonly`
and `notexture`, the recorded view plane, and the transparent buckets, which
the sort reorders. -/
def SoFCRendererP.scene (p : SoFCRendererP) : SoFCRendererP :=
  { p with
    material := {}
    prevmaterial := none
    prevpass := 0
    recheckmaterial := false
    depthwriteonly := false
    notexture := false
    prevplane := {}
    transpvcache := []
    transpontop := []
    transpselections := []
    transphighlight := []
    transpselectionsontop := [] }

/-- The renderer `q` holds the scene of `p`: apart from the members a frame
writes the two agree, and every transparent bucket of `q` holds the indices
of that of `p`. -/
def SameScene (p q : SoFCRendererP) : Prop :=
  q.scene = p.scene ∧
  ∀ b : TranspBucket,
    ((q.transpBucket b).map (fun v => v.idx)).Perm ((p.transpBucket b).map (fun v => v.idx))

/-- The frame has gone from the state `s` to the state `s1`: the renderer
holds the same scene, and the steps added leave the attribute stack and,
entered below a push, the stack of the scene state as they met them. -/
def RenderState.Extends (s s1 : RenderState) : Prop :=
  SameScene s.p s1.p ∧
  ∃ new, s1.steps = s.steps ++ new
    ∧ Keeps DrawOp.isAttribPush DrawOp.isAttribPop 0 (new.flatMap RenderStep.ops)
    ∧ Keeps DrawOp.isStatePush DrawOp.isStatePop 1 (new.flatMap RenderStep.ops)

/-- A stage that returns and extends the state it is run from. -/
def Stage.Good (f : Stage) : Prop := ∀ s, ∃ s1, f s = some s1 ∧ s.Extends s1

/-- A stage that returns, having extended the state it is run from and then
popped both stacks. -/
def Stage.Closing (f : Stage) : Prop :=
  ∀ s, ∃ s1 s2, s.Extends s1 ∧ f s = some s2 ∧ s2.p = s1.p
    ∧ s2.steps = s1.steps ++ [RenderStep.op DrawOp.statePop, RenderStep.op DrawOp.glPopAttrib]

/-- The step that opens the depth-write-only pass of `render`: the statement
`glColorMask(GL_FALSE, ...)` of `render` itself. -/
def RenderStep.isPrepass : RenderStep → Bool
  | RenderStep.op (DrawOp.glColorMask false) => true
  | _ => false

/-- A call of `renderOpaque` in the line-solid pass. -/
def RenderStep.isLineSolid : RenderStep → Bool
  | RenderStep.opaqueCall _ _ pass _ _ =>
    decide (pass &&& RenderPassLineMask = RenderPassLineSolid)
  | _ => false

/-- The test of `render` that guards the depth-write-only pass and the
line-solid pass: `hassel || hasontop || hlwholeontop`. -/
def wantsPrepass (p : SoFCRendererP) : Bool := hasSel p || hasOnTop p || p.hlwholeontop

/-- A stage that returns, keeps the scene, and adds neither the opening of the
depth-write-only pass nor a call in the line-solid pass. -/
def Stage.Calm (f : Stage) : Prop :=
  ∀ s, ∃ s1, f s = some s1 ∧ SameScene s.p s1.p
    ∧ ∃ new, s1.steps = s.steps ++ new
      ∧ ∀ st ∈ new, st.isPrepass = false ∧ st.isLineSolid = false

/-- A stage that only adds steps. -/
def Stage.Mono (f : Stage) : Prop :=
  ∀ s s1, f s = some s1 → ∃ new, s1.steps = s.steps ++ new

/-- A stage after which a step with the property `P` has been taken. -/
def Stage.Marks (P : RenderStep → Bool) (f : Stage) : Prop :=
  ∀ s s1, f s = some s1 → ∃ st ∈ s1.steps, P st = true

/-- A scene of one opaque on-top triangle unit. -/
def ontopTriangleScene : SoFCRendererP :=
  setScene [({ diffuse := 0xccccccff, ontop := true }, [exampleBatchA])] {}

/-- The renderer with the members `updateSelection` writes set to fixed
values: the update flag, the selection buckets and the selection draw list, the
selection key set, the scratch key, and the suppress counters of the base
draw units. -/
def SoFCRendererP.unselected (p : SoFCRendererP) : SoFCRendererP :=
  { p with
    updateselection := false
    opaqueselections := []
    transpselections := []
    transpselectionsontop := []
    selstriangleontop := []
    selslineontop := []
    selspointontop := []
    selsontop := []
    slentries := []
    selectionkeys := []
    selkey := none
    drawentries := p.drawentries.map (fun e => { e with skip := 0 }) }

/-- A scene of one opaque on-top triangle unit and one opaque on-top line unit. -/
def ontopTriangleLineScene : SoFCRendererP :=
  setScene [({ diffuse := 0xccccccff, ontop := true }, [exampleBatchA]),
            (ontopLines, [exampleBatchB])] {}

/-- A renderer whose only selection is an on-top selection of one opaque
triangle unit. -/
def ontopSelectedTriangle : SoFCRendererP :=
  addSelection 1 [(opaqueTriangles, [exampleBatchA])] {}

/-- A scene of one transparent unit with a selection of two transparent
units, the far one first. -/
def selectedFarNear : SoFCRendererP :=
  addSelection 0 [(transparentTriangles, [farBatch, nearBatch])]
    (setScene [(transparentTriangles, [farBatch])] {})

/-- An empty scene with a selection of two transparent units, the far one
first. -/
def selectedFarNearAlone : SoFCRendererP :=
  addSelection 0 [(transparentTriangles, [farBatch, nearBatch])] (setScene [] {})

/-! ## CacheKeyCompare is a strict total order on key contents -/

theorem vectorLess_irrefl (a : CacheKey) : vectorLess a a = false := by
  induction a with
  | nil => rfl
  | cons x xs ih => simp [vectorLess, ih]

theorem vectorLess_iff_lex (a b : CacheKey) :
    vectorLess a b = true ↔ List.Lex (fun x y : Int => x < y) a b := by
  induction a generalizing b with
  | nil =>
    cases b with
    | nil => simp [vectorLess]
    | cons y ys => simp [vectorLess, List.Lex.nil]
  | cons x xs ih =>
    cases b with
    | nil => simp [vectorLess]
    | cons y ys =>
      rcases lt_trichotomy x y with h | h | h
      · simp [vectorLess, h, List.Lex.rel h]
      · subst h
        simp [vectorLess, ih ys, List.Lex.cons_iff]
      · have h1 : ¬ x < y := not_lt.mpr (le_of_lt h)
        simp only [vectorLess, h1, h, if_true, if_false]
        constructor
        · intro hf; cases hf
        · intro hl
          cases hl with
          | cons hl => exact absurd h (lt_irrefl _)
          | rel hr => exact absurd hr h1

theorem vectorLess_trans (a b c : CacheKey) (hab : vectorLess a b = true)
    (hbc : vectorLess b c = true) : vectorLess a c = true := by
  induction a generalizing b c with
  | nil =>
    cases b with
    | nil => simp [vectorLess] at hab
    | cons y ys =>
      cases c with
      | nil => simp [vectorLess] at hbc
      | cons z zs => simp [vectorLess]
  | cons x xs ih =>
    cases b with
    | nil => simp [vectorLess] at hab
    | cons y ys =>
      cases c with
      | nil => simp [vectorLess] at hbc
      | cons z zs =>
        simp only [vectorLess] at hab hbc ⊢
        by_cases hxy : x < y
        · by_cases hyz : y < z
          · simp [lt_trans hxy hyz]
          · by_cases hzy : z < y
            · simp [hyz, hzy] at hbc
            · have : y = z := le_antisymm (not_lt.mp hzy) (not_lt.mp hyz)
              subst this
              simp [hxy]
        · by_cases hyx : y < x
          · simp [hxy, hyx] at hab
          · have hxy2 : x = y := le_antisymm (not_lt.mp hyx) (not_lt.mp hxy)
            subst hxy2
            simp only [lt_irrefl, if_false] at hab
            by_cases hxz : x < z
            · simp [hxz]
            · by_cases hzx : z < x
              · simp [hxz, hzx] at hbc
              · simp only [hxz, hzx, if_false] at hbc ⊢
                exact ih ys zs hab hbc

theorem vectorLess_total (a b : CacheKey) (hab : vectorLess a b = false)
    (hba : vectorLess b a = false) : a = b := by
  induction a generalizing b with
  | nil =>
    cases b with
    | nil => rfl
    | cons y ys => simp [vectorLess] at hab
  | cons x xs ih =>
    cases b with
    | nil => simp [vectorLess] at hba
    | cons y ys =>
      simp only [vectorLess] at hab hba
      by_cases hxy : x < y
      · simp [hxy] at hab
      · by_cases hyx : y < x
        · simp [hyx] at hba
        · have : x = y := le_antisymm (not_lt.mp hyx) (not_lt.mp hxy)
          subst this
          simp only [lt_irrefl, if_false] at hab hba
          rw [ih ys hab hba]

theorem CacheKeyCompare_eq_contentLess (a b : CacheKeyPtr) :
    CacheKeyCompare a b = contentLess (keyContent a) (keyContent b) := by
  unfold CacheKeyCompare
  by_cases h : a = b
  · subst h
    cases a with
    | none => simp [contentLess, keyContent]
    | some x => simp [contentLess, keyContent, vectorLess_irrefl]
  · cases a with
    | none =>
      cases b with
      | none => exact absurd rfl h
      | some y => simp [contentLess, keyContent]
    | some x =>
      cases b with
      | none => simp [contentLess, keyContent]
      | some y => simp [h, contentLess, keyContent]

theorem contentLess_irrefl (a : Option CacheKey) : contentLess a a = false := by
  cases a with
  | none => rfl
  | some x => simp [contentLess, vectorLess_irrefl]

theorem contentLess_trans (a b c : Option CacheKey) (hab : contentLess a b = true)
    (hbc : contentLess b c = true) : contentLess a c = true := by
  cases a with
  | none =>
    cases c with
    | none => cases b <;> simp [contentLess] at hab hbc
    | some z => simp [contentLess]
  | some x =>
    cases b with
    | none => simp [contentLess] at hab
    | some y =>
      cases c with
      | none => simp [contentLess] at hbc
      | some z =>
        simp only [contentLess] at hab hbc ⊢
        by_cases h1 : x.length < y.length
        · by_cases h2 : y.length < z.length
          · simp [lt_trans h1 h2]
          · by_cases h3 : y.length > z.length
            · simp [h2, h3] at hbc
            · have : x.length < z.length := by omega
              simp [this]
        · by_cases h1b : x.length > y.length
          · simp [h1, h1b] at hab
          · simp only [h1, h1b, if_false] at hab
            by_cases h2 : y.length < z.length
            · have : x.length < z.length := by omega
              simp [this]
            · by_cases h3 : y.length > z.length
              · simp [h2, h3] at hbc
              · simp only [h2, h3, if_false] at hbc
                have e1 : ¬ x.length < z.length := by omega
                have e2 : ¬ x.length > z.length := by omega
                simp only [e1, e2, if_false]
                exact vectorLess_trans x y z hab hbc

theorem contentLess_total (a b : Option CacheKey) (hab : contentLess a b = false)
    (hba : contentLess b a = false) : a = b := by
  cases a with
  | none =>
    cases b with
    | none => rfl
    | some y => simp [contentLess] at hab
  | some x =>
    cases b with
    | none => simp [contentLess] at hba
    | some y =>
      simp only [contentLess] at hab hba
      by_cases h1 : x.length < y.length
      · simp [h1] at hab
      · by_cases h2 : y.length < x.length
        · simp [h2] at hba
        · have h3 : ¬ x.length > y.length := by omega
          have h4 : ¬ y.length > x.length := by omega
          simp only [h1, h2, h3, h4, if_false] at hab hba
          rw [vectorLess_total x y hab hba]

/-- C7: `CacheKeyCompare` is a strict total order on cache keys taken by
content: it never orders two keys of equal content (so it is irreflexive), it
is transitive, a shorter key precedes a longer one, keys of equal length are
ordered as `operator<` of the vectors orders them, which is the lexicographic
order, the null key precedes every non-null key and no key precedes the null
key, and two keys are unordered in both directions exactly when they are both
null or hold the same integer sequence. -/
theorem CacheKeyCompare_strict_total_order :
    (∀ a : CacheKeyPtr, CacheKeyCompare a a = false) ∧
    (∀ a b c : CacheKeyPtr, CacheKeyCompare a b = true → CacheKeyCompare b c = true →
      CacheKeyCompare a c = true) ∧
    (∀ x y : CacheKeyRef, x.key.length < y.key.length →
      CacheKeyCompare (some x) (some y) = true ∧ CacheKeyCompare (some y) (some x) = false) ∧
    (∀ x y : CacheKeyRef, x.key.length = y.key.length →
      (CacheKeyCompare (some x) (some y) = true ↔
        List.Lex (fun i j : Int => i < j) x.key y.key)) ∧
    (∀ y : CacheKeyRef, CacheKeyCompare none (some y) = true ∧
      CacheKeyCompare (some y) none = false) ∧
    (∀ a b : CacheKeyPtr, (CacheKeyCompare a b = false ∧ CacheKeyCompare b a = false) ↔
      keyContent a = keyContent b) := by
  refine ⟨?_, ?_, ?_, ?_, ?_, ?_⟩
  · intro a
    simp [CacheKeyCompare]
  · intro a b c hab hbc
    rw [CacheKeyCompare_eq_contentLess] at hab hbc ⊢
    exact contentLess_trans _ _ _ hab hbc
  · intro x y h
    have h2 : ¬ y.key.length < x.key.length := by omega
    constructor
    · simp [CacheKeyCompare_eq_contentLess, contentLess, keyContent, h]
    · simp [CacheKeyCompare_eq_contentLess, contentLess, keyContent, h, h2]
  · intro x y h
    rw [← vectorLess_iff_lex]
    simp [CacheKeyCompare_eq_contentLess, contentLess, keyContent, h]
  · intro y
    simp [CacheKeyCompare_eq_contentLess, contentLess, keyContent]
  · intro a b
    simp only [CacheKeyCompare_eq_contentLess]
    constructor
    · rintro ⟨h1, h2⟩
      exact contentLess_total _ _ h1 h2
    · intro h
      rw [h]
      exact ⟨contentLess_irrefl _, contentLess_irrefl _⟩

/-! ## pushDrawEntry -/

theorem pushDrawEntry_eq (draw_entries : List DrawEntry) (material : Material)
    (ventry : VertexCacheEntry) :
    pushDrawEntry draw_entries material ventry =
      if ventry.bbox.isEmpty then (draw_entries, 0)
      else (draw_entries ++
              [{ material := material, ventry := ventry, bbox := ventry.bbox, skip := 0 }],
            draw_entries.length + 1) := by
  unfold pushDrawEntry
  by_cases h : ventry.bbox.isEmpty = true
  · simp [DrawEntry.create, h]
  · simp [DrawEntry.create, h]

/-- C8: `pushDrawEntry` never inserts a draw unit with an empty bounding box:
when the box of the batch is empty the list comes back exactly as it was and
0 is returned; otherwise one unit, of this material and this batch and with
suppress count 0, is appended at the end and the new list length, the index
of the unit plus one, is returned. -/
theorem pushDrawEntry_spec (draw_entries : List DrawEntry) (material : Material)
    (ventry : VertexCacheEntry) :
    (ventry.bbox.isEmpty = true →
      pushDrawEntry draw_entries material ventry = (draw_entries, 0)) ∧
    (ventry.bbox.isEmpty = false →
      ∃ e : DrawEntry,
        pushDrawEntry draw_entries material ventry =
          (draw_entries ++ [e], draw_entries.length + 1) ∧
        e.material = material ∧ e.ventry = ventry ∧ e.skip = 0 ∧
        (pushDrawEntry draw_entries material ventry).1[
          (pushDrawEntry draw_entries material ventry).2 - 1]? = some e ∧
        ¬ e.bbox.isEmpty = true) := by
  constructor
  · intro h
    unfold pushDrawEntry
    simp [DrawEntry.create, h]
  · intro h
    refine ⟨DrawEntry.create material ventry, ?_, rfl, rfl, rfl, ?_, ?_⟩
    · unfold pushDrawEntry
      simp [DrawEntry.create, h]
    · unfold pushDrawEntry
      simp [DrawEntry.create, h]
    · simp [DrawEntry.create, h]

/-! ## Lists of positions -/

theorem indicesWhere_nil {α : Type} (P : α → Bool) : indicesWhere P ([] : List α) = [] := by
  simp [indicesWhere]

theorem indicesWhere_snoc {α : Type} (P : α → Bool) (us : List α) (u : α) :
    indicesWhere P (us ++ [u]) = indicesWhere P us ++ (if P u then [us.length] else []) := by
  unfold indicesWhere
  rw [List.length_append, List.length_singleton, List.range_succ, List.filter_append]
  congr 1
  · apply List.filter_congr
    intro i hi
    rw [List.mem_range] at hi
    rw [List.getElem?_append_left hi]
  · simp [List.filter_cons]

theorem mem_indicesWhere {α : Type} (P : α → Bool) (us : List α) (i : Nat) :
    i ∈ indicesWhere P us ↔ ∃ u, us[i]? = some u ∧ P u = true := by
  unfold indicesWhere
  rw [List.mem_filter, List.mem_range]
  constructor
  · rintro ⟨hi, h⟩
    rw [List.getElem?_eq_getElem hi] at h
    exact ⟨us[i], List.getElem?_eq_getElem hi, by simpa using h⟩
  · rintro ⟨u, hu, hp⟩
    have hi : i < us.length := by
      by_contra hc
      rw [List.getElem?_eq_none (by omega)] at hu
      cases hu
    exact ⟨hi, by simp [hu, hp]⟩

theorem count_indicesWhere {α : Type} (P : α → Bool) (us : List α) (i : Nat) :
    (indicesWhere P us).count i = if i ∈ indicesWhere P us then 1 else 0 := by
  have hn : (indicesWhere P us).Nodup := (List.nodup_range _).filter _
  by_cases h : i ∈ indicesWhere P us
  · simp [h, List.count_eq_one_of_mem hn h]
  · simp [h, List.count_eq_zero_of_not_mem h]

/-! ## One step of the scene loop -/

theorem setSceneEntry_empty (m : Material) (ft : Bool) (q : SoFCRendererP)
    (v : VertexCacheEntry) (h : v.bbox.isEmpty = true) : setSceneEntry m ft q v = q := by
  simp [setSceneEntry, pushDrawEntry_eq, h]

theorem setSceneEntry_fields (m : Material) (ft : Bool) (q : SoFCRendererP)
    (v : VertexCacheEntry) (h : v.bbox.isEmpty = false) :
    (setSceneEntry m ft q v).drawentries = q.drawentries ++ [DrawEntry.create m v] ∧
    (setSceneEntry m ft q v).cachetable =
      cachetablePush v.key q.drawentries.length q.cachetable ∧
    (setSceneEntry m ft q v).highlightkeys = q.highlightkeys ∧
    (setSceneEntry m ft q v).opaquevcache = q.opaquevcache ++
      (if (!ft && (!m.pervertexcolor || v.cache.hasOpaqueParts)) && !m.isOnTop
        then [q.drawentries.length] else []) ∧
    (setSceneEntry m ft q v).opaqueontop = q.opaqueontop ++
      (if (!ft && (!m.pervertexcolor || v.cache.hasOpaqueParts)) && m.isOnTop
          && decide (m.type = MaterialType.Triangle)
        then [q.drawentries.length] else []) ∧
    (setSceneEntry m ft q v).linesontop = q.linesontop ++
      (if (!ft && (!m.pervertexcolor || v.cache.hasOpaqueParts)) && m.isOnTop
          && !decide (m.type = MaterialType.Triangle)
        then [q.drawentries.length] else []) ∧
    (setSceneEntry m ft q v).trianglesontop = q.trianglesontop ++
      (if m.isOnTop && decide (m.type = MaterialType.Triangle)
        then [q.drawentries.length] else []) ∧
    (setSceneEntry m ft q v).transpvcache.map DrawEntryIndex.idx =
      q.transpvcache.map DrawEntryIndex.idx ++
      (if (ft || (m.pervertexcolor && v.cache.hasTransparency)) && !m.isOnTop
        then [q.drawentries.length] else []) ∧
    (setSceneEntry m ft q v).transpontop.map DrawEntryIndex.idx =
      q.transpontop.map DrawEntryIndex.idx ++
      (if (ft || (m.pervertexcolor && v.cache.hasTransparency)) && m.isOnTop
        then [q.drawentries.length] else []) := by
  rcases Bool.eq_false_or_eq_true m.ontop with h1 | h1 <;>
  rcases Bool.eq_false_or_eq_true ft with h2 | h2 <;>
  rcases Bool.eq_false_or_eq_true m.pervertexcolor with h3 | h3 <;>
  rcases Bool.eq_false_or_eq_true v.cache.hasOpaqueParts with h4 | h4 <;>
  rcases Bool.eq_false_or_eq_true v.cache.hasTransparency with h5 | h5 <;>
  by_cases ht : m.type = MaterialType.Triangle <;>
  simp [setSceneEntry, pushDrawEntry_eq, h, Material.isOnTop, DrawEntry.create,
    h1, h2, h3, h4, h5, ht]

/-! ## The cache index -/

theorem CacheKeyCompare_trans (a b c : CacheKeyPtr) (hab : CacheKeyCompare a b = true)
    (hbc : CacheKeyCompare b c = true) : CacheKeyCompare a c = true := by
  rw [CacheKeyCompare_eq_contentLess] at hab hbc ⊢
  exact contentLess_trans _ _ _ hab hbc

theorem CacheKeyCompare_irrefl (a : CacheKeyPtr) : CacheKeyCompare a a = false := by
  simp [CacheKeyCompare]

theorem CacheKeyCompare_asymm (a b : CacheKeyPtr) (hab : CacheKeyCompare a b = true) :
    CacheKeyCompare b a = false := by
  cases h : CacheKeyCompare b a with
  | false => rfl
  | true =>
    have := CacheKeyCompare_trans a b a hab h
    rw [CacheKeyCompare_irrefl] at this
    cases this

theorem keyContent_eq_of_unordered (a b : CacheKeyPtr) (hab : CacheKeyCompare a b = false)
    (hba : CacheKeyCompare b a = false) : keyContent a = keyContent b := by
  rw [CacheKeyCompare_eq_contentLess] at hab hba
  exact contentLess_total _ _ hab hba

theorem CacheKeyCompare_congr_left (a b c : CacheKeyPtr) (h : keyContent a = keyContent b) :
    CacheKeyCompare a c = CacheKeyCompare b c := by
  simp only [CacheKeyCompare_eq_contentLess, h]

theorem CacheKeyCompare_congr_right (a b c : CacheKeyPtr) (h : keyContent a = keyContent b) :
    CacheKeyCompare c a = CacheKeyCompare c b := by
  simp only [CacheKeyCompare_eq_contentLess, h]

theorem cachetablePush_keys (key : CacheKeyPtr) (idx : Nat) (t : List (CacheKeyPtr × List Nat))
    (x : CacheKeyPtr) (hx : x ∈ (cachetablePush key idx t).map Prod.fst) :
    x = key ∨ x ∈ t.map Prod.fst := by
  induction t with
  | nil =>
    left
    simpa [cachetablePush] using hx
  | cons kl rest ih =>
    obtain ⟨k, l⟩ := kl
    rcases Bool.eq_false_or_eq_true (CacheKeyCompare key k) with h1 | h1
    · simp only [cachetablePush, h1, if_true, List.map_cons, List.mem_cons] at hx ⊢
      rcases hx with hx | hx | hx
      · exact Or.inl hx
      · exact Or.inr (Or.inl hx)
      · exact Or.inr (Or.inr hx)
    · rcases Bool.eq_false_or_eq_true (CacheKeyCompare k key) with h2 | h2
      · simp only [cachetablePush, h1, h2, Bool.false_eq_true, if_true, if_false,
          List.map_cons, List.mem_cons] at hx ⊢
        rcases hx with hx | hx
        · exact Or.inr (Or.inl hx)
        · rcases ih hx with h | h
          · exact Or.inl h
          · exact Or.inr (Or.inr h)
      · simp only [cachetablePush, h1, h2, Bool.false_eq_true, if_false, List.map_cons,
          List.mem_cons] at hx ⊢
        exact Or.inr hx

theorem cachetablePush_sorted (key : CacheKeyPtr) (idx : Nat) (t : List (CacheKeyPtr × List Nat))
    (hs : keysSorted (t.map Prod.fst)) : keysSorted ((cachetablePush key idx t).map Prod.fst) := by
  induction t with
  | nil => simp [cachetablePush, keysSorted]
  | cons kl rest ih =>
    obtain ⟨k, l⟩ := kl
    unfold keysSorted at hs ih ⊢
    simp only [List.map_cons, List.pairwise_cons] at hs
    rcases Bool.eq_false_or_eq_true (CacheKeyCompare key k) with h1 | h1
    · simp only [cachetablePush, h1, if_true, List.map_cons, List.pairwise_cons, List.mem_cons]
      refine ⟨?_, hs.1, hs.2⟩
      intro x hx
      rcases hx with hx | hx
      · rw [hx]; exact h1
      · exact CacheKeyCompare_trans _ _ _ h1 (hs.1 x hx)
    · rcases Bool.eq_false_or_eq_true (CacheKeyCompare k key) with h2 | h2
      · simp only [cachetablePush, h1, h2, Bool.false_eq_true, if_true, if_false,
          List.map_cons, List.pairwise_cons]
        refine ⟨?_, ih hs.2⟩
        intro x hx
        rcases cachetablePush_keys key idx rest x hx with h | h
        · rw [h]; exact h2
        · exact hs.1 x h
      · simp only [cachetablePush, h1, h2, Bool.false_eq_true, if_false, List.map_cons,
          List.pairwise_cons]
        exact hs

theorem cachetableCount_push (key : CacheKeyPtr) (idx : Nat) (t : List (CacheKeyPtr × List Nat))
    (i : Nat) :
    cachetableCount i (cachetablePush key idx t) =
      cachetableCount i t + (if i = idx then 1 else 0) := by
  induction t with
  | nil =>
    by_cases h : i = idx
    · simp [cachetablePush, cachetableCount, h]
    · have h2 : ¬ idx = i := fun e => h e.symm
      simp [cachetablePush, cachetableCount, h, h2]
  | cons kl rest ih =>
    obtain ⟨k, l⟩ := kl
    unfold cachetableCount at ih ⊢
    rcases Bool.eq_false_or_eq_true (CacheKeyCompare key k) with h1 | h1
    · by_cases h : i = idx
      · simp [cachetablePush, h1, h]; omega
      · have h2 : ¬ idx = i := fun e => h e.symm
        simp [cachetablePush, h1, h, h2]
    · rcases Bool.eq_false_or_eq_true (CacheKeyCompare k key) with h2 | h2
      · simp only [cachetablePush, h1, h2, Bool.false_eq_true, if_true, if_false,
          List.map_cons, List.sum_cons, ih]
        omega
      · by_cases h : i = idx
        · simp [cachetablePush, h1, h2, h]; omega
        · have h3 : ¬ idx = i := fun e => h e.symm
          simp [cachetablePush, h1, h2, h, h3]

theorem cachetablePush_mem (key : CacheKeyPtr) (idx : Nat) (t : List (CacheKeyPtr × List Nat))
    (kl : CacheKeyPtr × List Nat) (hkl : kl ∈ cachetablePush key idx t) (i : Nat)
    (hi : i ∈ kl.2) :
    (i = idx ∧ keyContent kl.1 = keyContent key) ∨ (∃ l, (kl.1, l) ∈ t ∧ i ∈ l) := by
  induction t with
  | nil =>
    simp only [cachetablePush, List.mem_singleton] at hkl
    rw [hkl] at hi ⊢
    simp at hi
    exact Or.inl ⟨hi, rfl⟩
  | cons kl0 rest ih =>
    obtain ⟨k, l⟩ := kl0
    rcases Bool.eq_false_or_eq_true (CacheKeyCompare key k) with h1 | h1
    · simp only [cachetablePush, h1, if_true, List.mem_cons] at hkl
      rcases hkl with hkl | hkl | hkl
      · rw [hkl] at hi ⊢
        simp at hi
        exact Or.inl ⟨hi, rfl⟩
      · rw [hkl] at hi ⊢
        exact Or.inr ⟨l, List.mem_cons_self _ _, hi⟩
      · exact Or.inr ⟨kl.2, List.mem_cons_of_mem _ hkl, hi⟩
    · rcases Bool.eq_false_or_eq_true (CacheKeyCompare k key) with h2 | h2
      · simp only [cachetablePush, h1, h2, Bool.false_eq_true, if_true, if_false,
          List.mem_cons] at hkl
        rcases hkl with hkl | hkl
        · rw [hkl] at hi ⊢
          exact Or.inr ⟨l, List.mem_cons_self _ _, hi⟩
        · rcases ih hkl with h | ⟨l2, hl2, hi2⟩
          · exact Or.inl h
          · exact Or.inr ⟨l2, List.mem_cons_of_mem _ hl2, hi2⟩
      · simp only [cachetablePush, h1, h2, Bool.false_eq_true, if_false, List.mem_cons] at hkl
        rcases hkl with hkl | hkl
        · rw [hkl] at hi ⊢
          simp only [List.mem_append, List.mem_singleton] at hi
          rcases hi with hi | hi
          · exact Or.inr ⟨l, List.mem_cons_self _ _, hi⟩
          · exact Or.inl ⟨hi, keyContent_eq_of_unordered _ _ h2 h1⟩
        · exact Or.inr ⟨kl.2, List.mem_cons_of_mem _ hkl, hi⟩

/-! ## The scene loop keeps its invariant -/

theorem setSceneEntry_units (m : Material) (ft : Bool) (q : SoFCRendererP)
    (v : VertexCacheEntry) :
    (setSceneEntry m ft q v).drawentries.map DrawEntry.unit =
      q.drawentries.map DrawEntry.unit ++ (if v.bbox.isEmpty then [] else [(m, v)]) := by
  rcases Bool.eq_false_or_eq_true v.bbox.isEmpty with h | h
  · simp [setSceneEntry_empty m ft q v h, h]
  · simp [(setSceneEntry_fields m ft q v h).1, h, DrawEntry.unit, DrawEntry.create]

theorem setSceneEntry_highlightkeys (m : Material) (ft : Bool) (q : SoFCRendererP)
    (v : VertexCacheEntry) : (setSceneEntry m ft q v).highlightkeys = q.highlightkeys := by
  rcases Bool.eq_false_or_eq_true v.bbox.isEmpty with h | h
  · rw [setSceneEntry_empty m ft q v h]
  · exact (setSceneEntry_fields m ft q v h).2.2.1

theorem setSceneEntry_inv (m : Material) (q : SoFCRendererP) (v : VertexCacheEntry)
    (inv : SceneInv q) : SceneInv (setSceneEntry m (fullTransp m) q v) := by
  rcases Bool.eq_false_or_eq_true v.bbox.isEmpty with h | h
  · rw [setSceneEntry_empty m _ q v h]
    exact inv
  · obtain ⟨hde, htab, _, hov, hoo, hlo, hto, htv, htt⟩ :=
      setSceneEntry_fields m (fullTransp m) q v h
    have hu : (setSceneEntry m (fullTransp m) q v).drawentries.map DrawEntry.unit =
        q.drawentries.map DrawEntry.unit ++ [(m, v)] := by
      rw [setSceneEntry_units]; simp [h]
    have hlen : (q.drawentries.map DrawEntry.unit).length = q.drawentries.length :=
      List.length_map _ _
    constructor
    · rw [hov, hu, indicesWhere_snoc, inv.opaquevcache, hlen]
      simp [opaqueUnit]
    · rw [hoo, hu, indicesWhere_snoc, inv.opaqueontop, hlen]
      simp [opaqueUnit]
    · rw [hlo, hu, indicesWhere_snoc, inv.linesontop, hlen]
      simp [opaqueUnit]
    · rw [hto, hu, indicesWhere_snoc, inv.trianglesontop, hlen]
    · rw [htv, hu, indicesWhere_snoc, inv.transpvcache, hlen]
      simp [transpUnit]
    · rw [htt, hu, indicesWhere_snoc, inv.transpontop, hlen]
      simp [transpUnit]
    · intro kl hkl i hi
      rw [htab] at hkl
      rw [hde]
      rcases cachetablePush_mem _ _ _ kl hkl i hi with ⟨h1, h2⟩ | ⟨l, hl, hil⟩
      · refine ⟨DrawEntry.create m v, ?_, ?_⟩
        · rw [h1]; simp
        · rw [h2]; rfl
      · obtain ⟨e, he, hc⟩ := inv.tableMem (kl.1, l) hl i hil
        refine ⟨e, ?_, hc⟩
        have hlt : i < q.drawentries.length := by
          by_contra hcon
          rw [List.getElem?_eq_none (by omega)] at he
          cases he
        rw [List.getElem?_append_left hlt]
        exact he
    · intro i
      rw [htab, cachetableCount_push, inv.tableCount, hde, List.length_append,
        List.length_singleton]
      by_cases h1 : i < q.drawentries.length
      · have h2 : ¬ i = q.drawentries.length := by omega
        have h3 : i < q.drawentries.length + 1 := by omega
        simp [h1, h2, h3]
      · by_cases h2 : i = q.drawentries.length
        · simp [h2]
        · have h3 : ¬ i < q.drawentries.length + 1 := by omega
          simp [h1, h2, h3]
    · rw [htab]
      exact cachetablePush_sorted _ _ _ inv.tableSorted

theorem setSceneGroup_inv (q : SoFCRendererP) (g : Material × List VertexCacheEntry)
    (inv : SceneInv q) : SceneInv (setSceneGroup q g) := by
  unfold setSceneGroup
  split
  · exact inv
  · split
    · exact inv
    · generalize g.2 = vs
      induction vs generalizing q with
      | nil => exact inv
      | cons v rest ih => exact ih _ (setSceneEntry_inv g.1 q v inv)

theorem setSceneGroup_units (q : SoFCRendererP) (g : Material × List VertexCacheEntry) :
    (setSceneGroup q g).drawentries.map DrawEntry.unit =
      q.drawentries.map DrawEntry.unit ++
        (if g.1.drawstyle = DrawStyle.INVISIBLE then []
         else (g.2.filter (fun v => !v.bbox.isEmpty)).map (fun v => (g.1, v))) := by
  have hfold : ∀ (vs : List VertexCacheEntry) (p : SoFCRendererP),
      (vs.foldl (setSceneEntry g.1 (fullTransp g.1)) p).drawentries.map DrawEntry.unit =
        p.drawentries.map DrawEntry.unit ++
          (vs.filter (fun v => !v.bbox.isEmpty)).map (fun v => (g.1, v)) := by
    intro vs
    induction vs with
    | nil => intro p; simp
    | cons v rest ih =>
      intro p
      rw [List.foldl_cons, ih, setSceneEntry_units]
      rcases Bool.eq_false_or_eq_true v.bbox.isEmpty with h | h
      · simp [h]
      · simp [h]
  unfold setSceneGroup
  by_cases h1 : g.2.isEmpty = true
  · have : g.2 = [] := List.isEmpty_iff.mp h1
    simp [h1, this]
  · by_cases h2 : g.1.drawstyle = DrawStyle.INVISIBLE
    · simp [h1, h2]
    · simp only [h1, h2, if_false, Bool.false_eq_true]
      exact hfold g.2 q

theorem setSceneGroup_highlightkeys (q : SoFCRendererP) (g : Material × List VertexCacheEntry) :
    (setSceneGroup q g).highlightkeys = q.highlightkeys := by
  unfold setSceneGroup
  split
  · rfl
  · split
    · rfl
    · generalize g.2 = vs
      induction vs generalizing q with
      | nil => rfl
      | cons v rest ih =>
        rw [List.foldl_cons, ih, setSceneEntry_highlightkeys]

theorem setSceneLoop_inv (caches : VertexCacheMap) (q : SoFCRendererP) (inv : SceneInv q) :
    SceneInv (caches.foldl setSceneGroup q) := by
  induction caches generalizing q with
  | nil => exact inv
  | cons g rest ih => exact ih _ (setSceneGroup_inv q g inv)

theorem setSceneLoop_units (caches : VertexCacheMap) (q : SoFCRendererP) :
    (caches.foldl setSceneGroup q).drawentries.map DrawEntry.unit =
      q.drawentries.map DrawEntry.unit ++ acceptedUnits caches := by
  induction caches generalizing q with
  | nil => simp [acceptedUnits]
  | cons g rest ih =>
    rw [List.foldl_cons, ih, setSceneGroup_units]
    simp [acceptedUnits, List.flatMap_cons]

theorem setSceneLoop_highlightkeys (caches : VertexCacheMap) (q : SoFCRendererP) :
    (caches.foldl setSceneGroup q).highlightkeys = q.highlightkeys := by
  induction caches generalizing q with
  | nil => rfl
  | cons g rest ih => rw [List.foldl_cons, ih, setSceneGroup_highlightkeys]

theorem setSceneReset_inv (p : SoFCRendererP) : SceneInv (setSceneReset p) := by
  constructor <;> simp [setSceneReset, indicesWhere, cachetableCount, keysSorted]

/-! ## Suppress counters -/

theorem addSkip_getElem? (d : Int) (i j : Nat) (es : List DrawEntry) :
    (addSkip d i es)[j]? =
      (es[j]?).map (fun e => if j = i then { e with skip := e.skip + d } else e) := by
  induction es generalizing i j with
  | nil => cases i <;> simp [addSkip]
  | cons e rest ih =>
    cases i with
    | zero =>
      cases j with
      | zero => simp [addSkip]
      | succ j => simp [addSkip]
    | succ i =>
      cases j with
      | zero => simp [addSkip]
      | succ j => simp [addSkip, ih]

theorem addSkip_length (d : Int) (i : Nat) (es : List DrawEntry) :
    (addSkip d i es).length = es.length := by
  induction es generalizing i with
  | nil => cases i <;> simp [addSkip]
  | cons e rest ih => cases i <;> simp [addSkip, ih]

theorem addSkipAll_getElem? (d : Int) (indices : List Nat) (j : Nat) (es : List DrawEntry) :
    (addSkipAll d indices es)[j]? =
      (es[j]?).map (fun e => { e with skip := e.skip + d * (indices.count j : Int) }) := by
  induction indices generalizing es with
  | nil =>
    simp only [addSkipAll, List.foldl_nil, List.count_nil, Nat.cast_zero, mul_zero, add_zero]
    cases es[j]? <;> rfl
  | cons i rest ih =>
    have hstep : addSkipAll d (i :: rest) es = addSkipAll d rest (addSkip d i es) := rfl
    rw [hstep, ih, addSkip_getElem?]
    cases es[j]? with
    | none => rfl
    | some e =>
      by_cases h : j = i
      · subst h
        simp only [Option.map_some', if_true, List.count_cons_self, Nat.cast_add, Nat.cast_one]
        congr 2
        ring
      · have h2 : ¬ i = j := fun e => h e.symm
        simp [h, List.count_cons, h2]

theorem addSkipAll_length (d : Int) (indices : List Nat) (es : List DrawEntry) :
    (addSkipAll d indices es).length = es.length := by
  induction indices generalizing es with
  | nil => rfl
  | cons i rest ih =>
    have hstep : addSkipAll d (i :: rest) es = addSkipAll d rest (addSkip d i es) := rfl
    rw [hstep, ih, addSkip_length]

theorem addSkipAll_units (d : Int) (indices : List Nat) (es : List DrawEntry) :
    (addSkipAll d indices es).map DrawEntry.unit = es.map DrawEntry.unit := by
  apply List.ext_getElem?
  intro j
  rw [List.getElem?_map, List.getElem?_map, addSkipAll_getElem?]
  cases es[j]? <;> rfl

theorem addSkipAll_append (d : Int) (l1 l2 : List Nat) (es : List DrawEntry) :
    addSkipAll d (l1 ++ l2) es = addSkipAll d l2 (addSkipAll d l1 es) := by
  simp [addSkipAll, List.foldl_append]

theorem addSkipAll_cancel (d : Int) (indices : List Nat) (es : List DrawEntry) :
    addSkipAll (-d) indices (addSkipAll d indices es) = es := by
  apply List.ext_getElem?
  intro j
  rw [addSkipAll_getElem?, addSkipAll_getElem?]
  cases es[j]? with
  | none => rfl
  | some e =>
    simp only [Option.map_some']
    congr 1
    cases e
    simp only [DrawEntry.mk.injEq, true_and]
    ring

theorem applyKey_eq (key : CacheKeyPtr) (d : Int) (p : SoFCRendererP) :
    applyKey key d p =
      { p with drawentries :=
          addSkipAll d ((cachetableFind key p.cachetable).getD []) p.drawentries } := by
  unfold applyKey
  cases cachetableFind key p.cachetable with
  | none => simp [addSkipAll]
  | some l => simp

theorem applyKeys_eq (keys : List CacheKeyPtr) (d : Int) (p : SoFCRendererP) :
    applyKeys keys d p =
      { p with drawentries := addSkipAll d (foundIndices keys p.cachetable) p.drawentries } := by
  induction keys generalizing p with
  | nil => simp [applyKeys, foundIndices, addSkipAll]
  | cons k rest ih =>
    have hstep : applyKeys (k :: rest) d p = applyKeys rest d (applyKey k d p) := rfl
    rw [hstep, ih, applyKey_eq]
    simp [foundIndices, List.flatMap_cons, addSkipAll_append]

/-! ## The state after setScene -/

theorem setScene_eq (caches : VertexCacheMap) (p : SoFCRendererP) :
    setScene caches p =
      { caches.foldl setSceneGroup (setSceneReset p) with
        drawentries :=
          addSkipAll 1
            (foundIndices p.highlightkeys (caches.foldl setSceneGroup (setSceneReset p)).cachetable)
            (caches.foldl setSceneGroup (setSceneReset p)).drawentries
        selectionkeys := []
        updateselection := true } := by
  have hk : (caches.foldl setSceneGroup (setSceneReset p)).highlightkeys = p.highlightkeys := by
    rw [setSceneLoop_highlightkeys]; rfl
  unfold setScene
  simp only [applyKeys_eq, hk]

theorem setScene_units (caches : VertexCacheMap) (p : SoFCRendererP) :
    (setScene caches p).drawentries.map DrawEntry.unit = acceptedUnits caches := by
  rw [setScene_eq]
  simp only [addSkipAll_units, setSceneLoop_units]
  simp [setSceneReset]

theorem getElem?_of_units_eq (es1 es2 : List DrawEntry)
    (h : es1.map DrawEntry.unit = es2.map DrawEntry.unit) (i : Nat) (e2 : DrawEntry)
    (h2 : es2[i]? = some e2) : ∃ e1, es1[i]? = some e1 ∧ e1.unit = e2.unit := by
  have h3 : (es1.map DrawEntry.unit)[i]? = some e2.unit := by
    rw [h, List.getElem?_map, h2]; rfl
  rw [List.getElem?_map] at h3
  cases h4 : es1[i]? with
  | none => rw [h4] at h3; cases h3
  | some e1 =>
    rw [h4] at h3
    exact ⟨e1, rfl, by simpa using h3⟩

theorem setScene_inv (caches : VertexCacheMap) (p : SoFCRendererP) :
    SceneInv (setScene caches p) := by
  have inv := setSceneLoop_inv caches _ (setSceneReset_inv p)
  have hu : (setScene caches p).drawentries.map DrawEntry.unit =
      (caches.foldl setSceneGroup (setSceneReset p)).drawentries.map DrawEntry.unit := by
    rw [setScene_eq]; simp only [addSkipAll_units]
  have hlen : (setScene caches p).drawentries.length =
      (caches.foldl setSceneGroup (setSceneReset p)).drawentries.length := by
    have := congrArg List.length hu
    simpa using this
  constructor
  · rw [hu, ← inv.opaquevcache, setScene_eq]
  · rw [hu, ← inv.opaqueontop, setScene_eq]
  · rw [hu, ← inv.linesontop, setScene_eq]
  · rw [hu, ← inv.trianglesontop, setScene_eq]
  · rw [hu, ← inv.transpvcache, setScene_eq]
  · rw [hu, ← inv.transpontop, setScene_eq]
  · intro kl hkl i hi
    have hkl2 : kl ∈ (caches.foldl setSceneGroup (setSceneReset p)).cachetable := by
      rw [setScene_eq] at hkl; exact hkl
    obtain ⟨e2, he2, hc⟩ := inv.tableMem kl hkl2 i hi
    obtain ⟨e1, he1, hunit⟩ := getElem?_of_units_eq _ _ hu i e2 he2
    refine ⟨e1, he1, ?_⟩
    have hv : e1.ventry = e2.ventry := congrArg Prod.snd hunit
    rw [hv]; exact hc
  · intro i
    rw [hlen, ← inv.tableCount i, setScene_eq]
  · have := inv.tableSorted
    rw [setScene_eq]; exact this

theorem mem_indicesWhere_of_getElem? {α : Type} (P : α → Bool) (us : List α) (i : Nat) (u : α)
    (h : us[i]? = some u) : i ∈ indicesWhere P us ↔ P u = true := by
  rw [mem_indicesWhere]
  constructor
  · rintro ⟨u2, h2, hp⟩
    rw [h] at h2
    cases h2
    exact hp
  · intro hp
    exact ⟨u, h, hp⟩

theorem count_indicesWhere_of_getElem? {α : Type} (P : α → Bool) (us : List α) (i : Nat)
    (u : α) (h : us[i]? = some u) : (indicesWhere P us).count i = if P u = true then 1 else 0 := by
  rw [count_indicesWhere]
  simp only [mem_indicesWhere_of_getElem? P us i u h]

theorem fullTransp_iff (m : Material) :
    fullTransp m = true ↔
      (m.transptexture = true ∨ (m.pervertexcolor = false ∧ m.diffuse &&& 0xff ≠ 0xff)) := by
  unfold fullTransp
  rcases Bool.eq_false_or_eq_true m.transptexture with h1 | h1 <;>
  rcases Bool.eq_false_or_eq_true m.pervertexcolor with h2 | h2 <;>
  by_cases h3 : m.diffuse &&& 0xff = 0xff <;>
  simp [h1, h2, h3]

/-! ## Lookups in the cache index -/

theorem cachetableFind_some_mem (key : CacheKeyPtr) (t : List (CacheKeyPtr × List Nat))
    (l : List Nat) (h : cachetableFind key t = some l) :
    ∃ k, (k, l) ∈ t ∧ keyContent k = keyContent key := by
  induction t with
  | nil => simp [cachetableFind] at h
  | cons kl rest ih =>
    obtain ⟨k, l0⟩ := kl
    rcases Bool.eq_false_or_eq_true (CacheKeyCompare key k) with h1 | h1
    · simp [cachetableFind, h1] at h
    · rcases Bool.eq_false_or_eq_true (CacheKeyCompare k key) with h2 | h2
      · simp only [cachetableFind, h1, h2, Bool.false_eq_true, if_true, if_false] at h
        obtain ⟨k2, hk2, hc⟩ := ih h
        exact ⟨k2, List.mem_cons_of_mem _ hk2, hc⟩
      · simp only [cachetableFind, h1, h2, Bool.false_eq_true, if_false, Option.some.injEq] at h
        rw [← h]
        exact ⟨k, List.mem_cons_self _ _, keyContent_eq_of_unordered _ _ h2 h1⟩

theorem cachetableFind_of_mem (key : CacheKeyPtr) (t : List (CacheKeyPtr × List Nat))
    (hs : keysSorted (t.map Prod.fst)) (k : CacheKeyPtr) (l : List Nat) (hkl : (k, l) ∈ t)
    (hc : keyContent k = keyContent key) : cachetableFind key t = some l := by
  induction t with
  | nil => cases hkl
  | cons kl0 rest ih =>
    obtain ⟨k0, l0⟩ := kl0
    unfold keysSorted at hs ih
    simp only [List.map_cons, List.pairwise_cons] at hs
    rcases List.mem_cons.mp hkl with hkl | hkl
    · cases hkl
      have h1 : CacheKeyCompare key k = false := by
        rw [CacheKeyCompare_congr_right k key key hc, CacheKeyCompare_irrefl]
      have h2 : CacheKeyCompare k key = false := by
        rw [CacheKeyCompare_congr_left k key key hc, CacheKeyCompare_irrefl]
      simp [cachetableFind, h1, h2]
    · have hlt : CacheKeyCompare k0 k = true :=
        hs.1 k (List.mem_map.mpr ⟨(k, l), hkl, rfl⟩)
      have h2 : CacheKeyCompare k0 key = true := by
        rw [← CacheKeyCompare_congr_right k key k0 hc]; exact hlt
      have h1 : CacheKeyCompare key k0 = false := CacheKeyCompare_asymm _ _ h2
      simp only [cachetableFind, h1, h2, Bool.false_eq_true, if_true, if_false]
      exact ih hs.2 hkl

theorem cachetableCount_pos (i : Nat) (t : List (CacheKeyPtr × List Nat))
    (h : 0 < cachetableCount i t) : ∃ kl ∈ t, i ∈ kl.2 := by
  induction t with
  | nil => simp [cachetableCount] at h
  | cons kl rest ih =>
    unfold cachetableCount at h ih
    simp only [List.map_cons, List.sum_cons] at h
    by_cases h1 : 0 < kl.2.count i
    · exact ⟨kl, List.mem_cons_self _ _, List.count_pos_iff.mp h1⟩
    · obtain ⟨kl2, hm, hi⟩ := ih (by omega)
      exact ⟨kl2, List.mem_cons_of_mem _ hm, hi⟩

theorem count_le_cachetableCount (i : Nat) (t : List (CacheKeyPtr × List Nat))
    (kl : CacheKeyPtr × List Nat) (h : kl ∈ t) : kl.2.count i ≤ cachetableCount i t := by
  induction t with
  | nil => cases h
  | cons kl0 rest ih =>
    unfold cachetableCount at ih ⊢
    simp only [List.map_cons, List.sum_cons]
    rcases List.mem_cons.mp h with h | h
    · rw [h]; omega
    · have := ih h
      omega

/-! ## Bucket membership after setScene -/

theorem units_getElem? (es : List DrawEntry) (i : Nat) (e : DrawEntry) (h : es[i]? = some e) :
    (es.map DrawEntry.unit)[i]? = some (e.material, e.ventry) := by
  rw [List.getElem?_map, h]; rfl

/-- C1: after `setScene`, the index of a draw unit of `drawentries` is in an
opaque bucket (`opaquevcache`, `opaqueontop` or `linesontop`) if and only if
the unit is not fully transparent (transparent texture, or no per-vertex
colour and diffuse alpha byte other than `0xff`) and its material is not
per-vertex-coloured or its batch has opaque parts; and the index occurs at
most once over the three buckets. -/
theorem setScene_opaque_bucket (caches : VertexCacheMap) (p : SoFCRendererP) (i : Nat)
    (e : DrawEntry) (h : (setScene caches p).drawentries[i]? = some e) :
    ((i ∈ (setScene caches p).opaquevcache ∨ i ∈ (setScene caches p).opaqueontop
        ∨ i ∈ (setScene caches p).linesontop) ↔
      (¬ (e.material.transptexture = true
            ∨ (e.material.pervertexcolor = false ∧ e.material.diffuse &&& 0xff ≠ 0xff))
        ∧ (e.material.pervertexcolor = false ∨ e.ventry.cache.hasOpaqueParts = true))) ∧
    (setScene caches p).opaquevcache.count i + (setScene caches p).opaqueontop.count i
      + (setScene caches p).linesontop.count i ≤ 1 := by
  have inv := setScene_inv caches p
  have hu := units_getElem? _ i e h
  rw [inv.opaquevcache, inv.opaqueontop, inv.linesontop]
  simp only [mem_indicesWhere_of_getElem? _ _ i _ hu, count_indicesWhere_of_getElem? _ _ i _ hu]
  rw [← fullTransp_iff]
  rcases Bool.eq_false_or_eq_true (fullTransp e.material) with h1 | h1 <;>
  rcases Bool.eq_false_or_eq_true e.material.ontop with h2 | h2 <;>
  rcases Bool.eq_false_or_eq_true e.material.pervertexcolor with h3 | h3 <;>
  rcases Bool.eq_false_or_eq_true e.ventry.cache.hasOpaqueParts with h4 | h4 <;>
  by_cases h5 : e.material.type = MaterialType.Triangle <;>
  simp [opaqueUnit, Material.isOnTop, h1, h2, h3, h4, h5]

/-- The unit at index 0 of the example scene is opaque and sits in `opaquevcache` once. -/
theorem setScene_opaque_bucket_witness :
    (setScene exampleScene {}).drawentries[0]? =
        some (DrawEntry.create opaqueTriangles exampleBatchA) ∧
    ((0 ∈ (setScene exampleScene {}).opaquevcache ∨ 0 ∈ (setScene exampleScene {}).opaqueontop
        ∨ 0 ∈ (setScene exampleScene {}).linesontop) ↔
      (¬ ((DrawEntry.create opaqueTriangles exampleBatchA).material.transptexture = true
            ∨ ((DrawEntry.create opaqueTriangles exampleBatchA).material.pervertexcolor = false
                ∧ (DrawEntry.create opaqueTriangles exampleBatchA).material.diffuse &&& 0xff
                    ≠ 0xff))
        ∧ ((DrawEntry.create opaqueTriangles exampleBatchA).material.pervertexcolor = false
            ∨ (DrawEntry.create opaqueTriangles exampleBatchA).ventry.cache.hasOpaqueParts
                = true))) ∧
    (setScene exampleScene {}).opaquevcache.count 0 + (setScene exampleScene {}).opaqueontop.count 0
      + (setScene exampleScene {}).linesontop.count 0 ≤ 1 :=
  ⟨by decide, setScene_opaque_bucket exampleScene {} 0 _ (by decide)⟩

/-- C2: after `setScene`, the index of a draw unit of `drawentries` is in a
transparent bucket (`transpvcache` or `transpontop`) if and only if the unit
is fully transparent or its material is per-vertex-coloured and its batch has
transparent parts; and the index occurs at most once over the two buckets. -/
theorem setScene_transparent_bucket (caches : VertexCacheMap) (p : SoFCRendererP) (i : Nat)
    (e : DrawEntry) (h : (setScene caches p).drawentries[i]? = some e) :
    ((i ∈ (setScene caches p).transpvcache.map DrawEntryIndex.idx
        ∨ i ∈ (setScene caches p).transpontop.map DrawEntryIndex.idx) ↔
      ((e.material.transptexture = true
            ∨ (e.material.pervertexcolor = false ∧ e.material.diffuse &&& 0xff ≠ 0xff))
        ∨ (e.material.pervertexcolor = true ∧ e.ventry.cache.hasTransparency = true))) ∧
    ((setScene caches p).transpvcache.map DrawEntryIndex.idx).count i
      + ((setScene caches p).transpontop.map DrawEntryIndex.idx).count i ≤ 1 := by
  have inv := setScene_inv caches p
  have hu := units_getElem? _ i e h
  rw [inv.transpvcache, inv.transpontop]
  simp only [mem_indicesWhere_of_getElem? _ _ i _ hu, count_indicesWhere_of_getElem? _ _ i _ hu]
  rw [← fullTransp_iff]
  rcases Bool.eq_false_or_eq_true (fullTransp e.material) with h1 | h1 <;>
  rcases Bool.eq_false_or_eq_true e.material.ontop with h2 | h2 <;>
  rcases Bool.eq_false_or_eq_true e.material.pervertexcolor with h3 | h3 <;>
  rcases Bool.eq_false_or_eq_true e.ventry.cache.hasTransparency with h4 | h4 <;>
  simp [transpUnit, Material.isOnTop, h1, h2, h3, h4]

/-- The unit at index 1 of the example scene is transparent and sits in `transpvcache` once. -/
theorem setScene_transparent_bucket_witness :
    (setScene exampleScene {}).drawentries[1]? =
        some (DrawEntry.create transparentLines exampleBatchB) ∧
    (1 ∈ (setScene exampleScene {}).transpvcache.map DrawEntryIndex.idx
        ∨ 1 ∈ (setScene exampleScene {}).transpontop.map DrawEntryIndex.idx) ∧
    ((setScene exampleScene {}).transpvcache.map DrawEntryIndex.idx).count 1
      + ((setScene exampleScene {}).transpontop.map DrawEntryIndex.idx).count 1 ≤ 1 :=
  ⟨by decide,
   (setScene_transparent_bucket exampleScene {} 1
     (DrawEntry.create transparentLines exampleBatchB) (by decide)).1.mpr
     (Or.inl (Or.inr ⟨by decide, by decide⟩)),
   (setScene_transparent_bucket exampleScene {} 1
     (DrawEntry.create transparentLines exampleBatchB) (by decide)).2⟩

theorem setScene_accepted_index (caches : VertexCacheMap) (p : SoFCRendererP) (m : Material)
    (vs : List VertexCacheEntry) (v : VertexCacheEntry) (hg : (m, vs) ∈ caches) (hv : v ∈ vs)
    (hvis : m.drawstyle ≠ DrawStyle.INVISIBLE) (hbox : v.bbox.isEmpty = false) :
    ∃ (i : Nat) (e : DrawEntry),
      (setScene caches p).drawentries[i]? = some e ∧ e.material = m ∧ e.ventry = v := by
  have hmem : (m, v) ∈ acceptedUnits caches := by
    unfold acceptedUnits
    rw [List.mem_flatMap]
    refine ⟨(m, vs), hg, ?_⟩
    simp only [hvis, if_false, List.mem_map, List.mem_filter]
    exact ⟨v, ⟨hv, by simp [hbox]⟩, rfl⟩
  rw [← setScene_units caches p] at hmem
  obtain ⟨i, hi⟩ := List.mem_iff_getElem?.mp hmem
  rw [List.getElem?_map] at hi
  cases he : (setScene caches p).drawentries[i]? with
  | none => rw [he] at hi; cases hi
  | some e =>
    rw [he] at hi
    have hunit : e.unit = (m, v) := by simpa using hi
    exact ⟨i, e, he, congrArg Prod.fst hunit, congrArg Prod.snd hunit⟩

/-- C3, as the code has it: a visible batch with a non-empty box whose
material is per-vertex-coloured and declares no transparent texture, and
whose cache reports opaque parts and transparent parts, has a draw unit after
`setScene`, and every draw unit of this material and batch is in an opaque
bucket and in a transparent bucket. -/
theorem setScene_mixed_in_both (caches : VertexCacheMap) (p : SoFCRendererP) (m : Material)
    (vs : List VertexCacheEntry) (v : VertexCacheEntry) (hg : (m, vs) ∈ caches) (hv : v ∈ vs)
    (hvis : m.drawstyle ≠ DrawStyle.INVISIBLE) (hbox : v.bbox.isEmpty = false)
    (hpv : m.pervertexcolor = true) (htex : m.transptexture = false)
    (hop : v.cache.hasOpaqueParts = true) (htr : v.cache.hasTransparency = true) :
    (∃ (i : Nat) (e : DrawEntry),
      (setScene caches p).drawentries[i]? = some e ∧ e.material = m ∧ e.ventry = v) ∧
    ∀ (i : Nat) (e : DrawEntry),
      (setScene caches p).drawentries[i]? = some e → e.material = m → e.ventry = v →
      (i ∈ (setScene caches p).opaquevcache ∨ i ∈ (setScene caches p).opaqueontop
        ∨ i ∈ (setScene caches p).linesontop) ∧
      (i ∈ (setScene caches p).transpvcache.map DrawEntryIndex.idx
        ∨ i ∈ (setScene caches p).transpontop.map DrawEntryIndex.idx) := by
  refine ⟨setScene_accepted_index caches p m vs v hg hv hvis hbox, ?_⟩
  intro i e h hm hve
  have inv := setScene_inv caches p
  have hu := units_getElem? _ i e h
  rw [hm, hve] at hu
  rw [inv.opaquevcache, inv.opaqueontop, inv.linesontop, inv.transpvcache, inv.transpontop]
  simp only [mem_indicesWhere_of_getElem? _ _ i _ hu]
  have hft : fullTransp m = false := by simp [fullTransp, htex, hpv]
  rcases Bool.eq_false_or_eq_true m.ontop with h2 | h2 <;>
  by_cases h5 : m.type = MaterialType.Triangle <;>
  simp [opaqueUnit, transpUnit, Material.isOnTop, hft, hpv, hop, htr, h2, h5]

/-- A mixed per-vertex-coloured batch without transparent texture lands in both kinds of bucket. -/
theorem setScene_mixed_in_both_witness :
    (∃ (i : Nat) (e : DrawEntry),
      (setScene [(vertexColors, [mixedBatch])] {}).drawentries[i]? = some e
      ∧ e.material = vertexColors ∧ e.ventry = mixedBatch) ∧
    ∀ (i : Nat) (e : DrawEntry),
      (setScene [(vertexColors, [mixedBatch])] {}).drawentries[i]? = some e →
      e.material = vertexColors → e.ventry = mixedBatch →
      (i ∈ (setScene [(vertexColors, [mixedBatch])] {}).opaquevcache
        ∨ i ∈ (setScene [(vertexColors, [mixedBatch])] {}).opaqueontop
        ∨ i ∈ (setScene [(vertexColors, [mixedBatch])] {}).linesontop) ∧
      (i ∈ (setScene [(vertexColors, [mixedBatch])] {}).transpvcache.map DrawEntryIndex.idx
        ∨ i ∈ (setScene [(vertexColors, [mixedBatch])] {}).transpontop.map
            DrawEntryIndex.idx) :=
  setScene_mixed_in_both [(vertexColors, [mixedBatch])] {} vertexColors [mixedBatch] mixedBatch
    (by decide) (by decide) (by decide) (by decide) (by decide) (by decide) (by decide)
    (by decide)

/-- C3 fails as stated: a visible, non-empty, per-vertex-coloured batch with
opaque and transparent parts whose material declares a transparent texture is
accepted by `setScene` and is in no opaque bucket. -/
theorem setScene_textured_mixed_not_opaque :
    texturedVertexColors.drawstyle ≠ DrawStyle.INVISIBLE ∧
    mixedBatch.bbox.isEmpty = false ∧
    texturedVertexColors.pervertexcolor = true ∧
    mixedBatch.cache.hasOpaqueParts = true ∧ mixedBatch.cache.hasTransparency = true ∧
    (setScene [(texturedVertexColors, [mixedBatch])] {}).drawentries =
      [DrawEntry.create texturedVertexColors mixedBatch] ∧
    (setScene [(texturedVertexColors, [mixedBatch])] {}).opaquevcache = [] ∧
    (setScene [(texturedVertexColors, [mixedBatch])] {}).opaqueontop = [] ∧
    (setScene [(texturedVertexColors, [mixedBatch])] {}).linesontop = [] := by
  decide

/-- C4, as the code has it: a visible batch with a non-empty box whose
material is not per-vertex-coloured, has diffuse alpha byte `0xff` and
declares no transparent texture has a draw unit after `setScene`, and every
draw unit of this material and batch is in an opaque bucket and in neither
`transpvcache` nor `transpontop`. -/
theorem setScene_opaque_only (caches : VertexCacheMap) (p : SoFCRendererP) (m : Material)
    (vs : List VertexCacheEntry) (v : VertexCacheEntry) (hg : (m, vs) ∈ caches) (hv : v ∈ vs)
    (hvis : m.drawstyle ≠ DrawStyle.INVISIBLE) (hbox : v.bbox.isEmpty = false)
    (hpv : m.pervertexcolor = false) (halpha : m.diffuse &&& 0xff = 0xff)
    (htex : m.transptexture = false) :
    (∃ (i : Nat) (e : DrawEntry),
      (setScene caches p).drawentries[i]? = some e ∧ e.material = m ∧ e.ventry = v) ∧
    ∀ (i : Nat) (e : DrawEntry),
      (setScene caches p).drawentries[i]? = some e → e.material = m → e.ventry = v →
      (i ∈ (setScene caches p).opaquevcache ∨ i ∈ (setScene caches p).opaqueontop
        ∨ i ∈ (setScene caches p).linesontop) ∧
      i ∉ (setScene caches p).transpvcache.map DrawEntryIndex.idx ∧
      i ∉ (setScene caches p).transpontop.map DrawEntryIndex.idx := by
  refine ⟨setScene_accepted_index caches p m vs v hg hv hvis hbox, ?_⟩
  intro i e h hm hve
  have inv := setScene_inv caches p
  have hu := units_getElem? _ i e h
  rw [hm, hve] at hu
  rw [inv.opaquevcache, inv.opaqueontop, inv.linesontop, inv.transpvcache, inv.transpontop]
  simp only [mem_indicesWhere_of_getElem? _ _ i _ hu]
  have hft : fullTransp m = false := by simp [fullTransp, htex, hpv, halpha]
  rcases Bool.eq_false_or_eq_true m.ontop with h2 | h2 <;>
  by_cases h5 : m.type = MaterialType.Triangle <;>
  simp [opaqueUnit, transpUnit, Material.isOnTop, hft, hpv, h2, h5]

/-- The opaque triangle batch of the example scene is in an opaque bucket only. -/
theorem setScene_opaque_only_witness :
    (∃ (i : Nat) (e : DrawEntry), (setScene exampleScene {}).drawentries[i]? = some e
      ∧ e.material = opaqueTriangles ∧ e.ventry = exampleBatchA) ∧
    ∀ (i : Nat) (e : DrawEntry), (setScene exampleScene {}).drawentries[i]? = some e →
      e.material = opaqueTriangles → e.ventry = exampleBatchA →
      (i ∈ (setScene exampleScene {}).opaquevcache
        ∨ i ∈ (setScene exampleScene {}).opaqueontop
        ∨ i ∈ (setScene exampleScene {}).linesontop) ∧
      i ∉ (setScene exampleScene {}).transpvcache.map DrawEntryIndex.idx ∧
      i ∉ (setScene exampleScene {}).transpontop.map DrawEntryIndex.idx :=
  setScene_opaque_only exampleScene {} opaqueTriangles [exampleBatchA] exampleBatchA
    (by decide) (by decide) (by decide) (by decide) (by decide) (by decide) (by decide)

/-- C4 fails as stated: a visible, non-empty batch whose material is not
per-vertex-coloured and has diffuse alpha byte `0xff`, but declares a
transparent texture, is accepted by `setScene`, is in no opaque bucket and is
in `transpvcache`. -/
theorem setScene_textured_opaque_color_transparent :
    texturedOpaqueColor.drawstyle ≠ DrawStyle.INVISIBLE ∧
    exampleBatchA.bbox.isEmpty = false ∧
    texturedOpaqueColor.pervertexcolor = false ∧
    texturedOpaqueColor.diffuse &&& 0xff = 0xff ∧
    (setScene [(texturedOpaqueColor, [exampleBatchA])] {}).drawentries =
      [DrawEntry.create texturedOpaqueColor exampleBatchA] ∧
    (setScene [(texturedOpaqueColor, [exampleBatchA])] {}).opaquevcache = [] ∧
    (setScene [(texturedOpaqueColor, [exampleBatchA])] {}).opaqueontop = [] ∧
    (setScene [(texturedOpaqueColor, [exampleBatchA])] {}).linesontop = [] ∧
    (setScene [(texturedOpaqueColor, [exampleBatchA])] {}).transpvcache.map DrawEntryIndex.idx
      = [0] := by
  decide

/-- C5: after `setScene`, a unit whose material is on-top is in neither
`opaquevcache` nor `transpvcache`; a unit whose material is not on-top is in
none of `opaqueontop`, `transpontop`, `linesontop`, `trianglesontop`; and an
on-top unit that passes the opaque test is in `opaqueontop` exactly when its
primitive kind is Triangle and in `linesontop` exactly when it is Line or Point. -/
theorem setScene_ontop_routing (caches : VertexCacheMap) (p : SoFCRendererP) (i : Nat)
    (e : DrawEntry) (h : (setScene caches p).drawentries[i]? = some e) :
    (e.material.isOnTop = true →
      i ∉ (setScene caches p).opaquevcache ∧
      i ∉ (setScene caches p).transpvcache.map DrawEntryIndex.idx) ∧
    (e.material.isOnTop = false →
      i ∉ (setScene caches p).opaqueontop ∧
      i ∉ (setScene caches p).transpontop.map DrawEntryIndex.idx ∧
      i ∉ (setScene caches p).linesontop ∧
      i ∉ (setScene caches p).trianglesontop) ∧
    (e.material.isOnTop = true →
      ¬ (e.material.transptexture = true
          ∨ (e.material.pervertexcolor = false ∧ e.material.diffuse &&& 0xff ≠ 0xff)) →
      (e.material.pervertexcolor = false ∨ e.ventry.cache.hasOpaqueParts = true) →
      (i ∈ (setScene caches p).opaqueontop ↔ e.material.type = MaterialType.Triangle) ∧
      (i ∈ (setScene caches p).linesontop ↔
        (e.material.type = MaterialType.Line ∨ e.material.type = MaterialType.Point))) := by
  have inv := setScene_inv caches p
  have hu := units_getElem? _ i e h
  rw [inv.opaquevcache, inv.opaqueontop, inv.linesontop, inv.trianglesontop, inv.transpvcache,
    inv.transpontop]
  simp only [mem_indicesWhere_of_getElem? _ _ i _ hu]
  rw [← fullTransp_iff]
  rcases Bool.eq_false_or_eq_true (fullTransp e.material) with h1 | h1 <;>
  rcases Bool.eq_false_or_eq_true e.material.ontop with h2 | h2 <;>
  rcases Bool.eq_false_or_eq_true e.material.pervertexcolor with h3 | h3 <;>
  rcases Bool.eq_false_or_eq_true e.ventry.cache.hasOpaqueParts with h4 | h4 <;>
  cases h5 : e.material.type <;>
  simp [opaqueUnit, transpUnit, Material.isOnTop, h1, h2, h3, h4, h5]

/-- An opaque on-top line unit is routed to `linesontop` and to no normal bucket. -/
theorem setScene_ontop_routing_witness :
    (setScene [(ontopLines, [exampleBatchA])] {}).drawentries[0]? =
      some (DrawEntry.create ontopLines exampleBatchA) ∧
    0 ∉ (setScene [(ontopLines, [exampleBatchA])] {}).opaquevcache ∧
    0 ∉ (setScene [(ontopLines, [exampleBatchA])] {}).transpvcache.map DrawEntryIndex.idx ∧
    0 ∈ (setScene [(ontopLines, [exampleBatchA])] {}).linesontop :=
  ⟨by decide,
   ((setScene_ontop_routing [(ontopLines, [exampleBatchA])] {} 0
      (DrawEntry.create ontopLines exampleBatchA) (by decide)).1 (by decide)).1,
   ((setScene_ontop_routing [(ontopLines, [exampleBatchA])] {} 0
      (DrawEntry.create ontopLines exampleBatchA) (by decide)).1 (by decide)).2,
   ((setScene_ontop_routing [(ontopLines, [exampleBatchA])] {} 0
      (DrawEntry.create ontopLines exampleBatchA) (by decide)).2.2 (by decide) (by decide)
      (by decide)).2.mpr (Or.inl (by decide))⟩

/-- C6: after `setScene`, the index of every draw unit of `drawentries` is
stored exactly once in the cache index; the lookup of the key of its batch
finds a list that holds it, stored under a key of the same content; and every
list of the cache index that holds the index is stored under a key with the
content of the key of that unit. -/
theorem setScene_cache_index (caches : VertexCacheMap) (p : SoFCRendererP) (i : Nat)
    (e : DrawEntry) (h : (setScene caches p).drawentries[i]? = some e) :
    cachetableCount i (setScene caches p).cachetable = 1 ∧
    (∃ l, cachetableFind e.ventry.key (setScene caches p).cachetable = some l ∧ i ∈ l) ∧
    (∃ k l, (k, l) ∈ (setScene caches p).cachetable ∧
      keyContent k = keyContent e.ventry.key ∧ i ∈ l) ∧
    (∀ k l, (k, l) ∈ (setScene caches p).cachetable → i ∈ l →
      keyContent k = keyContent e.ventry.key) := by
  have inv := setScene_inv caches p
  have hlt : i < (setScene caches p).drawentries.length := by
    by_contra hc
    rw [List.getElem?_eq_none (by omega)] at h
    cases h
  have hcount : cachetableCount i (setScene caches p).cachetable = 1 := by
    rw [inv.tableCount]; simp [hlt]
  have hkey : ∀ k l, (k, l) ∈ (setScene caches p).cachetable → i ∈ l →
      keyContent k = keyContent e.ventry.key := by
    intro k l hkl hi
    obtain ⟨e2, he2, hc⟩ := inv.tableMem (k, l) hkl i hi
    rw [h] at he2
    cases he2
    exact hc.symm
  obtain ⟨kl, hkl, hi⟩ :=
    cachetableCount_pos i (setScene caches p).cachetable (by rw [hcount]; exact Nat.one_pos)
  have hc := hkey kl.1 kl.2 hkl hi
  exact ⟨hcount,
    ⟨kl.2, cachetableFind_of_mem _ _ inv.tableSorted kl.1 kl.2 hkl hc, hi⟩,
    ⟨kl.1, kl.2, hkl, hc, hi⟩, hkey⟩

/-- The line unit of the example scene is indexed once, under its own key. -/
theorem setScene_cache_index_witness :
    (setScene exampleScene {}).drawentries[1]? =
      some (DrawEntry.create transparentLines exampleBatchB) ∧
    cachetableCount 1 (setScene exampleScene {}).cachetable = 1 ∧
    (setScene exampleScene {}).cachetable = [(exampleKeyA, [0]), (exampleKeyB, [1])] :=
  ⟨by decide,
   (setScene_cache_index exampleScene {} 1 (DrawEntry.create transparentLines exampleBatchB)
     (by decide)).1,
   by decide⟩

/-! ## Highlight keys and suppression -/

theorem clearHighlight_fields (p : SoFCRendererP) :
    (clearHighlight p).drawentries =
      addSkipAll (-1) (foundIndices p.highlightkeys p.cachetable) p.drawentries ∧
    (clearHighlight p).cachetable = p.cachetable ∧
    (clearHighlight p).highlightkeys = [] := by
  simp [clearHighlight, applyKeys_eq]

theorem setHighlightEntry_drawentries (m : Material) (ft : Bool) (q : SoFCRendererP)
    (v : VertexCacheEntry) : (setHighlightEntry m ft q v).drawentries = q.drawentries := by
  unfold setHighlightEntry
  simp only [apply_ite SoFCRendererP.drawentries, ite_self]

theorem setHighlightEntry_cachetable (m : Material) (ft : Bool) (q : SoFCRendererP)
    (v : VertexCacheEntry) : (setHighlightEntry m ft q v).cachetable = q.cachetable := by
  unfold setHighlightEntry
  simp only [apply_ite SoFCRendererP.cachetable, ite_self]

theorem setHighlightEntry_highlightkeys (m : Material) (ft : Bool) (q : SoFCRendererP)
    (v : VertexCacheEntry) :
    (setHighlightEntry m ft q v).highlightkeys =
      (if !v.bbox.isEmpty && (m.isOnTop && (m.partialhighlight
            || (decide (v.partidx < 0) && v.cache.isWholeCache)))
        then (keySetInsert v.key q.highlightkeys).1 else q.highlightkeys) := by
  unfold setHighlightEntry
  simp only [apply_ite SoFCRendererP.highlightkeys, ite_self, pushDrawEntry_eq]
  rcases Bool.eq_false_or_eq_true v.bbox.isEmpty with h0 | h0
  · simp [h0]
  · simp [h0]

theorem setHighlightGroup_base (q : SoFCRendererP) (g : Material × List VertexCacheEntry) :
    (setHighlightGroup q g).drawentries = q.drawentries ∧
    (setHighlightGroup q g).cachetable = q.cachetable := by
  unfold setHighlightGroup
  split
  · exact ⟨rfl, rfl⟩
  · split
    · exact ⟨rfl, rfl⟩
    · generalize g.2 = vs
      induction vs generalizing q with
      | nil => exact ⟨rfl, rfl⟩
      | cons v rest ih =>
        rw [List.foldl_cons]
        obtain ⟨h1, h2⟩ := ih (setHighlightEntry g.1 (fullTransp g.1) q v)
        have h3 := setHighlightEntry_drawentries g.1 (fullTransp g.1) q v
        have h4 := setHighlightEntry_cachetable g.1 (fullTransp g.1) q v
        exact ⟨h1.trans h3, h2.trans h4⟩

theorem setHighlightLoop_base (caches : VertexCacheMap) (q : SoFCRendererP) :
    (caches.foldl setHighlightGroup q).drawentries = q.drawentries ∧
    (caches.foldl setHighlightGroup q).cachetable = q.cachetable := by
  induction caches generalizing q with
  | nil => exact ⟨rfl, rfl⟩
  | cons g rest ih =>
    rw [List.foldl_cons]
    obtain ⟨h1, h2⟩ := ih (setHighlightGroup q g)
    obtain ⟨h3, h4⟩ := setHighlightGroup_base q g
    exact ⟨h1.trans h3, h2.trans h4⟩

theorem setHighlight_fields (caches : VertexCacheMap) (wholeontop : Bool) (p : SoFCRendererP) :
    (setHighlight caches wholeontop p).cachetable = p.cachetable ∧
    (setHighlight caches wholeontop p).highlightkeys =
      (caches.foldl setHighlightGroup
        { clearHighlight p with highlightcaches := caches, hlwholeontop := wholeontop }
        ).highlightkeys ∧
    (setHighlight caches wholeontop p).drawentries =
      addSkipAll 1
        (foundIndices (setHighlight caches wholeontop p).highlightkeys p.cachetable)
        (clearHighlight p).drawentries := by
  obtain ⟨h1, h2⟩ := setHighlightLoop_base caches
    { clearHighlight p with highlightcaches := caches, hlwholeontop := wholeontop }
  have h3 := (clearHighlight_fields p).2.1
  unfold setHighlight
  simp only [applyKeys_eq]
  refine ⟨h2.trans h3, trivial, ?_⟩
  show addSkipAll 1 _ _ = addSkipAll 1 _ _
  rw [h1, h2]
  show addSkipAll 1 (foundIndices _ (clearHighlight p).cachetable) _ = _
  rw [h3]

theorem clearHighlight_of_suppressedBy (base q : SoFCRendererP) (h : SuppressedBy base q) :
    (clearHighlight q).drawentries = base.drawentries ∧
    (clearHighlight q).cachetable = base.cachetable ∧
    (clearHighlight q).highlightkeys = [] := by
  obtain ⟨h1, h2, h3⟩ := clearHighlight_fields q
  refine ⟨?_, h2.trans h.1, h3⟩
  rw [h1, h.1]
  have h4 := h.2
  rw [h4]
  have := addSkipAll_cancel 1 (foundIndices q.highlightkeys base.cachetable) base.drawentries
  exact this

theorem setHighlight_suppressedBy (base q : SoFCRendererP) (caches : VertexCacheMap)
    (wholeontop : Bool) (h : SuppressedBy base q) :
    SuppressedBy base (setHighlight caches wholeontop q) := by
  obtain ⟨h1, _, h3⟩ := setHighlight_fields caches wholeontop q
  obtain ⟨h4, _, _⟩ := clearHighlight_of_suppressedBy base q h
  refine ⟨h1.trans h.1, ?_⟩
  rw [h3, h4, h.1]

theorem suppressedBy_self (p : SoFCRendererP) (h : p.highlightkeys = []) :
    SuppressedBy p p := by
  refine ⟨rfl, ?_⟩
  rw [h]
  rfl

theorem setHighlights_suppressedBy (base q : SoFCRendererP)
    (calls : List (VertexCacheMap × Bool)) (h : SuppressedBy base q) :
    SuppressedBy base (calls.foldl (fun r c => setHighlight c.1 c.2 r) q) := by
  induction calls generalizing q with
  | nil => exact h
  | cons c rest ih =>
    rw [List.foldl_cons]
    exact ih _ (setHighlight_suppressedBy base q c.1 c.2 h)

/-- C9: suppression balance.  From a state with no highlight keys, any
sequence of `setHighlight` calls followed by one `clearHighlight` leaves the
base draw list, and so the suppress count of every base draw unit, exactly as
it was before the sequence. -/
theorem highlight_suppression_balance (p : SoFCRendererP)
    (calls : List (VertexCacheMap × Bool)) (h : p.highlightkeys = []) :
    (clearHighlight (calls.foldl (fun r c => setHighlight c.1 c.2 r) p)).drawentries =
      p.drawentries :=
  (clearHighlight_of_suppressedBy p _
    (setHighlights_suppressedBy p p calls (suppressedBy_self p h))).1

/-! ## Key sets -/

theorem keySetInsert_keys (key : CacheKeyPtr) (ks : List CacheKeyPtr) (x : CacheKeyPtr)
    (hx : x ∈ (keySetInsert key ks).1) : x = key ∨ x ∈ ks := by
  induction ks with
  | nil =>
    left
    simpa [keySetInsert] using hx
  | cons k rest ih =>
    rcases Bool.eq_false_or_eq_true (CacheKeyCompare key k) with h1 | h1
    · simp only [keySetInsert, h1, if_true, List.mem_cons] at hx ⊢
      exact hx
    · rcases Bool.eq_false_or_eq_true (CacheKeyCompare k key) with h2 | h2
      · simp only [keySetInsert, h1, h2, Bool.false_eq_true, if_true, if_false,
          List.mem_cons] at hx ⊢
        rcases hx with hx | hx
        · exact Or.inr (Or.inl hx)
        · rcases ih hx with h | h
          · exact Or.inl h
          · exact Or.inr (Or.inr h)
      · simp only [keySetInsert, h1, h2, Bool.false_eq_true, if_false] at hx
        exact Or.inr hx

theorem keySetInsert_sorted (key : CacheKeyPtr) (ks : List CacheKeyPtr)
    (hs : keysSorted ks) : keysSorted (keySetInsert key ks).1 := by
  induction ks with
  | nil => simp [keySetInsert, keysSorted]
  | cons k rest ih =>
    unfold keysSorted at hs ih ⊢
    simp only [List.pairwise_cons] at hs
    rcases Bool.eq_false_or_eq_true (CacheKeyCompare key k) with h1 | h1
    · simp only [keySetInsert, h1, if_true, List.pairwise_cons, List.mem_cons]
      refine ⟨?_, hs.1, hs.2⟩
      intro x hx
      rcases hx with hx | hx
      · rw [hx]; exact h1
      · exact CacheKeyCompare_trans _ _ _ h1 (hs.1 x hx)
    · rcases Bool.eq_false_or_eq_true (CacheKeyCompare k key) with h2 | h2
      · simp only [keySetInsert, h1, h2, Bool.false_eq_true, if_true, if_false,
          List.pairwise_cons]
        refine ⟨?_, ih hs.2⟩
        intro x hx
        rcases keySetInsert_keys key rest x hx with h | h
        · rw [h]; exact h2
        · exact hs.1 x h
      · simp only [keySetInsert, h1, h2, Bool.false_eq_true, if_false, List.pairwise_cons]
        exact hs

theorem keySetInsert_subset (key : CacheKeyPtr) (ks : List CacheKeyPtr) (x : CacheKeyPtr)
    (hx : x ∈ ks) : x ∈ (keySetInsert key ks).1 := by
  induction ks with
  | nil => cases hx
  | cons k rest ih =>
    rcases Bool.eq_false_or_eq_true (CacheKeyCompare key k) with h1 | h1
    · simp only [keySetInsert, h1, if_true]
      exact List.mem_cons_of_mem _ hx
    · rcases Bool.eq_false_or_eq_true (CacheKeyCompare k key) with h2 | h2
      · simp only [keySetInsert, h1, h2, Bool.false_eq_true, if_true, if_false]
        rcases List.mem_cons.mp hx with hx | hx
        · rw [hx]; exact List.mem_cons_self _ _
        · exact List.mem_cons_of_mem _ (ih hx)
      · simp only [keySetInsert, h1, h2, Bool.false_eq_true, if_false]
        exact hx

theorem keySetInsert_has (key : CacheKeyPtr) (ks : List CacheKeyPtr) :
    ∃ x ∈ (keySetInsert key ks).1, keyContent x = keyContent key := by
  induction ks with
  | nil => exact ⟨key, by simp [keySetInsert], rfl⟩
  | cons k rest ih =>
    rcases Bool.eq_false_or_eq_true (CacheKeyCompare key k) with h1 | h1
    · simp only [keySetInsert, h1, if_true]
      exact ⟨key, List.mem_cons_self _ _, rfl⟩
    · rcases Bool.eq_false_or_eq_true (CacheKeyCompare k key) with h2 | h2
      · simp only [keySetInsert, h1, h2, Bool.false_eq_true, if_true, if_false]
        obtain ⟨x, hx, hc⟩ := ih
        exact ⟨x, List.mem_cons_of_mem _ hx, hc⟩
      · simp only [keySetInsert, h1, h2, Bool.false_eq_true, if_false]
        exact ⟨k, List.mem_cons_self _ _, keyContent_eq_of_unordered _ _ h2 h1⟩

theorem keyHits_sorted_le (K : Option CacheKey) (ks : List CacheKeyPtr) (hs : keysSorted ks) :
    keyHits K ks ≤ 1 := by
  induction ks with
  | nil => simp [keyHits]
  | cons k rest ih =>
    unfold keysSorted at hs ih
    simp only [List.pairwise_cons] at hs
    unfold keyHits at ih ⊢
    by_cases hk : keyContent k = K
    · have hzero : List.countP (fun k => decide (keyContent k = K)) rest = 0 := by
        rw [List.countP_eq_zero]
        intro x hx
        have hlt := hs.1 x hx
        simp only [decide_eq_true_eq]
        intro hxk
        have : CacheKeyCompare k x = false := by
          rw [CacheKeyCompare_congr_right x k k (hxk.trans hk.symm), CacheKeyCompare_irrefl]
        rw [this] at hlt
        cases hlt
      simp [List.countP_cons, hk, hzero]
    · have := ih hs.2
      simp [List.countP_cons, hk, this]

theorem keyHits_pos (K : Option CacheKey) (ks : List CacheKeyPtr) (k : CacheKeyPtr)
    (hk : k ∈ ks) (hc : keyContent k = K) : 0 < keyHits K ks := by
  unfold keyHits
  rw [List.countP_pos_iff]
  exact ⟨k, hk, by simp [hc]⟩

theorem foldl_invariant {σ α : Type} (f : σ → α → σ) (Q : σ → Prop)
    (h : ∀ s a, Q s → Q (f s a)) (xs : List α) (s : σ) (hs : Q s) : Q (xs.foldl f s) := by
  induction xs generalizing s with
  | nil => exact hs
  | cons x rest ih => exact ih _ (h s x hs)

theorem foldl_reaches {σ α : Type} (f : σ → α → σ) (Q : σ → Prop)
    (hmono : ∀ s a, Q s → Q (f s a)) (xs : List α) (x : α) (hx : x ∈ xs)
    (hstep : ∀ s, Q (f s x)) (s : σ) : Q (xs.foldl f s) := by
  induction xs generalizing s with
  | nil => cases hx
  | cons y rest ih =>
    rw [List.foldl_cons]
    rcases List.mem_cons.mp hx with h | h
    · rw [← h]
      exact foldl_invariant f Q hmono rest _ (hstep s)
    · exact ih h _

theorem setHighlightEntry_keys_mono (K : Option CacheKey) (m : Material) (ft : Bool)
    (q : SoFCRendererP) (v : VertexCacheEntry)
    (h : ∃ k ∈ q.highlightkeys, keyContent k = K) :
    ∃ k ∈ (setHighlightEntry m ft q v).highlightkeys, keyContent k = K := by
  rw [setHighlightEntry_highlightkeys]
  split
  · obtain ⟨k, hk, hc⟩ := h
    exact ⟨k, keySetInsert_subset _ _ k hk, hc⟩
  · exact h

theorem setHighlightEntry_keys_sorted (m : Material) (ft : Bool) (q : SoFCRendererP)
    (v : VertexCacheEntry) (h : keysSorted q.highlightkeys) :
    keysSorted (setHighlightEntry m ft q v).highlightkeys := by
  rw [setHighlightEntry_highlightkeys]
  split
  · exact keySetInsert_sorted _ _ h
  · exact h

theorem setHighlightGroup_keys_mono (K : Option CacheKey) (q : SoFCRendererP)
    (g : Material × List VertexCacheEntry) (h : ∃ k ∈ q.highlightkeys, keyContent k = K) :
    ∃ k ∈ (setHighlightGroup q g).highlightkeys, keyContent k = K := by
  unfold setHighlightGroup
  split
  · exact h
  · split
    · exact h
    · exact foldl_invariant _ (fun s => ∃ k ∈ s.highlightkeys, keyContent k = K)
        (fun s a hs => setHighlightEntry_keys_mono K _ _ s a hs) _ _ h

theorem setHighlightGroup_keys_sorted (q : SoFCRendererP)
    (g : Material × List VertexCacheEntry) (h : keysSorted q.highlightkeys) :
    keysSorted (setHighlightGroup q g).highlightkeys := by
  unfold setHighlightGroup
  split
  · exact h
  · split
    · exact h
    · exact foldl_invariant _ (fun s => keysSorted s.highlightkeys)
        (fun s a hs => setHighlightEntry_keys_sorted _ _ s a hs) _ _ h

theorem setHighlightGroup_registers (q : SoFCRendererP) (m : Material)
    (vs : List VertexCacheEntry) (v : VertexCacheEntry) (hv : v ∈ vs)
    (hvis : m.drawstyle ≠ DrawStyle.INVISIBLE) (hbox : v.bbox.isEmpty = false)
    (hontop : m.isOnTop = true) (hpart : v.partidx < 0) (hwhole : v.cache.isWholeCache = true) :
    ∃ k ∈ (setHighlightGroup q (m, vs)).highlightkeys, keyContent k = keyContent v.key := by
  unfold setHighlightGroup
  have hne : vs.isEmpty = false := by
    cases vs with
    | nil => cases hv
    | cons a rest => rfl
  simp only [hne, hvis, if_false, Bool.false_eq_true]
  apply foldl_reaches _ (fun s => ∃ k ∈ s.highlightkeys, keyContent k = keyContent v.key)
    (fun s a hs => setHighlightEntry_keys_mono _ _ _ s a hs) vs v hv
  intro s
  show ∃ k ∈ (setHighlightEntry m (fullTransp m) s v).highlightkeys, _
  rw [setHighlightEntry_highlightkeys]
  simp only [hbox, hontop, hpart, hwhole, decide_True, Bool.not_false, Bool.and_self,
    Bool.or_true, if_true]
  exact keySetInsert_has _ _

theorem setHighlight_keys_sorted (caches : VertexCacheMap) (wholeontop : Bool)
    (p : SoFCRendererP) : keysSorted (setHighlight caches wholeontop p).highlightkeys := by
  rw [(setHighlight_fields caches wholeontop p).2.1]
  apply foldl_invariant _ (fun s => keysSorted s.highlightkeys)
    (fun s a hs => setHighlightGroup_keys_sorted s a hs)
  show keysSorted (clearHighlight p).highlightkeys
  rw [(clearHighlight_fields p).2.2]
  exact List.Pairwise.nil

theorem setHighlight_registers (caches : VertexCacheMap) (wholeontop : Bool)
    (p : SoFCRendererP) (m : Material) (vs : List VertexCacheEntry) (v : VertexCacheEntry)
    (hg : (m, vs) ∈ caches) (hv : v ∈ vs)
    (hvis : m.drawstyle ≠ DrawStyle.INVISIBLE) (hbox : v.bbox.isEmpty = false)
    (hontop : m.isOnTop = true) (hpart : v.partidx < 0) (hwhole : v.cache.isWholeCache = true) :
    ∃ k ∈ (setHighlight caches wholeontop p).highlightkeys,
      keyContent k = keyContent v.key := by
  rw [(setHighlight_fields caches wholeontop p).2.1]
  exact foldl_reaches _ (fun s => ∃ k ∈ s.highlightkeys, keyContent k = keyContent v.key)
    (fun s a hs => setHighlightGroup_keys_mono _ s a hs) caches (m, vs) hg
    (fun s => setHighlightGroup_registers s m vs v hv hvis hbox hontop hpart hwhole) _

theorem count_foundIndices (keys : List CacheKeyPtr) (t : List (CacheKeyPtr × List Nat))
    (i : Nat) (K : Option CacheKey)
    (h : ∀ k, ((cachetableFind k t).getD []).count i = if keyContent k = K then 1 else 0) :
    (foundIndices keys t).count i = keyHits K keys := by
  induction keys with
  | nil => simp [foundIndices, keyHits]
  | cons k rest ih =>
    unfold foundIndices keyHits at ih ⊢
    rw [List.flatMap_cons, List.count_append, ih, h k, List.countP_cons]
    by_cases hk : keyContent k = K
    · simp [hk]; omega
    · simp [hk]

theorem count_found_of_inv (q : SoFCRendererP) (inv : SceneInv q) (i : Nat) (e : DrawEntry)
    (he : q.drawentries[i]? = some e) (k : CacheKeyPtr) :
    ((cachetableFind k q.cachetable).getD []).count i =
      if keyContent k = keyContent e.ventry.key then 1 else 0 := by
  have hlt : i < q.drawentries.length := by
    by_contra hc
    rw [List.getElem?_eq_none (by omega)] at he
    cases he
  have hcount : cachetableCount i q.cachetable = 1 := by
    rw [inv.tableCount]; simp [hlt]
  have hkey : ∀ kl ∈ q.cachetable, i ∈ kl.2 →
      keyContent kl.1 = keyContent e.ventry.key := by
    intro kl hkl hi
    obtain ⟨e2, he2, hc⟩ := inv.tableMem kl hkl i hi
    rw [he] at he2
    cases he2
    exact hc.symm
  by_cases hk : keyContent k = keyContent e.ventry.key
  · obtain ⟨kl, hkl, hi⟩ :=
      cachetableCount_pos i q.cachetable (by rw [hcount]; exact Nat.one_pos)
    have hc := hkey kl hkl hi
    have hfind := cachetableFind_of_mem k q.cachetable inv.tableSorted kl.1 kl.2 hkl
      (hc.trans hk.symm)
    rw [hfind]
    simp only [Option.getD_some, hk, if_true]
    have h1 := count_le_cachetableCount i q.cachetable kl hkl
    have h2 : 0 < kl.2.count i := List.count_pos_iff.mpr hi
    omega
  · simp only [hk, if_false]
    cases hfind : cachetableFind k q.cachetable with
    | none => simp
    | some l =>
      obtain ⟨k2, hk2, hc2⟩ := cachetableFind_some_mem k q.cachetable l hfind
      simp only [Option.getD_some]
      rw [List.count_eq_zero]
      intro hi
      exact hk (hc2.symm.trans (hkey (k2, l) hk2 hi))

theorem setSceneLoop_skipZero (caches : VertexCacheMap) (q : SoFCRendererP)
    (h : ∀ e ∈ q.drawentries, e.skip = 0) :
    ∀ e ∈ (caches.foldl setSceneGroup q).drawentries, e.skip = 0 := by
  apply foldl_invariant setSceneGroup (fun s => ∀ e ∈ s.drawentries, e.skip = 0) _ caches q h
  intro s g hs
  unfold setSceneGroup
  split
  · exact hs
  · split
    · exact hs
    · apply foldl_invariant _ (fun s => ∀ e ∈ s.drawentries, e.skip = 0) _ g.2 s hs
      intro r v hr
      rcases Bool.eq_false_or_eq_true v.bbox.isEmpty with hb | hb
      · rw [setSceneEntry_empty _ _ r v hb]
        exact hr
      · rw [(setSceneEntry_fields g.1 (fullTransp g.1) r v hb).1]
        intro e he
        rw [List.mem_append, List.mem_singleton] at he
        rcases he with he | he
        · exact hr e he
        · rw [he]; rfl

theorem setScene_no_highlight (caches : VertexCacheMap) (p : SoFCRendererP)
    (h : p.highlightkeys = []) :
    (setScene caches p).highlightkeys = [] ∧
    ∀ e ∈ (setScene caches p).drawentries, e.skip = 0 := by
  have hz := setSceneLoop_skipZero caches (setSceneReset p) (by simp [setSceneReset])
  rw [setScene_eq, h]
  refine ⟨?_, ?_⟩
  · show (caches.foldl setSceneGroup (setSceneReset p)).highlightkeys = []
    rw [setSceneLoop_highlightkeys]
    exact h
  · exact hz

/-- C10, as the code has it: in the state `setScene` leaves when no highlight
key is set, take a base draw unit of key K.  A call of `setHighlight` with
`wholeontop = true` whose caches hold, under a material that is on-top and
not invisible, a whole-object batch (no sub-part index, its own whole cache)
with a non-empty box and a key of the content of K leaves that base unit with
suppress count exactly 1, and a following `clearHighlight` brings the unit
back to what it was, suppress count 0. -/
theorem setHighlight_ontop_whole_suppresses (scene : VertexCacheMap) (p0 : SoFCRendererP)
    (caches : VertexCacheMap) (i : Nat) (e : DrawEntry) (m : Material)
    (vs : List VertexCacheEntry) (v : VertexCacheEntry) (h0 : p0.highlightkeys = [])
    (he : (setScene scene p0).drawentries[i]? = some e)
    (hg : (m, vs) ∈ caches) (hv : v ∈ vs)
    (hkey : keyContent v.key = keyContent e.ventry.key)
    (hvis : m.drawstyle ≠ DrawStyle.INVISIBLE) (hbox : v.bbox.isEmpty = false)
    (hontop : m.isOnTop = true) (hpart : v.partidx < 0) (hwhole : v.cache.isWholeCache = true) :
    e.skip = 0 ∧
    (setHighlight caches true (setScene scene p0)).drawentries[i]? =
      some { e with skip := 1 } ∧
    (clearHighlight (setHighlight caches true (setScene scene p0))).drawentries[i]? =
      some e := by
  obtain ⟨hk0, hz⟩ := setScene_no_highlight scene p0 h0
  have inv := setScene_inv scene p0
  have hskip : e.skip = 0 := hz e (List.getElem?_mem he)
  have hJ := setHighlight_suppressedBy _ _ caches true (suppressedBy_self _ hk0)
  have hsorted := setHighlight_keys_sorted caches true (setScene scene p0)
  obtain ⟨k, hk, hc⟩ := setHighlight_registers caches true (setScene scene p0) m vs v hg hv
    hvis hbox hontop hpart hwhole
  have hhits : keyHits (keyContent e.ventry.key)
      (setHighlight caches true (setScene scene p0)).highlightkeys = 1 := by
    have h1 := keyHits_sorted_le (keyContent e.ventry.key) _ hsorted
    have h2 := keyHits_pos (keyContent e.ventry.key) _ k hk (hc.trans hkey)
    omega
  have hcount := count_foundIndices
    (setHighlight caches true (setScene scene p0)).highlightkeys
    (setScene scene p0).cachetable i (keyContent e.ventry.key)
    (count_found_of_inv _ inv i e he)
  refine ⟨hskip, ?_, ?_⟩
  · rw [hJ.2, addSkipAll_getElem?, he, hcount, hhits]
    simp [hskip]
  · rw [(clearHighlight_of_suppressedBy _ _ hJ).1]
    exact he

/-- An on-top whole-object highlight of the key of unit 0 suppresses unit 0 once. -/
theorem setHighlight_ontop_whole_suppresses_witness :
    (setScene exampleScene {}).drawentries[0]? =
      some (DrawEntry.create opaqueTriangles exampleBatchA) ∧
    (setHighlight [(ontopHighlight, [highlightBatch])] true
        (setScene exampleScene {})).drawentries[0]? =
      some { DrawEntry.create opaqueTriangles exampleBatchA with skip := 1 } ∧
    (clearHighlight (setHighlight [(ontopHighlight, [highlightBatch])] true
        (setScene exampleScene {}))).drawentries[0]? =
      some (DrawEntry.create opaqueTriangles exampleBatchA) :=
  ⟨by decide,
   (setHighlight_ontop_whole_suppresses exampleScene {} [(ontopHighlight, [highlightBatch])] 0
     (DrawEntry.create opaqueTriangles exampleBatchA) ontopHighlight [highlightBatch]
     highlightBatch (by decide) (by decide) (by decide) (by decide) (by decide) (by decide)
     (by decide) (by decide) (by decide) (by decide)).2⟩

/-- C10 fails as stated: with `wholeontop = true` and a whole-object
highlight batch of the key of base unit 0, whose material is not on-top,
`setHighlight` registers no key and base unit 0 keeps suppress count 0. -/
theorem setHighlight_not_ontop_no_suppression :
    (setScene exampleScene {}).drawentries[0]? =
      some (DrawEntry.create opaqueTriangles exampleBatchA) ∧
    (DrawEntry.create opaqueTriangles exampleBatchA).skip = 0 ∧
    keyContent highlightBatch.key = keyContent exampleBatchA.key ∧
    highlightBatch.partidx < 0 ∧ highlightBatch.cache.isWholeCache = true ∧
    highlightBatch.bbox.isEmpty = false ∧
    (setHighlight [(plainHighlight, [highlightBatch])] true
        (setScene exampleScene {})).highlightkeys = [] ∧
    ((setHighlight [(plainHighlight, [highlightBatch])] true
        (setScene exampleScene {})).drawentries[0]?).map DrawEntry.skip = some 0 := by
  decide

/-- Two highlights in a row and a clear leave the base draw list of the example scene as it was. -/
theorem highlight_suppression_balance_witness :
    (setScene exampleScene {}).highlightkeys = [] ∧
    (setHighlight [(ontopHighlight, [highlightBatch])] true
        (setScene exampleScene {})).drawentries.map DrawEntry.skip = [1, 0] ∧
    (clearHighlight
        ([([(ontopHighlight, [highlightBatch])], true),
          ([(ontopHighlight, [highlightBatch]), (plainHighlight, [exampleBatchB])], false)].foldl
          (fun r c => setHighlight c.1 c.2 r) (setScene exampleScene {}))).drawentries =
      (setScene exampleScene {}).drawentries :=
  ⟨by decide, by decide,
   highlight_suppression_balance (setScene exampleScene {})
     [([(ontopHighlight, [highlightBatch])], true),
      ([(ontopHighlight, [highlightBatch]), (plainHighlight, [exampleBatchB])], false)]
     (by decide)⟩

/-! ## The steps of applyMaterial -/

theorem syncStep_fst (first differs : Bool) (ops : List GLOp) (update : Material → Material)
    (st : Applied) (h : differs = false → update st.1 = st.1) :
    (syncStep first differs ops update st).1 = update st.1 := by
  unfold syncStep
  cases first <;> cases differs <;> simp [h]

theorem syncStep_snd (first differs : Bool) (ops : List GLOp) (update : Material → Material)
    (st : Applied) :
    (syncStep first differs ops update st).2 = st.2 ++ (if first || differs then ops else []) := by
  unfold syncStep
  cases first <;> cases differs <;> simp

theorem syncStep_idem (ops : List GLOp) (update : Material → Material) (st : Applied) :
    syncStep false false ops update st = st := rfl

theorem applyDepthTest_fst (first depthtest : Bool) (st : Applied) :
    (applyDepthTest first depthtest st).1 = { st.1 with depthtest := depthtest } := by
  unfold applyDepthTest
  apply syncStep_fst
  intro h
  simp only [ne_eq, decide_not, Bool.not_eq_false', decide_eq_true_eq] at h
  rw [← h]

theorem applyDepthClamp_fst (first : Bool) (next : Material) (st : Applied) :
    (applyDepthClamp first next st).1 = { st.1 with depthclamp := next.depthclamp } := by
  unfold applyDepthClamp
  apply syncStep_fst
  intro h
  simp only [ne_eq, decide_not, Bool.not_eq_false', decide_eq_true_eq] at h
  rw [← h]

theorem applyDepthWrite_fst (first depthwrite : Bool) (st : Applied) :
    (applyDepthWrite first depthwrite st).1 = { st.1 with depthwrite := depthwrite } := by
  unfold applyDepthWrite
  apply syncStep_fst
  intro h
  simp only [ne_eq, decide_not, Bool.not_eq_false', decide_eq_true_eq] at h
  rw [← h]

theorem applyDepthFunc_fst (first : Bool) (depthfunc : DepthFunc) (st : Applied) :
    (applyDepthFunc first depthfunc st).1 = { st.1 with depthfunc := depthfunc } := by
  unfold applyDepthFunc
  apply syncStep_fst
  intro h
  simp only [ne_eq, decide_not, Bool.not_eq_false', decide_eq_true_eq] at h
  rw [← h]

theorem applyLightModel_fst (first : Bool) (next : Material) (st : Applied) :
    (applyLightModel first next st).1 = { st.1 with lightmodel := next.lightmodel } := by
  unfold applyLightModel
  apply syncStep_fst
  intro h
  simp only [ne_eq, decide_not, Bool.not_eq_false', decide_eq_true_eq] at h
  rw [← h]

theorem applyColor_fst (v : PassValues) (st : Applied) :
    (applyColor v st).1 =
      { st.1 with
        overridetransp := v.overridetransp
        overrideother := v.overrideother
        diffuse := v.col } := rfl

theorem applyEmissive_fst (first : Bool) (emissive : Nat) (st : Applied) :
    (applyEmissive first emissive st).1 =
      { st.1 with
        emissive := if st.1.lightmodel = LightModel.BASE_COLOR then 0 else emissive } := by
  unfold applyEmissive
  apply syncStep_fst
  intro h
  simp only [ne_eq, decide_not, Bool.not_eq_false', decide_eq_true_eq] at h
  rw [← h]

theorem applyLineWidth_fst (first : Bool) (linewidth : Rat) (st : Applied) :
    (applyLineWidth first linewidth st).1 = { st.1 with linewidth := linewidth } := by
  unfold applyLineWidth
  apply syncStep_fst
  intro h
  simp only [ne_eq, decide_not, Bool.not_eq_false', decide_eq_true_eq] at h
  rw [← h]

theorem applyLinePattern_fst (first : Bool) (linepattern : Nat) (st : Applied) :
    (applyLinePattern first linepattern st).1 = { st.1 with linepattern := linepattern } := by
  unfold applyLinePattern
  apply syncStep_fst
  intro h
  simp only [ne_eq, decide_not, Bool.not_eq_false', decide_eq_true_eq] at h
  rw [← h]

theorem applyPointSize_fst (first : Bool) (pointsize : Rat) (st : Applied) :
    (applyPointSize first pointsize st).1 = { st.1 with pointsize := pointsize } := by
  unfold applyPointSize
  apply syncStep_fst
  intro h
  simp only [ne_eq, decide_not, Bool.not_eq_false', decide_eq_true_eq] at h
  rw [← h]

theorem applyAmbient_fst (first : Bool) (next : Material) (st : Applied) :
    (applyAmbient first next st).1 = { st.1 with ambient := next.ambient } := by
  unfold applyAmbient
  apply syncStep_fst
  intro h
  simp only [ne_eq, decide_not, Bool.not_eq_false', decide_eq_true_eq] at h
  rw [← h]

theorem applySpecular_fst (first : Bool) (next : Material) (st : Applied) :
    (applySpecular first next st).1 = { st.1 with specular := next.specular } := by
  unfold applySpecular
  apply syncStep_fst
  intro h
  simp only [ne_eq, decide_not, Bool.not_eq_false', decide_eq_true_eq] at h
  rw [← h]

theorem applyShininess_fst (first : Bool) (next : Material) (st : Applied) :
    (applyShininess first next st).1 = { st.1 with shininess := next.shininess } := by
  unfold applyShininess
  apply syncStep_fst
  intro h
  simp only [ne_eq, decide_not, Bool.not_eq_false', decide_eq_true_eq] at h
  rw [← h]

theorem applyVertexOrdering_fst (first : Bool) (next : Material) (st : Applied) :
    (applyVertexOrdering first next st).1 =
      { st.1 with vertexordering := next.vertexordering } := by
  unfold applyVertexOrdering
  apply syncStep_fst
  intro h
  simp only [ne_eq, decide_not, Bool.not_eq_false', decide_eq_true_eq] at h
  rw [← h]

theorem applyTwoside_fst (first transp : Bool) (next : Material) (st : Applied) :
    (applyTwoside first transp next st).1 =
      { st.1 with twoside := if transp then 1 else next.twoside } := by
  unfold applyTwoside
  apply syncStep_fst
  intro h
  simp only [ne_eq, decide_not, Bool.not_eq_false', decide_eq_true_eq] at h
  rw [← h]

theorem applyCulling_fst (first transp : Bool) (next : Material) (st : Applied) :
    (applyCulling first transp next st).1 =
      { st.1 with culling := if transp then 0 else next.culling } := by
  unfold applyCulling
  apply syncStep_fst
  intro h
  simp only [ne_eq, decide_not, Bool.not_eq_false', decide_eq_true_eq] at h
  rw [← h]

theorem applyDrawStyle_fst (first : Bool) (next : Material) (st : Applied) :
    (applyDrawStyle first next st).1 = { st.1 with drawstyle := next.drawstyle } := by
  unfold applyDrawStyle
  apply syncStep_fst
  intro h
  simp only [ne_eq, decide_not, Bool.not_eq_false', decide_eq_true_eq] at h
  rw [← h]

theorem applyPolygonOffsetStyle_fst (first : Bool) (next : Material) (st : Applied) :
    (applyPolygonOffsetStyle first next st).1 =
      { st.1 with polygonoffsetstyle := next.polygonoffsetstyle } := by
  unfold applyPolygonOffsetStyle
  apply syncStep_fst
  intro h
  simp only [ne_eq, decide_not, Bool.not_eq_false', decide_eq_true_eq] at h
  rw [← h]

theorem applyPolygonOffset_fst (first : Bool) (next : Material) (st : Applied) :
    (applyPolygonOffset first next st).1 =
      { st.1 with
        polygonoffsetfactor := next.polygonoffsetfactor
        polygonoffsetunits := next.polygonoffsetunits } := by
  unfold applyPolygonOffset
  apply syncStep_fst
  intro h
  simp only [ne_eq, decide_eq_false_iff_not, not_or, not_not] at h
  rw [← h.1, ← h.2]

theorem applyCommon_fst (first : Bool) (v : PassValues) (next : Material) (st : Applied) :
    (applyCommon first v next st).1 =
      { st.1 with
        depthtest := v.depthtest
        depthclamp := next.depthclamp
        depthwrite := v.depthwrite
        depthfunc := v.depthfunc
        lightmodel := next.lightmodel
        overridetransp := v.overridetransp
        overrideother := v.overrideother
        diffuse := v.col
        emissive := if next.lightmodel = LightModel.BASE_COLOR then 0 else v.emissive } := by
  simp only [applyCommon, applyEmissive_fst, applyColor_fst, applyLightModel_fst,
    applyDepthFunc_fst, applyDepthWrite_fst, applyDepthClamp_fst, applyDepthTest_fst]

theorem applyFace_fst (first transp : Bool) (next : Material) (st : Applied) :
    (applyFace first transp next st).1 =
      { st.1 with
        ambient := next.ambient
        specular := next.specular
        shininess := next.shininess
        vertexordering := next.vertexordering
        twoside := if transp then 1 else next.twoside
        culling := if transp then 0 else next.culling
        drawstyle := next.drawstyle
        polygonoffsetstyle := next.polygonoffsetstyle
        polygonoffsetfactor := next.polygonoffsetfactor
        polygonoffsetunits := next.polygonoffsetunits } := by
  simp only [applyFace, applyPolygonOffset_fst, applyPolygonOffsetStyle_fst, applyDrawStyle_fst,
    applyCulling_fst, applyTwoside_fst, applyVertexOrdering_fst, applyShininess_fst,
    applySpecular_fst, applyAmbient_fst]
/-! ## A second application leaves the tracked state alone -/

theorem applyDepthTest_idem (depthtest : Bool) (st : Applied) (h : st.1.depthtest = depthtest) :
    applyDepthTest false depthtest st = st := by
  simp [applyDepthTest, syncStep, h]

theorem applyDepthClamp_idem (next : Material) (st : Applied)
    (h : st.1.depthclamp = next.depthclamp) : applyDepthClamp false next st = st := by
  simp [applyDepthClamp, syncStep, h]

theorem applyDepthWrite_idem (depthwrite : Bool) (st : Applied)
    (h : st.1.depthwrite = depthwrite) : applyDepthWrite false depthwrite st = st := by
  simp [applyDepthWrite, syncStep, h]

theorem applyDepthFunc_idem (depthfunc : DepthFunc) (st : Applied)
    (h : st.1.depthfunc = depthfunc) : applyDepthFunc false depthfunc st = st := by
  simp [applyDepthFunc, syncStep, h]

theorem applyLightModel_idem (next : Material) (st : Applied)
    (h : st.1.lightmodel = next.lightmodel) : applyLightModel false next st = st := by
  simp [applyLightModel, syncStep, h]

theorem applyColor_idem (v : PassValues) (st : Applied)
    (h1 : st.1.overridetransp = v.overridetransp) (h2 : st.1.overrideother = v.overrideother)
    (h3 : st.1.diffuse = v.col) : applyColor v st = (st.1, st.2 ++ [colorOp v.col]) := by
  unfold applyColor blendOps
  rw [← h1, ← h2, ← h3]
  simp

theorem applyEmissive_idem (emissive : Nat) (st : Applied)
    (h : st.1.emissive = if st.1.lightmodel = LightModel.BASE_COLOR then 0 else emissive) :
    applyEmissive false emissive st = st := by
  simp [applyEmissive, syncStep, ← h]

theorem applyLineWidth_idem (linewidth : Rat) (st : Applied)
    (h : st.1.linewidth = linewidth) : applyLineWidth false linewidth st = st := by
  simp [applyLineWidth, syncStep, h]

theorem applyLinePattern_idem (linepattern : Nat) (st : Applied)
    (h : st.1.linepattern = linepattern) : applyLinePattern false linepattern st = st := by
  simp [applyLinePattern, syncStep, h]

theorem applyPointSize_idem (pointsize : Rat) (st : Applied)
    (h : st.1.pointsize = pointsize) : applyPointSize false pointsize st = st := by
  simp [applyPointSize, syncStep, h]

theorem applyCommon_idem (v : PassValues) (next : Material) (st : Applied)
    (h : CommonSynced v next st.1) :
    applyCommon false v next st = (st.1, st.2 ++ [colorOp v.col]) := by
  obtain ⟨h1, h2, h3, h4, h5, h6, h7, h8, h9⟩ := h
  unfold applyCommon
  rw [applyDepthTest_idem _ _ h1, applyDepthClamp_idem _ _ h2, applyDepthWrite_idem _ _ h3,
    applyDepthFunc_idem _ _ h4, applyLightModel_idem _ _ h5, applyColor_idem _ _ h6 h7 h8]
  apply applyEmissive_idem
  show st.1.emissive = if st.1.lightmodel = LightModel.BASE_COLOR then 0 else v.emissive
  rw [h9, h5]

theorem applyFace_idem (transp : Bool) (next : Material) (st : Applied)
    (h : FaceSynced transp next st.1) : applyFace false transp next st = st := by
  obtain ⟨h1, h2, h3, h4, h5, h6, h7, h8, h9, h10⟩ := h
  have e1 : applyAmbient false next st = st := by simp [applyAmbient, syncStep, h1]
  have e2 : applySpecular false next st = st := by simp [applySpecular, syncStep, h2]
  have e3 : applyShininess false next st = st := by simp [applyShininess, syncStep, h3]
  have e4 : applyVertexOrdering false next st = st := by
    simp [applyVertexOrdering, syncStep, h4]
  have e5 : applyTwoside false transp next st = st := by simp [applyTwoside, syncStep, h5]
  have e6 : applyCulling false transp next st = st := by simp [applyCulling, syncStep, h6]
  have e7 : applyDrawStyle false next st = st := by simp [applyDrawStyle, syncStep, h7]
  have e8 : applyPolygonOffsetStyle false next st = st := by
    simp [applyPolygonOffsetStyle, syncStep, h8]
  have e9 : applyPolygonOffset false next st = st := by
    simp [applyPolygonOffset, syncStep, h9, h10]
  unfold applyFace
  rw [e1, e2, e3, e4, e5, e6, e7, e8, e9]

theorem applyCommon_synced (first : Bool) (v : PassValues) (next : Material) (st : Applied) :
    CommonSynced v next (applyCommon first v next st).1 := by
  rw [applyCommon_fst]
  exact ⟨rfl, rfl, rfl, rfl, rfl, rfl, rfl, rfl, rfl⟩

theorem applyFace_synced (first transp : Bool) (next : Material) (st : Applied) :
    FaceSynced transp next (applyFace first transp next st).1 := by
  rw [applyFace_fst]
  exact ⟨rfl, rfl, rfl, rfl, rfl, rfl, rfl, rfl, rfl, rfl⟩

/-! ## The clip-plane, texture and light block -/

theorem applyNodes_fst (vp : ViewParams) (shadowmapping notexture first : Bool)
    (next : Material) (st : Applied) :
    (applyNodes vp shadowmapping notexture first next st).1 =
      { st.1 with
        clippers := (applyNodes vp shadowmapping notexture first next st).1.clippers
        textures := (applyNodes vp shadowmapping notexture first next st).1.textures
        lights := (applyNodes vp shadowmapping notexture first next st).1.lights } := by
  unfold applyNodes
  simp only []
  split
  · split
    · split
      · rfl
      · rfl
    · split
      · rfl
      · rfl
  · rfl

theorem applyNodes_idem (vp : ViewParams) (shadowmapping notexture : Bool) (next : Material)
    (st : Applied) (h : NodesSynced vp shadowmapping next st.1) :
    applyNodes vp shadowmapping notexture false next st = st := by
  obtain ⟨h1, h2⟩ := h
  unfold applyNodes
  by_cases ht : next.type = MaterialType.Triangle
  · obtain ⟨h3, h4⟩ := h2 ht
    simp [h1, h3, h4]
  · simp [h1, ht]

theorem applyNodes_synced (vp : ViewParams) (shadowmapping first : Bool) (next : Material)
    (st : Applied) :
    NodesSynced vp shadowmapping next (applyNodes vp shadowmapping false first next st).1 := by
  unfold applyNodes NodesSynced
  cases first
  · by_cases hcl : st.1.clippers = effectiveClippers vp shadowmapping next
    · by_cases ht : next.type = MaterialType.Triangle
      · by_cases htex : st.1.textures = next.textures
        · by_cases hl : st.1.lights = next.lights
          · simp [hcl, ht, htex, hl]
          · simp [hcl, ht, htex, hl]
        · simp [hcl, ht, htex]
      · simp [hcl, ht]
    · simp [hcl]
  · simp
/-! ## The tracked state after applyMaterial -/

theorem applyNodes_pervertexcolor (vp : ViewParams) (shadowmapping notexture first : Bool)
    (next : Material) (st : Applied) :
    (applyNodes vp shadowmapping notexture first next st).1.pervertexcolor =
      st.1.pervertexcolor := by
  rw [applyNodes_fst]

theorem applyMaterial_refused (vp : ViewParams) (p : SoFCRendererP) (next : Material)
    (transp : Bool) (pass : Nat)
    (h : (p.shadowmapping && (next.isOnTop || decide (next.shadowstyle &&& CASTS_SHADOW = 0)))
      = true) :
    applyMaterial vp p next transp pass = { ok := false, material := p.material, ops := [] } := by
  unfold applyMaterial
  simp only [h, if_true]

theorem applyMaterial_depthwriteonly_eq (vp : ViewParams) (p : SoFCRendererP) (next : Material)
    (transp : Bool) (pass : Nat)
    (h : (p.shadowmapping && (next.isOnTop || decide (next.shadowstyle &&& CASTS_SHADOW = 0)))
      = false)
    (hd : p.depthwriteonly = true) :
    applyMaterial vp p next transp pass =
      { ok := true
        material := (applyDepthWriteOnly (p.material, [])).1
        ops := (applyDepthWriteOnly (p.material, [])).2 } := by
  unfold applyMaterial
  simp only [h, hd, if_true, Bool.false_eq_true, if_false]

/-- The state `applyMaterial` reaches before its line block, on the path that
is neither refused nor depth-write-only. -/
theorem applyMaterial_main_eq (vp : ViewParams) (p : SoFCRendererP) (next : Material)
    (transp : Bool) (pass : Nat)
    (h : (p.shadowmapping && (next.isOnTop || decide (next.shadowstyle &&& CASTS_SHADOW = 0)))
      = false)
    (hd : p.depthwriteonly = false) :
    applyMaterial vp p next transp pass =
      (if next.type = MaterialType.Line ∧ p.prevmaterial.isNone = false then
        { ok := true
          material := (applyLinePattern p.prevmaterial.isNone
            (passValues vp next transp pass).linepattern
            (applyLineWidth p.prevmaterial.isNone (passValues vp next transp pass).linewidth
              (mainCommon vp p next transp pass))).1
          ops := (applyLinePattern p.prevmaterial.isNone
            (passValues vp next transp pass).linepattern
            (applyLineWidth p.prevmaterial.isNone (passValues vp next transp pass).linewidth
              (mainCommon vp p next transp pass))).2 }
      else if next.type = MaterialType.Point ∧ p.prevmaterial.isNone = false then
        { ok := true
          material := (applyPointSize p.prevmaterial.isNone
            (passValues vp next transp pass).pointsize (mainCommon vp p next transp pass)).1
          ops := (applyPointSize p.prevmaterial.isNone
            (passValues vp next transp pass).pointsize (mainCommon vp p next transp pass)).2 }
      else
        { ok := true
          material := (applyFace p.prevmaterial.isNone (passValues vp next transp pass).transp
            next (mainKind vp p next transp pass)).1
          ops := (applyFace p.prevmaterial.isNone (passValues vp next transp pass).transp
            next (mainKind vp p next transp pass)).2 }) := by
  unfold applyMaterial mainKind mainCommon
  simp only [h, hd, Bool.false_eq_true, if_false]
  cases ht : next.type <;> simp

theorem MaterialType.cases_eq (t : MaterialType) :
    t = MaterialType.Triangle ∨ t = MaterialType.Line ∨ t = MaterialType.Point := by
  cases t <;> simp

theorem mainKind_triangle (vp : ViewParams) (p : SoFCRendererP) (next : Material)
    (transp : Bool) (pass : Nat) (ht : next.type = MaterialType.Triangle) :
    mainKind vp p next transp pass = mainCommon vp p next transp pass := by
  unfold mainKind; rw [ht]

theorem mainKind_line (vp : ViewParams) (p : SoFCRendererP) (next : Material)
    (transp : Bool) (pass : Nat) (ht : next.type = MaterialType.Line) :
    mainKind vp p next transp pass =
      applyLinePattern p.prevmaterial.isNone (passValues vp next transp pass).linepattern
        (applyLineWidth p.prevmaterial.isNone (passValues vp next transp pass).linewidth
          (mainCommon vp p next transp pass)) := by
  unfold mainKind; rw [ht]

theorem mainKind_point (vp : ViewParams) (p : SoFCRendererP) (next : Material)
    (transp : Bool) (pass : Nat) (ht : next.type = MaterialType.Point) :
    mainKind vp p next transp pass =
      applyPointSize p.prevmaterial.isNone (passValues vp next transp pass).pointsize
        (mainCommon vp p next transp pass) := by
  unfold mainKind; rw [ht]

theorem mainCommon_synced (vp : ViewParams) (p : SoFCRendererP) (next : Material)
    (transp : Bool) (pass : Nat) (hn : p.notexture = false) :
    (mainCommon vp p next transp pass).1.pervertexcolor = next.pervertexcolor ∧
    NodesSynced vp p.shadowmapping next (mainCommon vp p next transp pass).1 ∧
    CommonSynced (passValues vp next transp pass) next (mainCommon vp p next transp pass).1 := by
  refine ⟨?_, ?_, applyCommon_synced _ _ _ _⟩
  · unfold mainCommon
    rw [applyCommon_fst]
    show (applyNodes vp p.shadowmapping p.notexture p.prevmaterial.isNone next _).1.pervertexcolor
      = _
    rw [applyNodes_pervertexcolor]
  · unfold mainCommon
    rw [applyCommon_fst, hn]
    exact applyNodes_synced vp p.shadowmapping p.prevmaterial.isNone next _

theorem mainKind_synced (vp : ViewParams) (p : SoFCRendererP) (next : Material)
    (transp : Bool) (pass : Nat) (hn : p.notexture = false) :
    (mainKind vp p next transp pass).1.pervertexcolor = next.pervertexcolor ∧
    NodesSynced vp p.shadowmapping next (mainKind vp p next transp pass).1 ∧
    CommonSynced (passValues vp next transp pass) next (mainKind vp p next transp pass).1 ∧
    (next.type = MaterialType.Line →
      LineSynced (passValues vp next transp pass) (mainKind vp p next transp pass).1) ∧
    (next.type = MaterialType.Point →
      (mainKind vp p next transp pass).1.pointsize = (passValues vp next transp pass).pointsize)
    := by
  obtain ⟨h1, h2, h3⟩ := mainCommon_synced vp p next transp pass hn
  rcases MaterialType.cases_eq next.type with ht | ht | ht
  · rw [mainKind_triangle vp p next transp pass ht]
    exact ⟨h1, h2, h3, (fun h => absurd (ht.symm.trans h) (by decide)),
      (fun h => absurd (ht.symm.trans h) (by decide))⟩
  · rw [mainKind_line vp p next transp pass ht, applyLinePattern_fst, applyLineWidth_fst]
    exact ⟨h1, h2, h3, (fun _ => ⟨rfl, rfl⟩), (fun h => absurd (ht.symm.trans h) (by decide))⟩
  · rw [mainKind_point vp p next transp pass ht, applyPointSize_fst]
    exact ⟨h1, h2, h3, (fun h => absurd (ht.symm.trans h) (by decide)), (fun _ => rfl)⟩

/-- What the tracked material holds after a call of `applyMaterial` that is
neither refused nor depth-write-only, the no-texture override being off. -/
theorem applyMaterial_synced (vp : ViewParams) (p : SoFCRendererP) (next : Material)
    (transp : Bool) (pass : Nat)
    (h : (p.shadowmapping && (next.isOnTop || decide (next.shadowstyle &&& CASTS_SHADOW = 0)))
      = false)
    (hd : p.depthwriteonly = false) (hn : p.notexture = false) :
    (applyMaterial vp p next transp pass).ok = true ∧
    (applyMaterial vp p next transp pass).material.pervertexcolor = next.pervertexcolor ∧
    NodesSynced vp p.shadowmapping next (applyMaterial vp p next transp pass).material ∧
    CommonSynced (passValues vp next transp pass) next
      (applyMaterial vp p next transp pass).material ∧
    (next.type = MaterialType.Line →
      LineSynced (passValues vp next transp pass)
        (applyMaterial vp p next transp pass).material) ∧
    (next.type = MaterialType.Point →
      (applyMaterial vp p next transp pass).material.pointsize =
        (passValues vp next transp pass).pointsize) ∧
    (next.type = MaterialType.Triangle ∨ p.prevmaterial.isNone = true →
      FaceSynced (passValues vp next transp pass).transp next
        (applyMaterial vp p next transp pass).material) := by
  obtain ⟨k1, k2, k3, k4, k5⟩ := mainKind_synced vp p next transp pass hn
  obtain ⟨c1, c2, c3⟩ := mainCommon_synced vp p next transp pass hn
  rw [applyMaterial_main_eq vp p next transp pass h hd]
  by_cases hl : next.type = MaterialType.Line ∧ p.prevmaterial.isNone = false
  · rw [if_pos hl, applyLinePattern_fst, applyLineWidth_fst]
    refine ⟨rfl, c1, c2, c3, (fun _ => ⟨rfl, rfl⟩), ?_, ?_⟩
    · intro hp; exact absurd (hl.1.symm.trans hp) (by decide)
    · intro hp
      rcases hp with hp | hp
      · exact absurd (hl.1.symm.trans hp) (by decide)
      · rw [hp] at hl; exact absurd hl.2 (by decide)
  · by_cases hpt : next.type = MaterialType.Point ∧ p.prevmaterial.isNone = false
    · rw [if_neg hl, if_pos hpt, applyPointSize_fst]
      refine ⟨rfl, c1, c2, c3, ?_, (fun _ => rfl), ?_⟩
      · intro hp; exact absurd (hpt.1.symm.trans hp) (by decide)
      · intro hp
        rcases hp with hp | hp
        · exact absurd (hpt.1.symm.trans hp) (by decide)
        · rw [hp] at hpt; exact absurd hpt.2 (by decide)
    · rw [if_neg hl, if_neg hpt]
      refine ⟨rfl, ?_, ?_, ?_, ?_, ?_, (fun _ => applyFace_synced _ _ _ _)⟩
      · show (applyFace _ _ _ _).1.pervertexcolor = _
        rw [applyFace_fst]; exact k1
      · show NodesSynced _ _ _ (applyFace _ _ _ _).1
        rw [applyFace_fst]; exact k2
      · show CommonSynced _ _ (applyFace _ _ _ _).1
        rw [applyFace_fst]; exact k3
      · intro ht
        show LineSynced _ (applyFace _ _ _ _).1
        rw [applyFace_fst]; exact k4 ht
      · intro ht
        show (applyFace _ _ _ _).1.pointsize = _
        rw [applyFace_fst]; exact k5 ht

/-- A call of `applyMaterial`, not the first of the frame, on a tracked
material that already holds what the target material asks for issues the
colour and nothing else, and leaves the tracked material as it is. -/
theorem applyMaterial_idem (vp : ViewParams) (p : SoFCRendererP) (next : Material)
    (transp : Bool) (pass : Nat)
    (h : (p.shadowmapping && (next.isOnTop || decide (next.shadowstyle &&& CASTS_SHADOW = 0)))
      = false)
    (hd : p.depthwriteonly = false) (hfirst : p.prevmaterial.isNone = false)
    (hpv : p.material.pervertexcolor = next.pervertexcolor)
    (hnodes : NodesSynced vp p.shadowmapping next p.material)
    (hcommon : CommonSynced (passValues vp next transp pass) next p.material)
    (hline : next.type = MaterialType.Line →
      LineSynced (passValues vp next transp pass) p.material)
    (hpoint : next.type = MaterialType.Point →
      p.material.pointsize = (passValues vp next transp pass).pointsize)
    (hface : next.type = MaterialType.Triangle →
      FaceSynced (passValues vp next transp pass).transp next p.material) :
    applyMaterial vp p next transp pass =
      { ok := true, material := p.material
        ops := [colorOp (passValues vp next transp pass).col] } := by
  have hst0 : ({ p.material with pervertexcolor := next.pervertexcolor } : Material)
      = p.material := by rw [← hpv]
  have hmc : mainCommon vp p next transp pass =
      (p.material, [colorOp (passValues vp next transp pass).col]) := by
    unfold mainCommon
    rw [hfirst, hst0, applyNodes_idem vp _ _ next (p.material, []) hnodes,
      applyCommon_idem _ _ (p.material, []) hcommon]
    rfl
  rw [applyMaterial_main_eq vp p next transp pass h hd]
  rcases MaterialType.cases_eq next.type with ht | ht | ht
  · have hl : ¬ (next.type = MaterialType.Line ∧ p.prevmaterial.isNone = false) :=
      fun hc => absurd (ht.symm.trans hc.1) (by decide)
    have hpt : ¬ (next.type = MaterialType.Point ∧ p.prevmaterial.isNone = false) :=
      fun hc => absurd (ht.symm.trans hc.1) (by decide)
    rw [if_neg hl, if_neg hpt, mainKind_triangle vp p next transp pass ht, hmc, hfirst,
      applyFace_idem _ next _ (hface ht)]
  · obtain ⟨hw, hp⟩ := hline ht
    rw [if_pos ⟨ht, hfirst⟩, hmc, hfirst, applyLineWidth_idem _ _ hw,
      applyLinePattern_idem _ _ hp]
  · have hl : ¬ (next.type = MaterialType.Line ∧ p.prevmaterial.isNone = false) :=
      fun hc => absurd (ht.symm.trans hc.1) (by decide)
    rw [if_neg hl, if_pos ⟨ht, hfirst⟩, hmc, hfirst, applyPointSize_idem _ _ (hpoint ht)]

/-! ## The depth-write-only branch -/

theorem applyDepthWriteOnly_fst (st : Applied) :
    (applyDepthWriteOnly st).1 =
      { st.1 with
        textures := []
        lightmodel := LightModel.BASE_COLOR
        pervertexcolor := false
        depthwrite := true
        depthfunc := DepthFunc.LESS
        depthtest := true } := by
  obtain ⟨m, ops⟩ := st
  unfold applyDepthWriteOnly
  simp only []
  by_cases h1 : m.textures.length ≠ 0 <;>
  by_cases h2 : m.lightmodel ≠ LightModel.BASE_COLOR <;>
  by_cases h3 : m.depthwrite = false <;>
  by_cases h4 : m.depthfunc ≠ DepthFunc.LESS <;>
  by_cases h5 : m.depthtest = false <;>
  simp only [h1, h2, h3, h4, h5, if_true, if_false, not_true_eq_false, not_false_eq_true] <;>
  simp only [ne_eq, not_not, List.length_eq_zero, Bool.not_eq_false] at h1 h2 h3 h4 h5 <;>
  cases m <;> simp_all

theorem applyDepthWriteOnly_idem (st : Applied) (h1 : st.1.textures = [])
    (h2 : st.1.lightmodel = LightModel.BASE_COLOR) (h3 : st.1.pervertexcolor = false)
    (h4 : st.1.depthwrite = true) (h5 : st.1.depthfunc = DepthFunc.LESS)
    (h6 : st.1.depthtest = true) : applyDepthWriteOnly st = st := by
  obtain ⟨m, ops⟩ := st
  cases m
  simp only [] at h1 h2 h3 h4 h5 h6
  subst h1 h2 h3 h4 h5 h6
  simp [applyDepthWriteOnly]
/-! ## Refusal, depth-write-only mode, repeated application -/

theorem refuses_iff (p : SoFCRendererP) (next : Material) :
    (p.shadowmapping && (next.isOnTop || decide (next.shadowstyle &&& CASTS_SHADOW = 0))) = true
      ↔ refuses p next := by
  unfold refuses
  simp

theorem not_refuses_iff (p : SoFCRendererP) (next : Material) :
    (p.shadowmapping && (next.isOnTop || decide (next.shadowstyle &&& CASTS_SHADOW = 0))) = false
      ↔ ¬ refuses p next := by
  rw [← refuses_iff, Bool.not_eq_true]

theorem applyMaterial_ok (vp : ViewParams) (p : SoFCRendererP) (next : Material)
    (transp : Bool) (pass : Nat) (h : ¬ refuses p next) :
    (applyMaterial vp p next transp pass).ok = true := by
  have hb := (not_refuses_iff p next).mpr h
  rcases Bool.eq_false_or_eq_true p.depthwriteonly with hd | hd
  · rw [applyMaterial_depthwriteonly_eq vp p next transp pass hb hd]
  · rw [applyMaterial_main_eq vp p next transp pass hb hd]
    split
    · rfl
    · split
      · rfl
      · rfl

/-- C13: `applyMaterial` returns failure if and only if the frame is a
shadow-map pass and the material is on-top or lacks the shadow-casting flag;
when it fails the tracked material is unchanged and no operation has been
issued; in every other case it returns success. -/
theorem applyMaterial_refuses_iff (vp : ViewParams) (p : SoFCRendererP) (next : Material)
    (transp : Bool) (pass : Nat) :
    ((applyMaterial vp p next transp pass).ok = false ↔
      (p.shadowmapping = true ∧
        (next.isOnTop = true ∨ next.shadowstyle &&& CASTS_SHADOW = 0))) ∧
    ((applyMaterial vp p next transp pass).ok = false →
      (applyMaterial vp p next transp pass).material = p.material ∧
      (applyMaterial vp p next transp pass).ops = []) ∧
    (¬ (p.shadowmapping = true ∧
        (next.isOnTop = true ∨ next.shadowstyle &&& CASTS_SHADOW = 0)) →
      (applyMaterial vp p next transp pass).ok = true) := by
  by_cases h : refuses p next
  · have hr := applyMaterial_refused vp p next transp pass ((refuses_iff p next).mpr h)
    rw [hr]
    exact ⟨⟨fun _ => h, fun _ => rfl⟩, fun _ => ⟨rfl, rfl⟩, fun hc => absurd h hc⟩
  · have hok := applyMaterial_ok vp p next transp pass h
    refine ⟨⟨?_, fun hc => absurd hc h⟩, ?_, fun _ => hok⟩
    · intro hc; rw [hok] at hc; cases hc
    · intro hc; rw [hok] at hc; cases hc

theorem applyMaterial_depthwriteonly_material (vp : ViewParams) (p : SoFCRendererP)
    (next : Material) (transp : Bool) (pass : Nat) (hd : p.depthwriteonly = true)
    (hnr : ¬ refuses p next) :
    (applyMaterial vp p next transp pass).material =
      { p.material with
        textures := []
        lightmodel := LightModel.BASE_COLOR
        pervertexcolor := false
        depthwrite := true
        depthfunc := DepthFunc.LESS
        depthtest := true } := by
  have hb := (not_refuses_iff p next).mpr hnr
  rw [applyMaterial_depthwriteonly_eq vp p next transp pass hb hd]
  simp only [applyDepthWriteOnly_fst]

/-- C17: in depth-write-only mode a call of `applyMaterial` that is not
refused returns success; the tracked material then has no textures, flat
lighting, per-vertex colour off, depth write on, depth test on and depth
function `LESS`, whatever the target material is, and every other tracked
field is as it was before the call. -/
theorem applyMaterial_depth_write_only (vp : ViewParams) (p : SoFCRendererP)
    (next : Material) (transp : Bool) (pass : Nat) (hd : p.depthwriteonly = true)
    (hnr : ¬ (p.shadowmapping = true ∧
        (next.isOnTop = true ∨ next.shadowstyle &&& CASTS_SHADOW = 0))) :
    (applyMaterial vp p next transp pass).ok = true ∧
    (applyMaterial vp p next transp pass).material.textures = [] ∧
    (applyMaterial vp p next transp pass).material.lightmodel = LightModel.BASE_COLOR ∧
    (applyMaterial vp p next transp pass).material.pervertexcolor = false ∧
    (applyMaterial vp p next transp pass).material.depthwrite = true ∧
    (applyMaterial vp p next transp pass).material.depthtest = true ∧
    (applyMaterial vp p next transp pass).material.depthfunc = DepthFunc.LESS ∧
    (applyMaterial vp p next transp pass).material =
      { p.material with
        textures := []
        lightmodel := LightModel.BASE_COLOR
        pervertexcolor := false
        depthwrite := true
        depthfunc := DepthFunc.LESS
        depthtest := true } := by
  have hb := (not_refuses_iff p next).mpr hnr
  rw [applyMaterial_depthwriteonly_eq vp p next transp pass hb hd]
  rw [applyDepthWriteOnly_fst]
  exact ⟨rfl, rfl, rfl, rfl, rfl, rfl, rfl, rfl⟩

/-- In depth-write-only mode the texture, the lighting and the depth state of
the example renderer are overridden and its other fields are kept. -/
theorem applyMaterial_depth_write_only_witness :
    depthWriteOnlyRenderer.depthwriteonly = true ∧
    (applyMaterial {} depthWriteOnlyRenderer transparentLines false RenderPassNormal).ok = true ∧
    (applyMaterial {} depthWriteOnlyRenderer transparentLines false
      RenderPassNormal).material.textures = [] ∧
    (applyMaterial {} depthWriteOnlyRenderer transparentLines false
      RenderPassNormal).material.depthfunc = DepthFunc.LESS ∧
    (applyMaterial {} depthWriteOnlyRenderer transparentLines false
      RenderPassNormal).material.diffuse = depthWriteOnlyRenderer.material.diffuse :=
  ⟨by decide,
   (applyMaterial_depth_write_only {} depthWriteOnlyRenderer transparentLines false
     RenderPassNormal (by decide) (by decide)).1,
   (applyMaterial_depth_write_only {} depthWriteOnlyRenderer transparentLines false
     RenderPassNormal (by decide) (by decide)).2.1,
   (applyMaterial_depth_write_only {} depthWriteOnlyRenderer transparentLines false
     RenderPassNormal (by decide) (by decide)).2.2.2.2.2.2.1,
   by decide⟩

/-- C14, as the code has it: when a call of `applyMaterial` has succeeded (the
no-texture override being off), a second call in a row with the same
arguments, not the first of the frame, leaves the tracked material as the
first call left it and issues no operation other than the colour, which is
issued on every call outside depth-write-only mode. -/
theorem applyMaterial_twice (vp : ViewParams) (p : SoFCRendererP) (next : Material)
    (transp : Bool) (pass : Nat) (prev : Material) (hn : p.notexture = false)
    (hok : (applyMaterial vp p next transp pass).ok = true) :
    applyMaterial vp
        { p with
          material := (applyMaterial vp p next transp pass).material
          prevmaterial := some prev }
        next transp pass =
      { ok := true
        material := (applyMaterial vp p next transp pass).material
        ops := if p.depthwriteonly then []
               else [colorOp (passValues vp next transp pass).col] } := by
  have hnr : ¬ refuses p next := by
    intro hc
    rw [applyMaterial_refused vp p next transp pass ((refuses_iff p next).mpr hc)] at hok
    cases hok
  have hb := (not_refuses_iff p next).mpr hnr
  rcases Bool.eq_false_or_eq_true p.depthwriteonly with hd | hd
  · have hm := applyMaterial_depthwriteonly_material vp p next transp pass hd hnr
    have hidem := applyDepthWriteOnly_idem
      ((applyMaterial vp p next transp pass).material, [])
      (by rw [hm]) (by rw [hm]) (by rw [hm]) (by rw [hm]) (by rw [hm]) (by rw [hm])
    have h2 : applyMaterial vp
        { p with
          material := (applyMaterial vp p next transp pass).material
          prevmaterial := some prev }
        next transp pass =
      { ok := true
        material :=
          (applyDepthWriteOnly ((applyMaterial vp p next transp pass).material, [])).1
        ops :=
          (applyDepthWriteOnly ((applyMaterial vp p next transp pass).material, [])).2 } :=
      applyMaterial_depthwriteonly_eq vp _ next transp pass hb hd
    rw [h2, hidem, hd]
    rfl
  · obtain ⟨_, s1, s2, s3, s4, s5, s6⟩ := applyMaterial_synced vp p next transp pass hb hd hn
    have h2 := applyMaterial_idem vp
      { p with
        material := (applyMaterial vp p next transp pass).material
        prevmaterial := some prev }
      next transp pass hb hd rfl s1 s2 s3 s4 s5 (fun ht => s6 (Or.inl ht))
    rw [h2, hd]
    rfl
/-- After a first call for the transparent line material on a fresh renderer, a
second call with the same arguments keeps the tracked material and issues the
colour only. -/
theorem applyMaterial_twice_witness :
    (applyMaterial {} {} transparentLines false RenderPassNormal).ok = true ∧
    applyMaterial {}
        { ({} : SoFCRendererP) with
          material := (applyMaterial {} {} transparentLines false RenderPassNormal).material
          prevmaterial := some wideLineState }
        transparentLines false RenderPassNormal =
      { ok := true
        material := (applyMaterial {} {} transparentLines false RenderPassNormal).material
        ops := if ({} : SoFCRendererP).depthwriteonly then []
               else [colorOp (passValues {} transparentLines false RenderPassNormal).col] } :=
  ⟨by decide,
   applyMaterial_twice {} {} transparentLines false RenderPassNormal wideLineState rfl
     (by decide)⟩

/-- C14 fails as stated: a second call in a row with the same arguments, not
the first of the frame, still issues an operation, the colour. -/
theorem applyMaterial_twice_issues_color :
    (applyMaterial {}
        { ({} : SoFCRendererP) with
          material := (applyMaterial {} {} transparentLines false RenderPassNormal).material
          prevmaterial := some transparentLines }
        transparentLines false RenderPassNormal).ops
      = [GLOp.glColor4ub 0xcc 0xcc 0xcc 0x80] := by
  decide

/-! ## The state a material is applied from -/

theorem agreeFor_of_synced (vp : ViewParams) (sm first : Bool) (v : PassValues)
    (next a b : Material)
    (ha1 : a.pervertexcolor = next.pervertexcolor) (hb1 : b.pervertexcolor = next.pervertexcolor)
    (ha2 : NodesSynced vp sm next a) (hb2 : NodesSynced vp sm next b)
    (ha3 : CommonSynced v next a) (hb3 : CommonSynced v next b)
    (ha4 : next.type = MaterialType.Line → LineSynced v a)
    (hb4 : next.type = MaterialType.Line → LineSynced v b)
    (ha5 : next.type = MaterialType.Point → a.pointsize = v.pointsize)
    (hb5 : next.type = MaterialType.Point → b.pointsize = v.pointsize)
    (ha6 : next.type = MaterialType.Triangle ∨ first = true → FaceSynced v.transp next a)
    (hb6 : next.type = MaterialType.Triangle ∨ first = true → FaceSynced v.transp next b) :
    AgreeFor next.type first a b := by
  obtain ⟨a21, a22⟩ := ha2
  obtain ⟨b21, b22⟩ := hb2
  obtain ⟨x1, x2, x3, x4, x5, x6, x7, x8, x9⟩ := ha3
  obtain ⟨y1, y2, y3, y4, y5, y6, y7, y8, y9⟩ := hb3
  refine ⟨ha1.trans hb1.symm, a21.trans b21.symm, x1.trans y1.symm, x2.trans y2.symm,
    x3.trans y3.symm, x4.trans y4.symm, x5.trans y5.symm, x6.trans y6.symm, x7.trans y7.symm,
    x8.trans y8.symm, x9.trans y9.symm, ?_, ?_, ?_, ?_⟩
  · intro ht
    exact ⟨(ha4 ht).1.trans (hb4 ht).1.symm, (ha4 ht).2.trans (hb4 ht).2.symm⟩
  · intro ht
    exact (ha5 ht).trans (hb5 ht).symm
  · intro ht
    exact ⟨(a22 ht).1.trans (b22 ht).1.symm, (a22 ht).2.trans (b22 ht).2.symm⟩
  · intro ht
    obtain ⟨f1, f2, f3, f4, f5, f6, f7, f8, f9, f10⟩ := ha6 ht
    obtain ⟨g1, g2, g3, g4, g5, g6, g7, g8, g9, g10⟩ := hb6 ht
    exact ⟨f1.trans g1.symm, f2.trans g2.symm, f3.trans g3.symm, f4.trans g4.symm,
      f5.trans g5.symm, f6.trans g6.symm, f7.trans g7.symm, f8.trans g8.symm,
      f9.trans g9.symm, f10.trans g10.symm⟩

/-- C16, as the code has it: outside depth-write-only mode and with the
no-texture override off, a call of `applyMaterial` that succeeds from the
tracked state `S1` also succeeds from any other tracked state `S2`, and the two
tracked states afterwards agree on every field the call sets for a material
of that primitive kind; the fields of the other primitive kinds are not
promised to agree. -/
theorem applyMaterial_state_independent (vp : ViewParams) (p : SoFCRendererP)
    (S1 S2 next : Material) (transp : Bool) (pass : Nat)
    (hd : p.depthwriteonly = false) (hn : p.notexture = false)
    (hok : (applyMaterial vp { p with material := S1 } next transp pass).ok = true) :
    (applyMaterial vp { p with material := S2 } next transp pass).ok = true ∧
    AgreeFor next.type p.prevmaterial.isNone
      (applyMaterial vp { p with material := S1 } next transp pass).material
      (applyMaterial vp { p with material := S2 } next transp pass).material := by
  have hb : (p.shadowmapping &&
      (next.isOnTop || decide (next.shadowstyle &&& CASTS_SHADOW = 0))) = false := by
    rcases Bool.eq_false_or_eq_true
      (p.shadowmapping && (next.isOnTop || decide (next.shadowstyle &&& CASTS_SHADOW = 0)))
      with hc | hc
    · rw [applyMaterial_refused vp { p with material := S1 } next transp pass hc] at hok
      cases hok
    · exact hc
  obtain ⟨_, a1, a2, a3, a4, a5, a6⟩ :=
    applyMaterial_synced vp { p with material := S1 } next transp pass hb hd hn
  obtain ⟨ok2, b1, b2, b3, b4, b5, b6⟩ :=
    applyMaterial_synced vp { p with material := S2 } next transp pass hb hd hn
  exact ⟨ok2, agreeFor_of_synced vp p.shadowmapping p.prevmaterial.isNone
    (passValues vp next transp pass) next _ _ a1 b1 a2 b2 a3 b3 a4 b4 a5 b5 a6 b6⟩

/-- Applied from the default tracked state and from one with a wider line, the
transparent line material leaves the same line width, pattern and colour. -/
theorem applyMaterial_state_independent_witness :
    (applyMaterial {} { ({} : SoFCRendererP) with material := {} } transparentLines false
      RenderPassNormal).ok = true ∧
    (applyMaterial {} { ({} : SoFCRendererP) with material := wideLineState } transparentLines
      false RenderPassNormal).ok = true ∧
    AgreeFor transparentLines.type ({} : SoFCRendererP).prevmaterial.isNone
      (applyMaterial {} { ({} : SoFCRendererP) with material := {} } transparentLines false
        RenderPassNormal).material
      (applyMaterial {} { ({} : SoFCRendererP) with material := wideLineState } transparentLines
        false RenderPassNormal).material :=
  ⟨by decide,
   applyMaterial_state_independent {} {} {} wideLineState transparentLines false
     RenderPassNormal rfl rfl (by decide)⟩

/-- C16 fails as stated: a triangle material applied from the default tracked
state and from one with a wider line succeeds both times and leaves two
tracked states that differ, in the line width. -/
theorem applyMaterial_state_depends_on_previous :
    (applyMaterial {} { prevmaterial := some opaqueTriangles, material := {} }
      opaqueTriangles false RenderPassNormal).ok = true ∧
    (applyMaterial {} { prevmaterial := some opaqueTriangles, material := wideLineState }
      opaqueTriangles false RenderPassNormal).ok = true ∧
    (applyMaterial {} { prevmaterial := some opaqueTriangles, material := {} }
      opaqueTriangles false RenderPassNormal).material.linewidth = 1 ∧
    (applyMaterial {} { prevmaterial := some opaqueTriangles, material := wideLineState }
      opaqueTriangles false RenderPassNormal).material.linewidth = 2 ∧
    (applyMaterial {} { prevmaterial := some opaqueTriangles, material := {} }
      opaqueTriangles false RenderPassNormal).material ≠
    (applyMaterial {} { prevmaterial := some opaqueTriangles, material := wideLineState }
      opaqueTriangles false RenderPassNormal).material := by
  decide

/-! ## The tracked state whatever the no-texture override is -/

theorem mainKind_tracked (vp : ViewParams) (p : SoFCRendererP) (next : Material)
    (transp : Bool) (pass : Nat) :
    CommonSynced (passValues vp next transp pass) next (mainKind vp p next transp pass).1 ∧
    (next.type = MaterialType.Line →
      LineSynced (passValues vp next transp pass) (mainKind vp p next transp pass).1) ∧
    (next.type = MaterialType.Point →
      (mainKind vp p next transp pass).1.pointsize = (passValues vp next transp pass).pointsize)
    := by
  have h3 : CommonSynced (passValues vp next transp pass) next
      (mainCommon vp p next transp pass).1 := applyCommon_synced _ _ _ _
  rcases MaterialType.cases_eq next.type with ht | ht | ht
  · rw [mainKind_triangle vp p next transp pass ht]
    exact ⟨h3, (fun h => absurd (ht.symm.trans h) (by decide)),
      (fun h => absurd (ht.symm.trans h) (by decide))⟩
  · rw [mainKind_line vp p next transp pass ht, applyLinePattern_fst, applyLineWidth_fst]
    exact ⟨h3, (fun _ => ⟨rfl, rfl⟩), (fun h => absurd (ht.symm.trans h) (by decide))⟩
  · rw [mainKind_point vp p next transp pass ht, applyPointSize_fst]
    exact ⟨h3, (fun h => absurd (ht.symm.trans h) (by decide)), (fun _ => rfl)⟩

/-- What the tracked material holds, apart from clip planes, textures and
lights, after a call of `applyMaterial` that is neither refused nor
depth-write-only. -/
theorem applyMaterial_tracked (vp : ViewParams) (p : SoFCRendererP) (next : Material)
    (transp : Bool) (pass : Nat)
    (h : (p.shadowmapping && (next.isOnTop || decide (next.shadowstyle &&& CASTS_SHADOW = 0)))
      = false)
    (hd : p.depthwriteonly = false) :
    CommonSynced (passValues vp next transp pass) next
      (applyMaterial vp p next transp pass).material ∧
    (next.type = MaterialType.Line →
      LineSynced (passValues vp next transp pass)
        (applyMaterial vp p next transp pass).material) ∧
    (next.type = MaterialType.Point →
      (applyMaterial vp p next transp pass).material.pointsize =
        (passValues vp next transp pass).pointsize) ∧
    (next.type = MaterialType.Triangle ∨ p.prevmaterial.isNone = true →
      FaceSynced (passValues vp next transp pass).transp next
        (applyMaterial vp p next transp pass).material) := by
  obtain ⟨k3, k4, k5⟩ := mainKind_tracked vp p next transp pass
  have c3 : CommonSynced (passValues vp next transp pass) next
      (mainCommon vp p next transp pass).1 := applyCommon_synced _ _ _ _
  rw [applyMaterial_main_eq vp p next transp pass h hd]
  by_cases hl : next.type = MaterialType.Line ∧ p.prevmaterial.isNone = false
  · rw [if_pos hl, applyLinePattern_fst, applyLineWidth_fst]
    refine ⟨c3, (fun _ => ⟨rfl, rfl⟩), ?_, ?_⟩
    · intro hp; exact absurd (hl.1.symm.trans hp) (by decide)
    · intro hp
      rcases hp with hp | hp
      · exact absurd (hl.1.symm.trans hp) (by decide)
      · rw [hp] at hl; exact absurd hl.2 (by decide)
  · by_cases hpt : next.type = MaterialType.Point ∧ p.prevmaterial.isNone = false
    · rw [if_neg hl, if_pos hpt, applyPointSize_fst]
      refine ⟨c3, ?_, (fun _ => rfl), ?_⟩
      · intro hp; exact absurd (hpt.1.symm.trans hp) (by decide)
      · intro hp
        rcases hp with hp | hp
        · exact absurd (hpt.1.symm.trans hp) (by decide)
        · rw [hp] at hpt; exact absurd hpt.2 (by decide)
    · rw [if_neg hl, if_neg hpt]
      refine ⟨?_, ?_, ?_, (fun _ => applyFace_synced _ _ _ _)⟩
      · show CommonSynced _ _ (applyFace _ _ _ _).1
        rw [applyFace_fst]; exact k3
      · intro ht
        show LineSynced _ (applyFace _ _ _ _).1
        rw [applyFace_fst]; exact k4 ht
      · intro ht
        show (applyFace _ _ _ _).1.pointsize = _
        rw [applyFace_fst]; exact k5 ht

/-! ## The pass-specific values -/

theorem passValues_highlight (vp : ViewParams) (next : Material) (transp : Bool) (pass : Nat)
    (h : pass &&& RenderPassHighlight ≠ 0) :
    (passValues vp next transp pass).linewidth = highlightLineWidth vp next.linewidth ∧
    (passValues vp next transp pass).pointsize = highlightPointSize vp next.pointsize := by
  unfold passValues
  simp only [if_pos h]
  split_ifs <;> exact ⟨rfl, rfl⟩

theorem passValues_linePattern (vp : ViewParams) (next : Material) (transp : Bool) (pass : Nat)
    (h : pass &&& RenderPassLineMask = RenderPassLinePattern) :
    (passValues vp next transp pass).depthtest = false ∧
    (passValues vp next transp pass).overridetransp =
      (if pass = RenderPassLinePattern then true else next.overridetransp) ∧
    (passValues vp next transp pass).linepattern =
      (if selectionLinePattern vp ≠ 0 ∧ next.haslinepattern = false then
        selectionLinePattern vp
      else next.linepattern) := by
  unfold passValues
  simp only [if_pos h]
  split_ifs <;> exact ⟨rfl, rfl, rfl⟩

theorem selectionLinePattern_ne_zero (vp : ViewParams) (h0 : vp.SelectionLinePattern ≠ 0)
    (hlt : vp.SelectionLinePattern < 2 ^ 32) : selectionLinePattern vp ≠ 0 := by
  unfold selectionLinePattern
  split_ifs with hc
  · intro hz
    apply h0
    apply Nat.zero_of_testBit_eq_false
    intro i
    have hb := congrArg (fun n => Nat.testBit n i) hz
    simp only [Nat.testBit_mod_two_pow, Nat.testBit_or, Nat.zero_testBit] at hb
    by_cases hi : i < 32
    · simp only [hi, decide_True, Bool.true_and, Bool.or_eq_false_iff] at hb
      exact hb.1
    · apply Nat.testBit_lt_two_pow
      exact lt_of_lt_of_le hlt (Nat.pow_le_pow_right (by decide) (Nat.le_of_not_lt hi))
  · exact h0
/-- C18, as the code has it: after a successful call of `applyMaterial` outside
depth-write-only mode whose pass has line mode `LinePattern`, the tracked
depth test is off; the tracked transparency-override flag is set when the pass
is `LinePattern` without the highlight flag and is the flag of the material
itself when the pass carries other bits; and for a line material that requests
no pattern of its own the tracked line pattern is the selection line pattern,
with the pattern scale in its upper 16 bits when the scale exceeds 1, whenever
the configured 32-bit pattern is non-zero. -/
theorem applyMaterial_line_pattern (vp : ViewParams) (p : SoFCRendererP) (next : Material)
    (transp : Bool) (pass : Nat) (hd : p.depthwriteonly = false)
    (hok : (applyMaterial vp p next transp pass).ok = true)
    (hp : pass &&& RenderPassLineMask = RenderPassLinePattern) :
    (applyMaterial vp p next transp pass).material.depthtest = false ∧
    (pass = RenderPassLinePattern →
      (applyMaterial vp p next transp pass).material.overridetransp = true) ∧
    (pass ≠ RenderPassLinePattern →
      (applyMaterial vp p next transp pass).material.overridetransp = next.overridetransp) ∧
    (next.type = MaterialType.Line → next.haslinepattern = false →
      vp.SelectionLinePattern ≠ 0 → vp.SelectionLinePattern < 2 ^ 32 →
      (applyMaterial vp p next transp pass).material.linepattern = selectionLinePattern vp ∧
      selectionLinePattern vp ≠ 0) := by
  have hb : (p.shadowmapping &&
      (next.isOnTop || decide (next.shadowstyle &&& CASTS_SHADOW = 0))) = false := by
    rcases Bool.eq_false_or_eq_true
      (p.shadowmapping && (next.isOnTop || decide (next.shadowstyle &&& CASTS_SHADOW = 0)))
      with hc | hc
    · rw [applyMaterial_refused vp p next transp pass hc] at hok
      cases hok
    · exact hc
  obtain ⟨c, l, _, _⟩ := applyMaterial_tracked vp p next transp pass hb hd
  obtain ⟨c1, _, _, _, _, c6, _, _, _⟩ := c
  obtain ⟨v1, v2, v3⟩ := passValues_linePattern vp next transp pass hp
  refine ⟨c1.trans v1, ?_, ?_, ?_⟩
  · intro he
    rw [c6, v2, if_pos he]
  · intro he
    rw [c6, v2, if_neg he]
  · intro ht hh h0 hlt
    have hnz := selectionLinePattern_ne_zero vp h0 hlt
    refine ⟨?_, hnz⟩
    rw [(l ht).2, v3, if_pos ⟨hnz, hh⟩]

/-- In the line-pattern pass the transparent line material, applied first in a
frame under the dashed selection parameters, ends with depth test off, the
transparency override set and the dashed pattern tracked. -/
theorem applyMaterial_line_pattern_witness :
    ({} : SoFCRendererP).depthwriteonly = false ∧
    (applyMaterial dashedSelection {} transparentLines false RenderPassLinePattern).ok = true ∧
    RenderPassLinePattern &&& RenderPassLineMask = RenderPassLinePattern ∧
    (applyMaterial dashedSelection {} transparentLines false
      RenderPassLinePattern).material.depthtest = false ∧
    (applyMaterial dashedSelection {} transparentLines false
      RenderPassLinePattern).material.overridetransp = true ∧
    (applyMaterial dashedSelection {} transparentLines false
      RenderPassLinePattern).material.linepattern = 0x20f0f :=
  ⟨rfl, by decide, by decide,
   (applyMaterial_line_pattern dashedSelection {} transparentLines false RenderPassLinePattern
     rfl (by decide) (by decide)).1,
   (applyMaterial_line_pattern dashedSelection {} transparentLines false RenderPassLinePattern
     rfl (by decide) (by decide)).2.1 rfl,
   ((applyMaterial_line_pattern dashedSelection {} transparentLines false RenderPassLinePattern
     rfl (by decide) (by decide)).2.2.2 (by decide) (by decide) (by decide) (by decide)).1⟩

/-- C18 fails as stated: in the pass `LinePattern` with the highlight flag a
call for the transparent line material succeeds and the tracked
transparency-override flag is not set. -/
theorem applyMaterial_line_pattern_highlight_no_override :
    (RenderPassLinePattern ||| RenderPassHighlight) &&& RenderPassLineMask
      = RenderPassLinePattern ∧
    (applyMaterial dashedSelection {} transparentLines false
      (RenderPassLinePattern ||| RenderPassHighlight)).ok = true ∧
    (applyMaterial dashedSelection {} transparentLines false
      (RenderPassLinePattern ||| RenderPassHighlight)).material.overridetransp = false := by
  decide

/-- C19: in a pass with the highlight flag, for a material of non-negative
line width and point size, the effective line width is at least the width of
the material and, when the configured maximum line width exceeds 1, at most
the larger of that width and the maximum; the effective point size is at
least the size of the material and, when the configured maximum point size
exceeds 1, at most the larger of that size and the maximum.  The effective
values are the ones a call that is neither refused nor depth-write-only
records for a line material and for a point material. -/
theorem highlight_scaling_bounds (vp : ViewParams) (next : Material) (transp : Bool)
    (pass : Nat) (hp : pass &&& RenderPassHighlight ≠ 0) (hw : 0 ≤ next.linewidth)
    (hs : 0 ≤ next.pointsize) :
    next.linewidth ≤ (passValues vp next transp pass).linewidth ∧
    (vp.SelectionLineMaxWidth > 1 →
      (passValues vp next transp pass).linewidth ≤ max next.linewidth vp.SelectionLineMaxWidth) ∧
    next.pointsize ≤ (passValues vp next transp pass).pointsize ∧
    (vp.SelectionPointMaxSize > 1 →
      (passValues vp next transp pass).pointsize ≤ max next.pointsize vp.SelectionPointMaxSize) ∧
    (∀ p : SoFCRendererP, p.depthwriteonly = false →
      (applyMaterial vp p next transp pass).ok = true →
      (next.type = MaterialType.Line →
        (applyMaterial vp p next transp pass).material.linewidth =
          (passValues vp next transp pass).linewidth) ∧
      (next.type = MaterialType.Point →
        (applyMaterial vp p next transp pass).material.pointsize =
          (passValues vp next transp pass).pointsize)) := by
  obtain ⟨e1, e2⟩ := passValues_highlight vp next transp pass hp
  rw [e1, e2]
  have hscale : (1 : Rat) ≤ (if vp.SelectionLineThicken < 1 then 1 else vp.SelectionLineThicken)
      := by
    split_ifs with h
    · exact le_refl _
    · exact not_lt.mp h
  have hpscale : (1 : Rat) ≤ (if vp.SelectionPointScale < 1 then
      (if vp.SelectionLineThicken < 1 then 1 else vp.SelectionLineThicken)
      else vp.SelectionPointScale) := by
    split_ifs with h1 h2
    · exact le_refl _
    · exact not_lt.mp h2
    · exact not_lt.mp h1
  have hlw : next.linewidth ≤ next.linewidth *
      (if vp.SelectionLineThicken < 1 then 1 else vp.SelectionLineThicken) :=
    le_mul_of_one_le_right hw hscale
  have hps : next.pointsize ≤ next.pointsize * (if vp.SelectionPointScale < 1 then
      (if vp.SelectionLineThicken < 1 then 1 else vp.SelectionLineThicken)
      else vp.SelectionPointScale) :=
    le_mul_of_one_le_right hs hpscale
  refine ⟨?_, ?_, ?_, ?_, ?_⟩
  · unfold highlightLineWidth
    simp only []
    by_cases hm : vp.SelectionLineMaxWidth > 1
    · rw [if_pos hm]
      exact le_min hlw (le_max_left _ _)
    · rw [if_neg hm]
      exact hlw
  · intro hm
    unfold highlightLineWidth
    simp only []
    rw [if_pos hm]
    exact min_le_right _ _
  · unfold highlightPointSize
    simp only []
    by_cases hm : vp.SelectionPointMaxSize > 1
    · rw [if_pos hm]
      exact le_min hps (le_max_left _ _)
    · rw [if_neg hm]
      exact hps
  · intro hm
    unfold highlightPointSize
    simp only []
    rw [if_pos hm]
    exact min_le_right _ _
  · intro p hd hok
    have hb : (p.shadowmapping &&
        (next.isOnTop || decide (next.shadowstyle &&& CASTS_SHADOW = 0))) = false := by
      rcases Bool.eq_false_or_eq_true
        (p.shadowmapping && (next.isOnTop || decide (next.shadowstyle &&& CASTS_SHADOW = 0)))
        with hc | hc
      · rw [applyMaterial_refused vp p next transp pass hc] at hok
        cases hok
      · exact hc
    obtain ⟨_, l, pt, _⟩ := applyMaterial_tracked vp p next transp pass hb hd
    exact ⟨fun ht => ((l ht).1.trans e1), fun ht => ((pt ht).trans e2)⟩

/-- Under the dashed selection parameters a line of width 1 and a point of
size 1 are drawn in the highlight pass with width and size between 1 and the
configured maxima 3 and 5. -/
theorem highlight_scaling_bounds_witness :
    RenderPassHighlight &&& RenderPassHighlight ≠ 0 ∧
    (0 : Rat) ≤ transparentLines.linewidth ∧ (0 : Rat) ≤ transparentLines.pointsize ∧
    transparentLines.linewidth
      ≤ (passValues dashedSelection transparentLines false RenderPassHighlight).linewidth ∧
    (passValues dashedSelection transparentLines false RenderPassHighlight).linewidth
      ≤ max transparentLines.linewidth dashedSelection.SelectionLineMaxWidth ∧
    transparentLines.pointsize
      ≤ (passValues dashedSelection transparentLines false RenderPassHighlight).pointsize ∧
    (passValues dashedSelection transparentLines false RenderPassHighlight).pointsize
      ≤ max transparentLines.pointsize dashedSelection.SelectionPointMaxSize :=
  ⟨by decide, by decide, by decide,
   (highlight_scaling_bounds dashedSelection transparentLines false RenderPassHighlight
     (by decide) (by decide) (by decide)).1,
   (highlight_scaling_bounds dashedSelection transparentLines false RenderPassHighlight
     (by decide) (by decide) (by decide)).2.1 (by decide),
   (highlight_scaling_bounds dashedSelection transparentLines false RenderPassHighlight
     (by decide) (by decide) (by decide)).2.2.1,
   (highlight_scaling_bounds dashedSelection transparentLines false RenderPassHighlight
     (by decide) (by decide) (by decide)).2.2.2.1 (by decide)⟩

/-! ## The operations of the first call of a frame -/

theorem syncStep_first (differs : Bool) (ops : List GLOp) (update : Material → Material)
    (st : Applied) : syncStep true differs ops update st = (update st.1, st.2 ++ ops) := rfl

theorem blendOps_congr (v : PassValues) (a b : Material)
    (h1 : a.overridetransp = b.overridetransp) (h2 : a.overrideother = b.overrideother)
    (h3 : a.diffuse = b.diffuse) : blendOps v a = blendOps v b := by
  unfold blendOps
  rw [h1, h2, h3]

theorem applyCommon_snd_first (v : PassValues) (next : Material) (st : Applied) :
    (applyCommon true v next st).2 =
      st.2 ++ firstDepthLightOps v next ++ blendOps v st.1 ++ [firstEmissionOp v next] := by
  simp only [applyCommon, applyEmissive, applyColor, applyLightModel, applyDepthFunc,
    applyDepthWrite, applyDepthClamp, applyDepthTest, syncStep_first, firstDepthLightOps,
    firstEmissionOp, List.append_assoc, List.cons_append, List.nil_append, List.singleton_append]
  rfl

theorem setGLFeature_switch (name : GLCap) (current next mask : Nat) (op : GLOp)
    (h : op ∈ setGLFeature name current next mask) :
    op = GLOp.glDisable name ∨ op = GLOp.glEnable name := by
  unfold setGLFeature at h
  split_ifs at h
  · exact Or.inl (List.mem_singleton.mp h)
  · exact Or.inr (List.mem_singleton.mp h)
  · cases h

theorem applyFace_snd_first (transp : Bool) (next : Material) (st : Applied) :
    ∃ enables : List GLOp,
      (∀ op ∈ enables, op ∈ polygonOffsetSwitches) ∧
      (applyFace true transp next st).2 =
        st.2 ++ firstFaceOps transp next ++ enables
          ++ [GLOp.glPolygonOffset next.polygonoffsetfactor next.polygonoffsetunits] := by
  refine ⟨setGLFeature GLCap.POLYGON_OFFSET_FILL st.1.polygonoffsetstyle
      next.polygonoffsetstyle 1
    ++ setGLFeature GLCap.POLYGON_OFFSET_LINE st.1.polygonoffsetstyle next.polygonoffsetstyle 2
    ++ setGLFeature GLCap.POLYGON_OFFSET_POINT st.1.polygonoffsetstyle
        next.polygonoffsetstyle 4, ?_, ?_⟩
  · intro op hop
    rcases List.mem_append.mp hop with h | h
    · rcases List.mem_append.mp h with h | h
      · rcases setGLFeature_switch _ _ _ _ _ h with h | h <;> rw [h] <;> decide
      · rcases setGLFeature_switch _ _ _ _ _ h with h | h <;> rw [h] <;> decide
    · rcases setGLFeature_switch _ _ _ _ _ h with h | h <;> rw [h] <;> decide
  · simp only [applyFace, applyPolygonOffset, applyPolygonOffsetStyle, applyDrawStyle,
      applyCulling, applyTwoside, applyVertexOrdering, applyShininess, applySpecular,
      applyAmbient, syncStep_first, firstFaceOps, List.append_assoc, List.cons_append,
      List.nil_append, List.singleton_append]

theorem applyNodes_blend_fields (vp : ViewParams) (shadowmapping notexture first : Bool)
    (next : Material) (st : Applied) :
    (applyNodes vp shadowmapping notexture first next st).1.overridetransp
      = st.1.overridetransp ∧
    (applyNodes vp shadowmapping notexture first next st).1.overrideother
      = st.1.overrideother ∧
    (applyNodes vp shadowmapping notexture first next st).1.diffuse = st.1.diffuse := by
  rw [applyNodes_fst]
  exact ⟨rfl, rfl, rfl⟩

theorem mainCommon_snd_first (vp : ViewParams) (p : SoFCRendererP) (next : Material)
    (transp : Bool) (pass : Nat) (hfirst : p.prevmaterial.isNone = true) :
    (mainCommon vp p next transp pass).2 =
      (applyNodes vp p.shadowmapping p.notexture true next
        ({ p.material with pervertexcolor := next.pervertexcolor }, [])).2
      ++ firstDepthLightOps (passValues vp next transp pass) next
      ++ blendOps (passValues vp next transp pass) p.material
      ++ [firstEmissionOp (passValues vp next transp pass) next] := by
  unfold mainCommon
  rw [hfirst, applyCommon_snd_first]
  obtain ⟨h1, h2, h3⟩ := applyNodes_blend_fields vp p.shadowmapping p.notexture true next
    ({ p.material with pervertexcolor := next.pervertexcolor }, [])
  rw [blendOps_congr _ _ p.material h1 h2 h3]

theorem mainKind_snd_first (vp : ViewParams) (p : SoFCRendererP) (next : Material)
    (transp : Bool) (pass : Nat) (hfirst : p.prevmaterial.isNone = true) :
    (mainKind vp p next transp pass).2 =
      (mainCommon vp p next transp pass).2
        ++ firstKindOps (passValues vp next transp pass) next := by
  rcases MaterialType.cases_eq next.type with ht | ht | ht
  · rw [mainKind_triangle vp p next transp pass ht]
    unfold firstKindOps
    rw [ht]
    exact (List.append_nil _).symm
  · rw [mainKind_line vp p next transp pass ht, hfirst]
    unfold firstKindOps
    rw [ht]
    simp only [applyLinePattern, applyLineWidth, syncStep_first, List.append_assoc,
      List.singleton_append]
  · rw [mainKind_point vp p next transp pass ht, hfirst]
    unfold firstKindOps
    rw [ht]
    simp only [applyPointSize, syncStep_first]
/-- C15, as the code has it: a first call of a frame that succeeds outside
depth-write-only mode issues, after the clip-plane, texture and light
submissions, an operation for the depth test, the depth clamp, the depth write,
the depth function, the lighting and the colour; the blend function only when
the override flags or, under the transparency override, the alpha byte differ
from the tracked ones; then the emission, the line width and pattern only for
a line material, the point size only for a point material, then ambient,
specular, shininess, front face, two-sided lighting, culling and polygon mode,
some switches of polygon-offset capabilities, and the polygon-offset values;
and the tracked state records each applied value. -/
theorem applyMaterial_first_call (vp : ViewParams) (p : SoFCRendererP) (next : Material)
    (transp : Bool) (pass : Nat) (hfirst : p.prevmaterial = none)
    (hd : p.depthwriteonly = false)
    (hok : (applyMaterial vp p next transp pass).ok = true) :
    (∃ enables : List GLOp,
      (∀ op ∈ enables, op ∈ polygonOffsetSwitches) ∧
      (applyMaterial vp p next transp pass).ops =
        (applyNodes vp p.shadowmapping p.notexture true next
          ({ p.material with pervertexcolor := next.pervertexcolor }, [])).2
        ++ firstDepthLightOps (passValues vp next transp pass) next
        ++ blendOps (passValues vp next transp pass) p.material
        ++ [firstEmissionOp (passValues vp next transp pass) next]
        ++ firstKindOps (passValues vp next transp pass) next
        ++ firstFaceOps (passValues vp next transp pass).transp next
        ++ enables
        ++ [GLOp.glPolygonOffset next.polygonoffsetfactor next.polygonoffsetunits]) ∧
    CommonSynced (passValues vp next transp pass) next
      (applyMaterial vp p next transp pass).material ∧
    (next.type = MaterialType.Line →
      LineSynced (passValues vp next transp pass)
        (applyMaterial vp p next transp pass).material) ∧
    (next.type = MaterialType.Point →
      (applyMaterial vp p next transp pass).material.pointsize =
        (passValues vp next transp pass).pointsize) ∧
    FaceSynced (passValues vp next transp pass).transp next
      (applyMaterial vp p next transp pass).material := by
  have hf : p.prevmaterial.isNone = true := by rw [hfirst]; rfl
  have hb : (p.shadowmapping &&
      (next.isOnTop || decide (next.shadowstyle &&& CASTS_SHADOW = 0))) = false := by
    rcases Bool.eq_false_or_eq_true
      (p.shadowmapping && (next.isOnTop || decide (next.shadowstyle &&& CASTS_SHADOW = 0)))
      with hc | hc
    · rw [applyMaterial_refused vp p next transp pass hc] at hok
      cases hok
    · exact hc
  obtain ⟨t1, t2, t3, t4⟩ := applyMaterial_tracked vp p next transp pass hb hd
  refine ⟨?_, t1, t2, t3, t4 (Or.inr hf)⟩
  obtain ⟨enables, he1, he2⟩ := applyFace_snd_first (passValues vp next transp pass).transp
    next (mainKind vp p next transp pass)
  refine ⟨enables, he1, ?_⟩
  rw [applyMaterial_main_eq vp p next transp pass hb hd,
    if_neg (fun h => absurd (hf.symm.trans h.2) (by decide)),
    if_neg (fun h => absurd (hf.symm.trans h.2) (by decide))]
  show (applyFace p.prevmaterial.isNone (passValues vp next transp pass).transp next
    (mainKind vp p next transp pass)).2 = _
  rw [hf, he2, mainKind_snd_first vp p next transp pass hf,
    mainCommon_snd_first vp p next transp pass hf]

/-- The first call of a frame for the transparent line material on a fresh
renderer issues the line width and the line pattern and records them. -/
theorem applyMaterial_first_call_witness :
    ({} : SoFCRendererP).prevmaterial = none ∧ ({} : SoFCRendererP).depthwriteonly = false ∧
    (applyMaterial {} {} transparentLines false RenderPassNormal).ok = true ∧
    (∃ enables : List GLOp,
      (∀ op ∈ enables, op ∈ polygonOffsetSwitches) ∧
      (applyMaterial {} {} transparentLines false RenderPassNormal).ops =
        (applyNodes {} ({} : SoFCRendererP).shadowmapping ({} : SoFCRendererP).notexture true
          transparentLines
          ({ ({} : SoFCRendererP).material with
              pervertexcolor := transparentLines.pervertexcolor }, [])).2
        ++ firstDepthLightOps (passValues {} transparentLines false RenderPassNormal)
            transparentLines
        ++ blendOps (passValues {} transparentLines false RenderPassNormal)
            ({} : SoFCRendererP).material
        ++ [firstEmissionOp (passValues {} transparentLines false RenderPassNormal)
            transparentLines]
        ++ firstKindOps (passValues {} transparentLines false RenderPassNormal) transparentLines
        ++ firstFaceOps (passValues {} transparentLines false RenderPassNormal).transp
            transparentLines
        ++ enables
        ++ [GLOp.glPolygonOffset transparentLines.polygonoffsetfactor
            transparentLines.polygonoffsetunits]) ∧
    LineSynced (passValues {} transparentLines false RenderPassNormal)
      (applyMaterial {} {} transparentLines false RenderPassNormal).material :=
  ⟨rfl, rfl, by decide,
   (applyMaterial_first_call {} {} transparentLines false RenderPassNormal rfl rfl
     (by decide)).1,
   (applyMaterial_first_call {} {} transparentLines false RenderPassNormal rfl rfl
     (by decide)).2.2.1 (by decide)⟩

/-- C15 fails as stated: the first call of a frame for an opaque triangle
material on a fresh renderer succeeds and issues no operation for the line
width, the line pattern, the point size or the blend function. -/
theorem applyMaterial_first_call_omits_line_point_blend :
    ({} : SoFCRendererP).prevmaterial = none ∧ ({} : SoFCRendererP).depthwriteonly = false ∧
    (applyMaterial {} {} opaqueTriangles false RenderPassNormal).ok = true ∧
    (applyMaterial {} {} opaqueTriangles false RenderPassNormal).ops.any
      GLOp.isLinePointOrBlend = false := by
  decide

/-! ## Submissions of clip planes, textures and lights -/

theorem filter_flatMap_self {α : Type} (q : GLOp → Bool) (f : α → List GLOp) (l : List α)
    (h : ∀ a, (f a).filter q = f a) : (l.flatMap f).filter q = l.flatMap f := by
  induction l with
  | nil => rfl
  | cons a l ih => simp only [List.flatMap_cons, List.filter_append, h, ih]

theorem renderNodes_submissions (nodes : List NodeInfo) :
    (renderNodes nodes).filter GLOp.isSubmission = renderNodes nodes := by
  unfold renderNodes
  split_ifs
  · apply filter_flatMap_self
    intro a
    cases a.identity <;> rfl
  · rfl

theorem renderTextures_submissions (tracked textures : List (Nat × TextureInfo)) :
    (renderTextures tracked textures).filter GLOp.isSubmission
      = renderTextures tracked textures := by
  unfold renderTextures
  split_ifs
  · apply filter_flatMap_self
    intro a
    split_ifs <;> rfl
  · rfl

theorem syncStep_submissions (first differs : Bool) (ops : List GLOp)
    (update : Material → Material) (st : Applied)
    (h : ops.filter GLOp.isSubmission = []) :
    (syncStep first differs ops update st).2.filter GLOp.isSubmission
      = st.2.filter GLOp.isSubmission := by
  rw [syncStep_snd, List.filter_append]
  split_ifs
  · rw [h, List.append_nil]
  · exact List.append_nil _

theorem setGLFeature_submissions (name : GLCap) (current next mask : Nat) :
    (setGLFeature name current next mask).filter GLOp.isSubmission = [] := by
  unfold setGLFeature
  split_ifs <;> rfl

theorem blendOps_submissions (v : PassValues) (tracked : Material) :
    (blendOps v tracked).filter GLOp.isSubmission = [] := by
  unfold blendOps
  split_ifs <;> rfl

theorem applyDepthTest_submissions (first depthtest : Bool) (st : Applied) :
    (applyDepthTest first depthtest st).2.filter GLOp.isSubmission
      = st.2.filter GLOp.isSubmission :=
  syncStep_submissions _ _ _ _ _ (by split_ifs <;> rfl)

theorem applyDepthClamp_submissions (first : Bool) (next : Material) (st : Applied) :
    (applyDepthClamp first next st).2.filter GLOp.isSubmission
      = st.2.filter GLOp.isSubmission :=
  syncStep_submissions _ _ _ _ _ (by split_ifs <;> rfl)

theorem applyDepthWrite_submissions (first depthwrite : Bool) (st : Applied) :
    (applyDepthWrite first depthwrite st).2.filter GLOp.isSubmission
      = st.2.filter GLOp.isSubmission :=
  syncStep_submissions _ _ _ _ _ (by rfl)

theorem applyDepthFunc_submissions (first : Bool) (depthfunc : DepthFunc) (st : Applied) :
    (applyDepthFunc first depthfunc st).2.filter GLOp.isSubmission
      = st.2.filter GLOp.isSubmission :=
  syncStep_submissions _ _ _ _ _ (by rfl)

theorem applyLightModel_submissions (first : Bool) (next : Material) (st : Applied) :
    (applyLightModel first next st).2.filter GLOp.isSubmission
      = st.2.filter GLOp.isSubmission :=
  syncStep_submissions _ _ _ _ _ (by split_ifs <;> rfl)

theorem applyColor_submissions (v : PassValues) (st : Applied) :
    (applyColor v st).2.filter GLOp.isSubmission = st.2.filter GLOp.isSubmission := by
  unfold applyColor
  simp only [List.filter_append, blendOps_submissions, List.append_nil]
  rw [show [colorOp v.col].filter GLOp.isSubmission = [] from rfl, List.append_nil]

theorem applyEmissive_submissions (first : Bool) (emissive : Nat) (st : Applied) :
    (applyEmissive first emissive st).2.filter GLOp.isSubmission
      = st.2.filter GLOp.isSubmission :=
  syncStep_submissions _ _ _ _ _ (by rfl)

theorem applyCommon_submissions (first : Bool) (v : PassValues) (next : Material)
    (st : Applied) :
    (applyCommon first v next st).2.filter GLOp.isSubmission
      = st.2.filter GLOp.isSubmission := by
  unfold applyCommon
  rw [applyEmissive_submissions, applyColor_submissions, applyLightModel_submissions,
    applyDepthFunc_submissions, applyDepthWrite_submissions, applyDepthClamp_submissions,
    applyDepthTest_submissions]

theorem applyLineWidth_submissions (first : Bool) (linewidth : Rat) (st : Applied) :
    (applyLineWidth first linewidth st).2.filter GLOp.isSubmission
      = st.2.filter GLOp.isSubmission :=
  syncStep_submissions _ _ _ _ _ (by rfl)

theorem applyLinePattern_submissions (first : Bool) (linepattern : Nat) (st : Applied) :
    (applyLinePattern first linepattern st).2.filter GLOp.isSubmission
      = st.2.filter GLOp.isSubmission :=
  syncStep_submissions _ _ _ _ _ (by split_ifs <;> rfl)

theorem applyPointSize_submissions (first : Bool) (pointsize : Rat) (st : Applied) :
    (applyPointSize first pointsize st).2.filter GLOp.isSubmission
      = st.2.filter GLOp.isSubmission :=
  syncStep_submissions _ _ _ _ _ (by rfl)

theorem applyAmbient_submissions (first : Bool) (next : Material) (st : Applied) :
    (applyAmbient first next st).2.filter GLOp.isSubmission
      = st.2.filter GLOp.isSubmission :=
  syncStep_submissions _ _ _ _ _ (by rfl)

theorem applySpecular_submissions (first : Bool) (next : Material) (st : Applied) :
    (applySpecular first next st).2.filter GLOp.isSubmission
      = st.2.filter GLOp.isSubmission :=
  syncStep_submissions _ _ _ _ _ (by rfl)

theorem applyShininess_submissions (first : Bool) (next : Material) (st : Applied) :
    (applyShininess first next st).2.filter GLOp.isSubmission
      = st.2.filter GLOp.isSubmission :=
  syncStep_submissions _ _ _ _ _ (by rfl)

theorem applyVertexOrdering_submissions (first : Bool) (next : Material) (st : Applied) :
    (applyVertexOrdering first next st).2.filter GLOp.isSubmission
      = st.2.filter GLOp.isSubmission :=
  syncStep_submissions _ _ _ _ _ (by rfl)

theorem applyTwoside_submissions (first transp : Bool) (next : Material) (st : Applied) :
    (applyTwoside first transp next st).2.filter GLOp.isSubmission
      = st.2.filter GLOp.isSubmission :=
  syncStep_submissions _ _ _ _ _ (by rfl)

theorem applyCulling_submissions (first transp : Bool) (next : Material) (st : Applied) :
    (applyCulling first transp next st).2.filter GLOp.isSubmission
      = st.2.filter GLOp.isSubmission :=
  syncStep_submissions _ _ _ _ _ (by split_ifs <;> rfl)

theorem applyDrawStyle_submissions (first : Bool) (next : Material) (st : Applied) :
    (applyDrawStyle first next st).2.filter GLOp.isSubmission
      = st.2.filter GLOp.isSubmission :=
  syncStep_submissions _ _ _ _ _ (by rfl)

theorem applyPolygonOffsetStyle_submissions (first : Bool) (next : Material) (st : Applied) :
    (applyPolygonOffsetStyle first next st).2.filter GLOp.isSubmission
      = st.2.filter GLOp.isSubmission :=
  syncStep_submissions _ _ _ _ _
    (by simp only [List.filter_append, setGLFeature_submissions, List.append_nil])

theorem applyPolygonOffset_submissions (first : Bool) (next : Material) (st : Applied) :
    (applyPolygonOffset first next st).2.filter GLOp.isSubmission
      = st.2.filter GLOp.isSubmission :=
  syncStep_submissions _ _ _ _ _ (by rfl)

theorem applyFace_submissions (first transp : Bool) (next : Material) (st : Applied) :
    (applyFace first transp next st).2.filter GLOp.isSubmission
      = st.2.filter GLOp.isSubmission := by
  unfold applyFace
  rw [applyPolygonOffset_submissions, applyPolygonOffsetStyle_submissions,
    applyDrawStyle_submissions, applyCulling_submissions, applyTwoside_submissions,
    applyVertexOrdering_submissions, applyShininess_submissions, applySpecular_submissions,
    applyAmbient_submissions]
theorem applyNodes_snd (vp : ViewParams) (shadowmapping notexture first : Bool)
    (next : Material) (st : Applied) :
    (applyNodes vp shadowmapping notexture first next st).2 =
      st.2 ++
        (if first = true ∨ st.1.clippers ≠ effectiveClippers vp shadowmapping next
            ∨ (next.type = MaterialType.Triangle
                ∧ (st.1.textures ≠ next.textures ∨ st.1.lights ≠ next.lights)) then
          [GLOp.statePop, GLOp.statePush]
            ++ renderNodes (effectiveClippers vp shadowmapping next)
            ++ (if notexture = false
                  ∧ (first = true ∨ st.1.clippers ≠ effectiveClippers vp shadowmapping next
                      ∨ (next.type = MaterialType.Triangle ∧ st.1.textures ≠ next.textures)) then
                renderTextures st.1.textures next.textures
              else [])
            ++ renderNodes next.lights
        else []) := by
  unfold applyNodes
  simp only []
  by_cases hcl : st.1.clippers = effectiveClippers vp shadowmapping next <;>
  by_cases ht : next.type = MaterialType.Triangle <;>
  by_cases htex : st.1.textures = next.textures <;>
  by_cases hl : st.1.lights = next.lights <;>
  cases first <;> cases notexture <;>
  simp [hcl, ht, htex, hl]

theorem mainKind_submissions (vp : ViewParams) (p : SoFCRendererP) (next : Material)
    (transp : Bool) (pass : Nat) :
    (mainKind vp p next transp pass).2.filter GLOp.isSubmission
      = (mainCommon vp p next transp pass).2.filter GLOp.isSubmission := by
  rcases MaterialType.cases_eq next.type with ht | ht | ht
  · rw [mainKind_triangle vp p next transp pass ht]
  · rw [mainKind_line vp p next transp pass ht, applyLinePattern_submissions,
      applyLineWidth_submissions]
  · rw [mainKind_point vp p next transp pass ht, applyPointSize_submissions]

theorem applyMaterial_submissions (vp : ViewParams) (p : SoFCRendererP) (next : Material)
    (transp : Bool) (pass : Nat)
    (h : (p.shadowmapping && (next.isOnTop || decide (next.shadowstyle &&& CASTS_SHADOW = 0)))
      = false)
    (hd : p.depthwriteonly = false) :
    (applyMaterial vp p next transp pass).ops.filter GLOp.isSubmission =
      ((applyNodes vp p.shadowmapping p.notexture p.prevmaterial.isNone next
        ({ p.material with pervertexcolor := next.pervertexcolor }, [])).2).filter
          GLOp.isSubmission := by
  have hc : (mainCommon vp p next transp pass).2.filter GLOp.isSubmission =
      ((applyNodes vp p.shadowmapping p.notexture p.prevmaterial.isNone next
        ({ p.material with pervertexcolor := next.pervertexcolor }, [])).2).filter
          GLOp.isSubmission := by
    unfold mainCommon
    rw [applyCommon_submissions]
  rw [applyMaterial_main_eq vp p next transp pass h hd]
  by_cases hl : next.type = MaterialType.Line ∧ p.prevmaterial.isNone = false
  · rw [if_pos hl]
    show (applyLinePattern _ _ _).2.filter GLOp.isSubmission = _
    rw [applyLinePattern_submissions, applyLineWidth_submissions, hc]
  · by_cases hpt : next.type = MaterialType.Point ∧ p.prevmaterial.isNone = false
    · rw [if_neg hl, if_pos hpt]
      show (applyPointSize _ _ _).2.filter GLOp.isSubmission = _
      rw [applyPointSize_submissions, hc]
    · rw [if_neg hl, if_neg hpt]
      show (applyFace _ _ _ _).2.filter GLOp.isSubmission = _
      rw [applyFace_submissions, mainKind_submissions, hc]

/-- C20, as the code has it: in a call of `applyMaterial` that succeeds outside
depth-write-only mode, the clip-plane set compared with the tracked one is the
effective one (empty in a shadow-map pass and, for an on-top material, when
sections on top are disabled or concave sections meet several planes).  When
the call is the first of the frame, or the effective clip-plane set differs,
or the material is a triangle material whose texture set or light set differs,
the effective clip planes and the lights of the target are all resubmitted,
and so are, unless the no-texture override is on or only the light set
differs, the textures of the target that the tracked list does not hold
unchanged at the same unit; otherwise nothing is resubmitted. -/
theorem applyMaterial_resubmission (vp : ViewParams) (p : SoFCRendererP) (next : Material)
    (transp : Bool) (pass : Nat) (hd : p.depthwriteonly = false)
    (hok : (applyMaterial vp p next transp pass).ok = true) :
    ((p.prevmaterial.isNone = true
        ∨ p.material.clippers ≠ effectiveClippers vp p.shadowmapping next
        ∨ (next.type = MaterialType.Triangle
            ∧ (p.material.textures ≠ next.textures ∨ p.material.lights ≠ next.lights))) →
      (applyMaterial vp p next transp pass).ops.filter GLOp.isSubmission =
        [GLOp.statePop, GLOp.statePush]
          ++ renderNodes (effectiveClippers vp p.shadowmapping next)
          ++ (if p.notexture = false
                ∧ (p.prevmaterial.isNone = true
                    ∨ p.material.clippers ≠ effectiveClippers vp p.shadowmapping next
                    ∨ (next.type = MaterialType.Triangle
                        ∧ p.material.textures ≠ next.textures)) then
              renderTextures p.material.textures next.textures
            else [])
          ++ renderNodes next.lights) ∧
    (¬ (p.prevmaterial.isNone = true
        ∨ p.material.clippers ≠ effectiveClippers vp p.shadowmapping next
        ∨ (next.type = MaterialType.Triangle
            ∧ (p.material.textures ≠ next.textures ∨ p.material.lights ≠ next.lights))) →
      (applyMaterial vp p next transp pass).ops.filter GLOp.isSubmission = []) := by
  have hb : (p.shadowmapping &&
      (next.isOnTop || decide (next.shadowstyle &&& CASTS_SHADOW = 0))) = false := by
    rcases Bool.eq_false_or_eq_true
      (p.shadowmapping && (next.isOnTop || decide (next.shadowstyle &&& CASTS_SHADOW = 0)))
      with hc | hc
    · rw [applyMaterial_refused vp p next transp pass hc] at hok
      cases hok
    · exact hc
  rw [applyMaterial_submissions vp p next transp pass hb hd, applyNodes_snd]
  constructor
  · intro hch
    rw [if_pos hch]
    split_ifs <;>
    simp only [List.nil_append, List.filter_append, renderNodes_submissions,
      renderTextures_submissions] <;>
    rfl
  · intro hch
    rw [if_neg hch]
    rfl

/-- A non-first call for the textured and lit triangle material on a renderer
whose tracked material has other clip planes resubmits the clip plane, the
texture and the light. -/
theorem applyMaterial_resubmission_witness :
    ({ prevmaterial := some opaqueTriangles } : SoFCRendererP).depthwriteonly = false ∧
    (applyMaterial {} { prevmaterial := some opaqueTriangles } texturedLitTriangles false
      RenderPassNormal).ok = true ∧
    (applyMaterial {} { prevmaterial := some opaqueTriangles } texturedLitTriangles false
      RenderPassNormal).ops.filter GLOp.isSubmission =
      [GLOp.statePop, GLOp.statePush, GLOp.setCacheOpen false, GLOp.nodeGLRender 11,
       GLOp.setTextureMatrix 0 none, GLOp.setTextureUnit 0, GLOp.setCacheOpen false,
       GLOp.nodeGLRender 21, GLOp.setCacheOpen false, GLOp.nodeGLRender 31] :=
  ⟨rfl, by decide,
   ((applyMaterial_resubmission {} { prevmaterial := some opaqueTriangles }
      texturedLitTriangles false RenderPassNormal rfl (by decide)).1 (by decide)).trans
     (by decide)⟩

/-- C20 fails as stated: with sections on top disabled, a non-first call for an
on-top line material whose clip-plane set differs from the tracked one
succeeds and resubmits nothing. -/
theorem applyMaterial_clip_change_not_resubmitted :
    ({ prevmaterial := some opaqueTriangles } : SoFCRendererP).prevmaterial.isNone = false ∧
    clippedOntopLines.clippers ≠
      ({ prevmaterial := some opaqueTriangles } : SoFCRendererP).material.clippers ∧
    (applyMaterial noSectionOnTop { prevmaterial := some opaqueTriangles } clippedOntopLines
      false RenderPassNormal).ok = true ∧
    (applyMaterial noSectionOnTop { prevmaterial := some opaqueTriangles } clippedOntopLines
      false RenderPassNormal).ops.filter GLOp.isSubmission = [] := by
  decide

/-! ## The suppress guard of renderOpaque and renderTransparency -/

theorem mem_renderOpaqueVisited (vp : ViewParams) (p : SoFCRendererP)
    (draw_entries : List DrawEntry) (indices : List Nat) (idx : Nat) (e : DrawEntry)
    (he : draw_entries[idx]? = some e) :
    idx ∈ renderOpaqueVisited vp p draw_entries indices ↔
      p.transpshadowmapping = false ∧ idx ∈ indices ∧ renderOpaqueSkip vp p e = false := by
  unfold renderOpaqueVisited
  rcases Bool.eq_false_or_eq_true p.transpshadowmapping with ht | ht
  · simp [ht]
  · simp [ht, List.mem_filter, he]

theorem mem_renderTransparencyVisited (p : SoFCRendererP)
    (draw_entries : List DrawEntry) (indices : List DrawEntryIndex) (idx : Nat) (e : DrawEntry)
    (he : draw_entries[idx]? = some e) :
    idx ∈ renderTransparencyVisited p draw_entries indices ↔
      (p.shadowmapping = true → p.transpshadowmapping = true)
        ∧ idx ∈ indices.map (fun v => v.idx) ∧ renderTransparencySkip p e = false := by
  unfold renderTransparencyVisited
  cases indices with
  | nil => simp
  | cons a l =>
    rcases Bool.eq_false_or_eq_true p.shadowmapping with hs | hs <;>
    rcases Bool.eq_false_or_eq_true p.transpshadowmapping with ht | ht <;>
    simp [hs, ht, List.mem_filter, he]

/-- C11, as the code has it: a suppressed unit that `renderOpaque` is given is
taken past the guard exactly when the frame is not a transparent shadow-map
pass and either the frame is a shadow-map pass or concave sections or the
no-section-on-top toggle is on and the material of the unit has a clip plane.
A suppressed unit that `renderTransparency` is given is, in a shadow-map pass,
taken past the guard exactly when the pass is the transparent one, and is
passed over when the frame is not a shadow-map pass and the no-section-on-top
toggle is off. -/
theorem suppressed_unit_guard (vp : ViewParams) (p : SoFCRendererP)
    (draw_entries : List DrawEntry) (idx : Nat) (e : DrawEntry)
    (he : draw_entries[idx]? = some e) (hs : e.skip ≠ 0) :
    (∀ indices : List Nat, idx ∈ indices →
      (idx ∈ renderOpaqueVisited vp p draw_entries indices ↔
        p.transpshadowmapping = false ∧
          (p.shadowmapping = true ∨
            ((vp.SectionConcave = true ∨ vp.NoSectionOnTop = true)
              ∧ e.material.clippers ≠ [])))) ∧
    (∀ indices : List DrawEntryIndex, idx ∈ indices.map (fun v => v.idx) →
      (p.shadowmapping = true →
        (idx ∈ renderTransparencyVisited p draw_entries indices ↔
          p.transpshadowmapping = true)) ∧
      (p.shadowmapping = false → vp.NoSectionOnTop = false →
        idx ∉ renderTransparencyVisited p draw_entries indices)) := by
  constructor
  · intro indices hi
    rw [mem_renderOpaqueVisited vp p draw_entries indices idx e he]
    unfold renderOpaqueSkip
    rcases Bool.eq_false_or_eq_true p.shadowmapping with hsm | hsm <;>
    rcases Bool.eq_false_or_eq_true vp.SectionConcave with hc | hc <;>
    rcases Bool.eq_false_or_eq_true vp.NoSectionOnTop with hn | hn <;>
    simp [hsm, hc, hn, hi, hs]
  · intro indices hi
    constructor
    · intro hsm
      rw [mem_renderTransparencyVisited p draw_entries indices idx e he]
      unfold renderTransparencySkip
      simp [hsm, hi]
    · intro hsm _
      rw [mem_renderTransparencyVisited p draw_entries indices idx e he]
      unfold renderTransparencySkip
      simp [hsm, hs]

/-- With concave sections on, `renderOpaque` takes a suppressed unit whose
material has a clip plane past the guard; `renderTransparency` passes it over. -/
theorem suppressed_unit_guard_witness :
    suppressedClippedUnit[0]? = some
      { material := texturedLitTriangles, ventry := exampleBatchA, bbox := exampleBox,
        skip := 1 } ∧
    0 ∈ renderOpaqueVisited { SectionConcave := true } {} suppressedClippedUnit [0] ∧
    0 ∉ renderTransparencyVisited {} suppressedClippedUnit [{ idx := 0 }] :=
  ⟨rfl,
   ((suppressed_unit_guard { SectionConcave := true } {} suppressedClippedUnit 0
      { material := texturedLitTriangles, ventry := exampleBatchA, bbox := exampleBox,
        skip := 1 } rfl (by decide)).1 [0] (by decide)).mpr (by decide),
   ((suppressed_unit_guard { SectionConcave := true } {} suppressedClippedUnit 0
      { material := texturedLitTriangles, ventry := exampleBatchA, bbox := exampleBox,
        skip := 1 } rfl (by decide)).2 [{ idx := 0 }] (by decide)).2 rfl rfl⟩

/-- C11 fails as stated: with the no-section-on-top toggle on and outside a
shadow-map pass, `renderOpaque` still passes over a suppressed unit whose
material has no clip plane. -/
theorem renderOpaque_skips_unclipped_despite_toggle :
    noSectionOnTop.NoSectionOnTop = true ∧
    ({} : SoFCRendererP).shadowmapping = false ∧
    suppressedUnit.map DrawEntry.skip = [1] ∧
    renderOpaqueVisited noSectionOnTop {} suppressedUnit [0] = [] := by
  decide

/-! ## Key sets: what an insertion reports -/

theorem keySetInsert_not_new (key : CacheKeyPtr) (ks : List CacheKeyPtr)
    (h : (keySetInsert key ks).2 = false) :
    (keySetInsert key ks).1 = ks ∧ ∃ k ∈ ks, keyContent k = keyContent key := by
  induction ks with
  | nil => simp [keySetInsert] at h
  | cons k rest ih =>
    rcases Bool.eq_false_or_eq_true (CacheKeyCompare key k) with h1 | h1
    · simp [keySetInsert, h1] at h
    · rcases Bool.eq_false_or_eq_true (CacheKeyCompare k key) with h2 | h2
      · simp only [keySetInsert, h1, h2, Bool.false_eq_true, if_true, if_false] at h ⊢
        obtain ⟨e, x, hx, hc⟩ := ih h
        exact ⟨by rw [e], x, List.mem_cons_of_mem _ hx, hc⟩
      · have e : keySetInsert key (k :: rest) = (k :: rest, false) := by
          simp [keySetInsert, h1, h2]
        rw [e]
        exact ⟨rfl, k, List.mem_cons_self _ _, keyContent_eq_of_unordered _ _ h2 h1⟩

theorem keySetInsert_new (key : CacheKeyPtr) (ks : List CacheKeyPtr) (hs : keysSorted ks)
    (h : (keySetInsert key ks).2 = true) : ∀ k ∈ ks, keyContent k ≠ keyContent key := by
  induction ks with
  | nil => intro k hk; cases hk
  | cons k rest ih =>
    unfold keysSorted at hs ih
    simp only [List.pairwise_cons] at hs
    have hlt : ∀ a b : CacheKeyPtr, CacheKeyCompare a b = true → keyContent b ≠ keyContent a := by
      intro a b hab hc
      rw [CacheKeyCompare_congr_right b a a hc, CacheKeyCompare_irrefl] at hab
      cases hab
    rcases Bool.eq_false_or_eq_true (CacheKeyCompare key k) with h1 | h1
    · intro x hx
      rcases List.mem_cons.mp hx with hx | hx
      · rw [hx]; exact hlt _ _ h1
      · exact hlt _ _ (CacheKeyCompare_trans _ _ _ h1 (hs.1 x hx))
    · rcases Bool.eq_false_or_eq_true (CacheKeyCompare k key) with h2 | h2
      · simp only [keySetInsert, h1, h2, Bool.false_eq_true, if_true, if_false] at h
        intro x hx
        rcases List.mem_cons.mp hx with hx | hx
        · rw [hx]; exact fun hc => hlt _ _ h2 hc.symm
        · exact ih hs.2 h x hx
      · simp [keySetInsert, h1, h2] at h

theorem keySetInsert_contents (key : CacheKeyPtr) (ks : List CacheKeyPtr)
    (c : Option CacheKey) :
    c ∈ (keySetInsert key ks).1.map keyContent ↔
      c = keyContent key ∨ c ∈ ks.map keyContent := by
  simp only [List.mem_map]
  constructor
  · rintro ⟨x, hx, rfl⟩
    rcases keySetInsert_keys key ks x hx with h | h
    · exact Or.inl (by rw [h])
    · exact Or.inr ⟨x, h, rfl⟩
  · rintro (h | ⟨x, hx, rfl⟩)
    · obtain ⟨x, hx, hc⟩ := keySetInsert_has key ks
      exact ⟨x, hx, by rw [hc, h]⟩
    · exact ⟨x, keySetInsert_subset key ks x hx, rfl⟩

/-! ## Whole-object triples -/

theorem MaterialType.toInt_inj (a b : MaterialType) (h : a.toInt = b.toInt) : a = b := by
  cases a <;> cases b <;> first | rfl | (exact absurd h (by decide))

theorem tripleKey_inj (a b : SelectionTriple) (ha : a.1.isSome = true)
    (hb : b.1.isSome = true) (h : tripleKey a = tripleKey b) : a = b := by
  obtain ⟨ka, na, ta⟩ := a
  obtain ⟨kb, nb, tb⟩ := b
  cases ka with
  | none => cases ha
  | some ka =>
    cases kb with
    | none => cases hb
    | some kb =>
      unfold tripleKey at h
      simp only [Option.getD_some] at h
      obtain ⟨h1, h2⟩ := List.append_inj' h rfl
      obtain ⟨h3, h4⟩ := List.append_inj' h1 rfl
      have hn : na = nb := by
        have := List.singleton_inj.mp h4
        exact Int.ofNat_inj.mp this
      have ht : ta = tb := MaterialType.toInt_inj _ _ (List.singleton_inj.mp h2)
      rw [h3, hn, ht]

theorem dedupWhole_append (seen : List SelectionTriple)
    (l1 l2 : List (Material × VertexCacheEntry)) :
    dedupWhole seen (l1 ++ l2) = dedupWhole seen l1 ++ dedupWhole (dedupSeen seen l1) l2 := by
  induction l1 generalizing seen with
  | nil => rfl
  | cons u us ih =>
    show (dedupStep seen u).1 ++ dedupWhole (dedupStep seen u).2 (us ++ l2) =
      ((dedupStep seen u).1 ++ dedupWhole (dedupStep seen u).2 us)
        ++ dedupWhole (dedupSeen (dedupStep seen u).2 us) l2
    rw [ih, List.append_assoc]

theorem dedupSeen_append (seen : List SelectionTriple)
    (l1 l2 : List (Material × VertexCacheEntry)) :
    dedupSeen seen (l1 ++ l2) = dedupSeen (dedupSeen seen l1) l2 := by
  induction l1 generalizing seen with
  | nil => rfl
  | cons u us ih =>
    show dedupSeen (dedupStep seen u).2 (us ++ l2) =
      dedupSeen (dedupSeen (dedupStep seen u).2 us) l2
    rw [ih]

theorem dedupWhole_filter (t : SelectionTriple) (seen : List SelectionTriple)
    (l : List (Material × VertexCacheEntry)) :
    (dedupWhole seen l).filter (wholeWith t) =
      if t ∈ seen then [] else ((l.filter (wholeWith t)).head?).toList := by
  induction l generalizing seen with
  | nil => simp [dedupWhole]
  | cons u us ih =>
    rcases Bool.eq_false_or_eq_true (isWholeObject u.2) with hw | hw
    · by_cases hs : selectionTriple u ∈ seen
      · by_cases ht : selectionTriple u = t
        · have hts : t ∈ seen := ht ▸ hs
          simp [dedupWhole, dedupStep, hw, hs, ih, hts]
        · simp [dedupWhole, dedupStep, hw, hs, ih, wholeWith, ht]
      · by_cases ht : selectionTriple u = t
        · have hts : t ∉ seen := ht ▸ hs
          simp [dedupWhole, dedupStep, hw, hs, ih, wholeWith, ht, hts]
        · have hne : ¬ t = selectionTriple u := fun h => ht h.symm
          simp [dedupWhole, dedupStep, hw, hs, ih, wholeWith, ht, hne]
    · simp [dedupWhole, dedupStep, hw, ih, wholeWith]

/-! ## One batch of a selection -/

theorem applyKey_selectionkeys (key : CacheKeyPtr) (d : Int) (p : SoFCRendererP) :
    (applyKey key d p).selectionkeys = p.selectionkeys := by
  rw [applyKey_eq]

theorem applyKey_slentries (key : CacheKeyPtr) (d : Int) (p : SoFCRendererP) :
    (applyKey key d p).slentries = p.slentries := by
  rw [applyKey_eq]

theorem selectionTriple_whole (m : Material) (v : VertexCacheEntry) (k : CacheKeyRef)
    (hk : v.key = some k) :
    selectionTriple (m, v) = (some k.key, v.cache.nodeId, m.type) := by
  unfold selectionTriple keyContent
  rw [hk]
  rfl

theorem checkKeyWhole_step (m : Material) (v : VertexCacheEntry) (s2 : SelectionState)
    (ret : Nat) (seen : List SelectionTriple) (e : DrawEntry) (sl : List DrawEntry)
    (k x : CacheKeyRef) (hk : v.key = some k) (hw : isWholeObject v = true)
    (hsel : s2.p.selkey = some x) (hx : x.key = k.key) (hlast : s2.lastkey = v.key)
    (hsl : s2.p.slentries = sl ++ [e]) (he : e.unit = (m, v))
    (rs : keysSorted s2.renderkeys) (ks : keysSorted s2.p.selectionkeys)
    (rk : ∀ c, c ∈ s2.renderkeys.map keyContent ↔ ∃ t ∈ seen, c = some (tripleKey t))
    (sk : ∀ t ∈ seen, t.1 ∈ s2.p.selectionkeys.map keyContent)
    (so : ∀ t ∈ seen, t.1.isSome = true) :
    SelInv (checkKeyWhole m v s2 ret).1 (dedupStep seen (m, v)).2 ∧
    slUnits (checkKeyWhole m v s2 ret).1 = sl.map DrawEntry.unit ++ (dedupStep seen (m, v)).1
    := by
  have ht := selectionTriple_whole m v k hk
  have htsome : (selectionTriple (m, v)).1.isSome = true := by rw [ht]; rfl
  have hkc : keyContent v.key = (selectionTriple (m, v)).1 := rfl
  have hselkey : keyContent (s2.p.selkey.map (fun x =>
      { x with key := x.key ++ [(v.cache.nodeId : Int)] ++ [m.type.toInt] }))
      = some (tripleKey (selectionTriple (m, v))) := by
    rw [hsel, ht]
    simp only [Option.map_some', keyContent, tripleKey, Option.getD_some, hx]
  unfold checkKeyWhole
  simp only []
  rcases Bool.eq_false_or_eq_true (keySetInsert v.key s2.p.selectionkeys).2 with hA | hA
  · -- the key is new to the selection key set
    have hnot : selectionTriple (m, v) ∉ seen := by
      intro hin
      obtain ⟨k', hk', hc⟩ := List.mem_map.mp (sk _ hin)
      exact keySetInsert_new v.key _ ks hA k' hk' (hc.trans hkc.symm)
    have hstep : dedupStep seen (m, v) = ([(m, v)], selectionTriple (m, v) :: seen) := by
      unfold dedupStep
      rw [if_pos hw, if_neg hnot]
    rw [if_pos hA, hstep]
    refine ⟨⟨keySetInsert_sorted _ _ rs, ?_, ?_, ?_, ?_, ?_⟩, ?_⟩
    · show keysSorted (applyKey _ _ _).selectionkeys
      rw [applyKey_selectionkeys]
      exact keySetInsert_sorted _ _ ks
    · intro c
      show c ∈ (keySetInsert _ s2.renderkeys).1.map keyContent ↔ _
      rw [keySetInsert_contents, hselkey, rk]
      constructor
      · rintro (h | ⟨t, hts, h⟩)
        · exact ⟨_, List.mem_cons_self _ _, h⟩
        · exact ⟨t, List.mem_cons_of_mem _ hts, h⟩
      · rintro ⟨t, hts, h⟩
        rcases List.mem_cons.mp hts with h1 | h1
        · exact Or.inl (h1 ▸ h)
        · exact Or.inr ⟨t, h1, h⟩
    · intro t hts
      show t.1 ∈ (applyKey _ _ _).selectionkeys.map keyContent
      rw [applyKey_selectionkeys]
      show t.1 ∈ (keySetInsert v.key s2.p.selectionkeys).1.map keyContent
      rw [keySetInsert_contents]
      rcases List.mem_cons.mp hts with h1 | h1
      · exact Or.inl (by rw [h1, hkc])
      · exact Or.inr (sk t h1)
    · intro t hts
      rcases List.mem_cons.mp hts with h1 | h1
      · rw [h1]; exact htsome
      · exact so t h1
    · intro h
      exact absurd rfl h
    · show (applyKey _ _ _).slentries.map DrawEntry.unit = _
      rw [applyKey_slentries]
      show s2.p.slentries.map DrawEntry.unit = _
      rw [hsl, List.map_append, List.map_singleton, he]
  · rw [if_neg (by rw [hA]; exact Bool.false_ne_true)]
    obtain ⟨_, k0, hk0, hc0⟩ := keySetInsert_not_new v.key _ hA
    rcases Bool.eq_false_or_eq_true (keySetInsert (s2.p.selkey.map (fun x =>
      { x with key := x.key ++ [(v.cache.nodeId : Int)] ++ [m.type.toInt] }))
      s2.renderkeys).2 with hB | hB
    · -- the extended key is new to renderkeys
      have hnot : selectionTriple (m, v) ∉ seen := by
        intro hin
        have hmem : some (tripleKey (selectionTriple (m, v))) ∈ s2.renderkeys.map keyContent :=
          (rk _).mpr ⟨_, hin, rfl⟩
        obtain ⟨k', hk', hc⟩ := List.mem_map.mp hmem
        exact keySetInsert_new _ _ rs hB k' hk' (hc.trans hselkey.symm)
      have hstep : dedupStep seen (m, v) = ([(m, v)], selectionTriple (m, v) :: seen) := by
        unfold dedupStep
        rw [if_pos hw, if_neg hnot]
      rw [if_pos hB, hstep]
      refine ⟨⟨keySetInsert_sorted _ _ rs, ks, ?_, ?_, ?_, ?_⟩, ?_⟩
      · intro c
        show c ∈ (keySetInsert _ s2.renderkeys).1.map keyContent ↔ _
        rw [keySetInsert_contents, hselkey, rk]
        constructor
        · rintro (h | ⟨t, hts, h⟩)
          · exact ⟨_, List.mem_cons_self _ _, h⟩
          · exact ⟨t, List.mem_cons_of_mem _ hts, h⟩
        · rintro ⟨t, hts, h⟩
          rcases List.mem_cons.mp hts with h1 | h1
          · exact Or.inl (h1 ▸ h)
          · exact Or.inr ⟨t, h1, h⟩
      · intro t hts
        rcases List.mem_cons.mp hts with h1 | h1
        · rw [h1, ← hkc, ← hc0]
          exact List.mem_map_of_mem _ hk0
        · exact sk t h1
      · intro t hts
        rcases List.mem_cons.mp hts with h1 | h1
        · rw [h1]; exact htsome
        · exact so t h1
      · intro h
        exact absurd rfl h
      · show s2.p.slentries.map DrawEntry.unit = _
        rw [hsl, List.map_append, List.map_singleton, he]
    · -- the triple has been seen: the unit is dropped again
      obtain ⟨hsame, k1, hk1, hc1⟩ := keySetInsert_not_new _ _ hB
      have hin : selectionTriple (m, v) ∈ seen := by
        have hmem : some (tripleKey (selectionTriple (m, v))) ∈ s2.renderkeys.map keyContent := by
          rw [← hselkey, ← hc1]
          exact List.mem_map_of_mem _ hk1
        obtain ⟨t, hts, h⟩ := (rk _).mp hmem
        have := tripleKey_inj _ _ htsome (so t hts) (Option.some.inj h)
        rw [this]
        exact hts
      have hstep : dedupStep seen (m, v) = ([], seen) := by
        unfold dedupStep
        rw [if_pos hw, if_pos hin]
      rw [if_neg (by rw [hB]; exact Bool.false_ne_true), hstep, hsame]
      refine ⟨⟨rs, ks, rk, sk, so, ?_⟩, ?_⟩
      · intro _
        show (Option.map _ (Option.map _ s2.p.selkey)) ≠ none
          ∧ keyContent (Option.map _ (Option.map _ s2.p.selkey)) = keyContent s2.lastkey
        rw [hsel, hlast, hk]
        refine ⟨by simp, ?_⟩
        simp only [Option.map_some', keyContent, List.dropLast_concat, hx]
      · show (s2.p.slentries.dropLast).map DrawEntry.unit = _
        rw [hsl, List.dropLast_concat, List.append_nil]

theorem selInv_of_fields (s s' : SelectionState) (seen : List SelectionTriple)
    (inv : SelInv s seen) (h1 : s'.renderkeys = s.renderkeys)
    (h2 : s'.p.selectionkeys = s.p.selectionkeys) (h3 : s'.p.selkey = s.p.selkey)
    (h4 : s'.lastkey = s.lastkey) : SelInv s' seen := by
  refine ⟨?_, ?_, ?_, ?_, inv.somes, ?_⟩
  · rw [h1]; exact inv.rsorted
  · rw [h2]; exact inv.ksorted
  · rw [h1]; exact inv.rkeys
  · rw [h2]; exact inv.skeys
  · rw [h3, h4]; exact inv.last

theorem checkKey_step (m : Material) (v : VertexCacheEntry) (s : SelectionState)
    (seen : List SelectionTriple) (inv : SelInv s seen) :
    SelInv (checkKey m v s).1 (dedupSeen seen (entryUnits m v)) ∧
    slUnits (checkKey m v s).1 = slUnits s ++ dedupWhole seen (entryUnits m v) := by
  unfold checkKey entryUnits
  simp only [pushDrawEntry_eq]
  rcases Bool.eq_false_or_eq_true v.bbox.isEmpty with hempty | hempty
  · simp only [hempty, if_true]
    exact ⟨selInv_of_fields s _ seen inv rfl rfl rfl rfl, (List.append_nil _).symm⟩
  · simp only [hempty, Bool.false_eq_true, if_false, Nat.add_one_ne_zero]
    have hplain : ∀ s' : SelectionState, isWholeObject v = false →
        s'.renderkeys = s.renderkeys → s'.p.selectionkeys = s.p.selectionkeys →
        s'.p.selkey = s.p.selkey → s'.lastkey = s.lastkey →
        s'.p.slentries = s.p.slentries
          ++ [{ material := m, ventry := v, bbox := v.bbox, skip := 0 }] →
        SelInv s' (dedupSeen seen [(m, v)]) ∧
          slUnits s' = slUnits s ++ dedupWhole seen [(m, v)] := by
      intro s' hw h1 h2 h3 h4 h5
      have hstep : dedupStep seen (m, v) = ([(m, v)], seen) := by
        unfold dedupStep
        rw [if_neg (by rw [hw]; exact Bool.false_ne_true)]
      refine ⟨?_, ?_⟩
      · show SelInv s' (dedupStep seen (m, v)).2
        rw [hstep]
        exact selInv_of_fields s s' seen inv h1 h2 h3 h4
      · show s'.p.slentries.map DrawEntry.unit =
          s.p.slentries.map DrawEntry.unit ++ ((dedupStep seen (m, v)).1 ++ [])
        rw [hstep, h5, List.map_append]
        rfl
    rcases Option.eq_none_or_eq_some v.key with hk | ⟨k, hk⟩
    · rw [hk]
      exact hplain _ (by unfold isWholeObject; rw [hk]; rfl) rfl rfl rfl rfl rfl
    · rw [hk]
      simp only []
      by_cases hpart : v.partidx ≥ 0 ∨ v.cache.isWholeCache = false
      · rw [if_pos hpart]
        refine hplain _ ?_ rfl rfl rfl rfl rfl
        unfold isWholeObject
        rcases hpart with h | h
        · simp [not_lt.mpr h]
        · simp [h]
      · rw [if_neg hpart]
        have hw : isWholeObject v = true := by
          unfold isWholeObject
          simp only [not_or, not_le, Bool.not_eq_false] at hpart
          simp [hk, hpart.1, hpart.2]
        have hgoal : ∀ r : SelectionState × Nat,
            (SelInv r.1 (dedupStep seen (m, v)).2 ∧
              slUnits r.1 = s.p.slentries.map DrawEntry.unit ++ (dedupStep seen (m, v)).1) →
            SelInv r.1 (dedupSeen seen [(m, v)]) ∧
              slUnits r.1 = slUnits s ++ dedupWhole seen [(m, v)] := by
          intro r h
          refine ⟨h.1, ?_⟩
          show slUnits r.1 = s.p.slentries.map DrawEntry.unit ++ ((dedupStep seen (m, v)).1 ++ [])
          rw [List.append_nil]
          exact h.2
        by_cases hl : s.lastkey = some k
        · rw [if_neg (fun h => h hl)]
          apply hgoal
          have hne : s.lastkey ≠ none := by rw [hl]; exact fun h => Option.noConfusion h
          obtain ⟨hs1, hs2⟩ := inv.last hne
          obtain ⟨x, hx⟩ := Option.ne_none_iff_exists'.mp hs1
          have hxk : x.key = k.key := by
            rw [hx, hl] at hs2
            exact Option.some.inj hs2
          exact checkKeyWhole_step m v _ _ seen
            { material := m, ventry := v, bbox := v.bbox, skip := 0 } s.p.slentries k x hk hw
            hx hxk (hl.trans hk.symm) rfl rfl inv.rsorted inv.ksorted inv.rkeys inv.skeys
            inv.somes
        · rw [if_pos hl]
          apply hgoal
          rcases Option.eq_none_or_eq_some s.p.selkey with hs | ⟨x, hs⟩
          · exact checkKeyWhole_step m v _ _ seen
              { material := m, ventry := v, bbox := v.bbox, skip := 0 } s.p.slentries k
              { addr := 0, key := k.key } hk hw
              (by show selkeyAssign s.p.selkey k.key = _; rw [hs]; rfl) rfl hk.symm rfl rfl
              inv.rsorted inv.ksorted inv.rkeys inv.skeys inv.somes
          · exact checkKeyWhole_step m v _ _ seen
              { material := m, ventry := v, bbox := v.bbox, skip := 0 } s.p.slentries k
              { x with key := k.key } hk hw
              (by show selkeyAssign s.p.selkey k.key = _; rw [hs]; rfl) rfl hk.symm rfl rfl
              inv.rsorted inv.ksorted inv.rkeys inv.skeys inv.somes

/-! ## The loops of updateSelection -/

theorem selectionOnTopEntry_fields (ids : SelIdBits) (id : Int) (m : Material)
    (s : SelectionState) (v : VertexCacheEntry) :
    (selectionOnTopEntry ids id m s v).renderkeys = (checkKey m v s).1.renderkeys ∧
    (selectionOnTopEntry ids id m s v).lastkey = (checkKey m v s).1.lastkey ∧
    (selectionOnTopEntry ids id m s v).p.slentries = (checkKey m v s).1.p.slentries ∧
    (selectionOnTopEntry ids id m s v).p.selectionkeys = (checkKey m v s).1.p.selectionkeys ∧
    (selectionOnTopEntry ids id m s v).p.selkey = (checkKey m v s).1.p.selkey := by
  unfold selectionOnTopEntry
  simp only []
  by_cases h0 : (checkKey m v s).2 = 0
  · rw [if_pos h0]
    exact ⟨rfl, rfl, rfl, rfl, rfl⟩
  · rw [if_neg h0]
    rcases MaterialType.cases_eq m.type with ht | ht | ht <;> rw [ht] <;> dsimp only <;>
    split_ifs <;> exact ⟨rfl, rfl, rfl, rfl, rfl⟩

theorem selectionEntry_fields (m : Material) (ft : Bool)
    (s : SelectionState) (v : VertexCacheEntry) :
    (selectionEntry m ft s v).renderkeys = (checkKey m v s).1.renderkeys ∧
    (selectionEntry m ft s v).lastkey = (checkKey m v s).1.lastkey ∧
    (selectionEntry m ft s v).p.slentries = (checkKey m v s).1.p.slentries ∧
    (selectionEntry m ft s v).p.selectionkeys = (checkKey m v s).1.p.selectionkeys ∧
    (selectionEntry m ft s v).p.selkey = (checkKey m v s).1.p.selkey := by
  unfold selectionEntry
  simp only []
  by_cases h0 : (checkKey m v s).2 = 0
  · rw [if_pos h0]
    exact ⟨rfl, rfl, rfl, rfl, rfl⟩
  · rw [if_neg h0]
    split_ifs <;> exact ⟨rfl, rfl, rfl, rfl, rfl⟩

theorem step_of_fields (m : Material) (v : VertexCacheEntry) (s s' : SelectionState)
    (seen : List SelectionTriple) (inv : SelInv s seen)
    (h : s'.renderkeys = (checkKey m v s).1.renderkeys ∧
      s'.lastkey = (checkKey m v s).1.lastkey ∧
      s'.p.slentries = (checkKey m v s).1.p.slentries ∧
      s'.p.selectionkeys = (checkKey m v s).1.p.selectionkeys ∧
      s'.p.selkey = (checkKey m v s).1.p.selkey) :
    SelInv s' (dedupSeen seen (entryUnits m v)) ∧
    slUnits s' = slUnits s ++ dedupWhole seen (entryUnits m v) := by
  obtain ⟨h1, h2, h3, h4, h5⟩ := h
  obtain ⟨i, u⟩ := checkKey_step m v s seen inv
  refine ⟨selInv_of_fields _ s' _ i h1 h4 h5 h2, ?_⟩
  rw [← u]
  unfold slUnits
  rw [h3]

theorem foldl_tracks {α : Type} (f : SelectionState → α → SelectionState)
    (units : α → List (Material × VertexCacheEntry))
    (hstep : ∀ s seen a, SelInv s seen →
      SelInv (f s a) (dedupSeen seen (units a)) ∧
        slUnits (f s a) = slUnits s ++ dedupWhole seen (units a))
    (l : List α) (s : SelectionState) (seen : List SelectionTriple) (inv : SelInv s seen) :
    SelInv (l.foldl f s) (dedupSeen seen (l.flatMap units)) ∧
      slUnits (l.foldl f s) = slUnits s ++ dedupWhole seen (l.flatMap units) := by
  induction l generalizing s seen with
  | nil => exact ⟨inv, (List.append_nil _).symm⟩
  | cons a rest ih =>
    obtain ⟨i1, u1⟩ := hstep s seen a inv
    obtain ⟨i2, u2⟩ := ih (f s a) _ i1
    rw [List.foldl_cons, List.flatMap_cons, dedupSeen_append, dedupWhole_append]
    exact ⟨i2, by rw [u2, u1, List.append_assoc]⟩

theorem flatMap_entryUnits (m : Material) (vs : List VertexCacheEntry) :
    vs.flatMap (entryUnits m) = (vs.filter (fun v => !v.bbox.isEmpty)).map (fun v => (m, v)) := by
  induction vs with
  | nil => rfl
  | cons v rest ih =>
    rw [List.flatMap_cons, ih]
    unfold entryUnits
    rcases Bool.eq_false_or_eq_true v.bbox.isEmpty with h | h <;> simp [h]

theorem groupUnits_eq (g : Material × List VertexCacheEntry) :
    acceptedUnits [g] =
      if g.1.drawstyle = DrawStyle.INVISIBLE then []
      else (g.2.filter (fun v => !v.bbox.isEmpty)).map (fun v => (g.1, v)) := by
  unfold acceptedUnits
  simp

theorem acceptedUnits_flatMap (caches : VertexCacheMap) :
    acceptedUnits caches = caches.flatMap (fun g => acceptedUnits [g]) := by
  unfold acceptedUnits
  simp

theorem selectionOnTopGroup_tracks (ids : SelIdBits) (id : Int) (s : SelectionState)
    (seen : List SelectionTriple) (g : Material × List VertexCacheEntry) (inv : SelInv s seen) :
    SelInv (selectionOnTopGroup ids id s g) (dedupSeen seen (acceptedUnits [g])) ∧
      slUnits (selectionOnTopGroup ids id s g) =
        slUnits s ++ dedupWhole seen (acceptedUnits [g]) := by
  rw [groupUnits_eq]
  unfold selectionOnTopGroup
  by_cases hinv : g.1.drawstyle = DrawStyle.INVISIBLE
  · rw [if_pos hinv, if_pos hinv]
    simp only [ite_self]
    exact ⟨inv, (List.append_nil _).symm⟩
  · rw [if_neg hinv, if_neg hinv]
    by_cases he : g.2.isEmpty = true
    · rw [if_pos he]
      rw [List.isEmpty_iff.mp he]
      exact ⟨inv, (List.append_nil _).symm⟩
    · rw [if_neg he, ← flatMap_entryUnits]
      exact foldl_tracks (selectionOnTopEntry ids id g.1) (entryUnits g.1)
        (fun s seen v i => step_of_fields g.1 v s _ seen i
          (selectionOnTopEntry_fields ids id g.1 s v)) g.2 s seen inv

theorem selectionGroup_tracks (s : SelectionState)
    (seen : List SelectionTriple) (g : Material × List VertexCacheEntry) (inv : SelInv s seen) :
    SelInv (selectionGroup s g) (dedupSeen seen (acceptedUnits [g])) ∧
      slUnits (selectionGroup s g) =
        slUnits s ++ dedupWhole seen (acceptedUnits [g]) := by
  rw [groupUnits_eq]
  unfold selectionGroup
  by_cases hinv : g.1.drawstyle = DrawStyle.INVISIBLE
  · rw [if_pos hinv, if_pos hinv]
    simp only [ite_self]
    exact ⟨inv, (List.append_nil _).symm⟩
  · rw [if_neg hinv, if_neg hinv]
    by_cases he : g.2.isEmpty = true
    · rw [if_pos he]
      rw [List.isEmpty_iff.mp he]
      exact ⟨inv, (List.append_nil _).symm⟩
    · rw [if_neg he, ← flatMap_entryUnits]
      exact foldl_tracks (selectionEntry g.1 (fullTransp g.1)) (entryUnits g.1)
        (fun s seen v i => step_of_fields g.1 v s _ seen i
          (selectionEntry_fields g.1 (fullTransp g.1) s v)) g.2 s seen inv

theorem updateSelectionReset_fields (p : SoFCRendererP) :
    (updateSelectionReset p).selectionsontop = p.selectionsontop ∧
    (updateSelectionReset p).selections = p.selections ∧
    (updateSelectionReset p).slentries = [] ∧
    (updateSelectionReset p).selectionkeys = [] := by
  refine ⟨?_, ?_, ?_, ?_⟩ <;> unfold updateSelectionReset <;> simp only [applyKeys_eq]

theorem updateSelection_units (ids : SelIdBits) (p : SoFCRendererP)
    (hu : p.updateselection = true) :
    (updateSelection ids p).slentries.map DrawEntry.unit =
      dedupWhole [] (selectionRequests p) := by
  obtain ⟨f1, f2, f3, f4⟩ := updateSelectionReset_fields p
  have inv0 : SelInv ({ p := updateSelectionReset p } : SelectionState) [] := by
    refine ⟨List.Pairwise.nil, ?_, ?_, ?_, ?_, ?_⟩
    · show keysSorted (updateSelectionReset p).selectionkeys
      rw [f4]; exact List.Pairwise.nil
    · intro c
      constructor
      · intro h; cases h
      · rintro ⟨t, ht, _⟩; cases ht
    · intro t ht; cases ht
    · intro t ht; cases ht
    · intro h; exact absurd rfl h
  obtain ⟨i1, u1⟩ := foldl_tracks
    (fun s (sel : Int × VertexCacheMap) => sel.2.foldl (selectionOnTopGroup ids sel.1) s)
    (fun sel => acceptedUnits sel.2)
    (fun s seen sel i => by
      dsimp only
      rw [acceptedUnits_flatMap sel.2]
      exact foldl_tracks (selectionOnTopGroup ids sel.1) (fun g => acceptedUnits [g])
        (fun s seen g i => selectionOnTopGroup_tracks ids sel.1 s seen g i) sel.2 s seen i)
    p.selectionsontop _ [] inv0
  obtain ⟨_, u2⟩ := foldl_tracks
    (fun s (sel : Int × VertexCacheMap) => sel.2.foldl selectionGroup s)
    (fun sel => acceptedUnits sel.2)
    (fun s seen sel i => by
      dsimp only
      rw [acceptedUnits_flatMap sel.2]
      exact foldl_tracks selectionGroup (fun g => acceptedUnits [g])
        (fun s seen g i => selectionGroup_tracks s seen g i) sel.2 s seen i)
    p.selections _ _ i1
  unfold updateSelection
  rw [hu]
  simp only [Bool.not_true, Bool.false_eq_true, if_false]
  rw [f1, f2]
  unfold selectionRequests
  rw [List.flatMap_append, dedupWhole_append]
  unfold slUnits at u1 u2
  rw [u2, u1, f3]
  rfl

/-! ## The order of the selection tables -/

theorem selectionsAssign_ids (id : Int) (caches : VertexCacheMap)
    (l : List (Int × VertexCacheMap)) (x : Int)
    (hx : x ∈ (selectionsAssign id caches l).map Prod.fst) : x = id ∨ x ∈ l.map Prod.fst := by
  induction l with
  | nil =>
    left
    simpa [selectionsAssign] using hx
  | cons a rest ih =>
    obtain ⟨k, c⟩ := a
    by_cases h1 : id < k
    · simp only [selectionsAssign, if_pos h1, List.map_cons, List.mem_cons] at hx ⊢
      exact hx
    · by_cases h2 : k < id
      · simp only [selectionsAssign, if_neg h1, if_pos h2, List.map_cons, List.mem_cons] at hx ⊢
        rcases hx with hx | hx
        · exact Or.inr (Or.inl hx)
        · rcases ih hx with h | h
          · exact Or.inl h
          · exact Or.inr (Or.inr h)
      · simp only [selectionsAssign, if_neg h1, if_neg h2, List.map_cons, List.mem_cons] at hx ⊢
        exact Or.inr hx

theorem selectionsAssign_sorted (id : Int) (caches : VertexCacheMap)
    (l : List (Int × VertexCacheMap))
    (hs : (l.map Prod.fst).Pairwise (fun a b => a < b)) :
    ((selectionsAssign id caches l).map Prod.fst).Pairwise (fun a b => a < b) := by
  induction l with
  | nil => simp [selectionsAssign]
  | cons a rest ih =>
    obtain ⟨k, c⟩ := a
    simp only [List.map_cons, List.pairwise_cons] at hs
    by_cases h1 : id < k
    · simp only [selectionsAssign, if_pos h1, List.map_cons, List.pairwise_cons, List.mem_cons]
      refine ⟨?_, hs.1, hs.2⟩
      intro x hx
      rcases hx with hx | hx
      · rw [hx]; exact h1
      · exact lt_trans h1 (hs.1 x hx)
    · by_cases h2 : k < id
      · simp only [selectionsAssign, if_neg h1, if_pos h2, List.map_cons, List.pairwise_cons]
        refine ⟨?_, ih hs.2⟩
        intro x hx
        rcases selectionsAssign_ids id caches rest x hx with h | h
        · rw [h]; exact h2
        · exact hs.1 x h
      · simp only [selectionsAssign, if_neg h1, if_neg h2, List.map_cons, List.pairwise_cons]
        exact hs

theorem selectionsErase_sublist (id : Int) (l : List (Int × VertexCacheMap)) :
    ((selectionsErase id l).map Prod.fst).Sublist (l.map Prod.fst) :=
  (List.filter_sublist l).map Prod.fst

theorem addSelection_ordered (id : Int) (caches : VertexCacheMap) (p : SoFCRendererP)
    (h : SelectionsOrdered p) : SelectionsOrdered (addSelection id caches p) := by
  obtain ⟨h1, h2, h3, h4⟩ := h
  unfold addSelection
  by_cases hid : id > 0
  · rw [if_pos hid]
    refine ⟨selectionsAssign_sorted id caches _ h1, ?_, h3, h4⟩
    intro x hx
    rcases selectionsAssign_ids id caches _ x hx with h | h
    · rw [h]; exact hid
    · exact h2 x h
  · rw [if_neg hid]
    refine ⟨h1, h2, selectionsAssign_sorted id caches _ h3, ?_⟩
    intro x hx
    rcases selectionsAssign_ids id caches _ x hx with h | h
    · rw [h]; exact not_lt.mp hid
    · exact h4 x h

theorem removeSelection_ordered (id : Int) (p : SoFCRendererP)
    (h : SelectionsOrdered p) : SelectionsOrdered (removeSelection id p) := by
  obtain ⟨h1, h2, h3, h4⟩ := h
  unfold removeSelection
  split_ifs
  · exact ⟨h1.sublist (selectionsErase_sublist id _),
      fun x hx => h2 x ((selectionsErase_sublist id _).subset hx), h3, h4⟩
  · exact ⟨h1, h2, h3, h4⟩
  · exact ⟨h1, h2, h3.sublist (selectionsErase_sublist id _),
      fun x hx => h4 x ((selectionsErase_sublist id _).subset hx)⟩
  · exact ⟨h1, h2, h3, h4⟩

theorem selectionsOrdered_fresh : SelectionsOrdered {} := by
  refine ⟨List.Pairwise.nil, ?_, List.Pairwise.nil, ?_⟩ <;> intro x hx <;> cases hx

/-- C12: when `updateSelection` rebuilds the selection draw list (the update
flag is raised), the list holds, for every triple of cache key, cache node id
and primitive kind, at most one whole-object unit, and that unit is the first
whole-object request of the triple in iteration order, on-top selections
before the others; as a whole the list is the requests in iteration order
with every whole-object request left out whose triple an earlier one has.
The tables are iterated in ascending id order, positive ids being the on-top
ones: a fresh renderer has them so and `addSelection` and `removeSelection`
keep them so. -/
theorem updateSelection_whole_object_once (ids : SelIdBits) (p : SoFCRendererP)
    (hu : p.updateselection = true) :
    (∀ t : SelectionTriple,
      (((updateSelection ids p).slentries.map DrawEntry.unit).filter (wholeWith t)).length ≤ 1 ∧
      ((updateSelection ids p).slentries.map DrawEntry.unit).filter (wholeWith t) =
        (((selectionRequests p).filter (wholeWith t)).head?).toList) ∧
    (updateSelection ids p).slentries.map DrawEntry.unit =
      dedupWhole [] (selectionRequests p) ∧
    SelectionsOrdered {} ∧
    (∀ (id : Int) (caches : VertexCacheMap) (q : SoFCRendererP), SelectionsOrdered q →
      SelectionsOrdered (addSelection id caches q) ∧ SelectionsOrdered (removeSelection id q))
    := by
  have hunits := updateSelection_units ids p hu
  have hfilter : ∀ t : SelectionTriple,
      ((updateSelection ids p).slentries.map DrawEntry.unit).filter (wholeWith t) =
        (((selectionRequests p).filter (wholeWith t)).head?).toList := by
    intro t
    rw [hunits, dedupWhole_filter]
    rfl
  refine ⟨fun t => ⟨?_, hfilter t⟩, hunits, ?_, ?_⟩
  · rw [hfilter t]
    cases ((selectionRequests p).filter (wholeWith t)).head? with
    | none => exact Nat.zero_le _
    | some u => exact Nat.le_refl _
  · exact selectionsOrdered_fresh
  · intro id caches q hq
    exact ⟨addSelection_ordered id caches q hq, removeSelection_ordered id q hq⟩

/-- Two on-top selections request the whole-object batch A: the selection draw
list holds it once, with the material of selection 1, the first in iteration
order, and holds batch B of selection 2. -/
theorem updateSelection_whole_object_once_witness :
    twoSelections.updateselection = true ∧
    (updateSelection exampleSelIds twoSelections).slentries.map DrawEntry.unit =
      [(opaqueTriangles, exampleBatchA), (plainHighlight, exampleBatchB)] ∧
    ((updateSelection exampleSelIds twoSelections).slentries.map DrawEntry.unit).filter
      (wholeWith (selectionTriple (plainHighlight, exampleBatchA))) =
      [(opaqueTriangles, exampleBatchA)] :=
  ⟨by decide,
   (updateSelection_whole_object_once exampleSelIds twoSelections (by decide)).2.1.trans
     (by decide),
   ((updateSelection_whole_object_once exampleSelIds twoSelections (by decide)).1
     (selectionTriple (plainHighlight, exampleBatchA))).2.trans (by decide)⟩

/-! ## renderSection and the section loop -/

theorem renderSection_of_guard (vp : ViewParams) (p : SoFCRendererP) (e : DrawEntry)
    (fuel pass : Nat) (pushed : Bool) (h : sectionGuard vp p e pass = true) :
    renderSection vp p e (fuel + 1) pass pushed =
      some { ret := decide (pass = 0), pass := pass + 1, pushed := pushed, ops := [] } := by
  rw [renderSection]
  simp only [h, if_true]

theorem renderSection_of_flat_other (vp : ViewParams) (p : SoFCRendererP) (e : DrawEntry)
    (fuel pass : Nat) (pushed : Bool) (h : sectionGuard vp p e pass = false)
    (ht : e.material.type ≠ MaterialType.Triangle) (hc : sectionConcave vp p = false) :
    renderSection vp p e (fuel + 1) pass pushed =
      some { ret := decide (pass = 0), pass := pass + 1, pushed := pushed, ops := [] } := by
  rw [renderSection]
  simp only [h, hc, Bool.false_eq_true, if_false, if_pos ht, Bool.not_false, if_true]

theorem renderSection_of_concave_other (vp : ViewParams) (p : SoFCRendererP) (e : DrawEntry)
    (fuel pass : Nat) (pushed : Bool) (h : sectionGuard vp p e pass = false)
    (ht : e.material.type ≠ MaterialType.Triangle) (hc : sectionConcave vp p = true) :
    renderSection vp p e (fuel + 1) pass pushed =
      some { ret := true, pass := pass + 1, pushed := true,
             ops := sectionIsolate p.material.clippers.length pass pushed } := by
  rw [renderSection]
  simp only [h, hc, Bool.false_eq_true, if_false, if_pos ht, Bool.not_true]

theorem renderSection_of_flat_triangle (vp : ViewParams) (p : SoFCRendererP) (e : DrawEntry)
    (fuel pass : Nat) (pushed : Bool) (h : sectionGuard vp p e pass = false)
    (ht : e.material.type = MaterialType.Triangle) (hc : sectionConcave vp p = false) :
    renderSection vp p e (fuel + 1) pass pushed =
      (renderSection vp p e fuel (pass + 1) true).map (fun r =>
        { ret := true, pass := r.pass, pushed := r.pushed,
          ops := sectionStencilFill p.material.clippers.length pass false pushed ++ r.ops
            ++ (if pass = 0 then (List.range p.material.clippers.length).map DrawOp.clipEnable
                else []),
          calls := r.calls + 1 }) := by
  rw [renderSection]
  simp only [h, hc, Bool.false_eq_true, if_false, ht, ne_eq, not_true_eq_false, Bool.not_false,
    if_true]
  cases renderSection vp p e fuel (pass + 1) true <;> rfl

theorem renderSection_of_concave_triangle (vp : ViewParams) (p : SoFCRendererP) (e : DrawEntry)
    (fuel pass : Nat) (pushed : Bool) (h : sectionGuard vp p e pass = false)
    (ht : e.material.type = MaterialType.Triangle) (hc : sectionConcave vp p = true) :
    renderSection vp p e (fuel + 1) pass pushed =
      some { ret := true, pass := pass + 1, pushed := true,
             ops := sectionStencilFill p.material.clippers.length pass true pushed
               ++ clipOnly p.material.clippers.length pass } := by
  rw [renderSection]
  simp only [h, hc, Bool.false_eq_true, if_false, ht, ne_eq, not_true_eq_false, Bool.not_true]

theorem sectionGuard_of_ge (vp : ViewParams) (p : SoFCRendererP) (e : DrawEntry) (pass : Nat)
    (h : p.material.clippers.length ≤ pass) : sectionGuard vp p e pass = true := by
  unfold sectionGuard
  simp [h]

theorem sectionGuard_false_lt (vp : ViewParams) (p : SoFCRendererP) (e : DrawEntry) (pass : Nat)
    (h : sectionGuard vp p e pass = false) : pass < p.material.clippers.length := by
  by_contra hc
  rw [sectionGuard_of_ge vp p e pass (by omega)] at h
  cases h

theorem renderSection_spec (vp : ViewParams) (p : SoFCRendererP) (e : DrawEntry) :
    ∀ (fuel pass : Nat) (pushed : Bool),
      p.material.clippers.length - pass + 1 ≤ fuel →
      ∃ r, renderSection vp p e fuel pass pushed = some r
        ∧ r.calls ≤ p.material.clippers.length - pass
        ∧ pass < r.pass
        ∧ (r.ret = true → pass < max p.material.clippers.length 1) := by
  intro fuel
  induction fuel with
  | zero => intro pass pushed h; omega
  | succ fuel ih =>
    intro pass pushed h
    rcases Bool.eq_false_or_eq_true (sectionGuard vp p e pass) with hg | hg
    · rw [renderSection_of_guard vp p e fuel pass pushed hg]
      refine ⟨_, rfl, Nat.zero_le _, Nat.lt_succ_self _, ?_⟩
      intro hr
      simp only [decide_eq_true_eq] at hr
      omega
    · have hlt := sectionGuard_false_lt vp p e pass hg
      by_cases ht : e.material.type = MaterialType.Triangle
      · rcases Bool.eq_false_or_eq_true (sectionConcave vp p) with hc | hc
        · rw [renderSection_of_concave_triangle vp p e fuel pass pushed hg ht hc]
          exact ⟨_, rfl, Nat.zero_le _, Nat.lt_succ_self _, fun _ => by omega⟩
        · rw [renderSection_of_flat_triangle vp p e fuel pass pushed hg ht hc]
          obtain ⟨r, hr, h1, h2, _⟩ := ih (pass + 1) true (by omega)
          rw [hr]
          refine ⟨_, rfl, ?_, ?_, fun _ => by omega⟩
          · show r.calls + 1 ≤ _
            omega
          · show pass < r.pass
            omega
      · rcases Bool.eq_false_or_eq_true (sectionConcave vp p) with hc | hc
        · rw [renderSection_of_concave_other vp p e fuel pass pushed hg ht hc]
          exact ⟨_, rfl, Nat.zero_le _, Nat.lt_succ_self _, fun _ => by omega⟩
        · rw [renderSection_of_flat_other vp p e fuel pass pushed hg ht hc]
          refine ⟨_, rfl, Nat.zero_le _, Nat.lt_succ_self _, fun _ => by omega⟩

theorem sectionLoop_succ (vp : ViewParams) (fi : FrameInput) (p : SoFCRendererP) (e : DrawEntry)
    (body : List DrawOp) (fuel n : Nat) (pushed : Bool) (r : SectionResult)
    (hr : renderSection vp p e (p.material.clippers.length + 1) n pushed = some r) :
    sectionLoop vp fi p e body (fuel + 1) n pushed =
      if r.ret then
        (sectionLoop vp fi p e body fuel r.pass r.pushed).map (fun l =>
          { ops := r.ops ++ (if sectionCulled vp fi p e then [] else body) ++ l.ops,
            pushed := l.pushed, iterations := l.iterations + 1 })
      else some { ops := r.ops, pushed := r.pushed, iterations := 0 } := by
  rw [sectionLoop]
  simp only [hr]
  rcases Bool.eq_false_or_eq_true r.ret with h | h
  · rw [if_pos h, if_pos h]
    cases sectionLoop vp fi p e body fuel r.pass r.pushed <;> rfl
  · rw [h]
    rfl

theorem sectionLoop_spec (vp : ViewParams) (fi : FrameInput) (p : SoFCRendererP) (e : DrawEntry)
    (body : List DrawOp) :
    ∀ (fuel n : Nat) (pushed : Bool),
      max p.material.clippers.length 1 - n + 1 ≤ fuel →
      ∃ l, sectionLoop vp fi p e body fuel n pushed = some l
        ∧ l.iterations ≤ max p.material.clippers.length 1 - n := by
  intro fuel
  induction fuel with
  | zero => intro n pushed h; omega
  | succ fuel ih =>
    intro n pushed h
    obtain ⟨r, hr, _, h2, h3⟩ :=
      renderSection_spec vp p e (p.material.clippers.length + 1) n pushed (by omega)
    rw [sectionLoop_succ vp fi p e body fuel n pushed r hr]
    rcases Bool.eq_false_or_eq_true r.ret with hret | hret
    · have h4 := h3 hret
      obtain ⟨l, hl, h5⟩ := ih r.pass r.pushed (by omega)
      rw [if_pos hret, hl]
      refine ⟨_, rfl, ?_⟩
      show l.iterations + 1 ≤ _
      omega
    · rw [hret]
      exact ⟨_, rfl, Nat.zero_le _⟩

/-- C28: `renderSection` returns for every input: with `C` clip planes on the
tracked material, a call that may nest `C + 1` deep or deeper returns a
result, having invoked itself at most `C` times; and the loop
`while (renderSection(...))` of the draw loops, started like they start it
(`n = 0`, `pushed = false`) and allowed `C + 2` calls of `renderSection` or
more, ends after its body has run at most `max(C, 1)` times. -/
theorem renderSection_terminates (vp : ViewParams) (fi : FrameInput) (p : SoFCRendererP)
    (draw_entry : DrawEntry) (body : List DrawOp) (pass : Nat) (pushed : Bool) :
    (∀ fuel, p.material.clippers.length + 1 ≤ fuel →
      ∃ r, renderSection vp p draw_entry fuel pass pushed = some r
        ∧ r.calls ≤ p.material.clippers.length) ∧
    (∀ fuel, p.material.clippers.length + 2 ≤ fuel →
      ∃ l, sectionLoop vp fi p draw_entry body fuel 0 false = some l
        ∧ l.iterations ≤ max p.material.clippers.length 1) := by
  constructor
  · intro fuel h
    obtain ⟨r, hr, h1, _, _⟩ := renderSection_spec vp p draw_entry fuel pass pushed (by omega)
    exact ⟨r, hr, by omega⟩
  · intro fuel h
    obtain ⟨l, hl, h1⟩ := sectionLoop_spec vp fi p draw_entry body fuel 0 false (by omega)
    exact ⟨l, hl, by omega⟩

/-! ## The operations of renderSection -/

theorem filterMap_map_none {α β γ : Type} (f : α → β) (g : β → Option γ) (l : List α)
    (h : ∀ a, g (f a) = none) : (l.map f).filterMap g = [] := by
  induction l with
  | nil => rfl
  | cons a l ih => rw [List.map_cons, List.filterMap_cons, h a]; exact ih

theorem filterMap_none_of_forall {β γ : Type} (g : β → Option γ) (l : List β)
    (h : ∀ b ∈ l, g b = none) : l.filterMap g = [] := by
  induction l with
  | nil => rfl
  | cons a l ih =>
    rw [List.filterMap_cons, h a (List.mem_cons_self a l)]
    exact ih (fun b hb => h b (List.mem_cons_of_mem a hb))

theorem countP_zero_of_forall {β : Type} (g : β → Bool) (l : List β)
    (h : ∀ b ∈ l, g b = false) : l.countP g = 0 := by
  rw [List.countP_eq_zero]
  intro b hb
  rw [h b hb]
  exact Bool.false_ne_true

theorem clipOnly_isSection (numclip curpass : Nat) :
    ∀ o ∈ clipOnly numclip curpass, o.isSection = true := by
  intro o ho
  unfold clipOnly at ho
  rw [List.mem_map] at ho
  obtain ⟨i, _, rfl⟩ := ho
  split_ifs <;> rfl

theorem map_clipEnable_isSection (l : List Nat) :
    ∀ o ∈ l.map DrawOp.clipEnable, o.isSection = true := by
  intro o ho
  rw [List.mem_map] at ho
  obtain ⟨i, _, rfl⟩ := ho
  rfl

theorem map_clipDisable_isSection (l : List Nat) :
    ∀ o ∈ l.map DrawOp.clipDisable, o.isSection = true := by
  intro o ho
  rw [List.mem_map] at ho
  obtain ⟨i, _, rfl⟩ := ho
  rfl

theorem sectionStencilFill_isSection (numclip curpass : Nat) (concave pushed : Bool) :
    ∀ o ∈ sectionStencilFill numclip curpass concave pushed, o.isSection = true := by
  intro o ho
  unfold sectionStencilFill at ho
  simp only [List.mem_append] at ho
  rcases ho with (((ho | ho) | ho) | ho) | ho
  · cases pushed
    · simp only [Bool.not_false, if_true, List.mem_singleton] at ho
      rw [ho]; rfl
    · simp at ho
  · exact clipOnly_isSection _ _ o ho
  · simp only [List.mem_cons, List.mem_singleton, List.not_mem_nil, or_false] at ho
    rcases ho with h | h | h | h | h | h <;> rw [h] <;> rfl
  · cases concave
    · exact map_clipEnable_isSection _ o ho
    · simp at ho
  · simp only [List.mem_cons, List.mem_singleton, List.not_mem_nil, or_false] at ho
    rcases ho with h | h | h | h <;> rw [h] <;> rfl

theorem sectionIsolate_isSection (numclip curpass : Nat) (pushed : Bool) :
    ∀ o ∈ sectionIsolate numclip curpass pushed, o.isSection = true := by
  intro o ho
  unfold sectionIsolate at ho
  simp only [List.mem_append] at ho
  rcases ho with (ho | ho) | ho
  · cases pushed
    · simp only [Bool.not_false, if_true, List.mem_singleton] at ho
      rw [ho]; rfl
    · simp at ho
  · split_ifs at ho
    · exact map_clipDisable_isSection _ o ho
    · simp only [List.mem_singleton] at ho
      rw [ho]; rfl
  · simp only [List.mem_singleton] at ho
    rw [ho]; rfl

theorem renderSection_isSection (vp : ViewParams) (p : SoFCRendererP) (e : DrawEntry) :
    ∀ (fuel pass : Nat) (pushed : Bool) (r : SectionResult),
      renderSection vp p e fuel pass pushed = some r → ∀ o ∈ r.ops, o.isSection = true := by
  intro fuel
  induction fuel with
  | zero => intro pass pushed r h; rw [renderSection] at h; cases h
  | succ fuel ih =>
    intro pass pushed r h o ho
    rcases Bool.eq_false_or_eq_true (sectionGuard vp p e pass) with hg | hg
    · rw [renderSection_of_guard vp p e fuel pass pushed hg] at h
      cases h
      cases ho
    · by_cases ht : e.material.type = MaterialType.Triangle
      · rcases Bool.eq_false_or_eq_true (sectionConcave vp p) with hc | hc
        · rw [renderSection_of_concave_triangle vp p e fuel pass pushed hg ht hc] at h
          cases h
          rcases List.mem_append.mp ho with h1 | h1
          · exact sectionStencilFill_isSection _ _ _ _ o h1
          · exact clipOnly_isSection _ _ o h1
        · rw [renderSection_of_flat_triangle vp p e fuel pass pushed hg ht hc] at h
          cases hr : renderSection vp p e fuel (pass + 1) true with
          | none => rw [hr] at h; cases h
          | some r1 =>
            rw [hr] at h
            cases h
            rcases List.mem_append.mp ho with h1 | h1
            · rcases List.mem_append.mp h1 with h2 | h2
              · exact sectionStencilFill_isSection _ _ _ _ o h2
              · exact ih (pass + 1) true r1 hr o h2
            · split_ifs at h1
              · exact map_clipEnable_isSection _ o h1
              · cases h1
      · rcases Bool.eq_false_or_eq_true (sectionConcave vp p) with hc | hc
        · rw [renderSection_of_concave_other vp p e fuel pass pushed hg ht hc] at h
          cases h
          exact sectionIsolate_isSection _ _ _ o ho
        · rw [renderSection_of_flat_other vp p e fuel pass pushed hg ht hc] at h
          cases h
          cases ho

theorem isSection_not_geometry (o : DrawOp) (h : o.isSection = true) : o.isGeometry = false := by
  cases o <;> first | rfl | cases h

theorem sectionStencilFill_stencil (numclip curpass : Nat) (concave pushed : Bool) :
    (sectionStencilFill numclip curpass concave pushed).filterMap DrawOp.stencilPlane
      = [curpass] := by
  unfold sectionStencilFill
  have h1 : (clipOnly numclip curpass).filterMap DrawOp.stencilPlane = [] := by
    unfold clipOnly
    apply filterMap_map_none
    intro a
    split_ifs <;> rfl
  have h2 : ∀ l : List Nat, (l.map DrawOp.clipEnable).filterMap DrawOp.stencilPlane = [] :=
    fun l => filterMap_map_none _ _ l (fun _ => rfl)
  simp only [List.filterMap_append, h1]
  cases pushed <;> cases concave <;> simp [h2, DrawOp.stencilPlane]

theorem sectionStencilFill_fill (numclip curpass : Nat) (concave pushed : Bool) :
    (sectionStencilFill numclip curpass concave pushed).filterMap DrawOp.fillPlane
      = [curpass] := by
  unfold sectionStencilFill
  have h1 : (clipOnly numclip curpass).filterMap DrawOp.fillPlane = [] := by
    unfold clipOnly
    apply filterMap_map_none
    intro a
    split_ifs <;> rfl
  have h2 : ∀ l : List Nat, (l.map DrawOp.clipEnable).filterMap DrawOp.fillPlane = [] :=
    fun l => filterMap_map_none _ _ l (fun _ => rfl)
  simp only [List.filterMap_append, h1]
  cases pushed <;> cases concave <;> simp [h2, DrawOp.fillPlane]

theorem sectionGuard_flat (vp : ViewParams) (p : SoFCRendererP) (e : DrawEntry) (pass : Nat)
    (hd : p.depthwriteonly = false) (hw : e.ventry.partidx < 0)
    (hf : vp.SectionFill = true) :
    sectionGuard vp p e pass = decide (p.material.clippers.length ≤ pass) := by
  unfold sectionGuard
  have h2 : decide (e.ventry.partidx ≥ 0) = false := by
    rw [decide_eq_false_iff_not]; omega
  rw [hd, h2, hf]
  simp

/-- The self-invocations of `renderSection` outside concave mode go through
the planes from the pass they are entered with to the last. -/
theorem renderSection_flat_chain (vp : ViewParams) (p : SoFCRendererP) (e : DrawEntry)
    (hd : p.depthwriteonly = false) (hw : e.ventry.partidx < 0)
    (hf : vp.SectionFill = true) (ht : e.material.type = MaterialType.Triangle)
    (hc : sectionConcave vp p = false) :
    ∀ (fuel pass : Nat) (pushed : Bool),
      pass ≤ p.material.clippers.length →
      p.material.clippers.length - pass + 1 ≤ fuel →
      ∃ r, renderSection vp p e fuel pass pushed = some r
        ∧ r.ops.filterMap DrawOp.stencilPlane
            = List.range' pass (p.material.clippers.length - pass)
        ∧ r.ops.filterMap DrawOp.fillPlane
            = List.range' pass (p.material.clippers.length - pass)
        ∧ r.pass = p.material.clippers.length + 1
        ∧ r.ret = decide (pass < p.material.clippers.length ∨ pass = 0) := by
  intro fuel
  induction fuel with
  | zero => intro pass pushed _ h; omega
  | succ fuel ih =>
    intro pass pushed hle h
    by_cases hlt : pass < p.material.clippers.length
    · have hg : sectionGuard vp p e pass = false := by
        rw [sectionGuard_flat vp p e pass hd hw hf, decide_eq_false_iff_not]; omega
      rw [renderSection_of_flat_triangle vp p e fuel pass pushed hg ht hc]
      obtain ⟨r, hr, h1, h2, h3, _⟩ := ih (pass + 1) true (by omega) (by omega)
      rw [hr]
      have hk : p.material.clippers.length - pass = (p.material.clippers.length - (pass + 1)) + 1 := by
        omega
      have e1 : ∀ l : List Nat, (l.map DrawOp.clipEnable).filterMap DrawOp.stencilPlane = [] :=
        fun l => filterMap_map_none _ _ l (fun _ => rfl)
      have e2 : ∀ l : List Nat, (l.map DrawOp.clipEnable).filterMap DrawOp.fillPlane = [] :=
        fun l => filterMap_map_none _ _ l (fun _ => rfl)
      refine ⟨_, rfl, ?_, ?_, h3, ?_⟩
      · show (sectionStencilFill _ _ _ _ ++ r.ops ++ _).filterMap DrawOp.stencilPlane = _
        rw [List.filterMap_append, List.filterMap_append, sectionStencilFill_stencil, h1, hk,
          List.range'_succ]
        split_ifs
        · rw [e1]; simp
        · simp
      · show (sectionStencilFill _ _ _ _ ++ r.ops ++ _).filterMap DrawOp.fillPlane = _
        rw [List.filterMap_append, List.filterMap_append, sectionStencilFill_fill, h2, hk,
          List.range'_succ]
        split_ifs
        · rw [e2]; simp
        · simp
      · show true = _
        simp [hlt]
    · have hg : sectionGuard vp p e pass = true := sectionGuard_of_ge vp p e pass (by omega)
      rw [renderSection_of_guard vp p e fuel pass pushed hg]
      have h0 : p.material.clippers.length - pass = 0 := by omega
      refine ⟨_, rfl, ?_, ?_, ?_, ?_⟩
      · rw [h0]; rfl
      · rw [h0]; rfl
      · show pass + 1 = _; omega
      · show decide (pass = 0) = _
        simp [hlt]

/-- The section loop whose first call of `renderSection` returns true and
leaves the pass counter beyond the planes runs its body once. -/
theorem sectionLoop_once (vp : ViewParams) (fi : FrameInput) (p : SoFCRendererP) (e : DrawEntry)
    (body : List DrawOp) (fuel : Nat) (r : SectionResult)
    (hr : renderSection vp p e (p.material.clippers.length + 1) 0 false = some r)
    (hret : r.ret = true) (hpass : p.material.clippers.length ≤ r.pass) (hpos : 0 < r.pass) :
    sectionLoop vp fi p e body (fuel + 2) 0 false =
      some { ops := r.ops ++ (if sectionCulled vp fi p e then [] else body) ++ []
             pushed := r.pushed
             iterations := 1 } := by
  rw [sectionLoop_succ vp fi p e body (fuel + 1) 0 false r hr, if_pos hret]
  have h2 : renderSection vp p e (p.material.clippers.length + 1) r.pass r.pushed =
      some { ret := decide (r.pass = 0), pass := r.pass + 1, pushed := r.pushed, ops := [] } :=
    renderSection_of_guard vp p e _ r.pass r.pushed (sectionGuard_of_ge vp p e r.pass hpass)
  rw [sectionLoop_succ vp fi p e body fuel r.pass r.pushed _ h2]
  have h3 : decide (r.pass = 0) = false := by
    rw [decide_eq_false_iff_not]; omega
  simp only [h3, Bool.false_eq_true, if_false, Option.map_some']

theorem opaqueBody_stencil (vp : ViewParams) (p : SoFCRendererP) (list : DrawList)
    (e : DrawEntry) : (opaqueBody vp p list e).filterMap DrawOp.stencilPlane = [] := by
  unfold opaqueBody renderLines renderPoints
  rcases MaterialType.cases_eq e.material.type with h | h | h <;> rw [h] <;> dsimp only <;>
    split_ifs <;> rfl

theorem opaqueBody_fill (vp : ViewParams) (p : SoFCRendererP) (list : DrawList)
    (e : DrawEntry) : (opaqueBody vp p list e).filterMap DrawOp.fillPlane = [] := by
  unfold opaqueBody renderLines renderPoints
  rcases MaterialType.cases_eq e.material.type with h | h | h <;> rw [h] <;> dsimp only <;>
    split_ifs <;> rfl

theorem opaqueBody_geometry (vp : ViewParams) (p : SoFCRendererP) (list : DrawList)
    (e : DrawEntry) (hd : p.depthwriteonly = false) (hs : p.shadowmapping = false)
    (hw : e.ventry.partidx < 0) :
    (opaqueBody vp p list e).countP DrawOp.isGeometry
      = if submitsGeometry vp list e then 1 else 0 := by
  have h2 : decide (e.ventry.partidx ≥ 0) = false := by
    rw [decide_eq_false_iff_not]; omega
  unfold opaqueBody renderLines renderPoints submitsGeometry
  rw [hd, hs, h2]
  rcases MaterialType.cases_eq e.material.type with h | h | h <;> rw [h] <;> dsimp only <;>
    split_ifs <;> simp_all [DrawOp.isGeometry]

theorem opaqueBody_triangle_geometry (vp : ViewParams) (p : SoFCRendererP) (list : DrawList)
    (e : DrawEntry) (ht : e.material.type = MaterialType.Triangle) :
    (opaqueBody vp p list e).countP DrawOp.isGeometry
      = if submitsGeometry vp list e then 1 else 0 := by
  unfold opaqueBody submitsGeometry
  rw [ht]
  dsimp only
  split_ifs <;> simp_all [DrawOp.isGeometry]

/-! ## The section loop outside concave mode -/

theorem sectionLoop_flat (vp : ViewParams) (fi : FrameInput) (p : SoFCRendererP)
    (list : DrawList) (e : DrawEntry)
    (hd : p.depthwriteonly = false) (hw : e.ventry.partidx < 0)
    (ht : e.material.type = MaterialType.Triangle)
    (hf : vp.SectionFill = true) (hc : sectionConcave vp p = false) :
    ∃ l, sectionLoop vp fi p e (opaqueBody vp p list e) (p.material.clippers.length + 2) 0 false
          = some l
      ∧ l.ops.filterMap DrawOp.stencilPlane = List.range p.material.clippers.length
      ∧ l.ops.filterMap DrawOp.fillPlane = List.range p.material.clippers.length
      ∧ l.iterations = 1
      ∧ l.ops.countP DrawOp.isGeometry
          = if sectionCulled vp fi p e || !submitsGeometry vp list e then 0 else 1 := by
  obtain ⟨r, hr, h1, h2, h3, h4⟩ :=
    renderSection_flat_chain vp p e hd hw hf ht hc (p.material.clippers.length + 1) 0 false
      (Nat.zero_le _) (by omega)
  have hret : r.ret = true := by rw [h4]; simp
  have hsec := renderSection_isSection vp p e _ 0 false r hr
  have hgeo : r.ops.countP DrawOp.isGeometry = 0 :=
    countP_zero_of_forall _ _ (fun o ho => isSection_not_geometry o (hsec o ho))
  rw [sectionLoop_once vp fi p e _ p.material.clippers.length r hr hret (by omega) (by omega)]
  refine ⟨_, rfl, ?_, ?_, rfl, ?_⟩
  · show (r.ops ++ _ ++ []).filterMap DrawOp.stencilPlane = _
    rw [List.append_nil, List.filterMap_append, h1, Nat.sub_zero, List.range_eq_range']
    split_ifs
    · simp
    · rw [opaqueBody_stencil]; simp
  · show (r.ops ++ _ ++ []).filterMap DrawOp.fillPlane = _
    rw [List.append_nil, List.filterMap_append, h2, Nat.sub_zero, List.range_eq_range']
    split_ifs
    · simp
    · rw [opaqueBody_fill]; simp
  · show (r.ops ++ _ ++ []).countP DrawOp.isGeometry = _
    rw [List.append_nil, List.countP_append, hgeo, Nat.zero_add]
    rcases Bool.eq_false_or_eq_true (sectionCulled vp fi p e) with hcu | hcu
    · rw [hcu]; simp
    · rw [hcu]
      simp only [Bool.false_eq_true, if_false, Bool.false_or]
      rw [opaqueBody_triangle_geometry vp p list e ht]
      cases submitsGeometry vp list e <;> simp

theorem sectionLoop_unclipped (vp : ViewParams) (fi : FrameInput) (p : SoFCRendererP)
    (list : DrawList) (e : DrawEntry)
    (ht : e.material.type = MaterialType.Triangle)
    (h0 : p.material.clippers.length = 0) :
    ∃ l, sectionLoop vp fi p e (opaqueBody vp p list e) (p.material.clippers.length + 2) 0 false
          = some l
      ∧ l.ops.filterMap DrawOp.stencilPlane = []
      ∧ l.ops.filterMap DrawOp.fillPlane = []
      ∧ l.iterations = 1
      ∧ l.ops.countP DrawOp.isGeometry = if submitsGeometry vp list e then 1 else 0 := by
  have hg : sectionGuard vp p e 0 = true := sectionGuard_of_ge vp p e 0 (by omega)
  have hr := renderSection_of_guard vp p e p.material.clippers.length 0 false hg
  have hcu : sectionCulled vp fi p e = false := by
    unfold sectionCulled
    rw [h0]
    simp
  rw [sectionLoop_once vp fi p e _ p.material.clippers.length _ hr rfl
    (by show _ ≤ 0 + 1; omega) (by show 0 < 0 + 1; omega)]
  refine ⟨_, rfl, ?_, ?_, rfl, ?_⟩
  · show ([] ++ _ ++ []).filterMap DrawOp.stencilPlane = _
    rw [hcu]
    simp [opaqueBody_stencil]
  · show ([] ++ _ ++ []).filterMap DrawOp.fillPlane = _
    rw [hcu]
    simp [opaqueBody_fill]
  · show ([] ++ _ ++ []).countP DrawOp.isGeometry = _
    rw [hcu]
    simp [opaqueBody_triangle_geometry vp p list e ht]

/-- C24, as the code has it: for a whole-object triangle unit outside
depth-write-only mode and every number `C` of clip planes on the tracked
material, the section loop of `renderOpaque` with fill enabled and concave
mode off performs exactly `C` stencil sub-passes and `C` fill sub-passes, one
per plane 0..C-1 in increasing order, and runs its body once; the body submits
the geometry of the unit once, except that it submits nothing when the unit is
passed over by the cull test (concave sections off, `C > 0`, box outside the
view volume) or is a unit of the base list with outlined material while faces
are hidden.  With fill disabled and `C = 0` there is no stencil or fill
sub-pass, the body runs once, and the geometry is submitted once unless the
faces of the unit are hidden in that way. -/
theorem sectionLoop_pass_count (vp : ViewParams) (fi : FrameInput) (p : SoFCRendererP)
    (list : DrawList) (draw_entry : DrawEntry)
    (hd : p.depthwriteonly = false) (hw : draw_entry.ventry.partidx < 0)
    (ht : draw_entry.material.type = MaterialType.Triangle) :
    (vp.SectionFill = true → sectionConcave vp p = false →
      ∃ l, sectionLoop vp fi p draw_entry (opaqueBody vp p list draw_entry)
            (p.material.clippers.length + 2) 0 false = some l
        ∧ l.ops.filterMap DrawOp.stencilPlane = List.range p.material.clippers.length
        ∧ l.ops.filterMap DrawOp.fillPlane = List.range p.material.clippers.length
        ∧ l.iterations = 1
        ∧ l.ops.countP DrawOp.isGeometry
            = if sectionCulled vp fi p draw_entry || !submitsGeometry vp list draw_entry then 0
              else 1) ∧
    (vp.SectionFill = false → p.material.clippers.length = 0 →
      ∃ l, sectionLoop vp fi p draw_entry (opaqueBody vp p list draw_entry)
            (p.material.clippers.length + 2) 0 false = some l
        ∧ l.ops.filterMap DrawOp.stencilPlane = []
        ∧ l.ops.filterMap DrawOp.fillPlane = []
        ∧ l.iterations = 1
        ∧ l.ops.countP DrawOp.isGeometry
            = if submitsGeometry vp list draw_entry then 1 else 0) :=
  ⟨fun hf hc => sectionLoop_flat vp fi p list draw_entry hd hw ht hf hc,
   fun _ h0 => sectionLoop_unclipped vp fi p list draw_entry ht h0⟩

theorem sectionLoop_pass_count_witness :
    twoPlaneRenderer.depthwriteonly = false ∧ wholeTriangleUnit.ventry.partidx < 0 ∧
    wholeTriangleUnit.material.type = MaterialType.Triangle ∧
    ({} : ViewParams).SectionFill = true ∧ sectionConcave {} twoPlaneRenderer = false ∧
    twoPlaneRenderer.material.clippers.length = 2 ∧
    sectionCulled {} {} twoPlaneRenderer wholeTriangleUnit = false ∧
    submitsGeometry {} DrawList.base wholeTriangleUnit = true ∧
    ((({} : ViewParams).SectionFill = true → sectionConcave {} twoPlaneRenderer = false →
      ∃ l, sectionLoop {} {} twoPlaneRenderer wholeTriangleUnit
            (opaqueBody {} twoPlaneRenderer DrawList.base wholeTriangleUnit)
            (twoPlaneRenderer.material.clippers.length + 2) 0 false = some l
        ∧ l.ops.filterMap DrawOp.stencilPlane = List.range twoPlaneRenderer.material.clippers.length
        ∧ l.ops.filterMap DrawOp.fillPlane = List.range twoPlaneRenderer.material.clippers.length
        ∧ l.iterations = 1
        ∧ l.ops.countP DrawOp.isGeometry
            = if sectionCulled {} {} twoPlaneRenderer wholeTriangleUnit
                || !submitsGeometry {} DrawList.base wholeTriangleUnit then 0
              else 1) ∧
    (({} : ViewParams).SectionFill = false → twoPlaneRenderer.material.clippers.length = 0 →
      ∃ l, sectionLoop {} {} twoPlaneRenderer wholeTriangleUnit
            (opaqueBody {} twoPlaneRenderer DrawList.base wholeTriangleUnit)
            (twoPlaneRenderer.material.clippers.length + 2) 0 false = some l
        ∧ l.ops.filterMap DrawOp.stencilPlane = []
        ∧ l.ops.filterMap DrawOp.fillPlane = []
        ∧ l.iterations = 1
        ∧ l.ops.countP DrawOp.isGeometry
            = if submitsGeometry {} DrawList.base wholeTriangleUnit then 1 else 0)) :=
  ⟨by decide, by decide, by decide, by decide, by decide, by decide, by decide, by decide,
   sectionLoop_pass_count {} {} twoPlaneRenderer DrawList.base wholeTriangleUnit
     (by decide) (by decide) (by decide)⟩

/-- C24 as stated fails: with two clip planes, fill enabled and concave mode
off, a whole-object triangle unit outside the view volume goes through both
stencil sub-passes and is then passed over by the cull test, and a unit of the
base list with outlined material is not drawn while faces are hidden: in both
cases the loop submits the geometry of the unit not once but never. -/
theorem sectionLoop_no_submission :
    twoPlaneRenderer.depthwriteonly = false ∧
    twoPlaneRenderer.material.clippers.length = 2 ∧
    ({} : ViewParams).SectionFill = true ∧ ({} : ViewParams).SectionConcave = false ∧
    hiddenFaces.SectionFill = true ∧ hiddenFaces.SectionConcave = false ∧
    wholeTriangleUnit.ventry.partidx < 0 ∧
    wholeTriangleUnit.material.type = MaterialType.Triangle ∧
    outlinedTriangleUnit.ventry.partidx < 0 ∧
    outlinedTriangleUnit.material.type = MaterialType.Triangle ∧
    (sectionLoop {} allCulled twoPlaneRenderer wholeTriangleUnit
        (opaqueBody {} twoPlaneRenderer DrawList.base wholeTriangleUnit) 4 0 false).map
      (fun l => (l.ops.filterMap DrawOp.stencilPlane, l.iterations,
        l.ops.countP DrawOp.isGeometry)) = some ([0, 1], 1, 0) ∧
    (sectionLoop hiddenFaces {} twoPlaneRenderer outlinedTriangleUnit
        (opaqueBody hiddenFaces twoPlaneRenderer DrawList.base outlinedTriangleUnit) 4 0 false).map
      (fun l => (l.ops.filterMap DrawOp.stencilPlane, l.iterations,
        l.ops.countP DrawOp.isGeometry)) = some ([0, 1], 1, 0) := by
  decide

/-! ## Clip planes along a run of operations -/

theorem clipRun_append (s : ClipState) (a b : List DrawOp) :
    clipRun s (a ++ b) = clipRun (clipRun s a) b := by
  unfold clipRun
  rw [List.foldl_append]

theorem setAll_getElem? (f : Nat → Bool) (L : List Nat) (en : List Bool) (j : Nat) :
    (L.foldl (fun en i => en.set i (f i)) en)[j]? =
      if j ∈ L then (en[j]?).map (fun _ => f j) else en[j]? := by
  induction L generalizing en with
  | nil => simp
  | cons i L ih =>
    rw [List.foldl_cons, ih]
    by_cases hji : j = i
    · subst hji
      simp only [List.mem_cons, true_or, if_true]
      have h1 : (en.set j (f j))[j]? = (en[j]?).map (fun _ => f j) := by
        rw [List.getElem?_set', if_pos rfl]
        rfl
      rw [h1]
      split_ifs
      · cases en[j]? <;> rfl
      · rfl
    · have h1 : (en.set i (f i))[j]? = en[j]? := List.getElem?_set_ne (Ne.symm hji)
      rw [h1]
      simp only [List.mem_cons, hji, false_or]

theorem setAll_length (f : Nat → Bool) (L : List Nat) (en : List Bool) :
    (L.foldl (fun en i => en.set i (f i)) en).length = en.length := by
  induction L generalizing en with
  | nil => rfl
  | cons i L ih => rw [List.foldl_cons, ih, List.length_set]

theorem clipRun_switches (f : Nat → Bool) (L : List Nat) (s : ClipState) :
    clipRun s (L.map (fun i => if f i then DrawOp.clipEnable i else DrawOp.clipDisable i)) =
      { s with enabled := L.foldl (fun en i => en.set i (f i)) s.enabled } := by
  induction L generalizing s with
  | nil => rfl
  | cons i L ih =>
    have hstep : clipStep s (if f i then DrawOp.clipEnable i else DrawOp.clipDisable i)
        = { s with enabled := s.enabled.set i (f i) } := by
      cases h : f i <;> rfl
    show clipRun (clipStep s _) _ = _
    rw [hstep, ih]
    rfl

theorem onlyPlane_getElem? (numclip k j : Nat) :
    (onlyPlane numclip k)[j]? = if j < numclip then some (decide (j = k)) else none := by
  unfold onlyPlane
  rw [List.getElem?_map]
  by_cases h : j < numclip
  · rw [List.getElem?_range h, if_pos h]
    rfl
  · rw [if_neg h, List.getElem?_eq_none (by rw [List.length_range]; omega)]
    rfl

theorem map_const_getElem? (en : List Bool) (j numclip : Nat) (b : Bool)
    (h : en.length = numclip) :
    (en[j]?).map (fun _ => b) = if j < numclip then some b else none := by
  by_cases hj : j < numclip
  · rw [if_pos hj, List.getElem?_eq_getElem (by omega)]
    rfl
  · rw [if_neg hj, List.getElem?_eq_none (by omega)]
    rfl

theorem with_enabled_eq (s : ClipState) (a b : List Bool) (sv : List (List Bool))
    (h : a = b) :
    ({ enabled := a, saved := sv, seen := s.seen } : ClipState)
      = { enabled := b, saved := sv, seen := s.seen } := by
  rw [h]

theorem clipRun_clipOnly (s : ClipState) (numclip k : Nat) (h : s.enabled.length = numclip) :
    clipRun s (clipOnly numclip k) = { s with enabled := onlyPlane numclip k } := by
  have e1 : clipOnly numclip k = (List.range numclip).map
      (fun i => if (fun i => decide (i = k)) i then DrawOp.clipEnable i
        else DrawOp.clipDisable i) := by
    unfold clipOnly
    apply List.map_congr_left
    intro i _
    by_cases hi : i = k <;> simp [hi]
  rw [e1, clipRun_switches]
  apply with_enabled_eq
  apply List.ext_getElem?
  intro j
  rw [setAll_getElem?, onlyPlane_getElem?, map_const_getElem? _ _ _ _ h]
  by_cases hj : j < numclip
  · rw [if_pos (List.mem_range.mpr hj)]
  · rw [if_neg (by rw [List.mem_range]; exact hj), if_neg hj,
      List.getElem?_eq_none (by omega)]

theorem clipRun_push (s : ClipState) (pushed : Bool) :
    clipRun s (if !pushed then [DrawOp.glPushAttrib] else []) =
      { s with saved := if pushed then s.saved else s.enabled :: s.saved } := by
  cases pushed <;> rfl

theorem clipRun_isolate (s : ClipState) (numclip k : Nat) (pushed : Bool)
    (h : s.enabled.length = numclip) (hk : k < numclip)
    (hprev : k ≠ 0 → s.enabled = onlyPlane numclip (k - 1)) :
    clipRun s (sectionIsolate numclip k pushed) =
      { enabled := onlyPlane numclip k
        saved := if pushed then s.saved else s.enabled :: s.saved
        seen := s.seen } := by
  unfold sectionIsolate
  rw [clipRun_append, clipRun_append, clipRun_push]
  by_cases h0 : k = 0
  · subst h0
    rw [if_pos rfl]
    have e1 : (List.range' 1 (numclip - 1)).map DrawOp.clipDisable =
        (List.range' 1 (numclip - 1)).map
          (fun i => if (fun _ => false) i then DrawOp.clipEnable i
            else DrawOp.clipDisable i) := by
      apply List.map_congr_left
      intro i _
      simp
    rw [e1, clipRun_switches]
    show ({ enabled := List.set _ 0 true, saved := _, seen := _ } : ClipState) = _
    apply with_enabled_eq
    apply List.ext_getElem?
    intro j
    rw [List.getElem?_set', setAll_getElem?, onlyPlane_getElem?]
    by_cases hj0 : j = 0
    · subst hj0
      rw [if_pos rfl, if_neg (by rw [List.mem_range'_1]; omega), if_pos hk,
        List.getElem?_eq_getElem (by show 0 < s.enabled.length; omega)]
      rfl
    · rw [if_neg (Ne.symm hj0), map_const_getElem? _ _ _ _ h]
      by_cases hj : j < numclip
      · rw [if_pos (by rw [List.mem_range'_1]; omega), if_pos hj,
          if_pos hj]
        simp [hj0]
      · rw [if_neg (by rw [List.mem_range'_1]; omega), if_neg hj,
          List.getElem?_eq_none (by show s.enabled.length ≤ j; omega)]
  · rw [if_neg h0]
    show ({ enabled := List.set (List.set _ (k - 1) false) k true, saved := _, seen := _ }
      : ClipState) = _
    apply with_enabled_eq
    rw [hprev h0]
    apply List.ext_getElem?
    intro j
    rw [List.getElem?_set', List.getElem?_set', onlyPlane_getElem?, onlyPlane_getElem?]
    by_cases hj : j < numclip
    · rw [if_pos hj, if_pos hj]
      by_cases hjk : j = k
      · subst hjk
        rw [if_pos rfl, if_neg (by omega)]
        simp
      · rw [if_neg (Ne.symm hjk)]
        by_cases hjk1 : j = k - 1
        · rw [if_pos hjk1.symm]
          simp [hjk]
        · rw [if_neg (Ne.symm hjk1)]
          simp [hjk, hjk1]
    · rw [if_neg hj, if_neg hj, if_neg (by omega), if_neg (by omega)]

theorem onlyPlane_length (numclip k : Nat) : (onlyPlane numclip k).length = numclip := by
  unfold onlyPlane
  rw [List.length_map, List.length_range]

theorem clipRun_concave_triangle (s : ClipState) (numclip k : Nat) (pushed : Bool)
    (h : s.enabled.length = numclip) :
    clipRun s (sectionStencilFill numclip k true pushed ++ clipOnly numclip k) =
      { enabled := onlyPlane numclip k
        saved := if pushed then s.saved else s.enabled :: s.saved
        seen := s.seen } := by
  unfold sectionStencilFill
  simp only [clipRun_append, Bool.not_true, Bool.false_eq_true, if_false]
  rw [clipRun_push,
    clipRun_clipOnly { s with saved := if pushed then s.saved else s.enabled :: s.saved }
      numclip k h]
  have e1 : ∀ t : ClipState,
      clipRun t [DrawOp.glPushAttrib, DrawOp.glColorMask false, DrawOp.glLighting false,
        DrawOp.stencilTriangles k, DrawOp.glColorMask true, DrawOp.glPopAttrib] = t :=
    fun t => rfl
  have e2 : ∀ t : ClipState, clipRun t [] = t := fun t => rfl
  have e3 : ∀ t : ClipState,
      clipRun t [DrawOp.clipDisable k, DrawOp.glPushAttrib, DrawOp.fillQuad k,
        DrawOp.glPopAttrib] = { t with enabled := t.enabled.set k false } :=
    fun t => rfl
  rw [e1, e2, e3]
  exact clipRun_clipOnly _ numclip k (by
    show (List.set (onlyPlane numclip k) k false).length = numclip
    rw [List.length_set, onlyPlane_length])

theorem clipRun_opaqueBody (vp : ViewParams) (p : SoFCRendererP) (list : DrawList)
    (e : DrawEntry) (s : ClipState) (hd : p.depthwriteonly = false)
    (hs : p.shadowmapping = false) (hw : e.ventry.partidx < 0) :
    clipRun s (opaqueBody vp p list e) =
      { s with seen := s.seen ++ (if submitsGeometry vp list e then [s.enabled] else []) } := by
  have h2 : decide (e.ventry.partidx ≥ 0) = false := by
    rw [decide_eq_false_iff_not]; omega
  unfold opaqueBody renderLines renderPoints submitsGeometry
  rw [hd, hs, h2]
  rcases MaterialType.cases_eq e.material.type with h | h | h <;> rw [h] <;> dsimp only <;>
    split_ifs <;> simp_all [clipRun, clipStep, DrawOp.isGeometry]

/-! ## The section loop in concave mode -/

theorem sectionGuard_concave (vp : ViewParams) (p : SoFCRendererP) (e : DrawEntry) (pass : Nat)
    (hd : p.depthwriteonly = false) (hw : e.ventry.partidx < 0)
    (hc : sectionConcave vp p = true) :
    sectionGuard vp p e pass = decide (p.material.clippers.length ≤ pass) := by
  unfold sectionGuard
  have h2 : decide (e.ventry.partidx ≥ 0) = false := by
    rw [decide_eq_false_iff_not]; omega
  rw [hd, h2, hc]
  simp

theorem sectionConcave_planes (vp : ViewParams) (p : SoFCRendererP)
    (hc : sectionConcave vp p = true) :
    vp.SectionConcave = true ∧ 1 < p.material.clippers.length := by
  unfold sectionConcave at hc
  simp only [Bool.and_eq_true, decide_eq_true_eq] at hc
  exact ⟨hc.1, hc.2⟩

/-- One call of `renderSection` in concave mode leaves exactly the plane of
its pass enabled. -/
theorem renderSection_concave_pass (vp : ViewParams) (p : SoFCRendererP) (e : DrawEntry)
    (hd : p.depthwriteonly = false) (hw : e.ventry.partidx < 0)
    (hc : sectionConcave vp p = true) (fuel n : Nat) (pushed : Bool) (s : ClipState)
    (hn : n < p.material.clippers.length)
    (hlen : s.enabled.length = p.material.clippers.length)
    (hprev : n ≠ 0 → s.enabled = onlyPlane p.material.clippers.length (n - 1)) :
    ∃ r, renderSection vp p e (fuel + 1) n pushed = some r
      ∧ r.ret = true ∧ r.pass = n + 1
      ∧ clipRun s r.ops = { enabled := onlyPlane p.material.clippers.length n
                            saved := if pushed then s.saved else s.enabled :: s.saved
                            seen := s.seen } := by
  have hg : sectionGuard vp p e n = false := by
    rw [sectionGuard_concave vp p e n hd hw hc, decide_eq_false_iff_not]; omega
  by_cases ht : e.material.type = MaterialType.Triangle
  · rw [renderSection_of_concave_triangle vp p e fuel n pushed hg ht hc]
    exact ⟨_, rfl, rfl, rfl, clipRun_concave_triangle s _ n pushed hlen⟩
  · rw [renderSection_of_concave_other vp p e fuel n pushed hg ht hc]
    exact ⟨_, rfl, rfl, rfl, clipRun_isolate s _ n pushed hlen hn hprev⟩

theorem sectionCulled_concave (vp : ViewParams) (fi : FrameInput) (p : SoFCRendererP)
    (e : DrawEntry) (hc : vp.SectionConcave = true) : sectionCulled vp fi p e = false := by
  unfold sectionCulled
  rw [hc]
  rfl

theorem sectionLoop_concave_from (vp : ViewParams) (fi : FrameInput) (p : SoFCRendererP)
    (list : DrawList) (e : DrawEntry)
    (hd : p.depthwriteonly = false) (hs : p.shadowmapping = false)
    (hw : e.ventry.partidx < 0) (hc : sectionConcave vp p = true) :
    ∀ (fuel n : Nat) (pushed : Bool) (s : ClipState),
      n ≤ p.material.clippers.length →
      p.material.clippers.length - n + 1 ≤ fuel →
      s.enabled.length = p.material.clippers.length →
      (n ≠ 0 → s.enabled = onlyPlane p.material.clippers.length (n - 1)) →
      ∃ l, sectionLoop vp fi p e (opaqueBody vp p list e) fuel n pushed = some l
        ∧ l.iterations = p.material.clippers.length - n
        ∧ (clipRun s l.ops).seen = s.seen ++
            (if submitsGeometry vp list e then
              (List.range' n (p.material.clippers.length - n)).map
                (onlyPlane p.material.clippers.length)
             else []) := by
  obtain ⟨hvc, hC⟩ := sectionConcave_planes vp p hc
  intro fuel
  induction fuel with
  | zero => intro n pushed s _ h; omega
  | succ fuel ih =>
    intro n pushed s hle hfuel hlen hprev
    by_cases hlt : n < p.material.clippers.length
    · obtain ⟨r, hr, hret, hpass, hrun⟩ :=
        renderSection_concave_pass vp p e hd hw hc p.material.clippers.length n pushed s hlt
          hlen hprev
      rw [sectionLoop_succ vp fi p e _ fuel n pushed r hr, if_pos hret,
        sectionCulled_concave vp fi p e hvc]
      have hs2 : (clipRun (clipRun s r.ops) (opaqueBody vp p list e)).enabled
          = onlyPlane p.material.clippers.length n := by
        rw [clipRun_opaqueBody vp p list e _ hd hs hw, hrun]
      have hseen2 : (clipRun (clipRun s r.ops) (opaqueBody vp p list e)).seen
          = s.seen ++ (if submitsGeometry vp list e then
              [onlyPlane p.material.clippers.length n] else []) := by
        rw [clipRun_opaqueBody vp p list e _ hd hs hw, hrun]
      obtain ⟨l, hl, hit, hrun2⟩ := ih r.pass r.pushed
        (clipRun (clipRun s r.ops) (opaqueBody vp p list e))
        (by omega) (by omega) (by rw [hs2, onlyPlane_length])
        (by intro _; rw [hs2, hpass]; rfl)
      rw [hl]
      refine ⟨_, rfl, ?_, ?_⟩
      · show l.iterations + 1 = _
        omega
      · show (clipRun s (r.ops ++ (if false = true then [] else opaqueBody vp p list e) ++ l.ops)).seen
          = _
        rw [if_neg Bool.false_ne_true, clipRun_append, clipRun_append, hrun2, hseen2, hpass]
        have hk : p.material.clippers.length - n = (p.material.clippers.length - (n + 1)) + 1 := by
          omega
        rw [hk, List.range'_succ]
        cases submitsGeometry vp list e
        · simp
        · simp
    · have hg : sectionGuard vp p e n = true := sectionGuard_of_ge vp p e n (by omega)
      have hr := renderSection_of_guard vp p e p.material.clippers.length n pushed hg
      rw [sectionLoop_succ vp fi p e _ fuel n pushed _ hr]
      have h3 : decide (n = 0) = false := by
        rw [decide_eq_false_iff_not]; omega
      simp only [h3, Bool.false_eq_true, if_false]
      have h0 : p.material.clippers.length - n = 0 := by omega
      refine ⟨_, rfl, ?_, ?_⟩
      · show 0 = _
        omega
      · rw [h0]
        show s.seen = _
        cases submitsGeometry vp list e <;> simp

/-- C26, as the code has it: in concave section mode (concave sections asked
for and `C > 1` clip planes on the tracked material), outside depth-write-only
mode and outside a shadow-map pass, the draw loop of `renderOpaque` for a
whole-object unit (triangle, line or point) runs its body `C` times, whatever
planes are enabled when it starts; the body submits the geometry of the unit
each time, `C` times in all, and at the i-th submission exactly plane `i` is
enabled, except that it submits nothing for a triangle unit of the base list
with outlined material while faces are hidden and for a point unit with
outlined material while vertices are hidden. -/
theorem sectionLoop_concave (vp : ViewParams) (fi : FrameInput) (p : SoFCRendererP)
    (list : DrawList) (draw_entry : DrawEntry) (enabled : List Bool)
    (hc : sectionConcave vp p = true)
    (hd : p.depthwriteonly = false) (hs : p.shadowmapping = false)
    (hw : draw_entry.ventry.partidx < 0)
    (hen : enabled.length = p.material.clippers.length) :
    ∃ l, sectionLoop vp fi p draw_entry (opaqueBody vp p list draw_entry)
          (p.material.clippers.length + 2) 0 false = some l
      ∧ l.iterations = p.material.clippers.length
      ∧ (clipRun { enabled := enabled } l.ops).seen =
          if submitsGeometry vp list draw_entry then
            (List.range p.material.clippers.length).map (onlyPlane p.material.clippers.length)
          else [] := by
  obtain ⟨l, hl, h1, h2⟩ :=
    sectionLoop_concave_from vp fi p list draw_entry hd hs hw hc
      (p.material.clippers.length + 2) 0 false { enabled := enabled }
      (Nat.zero_le _) (by omega) hen (fun h => absurd rfl h)
  refine ⟨l, hl, h1, ?_⟩
  rw [h2, Nat.sub_zero, List.range_eq_range']
  rfl

theorem sectionLoop_concave_witness :
    sectionConcave concaveSections twoPlaneRenderer = true ∧
    twoPlaneRenderer.depthwriteonly = false ∧ twoPlaneRenderer.shadowmapping = false ∧
    wholeLineUnit.ventry.partidx < 0 ∧
    [true, true].length = twoPlaneRenderer.material.clippers.length ∧
    submitsGeometry concaveSections DrawList.base wholeLineUnit = true ∧
    (List.range twoPlaneRenderer.material.clippers.length).map
      (onlyPlane twoPlaneRenderer.material.clippers.length) = [[true, false], [false, true]] ∧
    ∃ l, sectionLoop concaveSections {} twoPlaneRenderer wholeLineUnit
          (opaqueBody concaveSections twoPlaneRenderer DrawList.base wholeLineUnit)
          (twoPlaneRenderer.material.clippers.length + 2) 0 false = some l
      ∧ l.iterations = twoPlaneRenderer.material.clippers.length
      ∧ (clipRun { enabled := [true, true] } l.ops).seen =
          if submitsGeometry concaveSections DrawList.base wholeLineUnit then
            (List.range twoPlaneRenderer.material.clippers.length).map
              (onlyPlane twoPlaneRenderer.material.clippers.length)
          else [] :=
  ⟨by decide, by decide, by decide, by decide, by decide, by decide, by decide,
   sectionLoop_concave concaveSections {} twoPlaneRenderer DrawList.base wholeLineUnit
     [true, true] (by decide) (by decide) (by decide) (by decide) (by decide)⟩

/-- C26 as stated fails: in concave mode with two clip planes, the loop for a
whole-object triangle unit of the base list whose material is outlined runs
its body twice while faces are hidden, and the body submits the geometry of
the unit not twice but never. -/
theorem sectionLoop_concave_hidden_faces :
    sectionConcave concaveHiddenFaces twoPlaneRenderer = true ∧
    twoPlaneRenderer.material.clippers.length = 2 ∧
    twoPlaneRenderer.depthwriteonly = false ∧
    outlinedTriangleUnit.ventry.partidx < 0 ∧
    outlinedTriangleUnit.material.type = MaterialType.Triangle ∧
    (sectionLoop concaveHiddenFaces {} twoPlaneRenderer outlinedTriangleUnit
        (opaqueBody concaveHiddenFaces twoPlaneRenderer DrawList.base outlinedTriangleUnit)
        4 0 false).map
      (fun l => (l.iterations, l.ops.countP DrawOp.isGeometry,
        (clipRun { enabled := [true, true] } l.ops).seen)) = some (2, 0, []) := by
  decide

/-! ## Stack walks -/

theorem stackWalk_cons (push pop : DrawOp → Bool) (d : Nat) (o : DrawOp) (ops : List DrawOp) :
    stackWalk push pop d (o :: ops) =
      if push o then stackWalk push pop (d + 1) ops
      else if pop o then
        match d with
        | 0 => none
        | d + 1 => stackWalk push pop d ops
      else stackWalk push pop d ops := rfl

theorem stackWalk_append (push pop : DrawOp → Bool) (a b : List DrawOp) (d : Nat) :
    stackWalk push pop d (a ++ b) =
      (stackWalk push pop d a).bind (fun d1 => stackWalk push pop d1 b) := by
  induction a generalizing d with
  | nil => rfl
  | cons o a ih =>
    rw [List.cons_append, stackWalk_cons, stackWalk_cons]
    split_ifs
    · exact ih (d + 1)
    · cases d with
      | zero => rfl
      | succ d => exact ih d
    · exact ih d

theorem stackWalk_neutral (push pop : DrawOp → Bool) (ops : List DrawOp)
    (h : ∀ o ∈ ops, push o = false ∧ pop o = false) (d : Nat) :
    stackWalk push pop d ops = some d := by
  induction ops with
  | nil => rfl
  | cons o ops ih =>
    rw [stackWalk_cons, (h o (List.mem_cons_self o ops)).1, (h o (List.mem_cons_self o ops)).2]
    simp only [Bool.false_eq_true, if_false]
    exact ih (fun x hx => h x (List.mem_cons_of_mem o hx))

theorem stackWalk_count (push pop : DrawOp → Bool) (ops : List DrawOp) :
    ∀ d d1, stackWalk push pop d ops = some d1 →
      d + ops.countP push = d1 + ops.countP (fun o => !push o && pop o) := by
  induction ops with
  | nil => intro d d1 h; cases h; rfl
  | cons o ops ih =>
    intro d d1 h
    rw [stackWalk_cons] at h
    rw [List.countP_cons, List.countP_cons]
    rcases Bool.eq_false_or_eq_true (push o) with hp | hp
    · rw [if_pos hp] at h
      have := ih _ _ h
      simp only [hp, Bool.not_true, Bool.false_and, Bool.false_eq_true, if_false, if_true]
      omega
    · rw [hp] at h
      simp only [Bool.false_eq_true, if_false] at h
      rcases Bool.eq_false_or_eq_true (pop o) with hq | hq
      · rw [if_pos hq] at h
        cases d with
        | zero => cases h
        | succ d =>
          have := ih _ _ h
          simp only [hp, hq, Bool.not_false, Bool.true_and, Bool.false_eq_true, if_false, if_true]
          omega
      · rw [hq] at h
        simp only [Bool.false_eq_true, if_false] at h
        have := ih _ _ h
        simp only [hp, hq, Bool.not_false, Bool.true_and, Bool.false_eq_true, if_false]
        omega

theorem keeps_nil (push pop : DrawOp → Bool) (k : Nat) : Keeps push pop k [] := fun _ => rfl

theorem keeps_append (push pop : DrawOp → Bool) (k : Nat) (a b : List DrawOp)
    (ha : Keeps push pop k a) (hb : Keeps push pop k b) : Keeps push pop k (a ++ b) := by
  intro d
  rw [stackWalk_append, ha d]
  exact hb d

theorem keeps_neutral (push pop : DrawOp → Bool) (k : Nat) (ops : List DrawOp)
    (h : ∀ o ∈ ops, push o = false ∧ pop o = false) : Keeps push pop k ops :=
  fun d => stackWalk_neutral push pop ops h (d + k)

theorem keeps_mono (push pop : DrawOp → Bool) (k : Nat) (ops : List DrawOp)
    (h : Keeps push pop 0 ops) : Keeps push pop k ops :=
  fun d => h (d + k)

theorem keeps_zero (push pop : DrawOp → Bool) (ops : List DrawOp)
    (h : Keeps push pop 0 ops) (d : Nat) : stackWalk push pop d ops = some d := h d

theorem keeps_ite (push pop : DrawOp → Bool) (k : Nat) (c : Prop) [Decidable c]
    (a b : List DrawOp) (ha : Keeps push pop k a) (hb : Keeps push pop k b) :
    Keeps push pop k (if c then a else b) := by
  split_ifs
  · exact ha
  · exact hb

theorem isSection_state (o : DrawOp) (h : o.isSection = true) :
    o.isStatePush = false ∧ o.isStatePop = false := by
  cases o <;> first | exact ⟨rfl, rfl⟩ | cases h

/-! ## The attribute stack in renderSection and the section loop -/

theorem clipOnly_attrib (numclip k : Nat) :
    Keeps DrawOp.isAttribPush DrawOp.isAttribPop 0 (clipOnly numclip k) := by
  apply keeps_neutral
  intro o ho
  unfold clipOnly at ho
  rw [List.mem_map] at ho
  obtain ⟨i, _, rfl⟩ := ho
  split_ifs <;> exact ⟨rfl, rfl⟩

theorem map_clipEnable_attrib (l : List Nat) :
    Keeps DrawOp.isAttribPush DrawOp.isAttribPop 0 (l.map DrawOp.clipEnable) := by
  apply keeps_neutral
  intro o ho
  rw [List.mem_map] at ho
  obtain ⟨i, _, rfl⟩ := ho
  exact ⟨rfl, rfl⟩

theorem map_clipDisable_attrib (l : List Nat) :
    Keeps DrawOp.isAttribPush DrawOp.isAttribPop 0 (l.map DrawOp.clipDisable) := by
  apply keeps_neutral
  intro o ho
  rw [List.mem_map] at ho
  obtain ⟨i, _, rfl⟩ := ho
  exact ⟨rfl, rfl⟩

theorem pushOnce_attrib (pushed : Bool) (d : Nat) :
    stackWalk DrawOp.isAttribPush DrawOp.isAttribPop d
        (if !pushed then [DrawOp.glPushAttrib] else [])
      = some (d + if pushed then 0 else 1) := by
  cases pushed <;> rfl

theorem sectionStencilFill_attrib (numclip k : Nat) (concave pushed : Bool) (d : Nat) :
    stackWalk DrawOp.isAttribPush DrawOp.isAttribPop d
        (sectionStencilFill numclip k concave pushed)
      = some (d + if pushed then 0 else 1) := by
  unfold sectionStencilFill
  have h1 := clipOnly_attrib numclip k
  have h2 : Keeps DrawOp.isAttribPush DrawOp.isAttribPop 0
      (if !concave then
        ((List.range numclip).filter (fun i => decide (i ≠ k))).map DrawOp.clipEnable
       else []) := keeps_ite _ _ _ _ _ _ (map_clipEnable_attrib _) (keeps_nil _ _ _)
  have h3 : ∀ x, stackWalk DrawOp.isAttribPush DrawOp.isAttribPop x
      [DrawOp.glPushAttrib, DrawOp.glColorMask false, DrawOp.glLighting false,
        DrawOp.stencilTriangles k, DrawOp.glColorMask true, DrawOp.glPopAttrib] = some x :=
    fun x => rfl
  have h4 : ∀ x, stackWalk DrawOp.isAttribPush DrawOp.isAttribPop x
      [DrawOp.clipDisable k, DrawOp.glPushAttrib, DrawOp.fillQuad k, DrawOp.glPopAttrib]
        = some x :=
    fun x => rfl
  rw [stackWalk_append, stackWalk_append, stackWalk_append, stackWalk_append, pushOnce_attrib]
  simp only [Option.some_bind]
  rw [keeps_zero _ _ _ h1]
  simp only [Option.some_bind]
  rw [h3]
  simp only [Option.some_bind, Nat.add_zero]
  rw [keeps_zero _ _ _ h2]
  simp only [Option.some_bind, Nat.add_zero]
  rw [h4]

theorem sectionIsolate_attrib (numclip k : Nat) (pushed : Bool) (d : Nat) :
    stackWalk DrawOp.isAttribPush DrawOp.isAttribPop d (sectionIsolate numclip k pushed)
      = some (d + if pushed then 0 else 1) := by
  unfold sectionIsolate
  have h2 : Keeps DrawOp.isAttribPush DrawOp.isAttribPop 0
      (if k = 0 then (List.range' 1 (numclip - 1)).map DrawOp.clipDisable
        else [DrawOp.clipDisable (k - 1)]) :=
    keeps_ite _ _ _ _ _ _ (map_clipDisable_attrib _) (fun _ => rfl)
  rw [stackWalk_append, stackWalk_append, pushOnce_attrib]
  simp only [Option.some_bind]
  rw [keeps_zero _ _ _ h2]
  rfl

theorem renderSection_attrib (vp : ViewParams) (p : SoFCRendererP) (e : DrawEntry) :
    ∀ (fuel pass : Nat) (pushed : Bool) (r : SectionResult),
      renderSection vp p e fuel pass pushed = some r →
      (pushed = true → r.pushed = true) ∧
      ∀ d, stackWalk DrawOp.isAttribPush DrawOp.isAttribPop d r.ops
        = some (d + if !pushed && r.pushed then 1 else 0) := by
  intro fuel
  induction fuel with
  | zero => intro pass pushed r h; rw [renderSection] at h; cases h
  | succ fuel ih =>
    intro pass pushed r h
    rcases Bool.eq_false_or_eq_true (sectionGuard vp p e pass) with hg | hg
    · rw [renderSection_of_guard vp p e fuel pass pushed hg] at h
      cases h
      refine ⟨fun hp => hp, fun d => ?_⟩
      cases pushed <;> rfl
    · by_cases ht : e.material.type = MaterialType.Triangle
      · rcases Bool.eq_false_or_eq_true (sectionConcave vp p) with hc | hc
        · rw [renderSection_of_concave_triangle vp p e fuel pass pushed hg ht hc] at h
          cases h
          refine ⟨fun _ => rfl, fun d => ?_⟩
          show stackWalk _ _ d (sectionStencilFill _ _ _ _ ++ clipOnly _ _) = _
          rw [stackWalk_append, sectionStencilFill_attrib]
          simp only [Option.some_bind]
          rw [keeps_zero _ _ _ (clipOnly_attrib _ _)]
          cases pushed <;> rfl
        · rw [renderSection_of_flat_triangle vp p e fuel pass pushed hg ht hc] at h
          cases hr : renderSection vp p e fuel (pass + 1) true with
          | none => rw [hr] at h; cases h
          | some r1 =>
            rw [hr] at h
            cases h
            obtain ⟨hp1, hw1⟩ := ih (pass + 1) true r1 hr
            have hp1 := hp1 rfl
            refine ⟨fun _ => hp1, fun d => ?_⟩
            show stackWalk _ _ d (sectionStencilFill _ _ _ _ ++ r1.ops ++ _) = _
            rw [stackWalk_append, stackWalk_append, sectionStencilFill_attrib]
            simp only [Option.some_bind]
            rw [hw1]
            simp only [Option.some_bind, Bool.not_true, Bool.false_and, Bool.false_eq_true,
              if_false, Nat.add_zero]
            have h2 : Keeps DrawOp.isAttribPush DrawOp.isAttribPop 0
                (if pass = 0 then (List.range p.material.clippers.length).map DrawOp.clipEnable
                  else []) := keeps_ite _ _ _ _ _ _ (map_clipEnable_attrib _) (keeps_nil _ _ _)
            rw [keeps_zero _ _ _ h2]
            show _ = some (d + if (!pushed && r1.pushed) = true then 1 else 0)
            rw [hp1]
            cases pushed <;> rfl
      · rcases Bool.eq_false_or_eq_true (sectionConcave vp p) with hc | hc
        · rw [renderSection_of_concave_other vp p e fuel pass pushed hg ht hc] at h
          cases h
          refine ⟨fun _ => rfl, fun d => ?_⟩
          show stackWalk _ _ d (sectionIsolate _ _ _) = _
          rw [sectionIsolate_attrib]
          cases pushed <;> rfl
        · rw [renderSection_of_flat_other vp p e fuel pass pushed hg ht hc] at h
          cases h
          refine ⟨fun hp => hp, fun d => ?_⟩
          cases pushed <;> rfl

/-! ## The scene-state stack in applyMaterial -/

theorem stackWalk_material_filter (ops : List GLOp) :
    ∀ d, stackWalk DrawOp.isStatePush DrawOp.isStatePop d (ops.map DrawOp.material) =
      stackWalk DrawOp.isStatePush DrawOp.isStatePop d
        ((ops.filter GLOp.isStateOp).map DrawOp.material) := by
  induction ops with
  | nil => intro d; rfl
  | cons o ops ih =>
    intro d
    rcases Bool.eq_false_or_eq_true o.isStateOp with h | h
    · rw [List.filter_cons_of_pos h, List.map_cons, List.map_cons, stackWalk_cons,
        stackWalk_cons]
      split_ifs
      · exact ih _
      · cases d with
        | zero => rfl
        | succ d => exact ih _
      · exact ih _
    · rw [List.filter_cons_of_neg (by rw [h]; exact Bool.false_ne_true), List.map_cons,
        stackWalk_cons]
      have h1 : (DrawOp.material o).isStatePush = false := by
        cases o <;> first | rfl | cases h
      have h2 : (DrawOp.material o).isStatePop = false := by
        cases o <;> first | rfl | cases h
      rw [h1, h2]
      exact ih d

theorem isStateOp_submission (o : GLOp) (h : o.isStateOp = true) : o.isSubmission = true := by
  cases o <;> first | rfl | cases h

theorem filter_state_submission (ops : List GLOp) :
    ops.filter GLOp.isStateOp = (ops.filter GLOp.isSubmission).filter GLOp.isStateOp := by
  rw [List.filter_filter]
  apply List.filter_congr
  intro o _
  rcases Bool.eq_false_or_eq_true o.isStateOp with h | h
  · rw [h, isStateOp_submission o h]; rfl
  · rw [h]; rfl

theorem filter_flatMap_nil {α : Type} (q : GLOp → Bool) (f : α → List GLOp) (l : List α)
    (h : ∀ a, (f a).filter q = []) : (l.flatMap f).filter q = [] := by
  induction l with
  | nil => rfl
  | cons a l ih => simp only [List.flatMap_cons, List.filter_append, h, ih, List.append_nil]

theorem renderNodes_state (nodes : List NodeInfo) :
    (renderNodes nodes).filter GLOp.isStateOp = [] := by
  unfold renderNodes
  split_ifs
  · apply filter_flatMap_nil
    intro a
    cases a.identity <;> rfl
  · rfl

theorem renderTextures_state (tracked textures : List (Nat × TextureInfo)) :
    (renderTextures tracked textures).filter GLOp.isStateOp = [] := by
  unfold renderTextures
  split_ifs
  · apply filter_flatMap_nil
    intro a
    split_ifs <;> rfl
  · rfl

theorem applyNodes_state (vp : ViewParams) (shadowmapping notexture first : Bool)
    (next : Material) (m : Material) :
    (applyNodes vp shadowmapping notexture first next (m, [])).2.filter GLOp.isStateOp = []
    ∨ (applyNodes vp shadowmapping notexture first next (m, [])).2.filter GLOp.isStateOp
        = [GLOp.statePop, GLOp.statePush] := by
  rw [applyNodes_snd]
  split_ifs
  · right
    simp only [List.nil_append, List.filter_append, renderNodes_state, renderTextures_state,
      List.append_nil]
    rfl
  · right
    simp only [List.nil_append, List.filter_append, renderNodes_state, List.append_nil]
    rfl
  · left
    rfl

theorem applyDepthWriteOnly_state (m : Material) :
    (applyDepthWriteOnly (m, [])).2.filter GLOp.isStateOp = []
    ∨ (applyDepthWriteOnly (m, [])).2.filter GLOp.isStateOp
        = [GLOp.statePop, GLOp.statePush] := by
  unfold applyDepthWriteOnly
  simp only []
  by_cases h1 : m.textures.length ≠ 0 <;>
  by_cases h2 : m.lightmodel ≠ LightModel.BASE_COLOR <;>
  by_cases h3 : m.depthwrite = false <;>
  by_cases h4 : m.depthfunc ≠ DepthFunc.LESS <;>
  by_cases h5 : m.depthtest = false <;>
  simp [h1, h2, h3, h4, h5, GLOp.isStateOp]

theorem applyMaterial_state (vp : ViewParams) (p : SoFCRendererP) (next : Material)
    (transp : Bool) (pass : Nat) :
    (applyMaterial vp p next transp pass).ops.filter GLOp.isStateOp = []
    ∨ (applyMaterial vp p next transp pass).ops.filter GLOp.isStateOp
        = [GLOp.statePop, GLOp.statePush] := by
  rcases Bool.eq_false_or_eq_true
    (p.shadowmapping && (next.isOnTop || decide (next.shadowstyle &&& CASTS_SHADOW = 0)))
    with h | h
  · rw [applyMaterial_refused vp p next transp pass h]
    left; rfl
  · rcases Bool.eq_false_or_eq_true p.depthwriteonly with hd | hd
    · rw [applyMaterial_depthwriteonly_eq vp p next transp pass h hd]
      exact applyDepthWriteOnly_state p.material
    · rw [filter_state_submission, applyMaterial_submissions vp p next transp pass h hd,
        ← filter_state_submission]
      exact applyNodes_state _ _ _ _ _ _

theorem applyMaterial_keeps_state (vp : ViewParams) (p : SoFCRendererP) (next : Material)
    (transp : Bool) (pass : Nat) :
    Keeps DrawOp.isStatePush DrawOp.isStatePop 1
      ((applyMaterial vp p next transp pass).ops.map DrawOp.material) := by
  intro d
  rw [stackWalk_material_filter]
  rcases applyMaterial_state vp p next transp pass with h | h <;> rw [h] <;> rfl

theorem material_attrib (ops : List GLOp) :
    Keeps DrawOp.isAttribPush DrawOp.isAttribPop 0 (ops.map DrawOp.material) := by
  apply keeps_neutral
  intro o ho
  rw [List.mem_map] at ho
  obtain ⟨g, _, rfl⟩ := ho
  exact ⟨rfl, rfl⟩

/-! ## The stacks in the section loop -/

theorem sectionLoop_none (vp : ViewParams) (fi : FrameInput) (p : SoFCRendererP) (e : DrawEntry)
    (body : List DrawOp) (fuel n : Nat) (pushed : Bool)
    (hr : renderSection vp p e (p.material.clippers.length + 1) n pushed = none) :
    sectionLoop vp fi p e body (fuel + 1) n pushed = none := by
  rw [sectionLoop]
  simp only [hr]

theorem sectionLoop_attrib (vp : ViewParams) (fi : FrameInput) (p : SoFCRendererP)
    (e : DrawEntry) (body : List DrawOp)
    (hb : Keeps DrawOp.isAttribPush DrawOp.isAttribPop 0 body) :
    ∀ (fuel n : Nat) (pushed : Bool) (l : LoopResult),
      sectionLoop vp fi p e body fuel n pushed = some l →
      (pushed = true → l.pushed = true) ∧
      ∀ d, stackWalk DrawOp.isAttribPush DrawOp.isAttribPop d l.ops
        = some (d + if !pushed && l.pushed then 1 else 0) := by
  intro fuel
  induction fuel with
  | zero => intro n pushed l h; rw [sectionLoop] at h; cases h
  | succ fuel ih =>
    intro n pushed l h
    cases hr : renderSection vp p e (p.material.clippers.length + 1) n pushed with
    | none => rw [sectionLoop_none vp fi p e body fuel n pushed hr] at h; cases h
    | some r =>
      obtain ⟨hp, hw⟩ := renderSection_attrib vp p e _ n pushed r hr
      rw [sectionLoop_succ vp fi p e body fuel n pushed r hr] at h
      rcases Bool.eq_false_or_eq_true r.ret with hret | hret
      · rw [if_pos hret] at h
        cases hl : sectionLoop vp fi p e body fuel r.pass r.pushed with
        | none => rw [hl] at h; cases h
        | some l1 =>
          rw [hl] at h
          cases h
          obtain ⟨hp1, hw1⟩ := ih r.pass r.pushed l1 hl
          refine ⟨fun hx => hp1 (hp hx), fun d => ?_⟩
          show stackWalk _ _ d (r.ops ++ _ ++ l1.ops) = some (d + if (!pushed && l1.pushed) = true then 1 else 0)
          have hbody : Keeps DrawOp.isAttribPush DrawOp.isAttribPop 0
              (if sectionCulled vp fi p e then [] else body) :=
            keeps_ite _ _ _ _ _ _ (keeps_nil _ _ _) hb
          rw [stackWalk_append, stackWalk_append, hw]
          simp only [Option.some_bind]
          rw [keeps_zero _ _ _ hbody]
          simp only [Option.some_bind]
          rw [hw1]
          cases hpu : pushed
          · cases hrp : r.pushed
            · cases l1.pushed <;> rfl
            · rw [hp1 hrp]; rfl
          · rw [hp hpu, hp1 (hp hpu)]; rfl
      · rw [hret] at h
        simp only [Bool.false_eq_true, if_false] at h
        cases h
        exact ⟨hp, hw⟩

theorem sectionLoop_mem (vp : ViewParams) (fi : FrameInput) (p : SoFCRendererP)
    (e : DrawEntry) (body : List DrawOp) :
    ∀ (fuel n : Nat) (pushed : Bool) (l : LoopResult),
      sectionLoop vp fi p e body fuel n pushed = some l →
      ∀ o ∈ l.ops, o.isSection = true ∨ o ∈ body := by
  intro fuel
  induction fuel with
  | zero => intro n pushed l h; rw [sectionLoop] at h; cases h
  | succ fuel ih =>
    intro n pushed l h o ho
    cases hr : renderSection vp p e (p.material.clippers.length + 1) n pushed with
    | none => rw [sectionLoop_none vp fi p e body fuel n pushed hr] at h; cases h
    | some r =>
      have hsec := renderSection_isSection vp p e _ n pushed r hr
      rw [sectionLoop_succ vp fi p e body fuel n pushed r hr] at h
      rcases Bool.eq_false_or_eq_true r.ret with hret | hret
      · rw [if_pos hret] at h
        cases hl : sectionLoop vp fi p e body fuel r.pass r.pushed with
        | none => rw [hl] at h; cases h
        | some l1 =>
          rw [hl] at h
          cases h
          rcases List.mem_append.mp ho with h1 | h1
          · rcases List.mem_append.mp h1 with h2 | h2
            · exact Or.inl (hsec o h2)
            · split_ifs at h2
              · cases h2
              · exact Or.inr h2
          · exact ih r.pass r.pushed l1 hl o h1
      · rw [hret] at h
        simp only [Bool.false_eq_true, if_false] at h
        cases h
        exact Or.inl (hsec o ho)

theorem sectionLoop_state (vp : ViewParams) (fi : FrameInput) (p : SoFCRendererP)
    (e : DrawEntry) (body : List DrawOp)
    (hb : ∀ o ∈ body, o.isStatePush = false ∧ o.isStatePop = false)
    (fuel n : Nat) (pushed : Bool) (l : LoopResult)
    (h : sectionLoop vp fi p e body fuel n pushed = some l) :
    ∀ o ∈ l.ops, o.isStatePush = false ∧ o.isStatePop = false := by
  intro o ho
  rcases sectionLoop_mem vp fi p e body fuel n pushed l h o ho with h1 | h1
  · exact isSection_state o h1
  · exact hb o h1

/-! ## The stacks in the bodies of the draw loops -/

theorem renderOutline_attrib (vp : ViewParams) (p : SoFCRendererP) (highlight : Bool)
    (e : DrawEntry) :
    Keeps DrawOp.isAttribPush DrawOp.isAttribPop 0 (renderOutline vp p highlight e) := by
  unfold renderOutline
  apply keeps_ite _ _ _ _ _ _ (keeps_nil _ _ _)
  apply keeps_ite _ _ _ _ _ _ (keeps_nil _ _ _)
  intro d
  have hmid : Keeps DrawOp.isAttribPush DrawOp.isAttribPop 0
      ((outlineParts p e).flatMap (fun part =>
          [DrawOp.glColorMask false, DrawOp.outlineTriangles part, DrawOp.glColorMask true,
           DrawOp.outlineTriangles part])) := by
    apply keeps_neutral
    intro o ho
    rw [List.mem_flatMap] at ho
    obtain ⟨part, _, ho⟩ := ho
    simp only [List.mem_cons, List.mem_singleton, List.not_mem_nil, or_false] at ho
    rcases ho with h | h | h | h <;> rw [h] <;> exact ⟨rfl, rfl⟩
  have e1 : stackWalk DrawOp.isAttribPush DrawOp.isAttribPop (d + 0) [DrawOp.glPushAttrib]
      = some (d + 1) := rfl
  rw [stackWalk_append, stackWalk_append, e1]
  simp only [Option.some_bind]
  rw [keeps_zero _ _ _ hmid]
  rfl

theorem renderOutline_state (vp : ViewParams) (p : SoFCRendererP) (highlight : Bool)
    (e : DrawEntry) :
    ∀ o ∈ renderOutline vp p highlight e, o.isStatePush = false ∧ o.isStatePop = false := by
  intro o ho
  unfold renderOutline at ho
  split_ifs at ho
  · cases ho
  · cases ho
  · simp only [List.mem_append, List.mem_singleton, List.mem_flatMap, List.mem_cons,
      List.not_mem_nil, or_false] at ho
    rcases ho with (h | ⟨_, _, h | h | h | h⟩) | h <;> rw [h] <;> exact ⟨rfl, rfl⟩

theorem opaqueBody_plain (vp : ViewParams) (p : SoFCRendererP) (list : DrawList)
    (e : DrawEntry) :
    ∀ o ∈ opaqueBody vp p list e,
      (o.isStatePush = false ∧ o.isStatePop = false)
        ∧ (o.isAttribPush = false ∧ o.isAttribPop = false) := by
  intro o ho
  unfold opaqueBody renderLines renderPoints at ho
  rcases MaterialType.cases_eq e.material.type with h | h | h <;> rw [h] at ho <;>
    dsimp only at ho <;> split_ifs at ho <;>
    simp only [List.mem_append, List.mem_singleton, List.mem_cons, List.not_mem_nil, or_false,
      false_or, or_self] at ho <;>
    first
    | (subst ho; exact ⟨⟨rfl, rfl⟩, rfl, rfl⟩)
    | (rcases ho with (h1 | h1) | h1 <;> subst h1 <;> exact ⟨⟨rfl, rfl⟩, rfl, rfl⟩)

theorem transpBody_attrib (vp : ViewParams) (fi : FrameInput) (p : SoFCRendererP)
    (list : DrawList) (e : DrawEntry) :
    Keeps DrawOp.isAttribPush DrawOp.isAttribPop 0 (transpBody vp fi p list e) := by
  unfold transpBody
  apply keeps_append
  · apply keeps_ite _ _ _ _ _ _ _ (keeps_nil _ _ _)
    intro d; rfl
  · exact renderOutline_attrib _ _ _ _

theorem transpBody_state (vp : ViewParams) (fi : FrameInput) (p : SoFCRendererP)
    (list : DrawList) (e : DrawEntry) :
    ∀ o ∈ transpBody vp fi p list e, o.isStatePush = false ∧ o.isStatePop = false := by
  intro o ho
  unfold transpBody at ho
  rcases List.mem_append.mp ho with h | h
  · split_ifs at h
    · simp only [List.mem_singleton] at h
      rw [h]; exact ⟨rfl, rfl⟩
    · cases h
  · exact renderOutline_state _ _ _ _ o h

theorem popOnce_attrib (pushed : Bool) (d : Nat) :
    stackWalk DrawOp.isAttribPush DrawOp.isAttribPop (d + if pushed then 1 else 0)
        (if pushed then [DrawOp.glPopAttrib] else []) = some d := by
  cases pushed <;> rfl

/-- The section loop of a draw loop followed by the pop of the attributes it
pushed returns, and leaves both stacks as it met them. -/
theorem sectionLoop_closed (vp : ViewParams) (fi : FrameInput) (p : SoFCRendererP)
    (e : DrawEntry) (body : List DrawOp)
    (hb : Keeps DrawOp.isAttribPush DrawOp.isAttribPop 0 body)
    (hs : ∀ o ∈ body, o.isStatePush = false ∧ o.isStatePop = false) :
    ∃ l, sectionLoop vp fi p e body (p.material.clippers.length + 2) 0 false = some l
      ∧ Keeps DrawOp.isAttribPush DrawOp.isAttribPop 0
          (l.ops ++ (if l.pushed then [DrawOp.glPopAttrib] else []))
      ∧ Keeps DrawOp.isStatePush DrawOp.isStatePop 1
          (l.ops ++ (if l.pushed then [DrawOp.glPopAttrib] else [])) := by
  obtain ⟨l, hl, _⟩ :=
    sectionLoop_spec vp fi p e body (p.material.clippers.length + 2) 0 false (by omega)
  obtain ⟨_, hw⟩ := sectionLoop_attrib vp fi p e body hb _ 0 false l hl
  refine ⟨l, hl, ?_, ?_⟩
  · intro d
    rw [stackWalk_append, hw]
    simp only [Option.some_bind, Bool.not_false, Bool.true_and, Nat.add_zero]
    exact popOnce_attrib l.pushed d
  · apply keeps_append
    · exact keeps_neutral _ _ _ _ (sectionLoop_state vp fi p e body hs _ 0 false l hl)
    · apply keeps_ite _ _ _ _ _ _ _ (keeps_nil _ _ _)
      intro d; rfl

/-! ## The draw loops return and keep the stacks -/

theorem extends_refl (s : DrawState) : s.Extends s :=
  ⟨rfl, [], (List.append_nil _).symm, keeps_nil _ _ _, keeps_nil _ _ _⟩

theorem extends_trans (a b c : DrawState) (h1 : a.Extends b) (h2 : b.Extends c) :
    a.Extends c := by
  obtain ⟨hp1, n1, ho1, ha1, hs1⟩ := h1
  obtain ⟨hp2, n2, ho2, ha2, hs2⟩ := h2
  refine ⟨hp2.trans hp1, n1 ++ n2, ?_, keeps_append _ _ _ _ _ ha1 ha2,
    keeps_append _ _ _ _ _ hs1 hs2⟩
  rw [ho2, ho1, List.append_assoc]

theorem extends_of (s : DrawState) (q : SoFCRendererP) (new : List DrawOp)
    (hq : q.untracked = s.p.untracked)
    (ha : Keeps DrawOp.isAttribPush DrawOp.isAttribPop 0 new)
    (hs : Keeps DrawOp.isStatePush DrawOp.isStatePop 1 new) :
    s.Extends { p := q, ops := s.ops ++ new } :=
  ⟨hq, new, rfl, ha, hs⟩

theorem opaqueTrack_untracked (vp : ViewParams) (pass : Nat) (p : SoFCRendererP)
    (e : DrawEntry) : (opaqueTrack vp pass p e).untracked = p.untracked := by
  unfold opaqueTrack
  split_ifs <;> rfl

theorem opaqueUnlit_untracked (p : SoFCRendererP) (e : DrawEntry) :
    (opaqueUnlit p e).untracked = p.untracked := by
  unfold opaqueUnlit
  split_ifs <;> rfl

theorem transpTrack_untracked (vp : ViewParams) (p : SoFCRendererP) (e : DrawEntry) :
    (transpTrack vp p e).untracked = p.untracked := by
  unfold transpTrack
  split_ifs <;> rfl

theorem single_plain (o : DrawOp) (c : Bool)
    (h1 : o.isAttribPush = false ∧ o.isAttribPop = false)
    (h2 : o.isStatePush = false ∧ o.isStatePop = false) :
    Keeps DrawOp.isAttribPush DrawOp.isAttribPop 0 (if c then [o] else [])
      ∧ Keeps DrawOp.isStatePush DrawOp.isStatePop 1 (if c then [o] else []) := by
  constructor
  · apply keeps_neutral
    intro x hx
    cases c
    · cases hx
    · simp only [if_true, List.mem_singleton] at hx
      rw [hx]; exact h1
  · apply keeps_neutral
    intro x hx
    cases c
    · cases hx
    · simp only [if_true, List.mem_singleton] at hx
      rw [hx]; exact h2

theorem renderOpaqueEntry_spec (vp : ViewParams) (fi : FrameInput) (list : DrawList)
    (pass : Nat) (s : DrawState) (idx : Nat) :
    ∃ s1, renderOpaqueEntry vp fi list pass s idx = some s1 ∧ s.Extends s1 := by
  unfold renderOpaqueEntry
  cases hget : (s.p.entries list)[idx]? with
  | none => exact ⟨s, rfl, extends_refl s⟩
  | some e =>
    dsimp only
    by_cases hskip : renderOpaqueSkip vp s.p e = true
    · rw [if_pos hskip]; exact ⟨s, rfl, extends_refl s⟩
    · rw [if_neg hskip]
      have hma := material_attrib (applyMaterial vp s.p e.material false pass).ops
      have hms := applyMaterial_keeps_state vp s.p e.material false pass
      by_cases hfail : (opaqueApplies pass s.p e
          && !(applyMaterial vp s.p e.material false pass).ok) = true
      · rw [if_pos hfail]
        exact ⟨_, rfl, extends_of s _ _ rfl hma hms⟩
      · rw [if_neg hfail]
        have hb := opaqueBody_plain vp (opaqueUnlit (opaqueTrack vp pass s.p e) e) list e
        obtain ⟨l, hl, hla, hls⟩ :=
          sectionLoop_closed vp fi (opaqueUnlit (opaqueTrack vp pass s.p e) e) e
            (opaqueBody vp (opaqueUnlit (opaqueTrack vp pass s.p e) e) list e)
            (keeps_neutral _ _ _ _ (fun o ho => (hb o ho).2))
            (fun o ho => (hb o ho).1)
        rw [hl]
        have hlight := single_plain (DrawOp.glLighting false)
          (lacksNormals (opaqueTrack vp pass s.p e) e) ⟨rfl, rfl⟩ ⟨rfl, rfl⟩
        refine ⟨_, rfl, ?_,
          (if opaqueApplies pass s.p e then
              (applyMaterial vp s.p e.material false pass).ops.map DrawOp.material else [])
            ++ (if lacksNormals (opaqueTrack vp pass s.p e) e then [DrawOp.glLighting false]
                else [])
            ++ (l.ops ++ (if l.pushed then [DrawOp.glPopAttrib] else []))
            ++ renderOutline vp (opaqueUnlit (opaqueTrack vp pass s.p e) e)
                (decide (list = DrawList.highlight)) e, ?_, ?_, ?_⟩
        · show (opaqueUnlit (opaqueTrack vp pass s.p e) e).untracked = _
          rw [opaqueUnlit_untracked, opaqueTrack_untracked]
        · show s.ops ++ _ ++ _ ++ l.ops ++ _ ++ _ = s.ops ++ (_ ++ _ ++ (l.ops ++ _) ++ _)
          simp only [List.append_assoc]
        · apply keeps_append
          · apply keeps_append
            · apply keeps_append
              · exact keeps_ite _ _ _ _ _ _ hma (keeps_nil _ _ _)
              · exact hlight.1
            · exact hla
          · exact renderOutline_attrib _ _ _ _
        · apply keeps_append
          · apply keeps_append
            · apply keeps_append
              · exact keeps_ite _ _ _ _ _ _ hms (keeps_nil _ _ _)
              · exact hlight.2
            · exact hls
          · exact keeps_neutral _ _ _ _ (renderOutline_state _ _ _ _)

theorem foldlM_extends {α : Type} (f : DrawState → α → Option DrawState)
    (hf : ∀ s a, ∃ s1, f s a = some s1 ∧ s.Extends s1) (l : List α) :
    ∀ s, ∃ s1, l.foldlM f s = some s1 ∧ s.Extends s1 := by
  induction l with
  | nil => intro s; exact ⟨s, rfl, extends_refl s⟩
  | cons a l ih =>
    intro s
    obtain ⟨s1, h1, e1⟩ := hf s a
    obtain ⟨s2, h2, e2⟩ := ih s1
    refine ⟨s2, ?_, extends_trans _ _ _ e1 e2⟩
    rw [List.foldlM_cons, h1]
    exact h2

theorem renderOpaque_spec (vp : ViewParams) (fi : FrameInput) (list : DrawList)
    (indices : List Nat) (pass : Nat) (p : SoFCRendererP) :
    ∃ d, renderOpaque vp fi list indices pass p = some d
      ∧ d.p.untracked = p.untracked
      ∧ Keeps DrawOp.isAttribPush DrawOp.isAttribPop 0 d.ops
      ∧ Keeps DrawOp.isStatePush DrawOp.isStatePop 1 d.ops := by
  unfold renderOpaque
  split_ifs
  · exact ⟨_, rfl, rfl, keeps_nil _ _ _, keeps_nil _ _ _⟩
  · obtain ⟨d, hd, hp, new, hn, ha, hs⟩ :=
      foldlM_extends _ (renderOpaqueEntry_spec vp fi list pass) indices { p := p }
    refine ⟨d, hd, hp, ?_, ?_⟩
    · rw [hn]; exact ha
    · rw [hn]; exact hs

theorem transpDraw_spec (vp : ViewParams) (fi : FrameInput) (p : SoFCRendererP)
    (list : DrawList) (e : DrawEntry) :
    ∃ ops, transpDraw vp fi p list e = some ops
      ∧ Keeps DrawOp.isAttribPush DrawOp.isAttribPop 0 ops
      ∧ Keeps DrawOp.isStatePush DrawOp.isStatePop 1 ops := by
  unfold transpDraw
  rcases MaterialType.cases_eq e.material.type with h | h | h <;> rw [h] <;> dsimp only
  · obtain ⟨l, hl, hla, hls⟩ :=
      sectionLoop_closed vp fi p e (transpBody vp fi p list e)
        (transpBody_attrib vp fi p list e) (transpBody_state vp fi p list e)
    rw [hl]
    exact ⟨_, rfl, hla, hls⟩
  · refine ⟨_, rfl, ?_, ?_⟩ <;> unfold renderLines <;>
      exact (keeps_ite _ _ _ _ _ _ (keeps_nil _ _ _) (fun _ => rfl))
  · refine ⟨_, rfl, ?_, ?_⟩ <;> unfold renderPoints <;>
      exact (keeps_ite _ _ _ _ _ _ (keeps_nil _ _ _)
        (keeps_ite _ _ _ _ _ _ (fun _ => rfl) (keeps_nil _ _ _)))

theorem renderTransparencyEntry_spec (vp : ViewParams) (fi : FrameInput) (list : DrawList)
    (s : DrawState) (idx : Nat) :
    ∃ s1, renderTransparencyEntry vp fi list s idx = some s1 ∧ s.Extends s1 := by
  unfold renderTransparencyEntry
  cases hget : (s.p.entries list)[idx]? with
  | none => exact ⟨s, rfl, extends_refl s⟩
  | some e =>
    dsimp only
    by_cases hskip : renderTransparencySkip s.p e = true
    · rw [if_pos hskip]; exact ⟨s, rfl, extends_refl s⟩
    · rw [if_neg hskip]
      have hma := material_attrib (applyMaterial vp s.p e.material true RenderPassNormal).ops
      have hms := applyMaterial_keeps_state vp s.p e.material true RenderPassNormal
      by_cases hfail : (transpApplies s.p e
          && !(applyMaterial vp s.p e.material true RenderPassNormal).ok) = true
      · rw [if_pos hfail]
        exact ⟨_, rfl, extends_of s _ _ rfl hma hms⟩
      · rw [if_neg hfail]
        obtain ⟨ops, hops, hoa, hos⟩ := transpDraw_spec vp fi (transpTrack vp s.p e) list e
        rw [hops]
        have hoff := single_plain (DrawOp.glLighting false)
          (lacksNormals (transpTrack vp s.p e) e) ⟨rfl, rfl⟩ ⟨rfl, rfl⟩
        have hon := single_plain (DrawOp.glLighting true)
          (lacksNormals (transpTrack vp s.p e) e) ⟨rfl, rfl⟩ ⟨rfl, rfl⟩
        refine ⟨_, rfl, ?_,
          (if transpApplies s.p e then
              (applyMaterial vp s.p e.material true RenderPassNormal).ops.map DrawOp.material
            else [])
            ++ (if lacksNormals (transpTrack vp s.p e) e then [DrawOp.glLighting false] else [])
            ++ ops
            ++ (if lacksNormals (transpTrack vp s.p e) e then [DrawOp.glLighting true] else []),
          ?_, ?_, ?_⟩
        · show (transpTrack vp s.p e).untracked = _
          rw [transpTrack_untracked]
        · show s.ops ++ _ ++ _ ++ ops ++ _ = s.ops ++ (_ ++ _ ++ ops ++ _)
          simp only [List.append_assoc]
        · apply keeps_append
          · apply keeps_append
            · apply keeps_append
              · exact keeps_ite _ _ _ _ _ _ hma (keeps_nil _ _ _)
              · exact hoff.1
            · exact hoa
          · exact hon.1
        · apply keeps_append
          · apply keeps_append
            · apply keeps_append
              · exact keeps_ite _ _ _ _ _ _ hms (keeps_nil _ _ _)
              · exact hoff.2
            · exact hos
          · exact hon.2

/-! ## The sort of renderTransparency -/

theorem of_untracked {β : Type} (f : SoFCRendererP → β) (hf : ∀ p, f p.untracked = f p)
    (p q : SoFCRendererP) (h : q.untracked = p.untracked) : f q = f p := by
  rw [← hf q, h, hf p]

theorem transpBucket_untracked (b : TranspBucket) (p q : SoFCRendererP)
    (h : q.untracked = p.untracked) : q.transpBucket b = p.transpBucket b :=
  of_untracked (fun x => x.transpBucket b) (fun x => by cases b <;> rfl) p q h

theorem prevplane_untracked (p q : SoFCRendererP) (h : q.untracked = p.untracked) :
    q.prevplane = p.prevplane :=
  of_untracked (fun x => x.prevplane) (fun _ => rfl) p q h

theorem setTranspBucket_get (p : SoFCRendererP) (b : TranspBucket) (l : List DrawEntryIndex) :
    (p.setTranspBucket b l).transpBucket b = l := by
  cases b <;> rfl

theorem setTranspBucket_prevplane (p : SoFCRendererP) (b : TranspBucket)
    (l : List DrawEntryIndex) : (p.setTranspBucket b l).prevplane = p.prevplane := by
  cases b <;> rfl

theorem renderTransparencySort_of_empty (vp : ViewParams) (fi : FrameInput) (list : DrawList)
    (bucket : TranspBucket) (sort : Bool) (p : SoFCRendererP)
    (h : (p.transpBucket bucket).isEmpty = true) :
    renderTransparencySort vp fi list bucket sort p = p := by
  unfold renderTransparencySort
  rw [if_pos h]

theorem renderTransparencySort_of_shadow (vp : ViewParams) (fi : FrameInput) (list : DrawList)
    (bucket : TranspBucket) (sort : Bool) (p : SoFCRendererP)
    (h : (p.shadowmapping && !p.transpshadowmapping) = true) :
    renderTransparencySort vp fi list bucket sort p = p := by
  unfold renderTransparencySort
  rw [if_pos h]
  split_ifs <;> rfl

theorem renderTransparencySort_keeps (vp : ViewParams) (fi : FrameInput) (list : DrawList)
    (bucket : TranspBucket) (sort : Bool) (p : SoFCRendererP)
    (h : fi.viewPlane.getNormal = p.prevplane.getNormal ∨ sort = false) :
    renderTransparencySort vp fi list bucket sort p = p := by
  unfold renderTransparencySort
  rcases h with h | h
  · rw [if_neg (not_not.mpr h)]
    split_ifs <;> rfl
  · rw [h]
    simp

theorem renderTransparencySort_sorts (vp : ViewParams) (fi : FrameInput) (list : DrawList)
    (bucket : TranspBucket) (p : SoFCRendererP)
    (hne : (p.transpBucket bucket).isEmpty = false)
    (hshadow : (p.shadowmapping && !p.transpshadowmapping) = false)
    (htri : noTriangle vp fi list = false)
    (hnormal : fi.viewPlane.getNormal ≠ p.prevplane.getNormal) :
    renderTransparencySort vp fi list bucket true p =
      ({ p with prevplane := fi.viewPlane }).setTranspBucket bucket
        (sortBucket (if !p.identity then fi.objectPlane else fi.viewPlane) (p.entries list)
          (p.transpBucket bucket)) := by
  unfold renderTransparencySort
  rw [hne, hshadow, htri, if_pos hnormal]
  rfl

theorem renderTransparency_spec (vp : ViewParams) (fi : FrameInput) (list : DrawList)
    (bucket : TranspBucket) (sort : Bool) (p : SoFCRendererP) :
    ∃ d, renderTransparency vp fi list bucket sort p = some d
      ∧ d.p.untracked = (renderTransparencySort vp fi list bucket sort p).untracked
      ∧ Keeps DrawOp.isAttribPush DrawOp.isAttribPop 0 d.ops
      ∧ Keeps DrawOp.isStatePush DrawOp.isStatePop 1 d.ops := by
  unfold renderTransparency
  by_cases he : (p.transpBucket bucket).isEmpty = true
  · rw [if_pos he, renderTransparencySort_of_empty vp fi list bucket sort p he]
    exact ⟨_, rfl, rfl, keeps_nil _ _ _, keeps_nil _ _ _⟩
  · rw [if_neg he]
    by_cases hs : (p.shadowmapping && !p.transpshadowmapping) = true
    · rw [if_pos hs, renderTransparencySort_of_shadow vp fi list bucket sort p hs]
      exact ⟨_, rfl, rfl, keeps_nil _ _ _, keeps_nil _ _ _⟩
    · rw [if_neg hs]
      dsimp only
      obtain ⟨s1, h1, hp, new, hn, ha, hst⟩ :=
        foldlM_extends _ (renderTransparencyEntry_spec vp fi list)
          (((renderTransparencySort vp fi list bucket sort p).transpBucket bucket).map
            (fun v => v.idx))
          { p := renderTransparencySort vp fi list bucket sort p, ops := [DrawOp.glBlend true] }
      rw [h1]
      refine ⟨_, rfl, hp, ?_, ?_⟩
      · show Keeps _ _ 0 (s1.ops ++ [DrawOp.glBlend false])
        rw [hn]
        exact keeps_append _ _ _ _ _
          (keeps_append _ _ _ _ _ (fun _ => rfl) ha) (fun _ => rfl)
      · show Keeps _ _ 1 (s1.ops ++ [DrawOp.glBlend false])
        rw [hn]
        exact keeps_append _ _ _ _ _
          (keeps_append _ _ _ _ _ (fun _ => rfl) hst) (fun _ => rfl)

theorem sortBucket_perm (plane : SbPlane) (es : List DrawEntry) (l : List DrawEntryIndex) :
    ((sortBucket plane es l).map (fun v => v.idx)).Perm (l.map (fun v => v.idx)) := by
  unfold sortBucket
  have h1 := (List.perm_insertionSort (fun a b : DrawEntryIndex => a.distance ≤ b.distance)
    (l.map (fun v => { v with distance := distanceOf plane es v.idx }))).map (fun v => v.idx)
  refine h1.trans ?_
  rw [List.map_map]
  exact List.Perm.refl _

theorem sortBucket_distance (plane : SbPlane) (es : List DrawEntry) (l : List DrawEntryIndex) :
    ∀ v ∈ sortBucket plane es l, v.distance = distanceOf plane es v.idx := by
  intro v hv
  unfold sortBucket at hv
  rw [(List.perm_insertionSort _ _).mem_iff, List.mem_map] at hv
  obtain ⟨w, _, rfl⟩ := hv
  rfl

theorem sortBucket_sorted (plane : SbPlane) (es : List DrawEntry) (l : List DrawEntryIndex) :
    (sortBucket plane es l).Pairwise
      (fun a b => distanceOf plane es a.idx ≤ distanceOf plane es b.idx) := by
  haveI : IsTotal DrawEntryIndex (fun a b => a.distance ≤ b.distance) :=
    ⟨fun a b => le_total a.distance b.distance⟩
  haveI : IsTrans DrawEntryIndex (fun a b => a.distance ≤ b.distance) :=
    ⟨fun a b c h1 h2 => le_trans h1 h2⟩
  have h1 : (sortBucket plane es l).Pairwise (fun a b => a.distance ≤ b.distance) :=
    List.sorted_insertionSort (fun a b : DrawEntryIndex => a.distance ≤ b.distance) _
  have h2 := sortBucket_distance plane es l
  refine List.Pairwise.imp_of_mem ?_ h1
  intro a b ha hb hab
  rw [← h2 a ha, ← h2 b hb]
  exact hab

/-- C21, as the code has it: when `renderTransparency` runs with sorting
enabled in a frame that is not a shadow-map pass other than the transparent
one, draws triangles (the list is not the base list under hidden-line display
with hidden faces), and the normal of the view plane differs from the recorded
one, the function returns and the bucket afterwards holds the same draw-unit
indices as before, in an order in which for every pair a before b
distance(a) <= distance(b), where the distance of a unit is the signed
distance from the view plane (carried into object space when the model matrix
is not the identity) to the centre of the bounding box of the unit; the
distance stored with each index is that distance. -/
theorem renderTransparency_sorts (vp : ViewParams) (fi : FrameInput) (list : DrawList)
    (bucket : TranspBucket) (p : SoFCRendererP)
    (hshadow : (p.shadowmapping && !p.transpshadowmapping) = false)
    (htri : noTriangle vp fi list = false)
    (hnormal : fi.viewPlane.getNormal ≠ p.prevplane.getNormal) :
    ∃ d, renderTransparency vp fi list bucket true p = some d
      ∧ ((d.p.transpBucket bucket).map (fun v => v.idx)).Perm
          ((p.transpBucket bucket).map (fun v => v.idx))
      ∧ (d.p.transpBucket bucket).Pairwise (fun a b =>
          distanceOf (if !p.identity then fi.objectPlane else fi.viewPlane) (p.entries list) a.idx
            ≤ distanceOf (if !p.identity then fi.objectPlane else fi.viewPlane) (p.entries list)
                b.idx)
      ∧ ∀ v ∈ d.p.transpBucket bucket,
          v.distance =
            distanceOf (if !p.identity then fi.objectPlane else fi.viewPlane) (p.entries list)
              v.idx := by
  obtain ⟨d, hd, hp, _, _⟩ := renderTransparency_spec vp fi list bucket true p
  refine ⟨d, hd, ?_⟩
  rw [transpBucket_untracked bucket _ _ hp]
  rcases Bool.eq_false_or_eq_true (p.transpBucket bucket).isEmpty with he | he
  · rw [renderTransparencySort_of_empty vp fi list bucket true p he]
    rw [List.isEmpty_iff] at he
    rw [he]
    exact ⟨List.Perm.refl _, List.Pairwise.nil, fun v hv => by cases hv⟩
  · rw [renderTransparencySort_sorts vp fi list bucket p he hshadow htri hnormal,
      setTranspBucket_get]
    exact ⟨sortBucket_perm _ _ _, sortBucket_sorted _ _ _, sortBucket_distance _ _ _⟩

/-- C22: when the normal of the view plane equals the recorded one, or the
sort flag is false, `renderTransparency` returns and leaves the bucket as it
was, in order and in every stored distance, and leaves the recorded plane as
it was. -/
theorem renderTransparency_keeps_order (vp : ViewParams) (fi : FrameInput) (list : DrawList)
    (bucket : TranspBucket) (sort : Bool) (p : SoFCRendererP)
    (h : fi.viewPlane.getNormal = p.prevplane.getNormal ∨ sort = false) :
    ∃ d, renderTransparency vp fi list bucket sort p = some d
      ∧ d.p.transpBucket bucket = p.transpBucket bucket
      ∧ d.p.prevplane = p.prevplane := by
  obtain ⟨d, hd, hp, _, _⟩ := renderTransparency_spec vp fi list bucket sort p
  rw [renderTransparencySort_keeps vp fi list bucket sort p h] at hp
  exact ⟨d, hd, transpBucket_untracked bucket _ _ hp, prevplane_untracked _ _ hp⟩

set_option maxHeartbeats 1000000 in
theorem renderTransparency_sorts_witness :
    (farNearScene.shadowmapping && !farNearScene.transpshadowmapping) = false ∧
    noTriangle {} {} DrawList.base = false ∧
    ({} : FrameInput).viewPlane.getNormal ≠ farNearScene.prevplane.getNormal ∧
    (farNearScene.transpBucket TranspBucket.transpvcache).map (fun v => v.idx) = [0, 1] ∧
    (renderTransparency {} {} DrawList.base TranspBucket.transpvcache true farNearScene).map
      (fun d => d.p.transpBucket TranspBucket.transpvcache)
        = some [{ idx := 1, distance := 1 }, { idx := 0, distance := 5 }] ∧
    ∃ d, renderTransparency {} {} DrawList.base TranspBucket.transpvcache true farNearScene
          = some d
      ∧ ((d.p.transpBucket TranspBucket.transpvcache).map (fun v => v.idx)).Perm
          ((farNearScene.transpBucket TranspBucket.transpvcache).map (fun v => v.idx))
      ∧ (d.p.transpBucket TranspBucket.transpvcache).Pairwise (fun a b =>
          distanceOf (if !farNearScene.identity then ({} : FrameInput).objectPlane
              else ({} : FrameInput).viewPlane) (farNearScene.entries DrawList.base) a.idx
            ≤ distanceOf (if !farNearScene.identity then ({} : FrameInput).objectPlane
              else ({} : FrameInput).viewPlane) (farNearScene.entries DrawList.base) b.idx)
      ∧ ∀ v ∈ d.p.transpBucket TranspBucket.transpvcache,
          v.distance =
            distanceOf (if !farNearScene.identity then ({} : FrameInput).objectPlane
              else ({} : FrameInput).viewPlane) (farNearScene.entries DrawList.base) v.idx :=
  ⟨by decide, by decide, by decide, by decide, by decide!,
   renderTransparency_sorts {} {} DrawList.base TranspBucket.transpvcache farNearScene
     (by decide) (by decide) (by decide)⟩

set_option maxHeartbeats 1000000 in
/-- C21 as stated fails: with sorting enabled and a view-plane normal that
differs from the recorded one, `renderTransparency` on the base list leaves
the bucket in insertion order, the far unit before the near one, when the
frame is under hidden-line display with hidden faces, and also when the frame
is a shadow-map pass other than the transparent one. -/
theorem renderTransparency_unsorted :
    ({} : FrameInput).viewPlane.getNormal ≠ farNearScene.prevplane.getNormal ∧
    hiddenLinesFrame.viewPlane.getNormal ≠ farNearScene.prevplane.getNormal ∧
    distanceOf hiddenLinesFrame.viewPlane farNearScene.drawentries 1
      < distanceOf hiddenLinesFrame.viewPlane farNearScene.drawentries 0 ∧
    (renderTransparency hiddenFaces hiddenLinesFrame DrawList.base TranspBucket.transpvcache true
        farNearScene).map (fun d => d.p.transpvcache.map (fun v => v.idx)) = some [0, 1] ∧
    (renderTransparency {} {} DrawList.base TranspBucket.transpvcache true
        { farNearScene with shadowmapping := true }).map
      (fun d => d.p.transpvcache.map (fun v => v.idx)) = some [0, 1] := by
  decide!

theorem renderTransparency_keeps_order_witness :
    (({} : FrameInput).viewPlane.getNormal = farNearScene.prevplane.getNormal
      ∨ false = false) ∧
    farNearScene.transpBucket TranspBucket.transpvcache = [{ idx := 0 }, { idx := 1 }] ∧
    ∃ d, renderTransparency {} {} DrawList.base TranspBucket.transpvcache false farNearScene
          = some d
      ∧ d.p.transpBucket TranspBucket.transpvcache
          = farNearScene.transpBucket TranspBucket.transpvcache
      ∧ d.p.prevplane = farNearScene.prevplane :=
  ⟨Or.inr rfl, by decide,
   renderTransparency_keeps_order {} {} DrawList.base TranspBucket.transpvcache false
     farNearScene (Or.inr rfl)⟩

/-! ## The stages of render -/

theorem sameScene_refl (p : SoFCRendererP) : SameScene p p :=
  ⟨rfl, fun _ => List.Perm.refl _⟩

theorem sameScene_trans (a b c : SoFCRendererP) (h1 : SameScene a b) (h2 : SameScene b c) :
    SameScene a c :=
  ⟨h2.1.trans h1.1, fun x => (h2.2 x).trans (h1.2 x)⟩

theorem sameScene_of_untracked (p q : SoFCRendererP) (h : q.untracked = p.untracked) :
    SameScene p q := by
  refine ⟨of_untracked (fun x => x.scene) (fun _ => rfl) p q h, fun b => ?_⟩
  rw [transpBucket_untracked b p q h]

theorem renderTransparencySort_sameScene (vp : ViewParams) (fi : FrameInput) (list : DrawList)
    (bucket : TranspBucket) (sort : Bool) (p : SoFCRendererP) :
    SameScene p (renderTransparencySort vp fi list bucket sort p) := by
  unfold renderTransparencySort
  split_ifs
  all_goals
    first
    | exact sameScene_refl p
    | (refine ⟨by cases bucket <;> rfl, fun b => ?_⟩
       cases b <;> cases bucket <;>
         first
         | exact sortBucket_perm _ _ _
         | exact List.Perm.refl _)

theorem rsExtends_refl (s : RenderState) : s.Extends s :=
  ⟨sameScene_refl _, [], (List.append_nil _).symm, keeps_nil _ _ _, keeps_nil _ _ _⟩

theorem rsExtends_trans (a b c : RenderState) (h1 : a.Extends b) (h2 : b.Extends c) :
    a.Extends c := by
  obtain ⟨hp1, n1, ho1, ha1, hs1⟩ := h1
  obtain ⟨hp2, n2, ho2, ha2, hs2⟩ := h2
  refine ⟨sameScene_trans _ _ _ hp1 hp2, n1 ++ n2, ?_, ?_, ?_⟩
  · rw [ho2, ho1, List.append_assoc]
  · rw [List.flatMap_append]; exact keeps_append _ _ _ _ _ ha1 ha2
  · rw [List.flatMap_append]; exact keeps_append _ _ _ _ _ hs1 hs2

theorem flatMap_single (st : RenderStep) : [st].flatMap RenderStep.ops = st.ops := by
  simp [List.flatMap]

theorem good_runStages (l : List Stage) (h : ∀ f ∈ l, f.Good) : (runStages l).Good := by
  induction l with
  | nil => intro s; exact ⟨s, rfl, rsExtends_refl s⟩
  | cons f fs ih =>
    intro s
    obtain ⟨s1, h1, e1⟩ := h f (List.mem_cons_self f fs) s
    obtain ⟨s2, h2, e2⟩ := ih (fun g hg => h g (List.mem_cons_of_mem f hg)) s1
    refine ⟨s2, ?_, rsExtends_trans _ _ _ e1 e2⟩
    show (f s).bind (runStages fs) = some s2
    rw [h1]
    exact h2

theorem good_guarded (c : Bool) (l : List Stage) (h : ∀ f ∈ l, f.Good) :
    (Stage.guarded c l).Good := by
  intro s
  unfold Stage.guarded
  cases c
  · exact ⟨s, rfl, rsExtends_refl s⟩
  · exact good_runStages l h s

theorem good_assign (f : SoFCRendererP → SoFCRendererP) (h : ∀ p, SameScene p (f p)) :
    (Stage.assign f).Good := by
  intro s
  exact ⟨_, rfl, h s.p, [], (List.append_nil _).symm, keeps_nil _ _ _, keeps_nil _ _ _⟩

theorem good_setRecheck : setRecheck.Good :=
  good_assign _ (fun _ => ⟨rfl, fun _ => List.Perm.refl _⟩)

theorem good_setRecheckTexture : setRecheckTexture.Good :=
  good_assign _ (fun _ => ⟨rfl, fun _ => List.Perm.refl _⟩)

theorem good_setDepthWriteOnly (b : Bool) :
    (Stage.assign (fun p => { p with depthwriteonly := b })).Good :=
  good_assign _ (fun _ => ⟨rfl, fun _ => List.Perm.refl _⟩)

theorem good_issue (o : DrawOp) (h1 : o.isAttribPush = false ∧ o.isAttribPop = false)
    (h2 : o.isStatePush = false ∧ o.isStatePop = false) : (Stage.issue o).Good := by
  intro s
  refine ⟨_, rfl, sameScene_refl _, [RenderStep.op o], rfl, ?_, ?_⟩
  · rw [flatMap_single]
    apply keeps_neutral
    intro x hx
    simp only [RenderStep.ops, List.mem_singleton] at hx
    rw [hx]; exact h1
  · rw [flatMap_single]
    apply keeps_neutral
    intro x hx
    simp only [RenderStep.ops, List.mem_singleton] at hx
    rw [hx]; exact h2

theorem good_callOpaque (vp : ViewParams) (fi : FrameInput) (list : DrawList)
    (bucket : OpaqueBucket) (pass : Nat) : (Stage.callOpaque vp fi list bucket pass).Good := by
  intro s
  unfold Stage.callOpaque
  obtain ⟨d, hd, hp, ha, hs⟩ := renderOpaque_spec vp fi list (s.p.opaqueBucket bucket) pass s.p
  rw [hd]
  refine ⟨_, rfl, sameScene_of_untracked _ _ hp, _, rfl, ?_, ?_⟩
  · rw [flatMap_single]; exact ha
  · rw [flatMap_single]; exact hs

theorem good_callTransparency (vp : ViewParams) (fi : FrameInput) (list : DrawList)
    (bucket : TranspBucket) (sort : Bool) :
    (Stage.callTransparency vp fi list bucket sort).Good := by
  intro s
  unfold Stage.callTransparency
  obtain ⟨d, hd, hp, ha, hs⟩ := renderTransparency_spec vp fi list bucket sort s.p
  rw [hd]
  refine ⟨_, rfl,
    sameScene_trans _ _ _ (renderTransparencySort_sameScene vp fi list bucket sort s.p)
      (sameScene_of_untracked _ _ hp), _, rfl, ?_, ?_⟩
  · rw [flatMap_single]; exact ha
  · rw [flatMap_single]; exact hs

theorem renderExit_eq (s : RenderState) :
    renderExit s =
      some { p := s.p
             steps := s.steps ++ [RenderStep.op DrawOp.statePop, RenderStep.op DrawOp.glPopAttrib] } := by
  unfold renderExit
  show some _ = some _
  simp only [List.append_assoc, List.singleton_append]

theorem closing_exit : renderExit.Closing := by
  intro s
  exact ⟨s, _, rsExtends_refl s, renderExit_eq s, rfl, rfl⟩

theorem closing_cons (f : Stage) (fs : List Stage) (hf : f.Good)
    (hfs : (runStages fs).Closing) : (runStages (f :: fs)).Closing := by
  intro s
  obtain ⟨s1, h1, e1⟩ := hf s
  obtain ⟨s2, s3, e2, h3, hp, hst⟩ := hfs s1
  refine ⟨s2, s3, rsExtends_trans _ _ _ e1 e2, ?_, hp, hst⟩
  show (f s).bind (runStages fs) = some s3
  rw [h1]
  exact h3

theorem closing_single (f : Stage) (hf : f.Closing) : (runStages [f]).Closing := by
  intro s
  obtain ⟨s1, s2, e, h, hp, hst⟩ := hf s
  refine ⟨s1, s2, e, ?_, hp, hst⟩
  show (f s).bind (runStages []) = some s2
  rw [h]
  rfl

theorem closing_append (pre : List Stage) (f : Stage) (hpre : ∀ g ∈ pre, g.Good)
    (hf : f.Closing) : (runStages (pre ++ [f])).Closing := by
  induction pre with
  | nil => exact closing_single f hf
  | cons g pre ih =>
    exact closing_cons g (pre ++ [f]) (hpre g (List.mem_cons_self g pre))
      (ih (fun x hx => hpre x (List.mem_cons_of_mem g hx)))

theorem good_issue_blend (b : Bool) : (Stage.issue (DrawOp.glBlend b)).Good :=
  good_issue _ ⟨rfl, rfl⟩ ⟨rfl, rfl⟩

theorem good_issue_colorMask (b : Bool) : (Stage.issue (DrawOp.glColorMask b)).Good :=
  good_issue _ ⟨rfl, rfl⟩ ⟨rfl, rfl⟩

theorem good_issue_delayed : (Stage.issue DrawOp.addDelayedPath).Good :=
  good_issue _ ⟨rfl, rfl⟩ ⟨rfl, rfl⟩

theorem good_renderBase (vp : ViewParams) (fi : FrameInput) : (renderBase vp fi).Good := by
  unfold renderBase
  apply good_runStages
  simp only [List.forall_mem_cons, List.not_mem_nil, false_implies, implies_true,
    good_callOpaque, good_callTransparency, good_setRecheck, good_setRecheckTexture, and_self]

theorem closing_renderOnTop (vp : ViewParams) (fi : FrameInput) :
    (renderOnTop vp fi).Closing := by
  intro s
  unfold renderOnTop
  dsimp only
  refine closing_append
    [ Stage.guarded (hasSel s.p || hasOnTop s.p || s.p.hlwholeontop) _, _, _, _, _, _, _, _, _, _ ]
    renderExit ?_ closing_exit s
  simp only [List.forall_mem_cons, List.not_mem_nil, false_implies, implies_true,
    good_callOpaque, good_callTransparency, good_setRecheck, good_setRecheckTexture, and_self,
    good_issue_blend, good_issue_colorMask, good_setDepthWriteOnly, good_guarded]

theorem closing_renderOverlay (vp : ViewParams) (fi : FrameInput) :
    (renderOverlay vp fi).Closing := by
  intro s
  unfold renderOverlay
  refine closing_append [_, _, _] (renderOnTop vp fi) ?_ (closing_renderOnTop vp fi) s
  simp only [List.forall_mem_cons, List.not_mem_nil, false_implies, implies_true,
    good_callOpaque, good_callTransparency, good_setRecheck, good_setRecheckTexture, and_self,
    good_guarded]

theorem closing_renderAfterBase (vp : ViewParams) (fi : FrameInput) :
    (renderAfterBase vp fi).Closing := by
  intro s
  unfold renderAfterBase
  split_ifs
  · exact closing_exit s
  · exact closing_renderOverlay vp fi s

theorem closing_delayed : (runStages [Stage.issue DrawOp.addDelayedPath, renderExit]).Closing :=
  closing_append [_] renderExit
    (by simp only [List.forall_mem_cons, List.not_mem_nil, false_implies, implies_true,
          good_issue_delayed, and_self])
    closing_exit

/-- What a frame yields: `render` returns, and the steps it has taken are the
two pushes, steps that leave both stacks as they met them, and the two pops;
the renderer holds the scene it held when the stacks were pushed. -/
theorem render_spec (vp : ViewParams) (ids : SelIdBits) (fi : FrameInput) (p : SoFCRendererP) :
    ∃ r mid, render vp ids fi p = some r
      ∧ SameScene (renderStart ids fi p) r.p
      ∧ r.steps = [RenderStep.op DrawOp.glPushAttrib, RenderStep.op DrawOp.statePush] ++ mid
          ++ [RenderStep.op DrawOp.statePop, RenderStep.op DrawOp.glPopAttrib]
      ∧ Keeps DrawOp.isAttribPush DrawOp.isAttribPop 0 (mid.flatMap RenderStep.ops)
      ∧ Keeps DrawOp.isStatePush DrawOp.isStatePop 1 (mid.flatMap RenderStep.ops) := by
  have key : ∀ (f : Stage), f.Closing → ∀ s0 : RenderState,
      s0.steps = [RenderStep.op DrawOp.glPushAttrib, RenderStep.op DrawOp.statePush] →
      ∃ r mid, f s0 = some r ∧ SameScene s0.p r.p
        ∧ r.steps = [RenderStep.op DrawOp.glPushAttrib, RenderStep.op DrawOp.statePush] ++ mid
            ++ [RenderStep.op DrawOp.statePop, RenderStep.op DrawOp.glPopAttrib]
        ∧ Keeps DrawOp.isAttribPush DrawOp.isAttribPop 0 (mid.flatMap RenderStep.ops)
        ∧ Keeps DrawOp.isStatePush DrawOp.isStatePop 1 (mid.flatMap RenderStep.ops) := by
    intro f hf s0 h0
    obtain ⟨s1, s2, ⟨hsc, new, hn, ha, hs⟩, h2, hp, hst⟩ := hf s0
    refine ⟨s2, new, h2, ?_, ?_, ha, hs⟩
    · rw [hp]; exact hsc
    · rw [hst, hn, h0]
  unfold render
  dsimp only
  split_ifs with hdel
  · obtain ⟨s1, h1, e1⟩ := good_renderBase vp fi
      { p := renderStart ids fi p
        steps := [RenderStep.op DrawOp.glPushAttrib, RenderStep.op DrawOp.statePush] }
    rw [h1]
    dsimp only
    have hcl : Stage.Closing (fun s : RenderState =>
        if s1.p.shadowrendering then
          runStages [Stage.issue DrawOp.addDelayedPath, renderExit] s
        else renderAfterBase vp fi s) := by
      intro s
      split_ifs
      · exact closing_delayed s
      · exact closing_renderAfterBase vp fi s
    obtain ⟨s2, s3, e2, h3, hp, hst⟩ := hcl s1
    obtain ⟨hsc, new, hn, ha, hs⟩ := rsExtends_trans _ _ _ e1 e2
    refine ⟨s3, new, h3, ?_, ?_, ha, hs⟩
    · rw [hp]; exact hsc
    · rw [hst, hn]
  · exact key _ (closing_renderAfterBase vp fi) _ rfl

theorem flat_of_steps (r : RenderState) (mid : List RenderStep)
    (h : r.steps = [RenderStep.op DrawOp.glPushAttrib, RenderStep.op DrawOp.statePush] ++ mid
      ++ [RenderStep.op DrawOp.statePop, RenderStep.op DrawOp.glPopAttrib]) :
    r.flat = [DrawOp.glPushAttrib, DrawOp.statePush] ++ mid.flatMap RenderStep.ops
      ++ [DrawOp.statePop, DrawOp.glPopAttrib] := by
  unfold RenderState.flat
  rw [h, List.flatMap_append, List.flatMap_append]
  rfl

theorem countP_state_pop (ops : List DrawOp) :
    ops.countP (fun o => !o.isStatePush && o.isStatePop) = ops.countP DrawOp.isStatePop := by
  apply List.countP_congr
  intro o ho
  clear ho
  cases o <;> first | exact Iff.rfl | (rename_i g; cases g <;> exact Iff.rfl)

theorem countP_attrib_pop (ops : List DrawOp) :
    ops.countP (fun o => !o.isAttribPush && o.isAttribPop) = ops.countP DrawOp.isAttribPop := by
  apply List.countP_congr
  intro o ho
  clear ho
  cases o <;> exact Iff.rfl

/-- C25: `render` returns for every input, whatever the delayed-path,
shadow-rendering and shadow-map flags of the frame and whatever the buckets
hold, and among the operations of the call (those of `applyMaterial`,
`renderSection` and `renderOutline` included) the scene state is popped as
often as it is pushed and the GL attributes are popped as often as they are
pushed; counted from the depth at entry, neither stack is ever popped below
that depth, and both end at it. -/
theorem render_restores_stacks (vp : ViewParams) (ids : SelIdBits) (fi : FrameInput)
    (p : SoFCRendererP) :
    ∃ r, render vp ids fi p = some r
      ∧ stackWalk DrawOp.isStatePush DrawOp.isStatePop 0 r.flat = some 0
      ∧ stackWalk DrawOp.isAttribPush DrawOp.isAttribPop 0 r.flat = some 0
      ∧ r.flat.countP DrawOp.isStatePush = r.flat.countP DrawOp.isStatePop
      ∧ r.flat.countP DrawOp.isAttribPush = r.flat.countP DrawOp.isAttribPop := by
  obtain ⟨r, mid, hr, _, hst, ha, hs⟩ := render_spec vp ids fi p
  have hflat := flat_of_steps r mid hst
  have h1 : stackWalk DrawOp.isStatePush DrawOp.isStatePop 0 r.flat = some 0 := by
    rw [hflat, stackWalk_append, stackWalk_append]
    show ((stackWalk _ _ (0 + 1) (mid.flatMap RenderStep.ops)).bind _) = _
    rw [hs 0]
    rfl
  have h2 : stackWalk DrawOp.isAttribPush DrawOp.isAttribPop 0 r.flat = some 0 := by
    rw [hflat, stackWalk_append, stackWalk_append]
    show ((stackWalk _ _ (1 + 0) (mid.flatMap RenderStep.ops)).bind _) = _
    rw [ha 1]
    rfl
  refine ⟨r, hr, h1, h2, ?_, ?_⟩
  · have := stackWalk_count _ _ _ _ _ h1
    rw [countP_state_pop] at this
    omega
  · have := stackWalk_count _ _ _ _ _ h2
    rw [countP_attrib_pop] at this
    omega

/-! ## The depth-write-only pass and the line-solid pass -/

theorem calm_runStages (l : List Stage) (h : ∀ f ∈ l, f.Calm) : (runStages l).Calm := by
  induction l with
  | nil => intro s; exact ⟨s, rfl, sameScene_refl _, [], (List.append_nil _).symm,
      fun _ hst => by cases hst⟩
  | cons f fs ih =>
    intro s
    obtain ⟨s1, h1, e1, n1, hn1, q1⟩ := h f (List.mem_cons_self f fs) s
    obtain ⟨s2, h2, e2, n2, hn2, q2⟩ := ih (fun g hg => h g (List.mem_cons_of_mem f hg)) s1
    refine ⟨s2, ?_, sameScene_trans _ _ _ e1 e2, n1 ++ n2, ?_, ?_⟩
    · show (f s).bind (runStages fs) = some s2
      rw [h1]
      exact h2
    · rw [hn2, hn1, List.append_assoc]
    · intro st hst
      rcases List.mem_append.mp hst with h3 | h3
      · exact q1 st h3
      · exact q2 st h3

theorem calm_guarded (c : Bool) (l : List Stage) (h : ∀ f ∈ l, f.Calm) :
    (Stage.guarded c l).Calm := by
  intro s
  unfold Stage.guarded
  cases c
  · exact ⟨s, rfl, sameScene_refl _, [], (List.append_nil _).symm, fun _ hst => by cases hst⟩
  · exact calm_runStages l h s

theorem calm_guarded_false (l : List Stage) : (Stage.guarded false l).Calm := by
  intro s
  exact ⟨s, rfl, sameScene_refl _, [], (List.append_nil _).symm, fun _ hst => by cases hst⟩

theorem calm_assign (f : SoFCRendererP → SoFCRendererP) (h : ∀ p, SameScene p (f p)) :
    (Stage.assign f).Calm := by
  intro s
  exact ⟨_, rfl, h s.p, [], (List.append_nil _).symm, fun _ hst => by cases hst⟩

theorem calm_setRecheck : setRecheck.Calm :=
  calm_assign _ (fun _ => ⟨rfl, fun _ => List.Perm.refl _⟩)

theorem calm_setRecheckTexture : setRecheckTexture.Calm :=
  calm_assign _ (fun _ => ⟨rfl, fun _ => List.Perm.refl _⟩)

theorem calm_issue (o : DrawOp) (h : (RenderStep.op o).isPrepass = false) :
    (Stage.issue o).Calm := by
  intro s
  refine ⟨_, rfl, sameScene_refl _, [RenderStep.op o], rfl, ?_⟩
  intro st hst
  rw [List.mem_singleton] at hst
  rw [hst]
  exact ⟨h, rfl⟩

theorem calm_issue_blend (b : Bool) : (Stage.issue (DrawOp.glBlend b)).Calm :=
  calm_issue _ rfl

theorem calm_renderExit : renderExit.Calm := by
  intro s
  refine ⟨_, renderExit_eq s, sameScene_refl _, _, rfl, ?_⟩
  intro st hst
  simp only [List.mem_cons, List.mem_singleton, List.not_mem_nil, or_false] at hst
  rcases hst with h | h <;> rw [h] <;> exact ⟨rfl, rfl⟩

theorem calm_callOpaque (vp : ViewParams) (fi : FrameInput) (list : DrawList)
    (bucket : OpaqueBucket) (pass : Nat)
    (h : decide (pass &&& RenderPassLineMask = RenderPassLineSolid) = false) :
    (Stage.callOpaque vp fi list bucket pass).Calm := by
  intro s
  unfold Stage.callOpaque
  obtain ⟨d, hd, hp, _, _⟩ := renderOpaque_spec vp fi list (s.p.opaqueBucket bucket) pass s.p
  rw [hd]
  refine ⟨_, rfl, sameScene_of_untracked _ _ hp, _, rfl, ?_⟩
  intro st hst
  rw [List.mem_singleton] at hst
  rw [hst]
  exact ⟨rfl, h⟩

theorem calm_callOpaque_normal (vp : ViewParams) (fi : FrameInput) (list : DrawList)
    (bucket : OpaqueBucket) :
    (Stage.callOpaque vp fi list bucket RenderPassNormal).Calm :=
  calm_callOpaque vp fi list bucket _ (by decide)

theorem calm_callOpaque_highlight (vp : ViewParams) (fi : FrameInput) (list : DrawList)
    (bucket : OpaqueBucket) :
    (Stage.callOpaque vp fi list bucket RenderPassHighlight).Calm :=
  calm_callOpaque vp fi list bucket _ (by decide)

theorem calm_callOpaque_normal_highlight (vp : ViewParams) (fi : FrameInput) (list : DrawList)
    (bucket : OpaqueBucket) :
    (Stage.callOpaque vp fi list bucket (RenderPassNormal ||| RenderPassHighlight)).Calm :=
  calm_callOpaque vp fi list bucket _ (by decide)

theorem calm_callTransparency (vp : ViewParams) (fi : FrameInput) (list : DrawList)
    (bucket : TranspBucket) (sort : Bool) :
    (Stage.callTransparency vp fi list bucket sort).Calm := by
  intro s
  unfold Stage.callTransparency
  obtain ⟨d, hd, hp, _, _⟩ := renderTransparency_spec vp fi list bucket sort s.p
  rw [hd]
  refine ⟨_, rfl,
    sameScene_trans _ _ _ (renderTransparencySort_sameScene vp fi list bucket sort s.p)
      (sameScene_of_untracked _ _ hp), _, rfl, ?_⟩
  intro st hst
  rw [List.mem_singleton] at hst
  rw [hst]
  exact ⟨rfl, rfl⟩

theorem calm_renderBase (vp : ViewParams) (fi : FrameInput) : (renderBase vp fi).Calm := by
  unfold renderBase
  apply calm_runStages
  simp only [List.forall_mem_cons, List.not_mem_nil, false_implies, implies_true,
    calm_callOpaque_normal, calm_callOpaque_highlight, calm_callTransparency, calm_setRecheck,
    calm_setRecheckTexture, and_self]

/-! ### What the scene decides -/

theorem scene_field {β : Type} (f : SoFCRendererP → β) (hf : ∀ p, f p.scene = f p)
    (p q : SoFCRendererP) (h : SameScene p q) : f q = f p := by
  rw [← hf q, h.1, hf p]

theorem wantsPrepass_sameScene (p q : SoFCRendererP) (h : SameScene p q) :
    wantsPrepass q = wantsPrepass p :=
  scene_field wantsPrepass (fun _ => rfl) p q h

theorem hasSel_sameScene (p q : SoFCRendererP) (h : SameScene p q) : hasSel q = hasSel p :=
  scene_field hasSel (fun _ => rfl) p q h

theorem shadowmapping_sameScene (p q : SoFCRendererP) (h : SameScene p q) :
    q.shadowmapping = p.shadowmapping :=
  scene_field (fun x => x.shadowmapping) (fun _ => rfl) p q h

theorem shadowrendering_sameScene (p q : SoFCRendererP) (h : SameScene p q) :
    q.shadowrendering = p.shadowrendering :=
  scene_field (fun x => x.shadowrendering) (fun _ => rfl) p q h

/-! ### The frame without the two passes -/

theorem calm_renderOnTop (vp : ViewParams) (fi : FrameInput) (s : RenderState)
    (h : wantsPrepass s.p = false) :
    ∃ s1, renderOnTop vp fi s = some s1 ∧ SameScene s.p s1.p
      ∧ ∃ new, s1.steps = s.steps ++ new
        ∧ ∀ st ∈ new, st.isPrepass = false ∧ st.isLineSolid = false := by
  unfold renderOnTop
  dsimp only
  have h1 : (hasSel s.p || hasOnTop s.p || s.p.hlwholeontop) = false := h
  rw [h1]
  apply calm_runStages
  simp only [List.forall_mem_cons, List.not_mem_nil, false_implies, implies_true,
    Bool.false_eq_true, if_false,
    calm_callOpaque_normal, calm_callOpaque_highlight, calm_callOpaque_normal_highlight,
    calm_callTransparency, calm_setRecheck, calm_setRecheckTexture, calm_issue_blend,
    calm_guarded_false, calm_guarded, calm_renderExit, and_self]

/-! ## What updateSelection leaves alone -/

theorem addSkipAll_erase (d : Int) (indices : List Nat) (es : List DrawEntry) :
    (addSkipAll d indices es).map (fun e => { e with skip := 0 })
      = es.map (fun e => { e with skip := 0 }) := by
  apply List.ext_getElem?
  intro j
  rw [List.getElem?_map, List.getElem?_map, addSkipAll_getElem?]
  cases es[j]? <;> rfl

theorem applyKey_unselected (key : CacheKeyPtr) (d : Int) (p : SoFCRendererP) :
    (applyKey key d p).unselected = p.unselected := by
  rw [applyKey_eq]
  show ({ p.unselected with drawentries := _ } : SoFCRendererP) = _
  rw [addSkipAll_erase]
  rfl

theorem applyKeys_unselected (keys : List CacheKeyPtr) (d : Int) (p : SoFCRendererP) :
    (applyKeys keys d p).unselected = p.unselected := by
  rw [applyKeys_eq]
  show ({ p.unselected with drawentries := _ } : SoFCRendererP) = _
  rw [addSkipAll_erase]
  rfl

theorem checkKeyWhole_unselected (m : Material) (v : VertexCacheEntry) (s : SelectionState)
    (ret : Nat) : (checkKeyWhole m v s ret).1.p.unselected = s.p.unselected := by
  unfold checkKeyWhole
  dsimp only
  split_ifs
  · show ({ applyKey _ _ _ with selkey := none } : SoFCRendererP).unselected = _
    have h := applyKey_unselected v.key 1
      { s.p with selectionkeys := (keySetInsert v.key s.p.selectionkeys).1 }
    exact h
  · rfl
  · rfl

theorem checkKey_unselected (m : Material) (v : VertexCacheEntry) (s : SelectionState) :
    (checkKey m v s).1.p.unselected = s.p.unselected := by
  unfold checkKey
  dsimp only
  by_cases h0 : (pushDrawEntry s.p.slentries m v).2 = 0
  · rw [if_pos h0]; rfl
  · rw [if_neg h0]
    cases hk : v.key with
    | none => rfl
    | some k =>
      dsimp only
      split_ifs <;> first | rfl | (rw [checkKeyWhole_unselected]; rfl)

theorem selectionEntry_unselected (m : Material) (ft : Bool) (s : SelectionState)
    (v : VertexCacheEntry) : (selectionEntry m ft s v).p.unselected = s.p.unselected := by
  unfold selectionEntry
  dsimp only
  split_ifs <;> exact checkKey_unselected m v s

theorem selectionOnTopEntry_unselected (ids : SelIdBits) (id : Int) (m : Material)
    (s : SelectionState) (v : VertexCacheEntry) :
    (selectionOnTopEntry ids id m s v).p.unselected = s.p.unselected := by
  unfold selectionOnTopEntry
  dsimp only
  by_cases h0 : (checkKey m v s).2 = 0
  · rw [if_pos h0]; exact checkKey_unselected m v s
  · rw [if_neg h0]
    rcases MaterialType.cases_eq m.type with ht | ht | ht <;> rw [ht] <;> dsimp only <;>
    split_ifs <;> exact checkKey_unselected m v s

theorem selectionGroup_unselected (s : SelectionState) (g : Material × List VertexCacheEntry) :
    (selectionGroup s g).p.unselected = s.p.unselected := by
  unfold selectionGroup
  split_ifs
  · rfl
  · rfl
  · exact foldl_invariant _ (fun t => t.p.unselected = s.p.unselected)
      (fun t v ht => (selectionEntry_unselected _ _ t v).trans ht) _ s rfl

theorem selectionOnTopGroup_unselected (ids : SelIdBits) (id : Int) (s : SelectionState)
    (g : Material × List VertexCacheEntry) :
    (selectionOnTopGroup ids id s g).p.unselected = s.p.unselected := by
  unfold selectionOnTopGroup
  split_ifs
  · rfl
  · rfl
  · exact foldl_invariant _ (fun t => t.p.unselected = s.p.unselected)
      (fun t v ht => (selectionOnTopEntry_unselected _ _ _ t v).trans ht) _ s rfl

theorem updateSelectionReset_unselected (p : SoFCRendererP) :
    (updateSelectionReset p).unselected = p.unselected := by
  unfold updateSelectionReset
  dsimp only
  show ({ applyKeys _ _ _ with selectionkeys := [] } : SoFCRendererP).unselected = _
  have h := applyKeys_unselected p.selectionkeys (-1)
    { p with
      updateselection := false
      opaqueselections := []
      transpselections := []
      transpselectionsontop := []
      selstriangleontop := []
      selslineontop := []
      selspointontop := []
      selsontop := []
      slentries := [] }
  exact h

theorem updateSelection_unselected (ids : SelIdBits) (p : SoFCRendererP) :
    (updateSelection ids p).unselected = p.unselected := by
  unfold updateSelection
  split_ifs
  · rfl
  · dsimp only
    have h1 : ∀ (sels : List (Int × VertexCacheMap)) (s : SelectionState),
        (sels.foldl (fun s sel => sel.2.foldl (selectionOnTopGroup ids sel.1) s) s).p.unselected
          = s.p.unselected := by
      intro sels s
      exact foldl_invariant
        (fun (s : SelectionState) (sel : Int × VertexCacheMap) =>
          sel.2.foldl (selectionOnTopGroup ids sel.1) s)
        (fun t => t.p.unselected = s.p.unselected)
        (fun t sel ht =>
          (foldl_invariant _ (fun u => u.p.unselected = t.p.unselected)
            (fun u g hu => (selectionOnTopGroup_unselected ids sel.1 u g).trans hu) _ t rfl).trans
            ht) _ s rfl
    have h2 : ∀ (sels : List (Int × VertexCacheMap)) (s : SelectionState),
        (sels.foldl (fun s sel => sel.2.foldl selectionGroup s) s).p.unselected
          = s.p.unselected := by
      intro sels s
      exact foldl_invariant
        (fun (s : SelectionState) (sel : Int × VertexCacheMap) => sel.2.foldl selectionGroup s)
        (fun t => t.p.unselected = s.p.unselected)
        (fun t sel ht =>
          (foldl_invariant _ (fun u => u.p.unselected = t.p.unselected)
            (fun u g hu => (selectionGroup_unselected u g).trans hu) _ t rfl).trans ht) _ s rfl
    rw [h2, h1]
    exact updateSelectionReset_unselected p

theorem renderStart_shadowmapping (ids : SelIdBits) (fi : FrameInput) (p : SoFCRendererP) :
    (renderStart ids fi p).shadowmapping = fi.shadowmap
    ∧ (renderStart ids fi p).shadowrendering = fi.shadows := by
  have h := updateSelection_unselected ids
    { p with
      shadowrendering := fi.shadows
      shadowmapping := fi.shadowmap
      transpshadowmapping := fi.shadowmap && fi.transpshadowmap }
  exact ⟨congrArg (fun x => x.shadowmapping) h, congrArg (fun x => x.shadowrendering) h⟩

/-! ### The frame with the two passes -/

theorem mono_of_good (f : Stage) (h : f.Good) : f.Mono := by
  intro s s1 hs
  obtain ⟨s2, h2, _, new, hn, _⟩ := h s
  rw [hs] at h2
  cases h2
  exact ⟨new, hn⟩

theorem mono_renderExit : renderExit.Mono := by
  intro s s1 hs
  rw [renderExit_eq] at hs
  cases hs
  exact ⟨_, rfl⟩

theorem mono_runStages (l : List Stage) (h : ∀ f ∈ l, f.Mono) : (runStages l).Mono := by
  induction l with
  | nil => intro s s1 hs; cases hs; exact ⟨[], (List.append_nil _).symm⟩
  | cons f fs ih =>
    intro s s1 hs
    change (f s).bind (runStages fs) = some s1 at hs
    cases hf : f s with
    | none => rw [hf] at hs; cases hs
    | some s2 =>
      rw [hf] at hs
      obtain ⟨n1, hn1⟩ := h f (List.mem_cons_self f fs) s s2 hf
      obtain ⟨n2, hn2⟩ := ih (fun g hg => h g (List.mem_cons_of_mem f hg)) s2 s1 hs
      exact ⟨n1 ++ n2, by rw [hn2, hn1, List.append_assoc]⟩

theorem marks_head (P : RenderStep → Bool) (f : Stage) (fs : List Stage) (hf : f.Marks P)
    (hfs : (runStages fs).Mono) : (runStages (f :: fs)).Marks P := by
  intro s s1 hs
  change (f s).bind (runStages fs) = some s1 at hs
  cases h : f s with
  | none => rw [h] at hs; cases hs
  | some s2 =>
    rw [h] at hs
    obtain ⟨st, hst, hp⟩ := hf s s2 h
    obtain ⟨new, hn⟩ := hfs s2 s1 hs
    exact ⟨st, by rw [hn]; exact List.mem_append_left _ hst, hp⟩

theorem marks_tail (P : RenderStep → Bool) (f : Stage) (fs : List Stage)
    (hfs : (runStages fs).Marks P) : (runStages (f :: fs)).Marks P := by
  intro s s1 hs
  change (f s).bind (runStages fs) = some s1 at hs
  cases h : f s with
  | none => rw [h] at hs; cases hs
  | some s2 =>
    rw [h] at hs
    exact hfs s2 s1 hs

theorem marks_guarded_true (P : RenderStep → Bool) (l : List Stage)
    (h : (runStages l).Marks P) : (Stage.guarded true l).Marks P := h

theorem marks_issue (P : RenderStep → Bool) (o : DrawOp) (h : P (RenderStep.op o) = true) :
    (Stage.issue o).Marks P := by
  intro s s1 hs
  cases hs
  exact ⟨_, List.mem_append_right _ (List.mem_singleton_self _), h⟩

theorem marks_callOpaque (vp : ViewParams) (fi : FrameInput) (list : DrawList)
    (bucket : OpaqueBucket) (pass : Nat)
    (h : decide (pass &&& RenderPassLineMask = RenderPassLineSolid) = true) :
    (Stage.callOpaque vp fi list bucket pass).Marks RenderStep.isLineSolid := by
  intro s s1 hs
  unfold Stage.callOpaque at hs
  cases hd : renderOpaque vp fi list (s.p.opaqueBucket bucket) pass s.p with
  | none => rw [hd] at hs; cases hs
  | some d =>
    rw [hd] at hs
    cases hs
    exact ⟨_, List.mem_append_right _ (List.mem_singleton_self _), h⟩

theorem mono_list (l : List Stage) (h : ∀ f ∈ l, f.Good) : (runStages l).Mono :=
  mono_of_good _ (good_runStages l h)

theorem mono_closing_list (pre : List Stage) (h : ∀ f ∈ pre, f.Good) :
    (runStages (pre ++ [renderExit])).Mono := by
  apply mono_runStages
  intro f hf
  rcases List.mem_append.mp hf with h1 | h1
  · exact mono_of_good f (h f h1)
  · rw [List.mem_singleton] at h1
    rw [h1]
    exact mono_renderExit

theorem marks_renderOnTop (vp : ViewParams) (fi : FrameInput) (s s1 : RenderState)
    (h : wantsPrepass s.p = true) (hs : renderOnTop vp fi s = some s1) :
    (∃ st ∈ s1.steps, st.isPrepass = true) ∧ (∃ st ∈ s1.steps, st.isLineSolid = true) := by
  unfold renderOnTop at hs
  dsimp only at hs
  have h1 : (hasSel s.p || hasOnTop s.p || s.p.hlwholeontop) = true := h
  rw [h1] at hs
  simp only [if_true] at hs
  constructor
  · refine marks_head _ _ _ ?_ ?_ s s1 hs
    · apply marks_guarded_true
      apply marks_tail
      apply marks_tail
      apply marks_head
      · exact marks_issue _ _ rfl
      · apply mono_list
        simp only [List.forall_mem_cons, List.not_mem_nil, false_implies, implies_true,
          good_callOpaque, good_callTransparency, good_setDepthWriteOnly, good_issue_colorMask,
          good_guarded, and_self]
    · refine mono_closing_list [_, _, _, _, _, _, _, _, _] ?_
      simp only [List.forall_mem_cons, List.not_mem_nil, false_implies, implies_true,
        good_callOpaque, good_callTransparency, good_issue_blend, good_guarded, and_self]
  · refine marks_tail _ _ _ (marks_tail _ _ _ (marks_tail _ _ _ (marks_tail _ _ _
      (marks_tail _ _ _ (marks_tail _ _ _ (marks_head _ _ _ ?_ ?_)))))) s s1 hs
    · apply marks_guarded_true
      rcases Bool.eq_false_or_eq_true (hasOnTop s.p) with h2 | h2
      · rw [h2]
        apply marks_head
        · exact marks_guarded_true _ _ (marks_head _ _ _ (marks_callOpaque _ _ _ _ _ (by decide))
            (mono_list [] (by simp)))
        · apply mono_list
          simp only [List.forall_mem_cons, List.not_mem_nil, false_implies, implies_true,
            good_callOpaque, good_guarded, and_self]
      · rcases Bool.eq_false_or_eq_true (hasSel s.p) with h3 | h3
        · rw [h3]
          apply marks_tail
          apply marks_head
          · exact marks_guarded_true _ _ (marks_head _ _ _
              (marks_callOpaque _ _ _ _ _ (by decide))
              (mono_list [_] (by simp only [List.forall_mem_cons, List.not_mem_nil,
                false_implies, implies_true, good_callOpaque, and_self])))
          · apply mono_list
            simp only [List.forall_mem_cons, List.not_mem_nil, false_implies, implies_true,
              good_callOpaque, good_guarded, and_self]
        · have h4 : s.p.hlwholeontop = true := by
            rw [h2, h3] at h1
            exact h1
          rw [h4]
          apply marks_tail
          apply marks_tail
          apply marks_head
          · exact marks_guarded_true _ _ (marks_head _ _ _
              (marks_callOpaque _ _ _ _ _ (by decide)) (mono_list [] (by simp)))
          · exact mono_list [] (by simp)
    · refine mono_closing_list [_, _, _] ?_
      simp only [List.forall_mem_cons, List.not_mem_nil, false_implies, implies_true,
        good_callOpaque, good_callTransparency, good_issue_blend, good_guarded, and_self]

theorem runStages_append (a b : List Stage) (s : RenderState) :
    runStages (a ++ b) s = (runStages a s).bind (runStages b) := by
  induction a generalizing s with
  | nil => rfl
  | cons f fs ih =>
    show (f s).bind (runStages (fs ++ b)) = ((f s).bind (runStages fs)).bind (runStages b)
    cases f s with
    | none => rfl
    | some s1 => exact ih s1

theorem wantsPrepass_iff (p : SoFCRendererP) :
    wantsPrepass p = true ↔
      ((p.selsontop ≠ [] ∨ p.selslineontop ≠ [])
        ∨ (p.trianglesontop ≠ [] ∧ p.linesontop ≠ [])
        ∨ p.hlwholeontop = true) := by
  unfold wantsPrepass hasSel hasOnTop
  simp only [Bool.or_eq_true, Bool.and_eq_true, decide_eq_true_eq, ne_eq, List.length_eq_zero,
    or_assoc]

/-- A frame that is not a shadow-map pass goes on, from a state that holds the
scene of the start of the frame and has taken neither the depth-write-only
pass nor a line-solid call, with the part of `render` from its locals `hassel`
and `hasontop` on. -/
theorem overlay_from (vp : ViewParams) (fi : FrameInput) (s : RenderState)
    (hq : ∀ st ∈ s.steps, st.isPrepass = false ∧ st.isLineSolid = false) :
    ∃ s2 r, SameScene s.p s2.p
      ∧ (∀ st ∈ s2.steps, st.isPrepass = false ∧ st.isLineSolid = false)
      ∧ renderOnTop vp fi s2 = some r ∧ renderOverlay vp fi s = some r := by
  have hpre : (runStages
      [ setRecheck,
        Stage.callTransparency vp fi DrawList.selection TranspBucket.transpselectionsontop
          false,
        Stage.guarded s.p.hlwholeontop
          [ Stage.callOpaque vp fi DrawList.highlight OpaqueBucket.opaquehighlight
              RenderPassNormal,
            Stage.callTransparency vp fi DrawList.highlight TranspBucket.transphighlight
              false ] ]).Calm := by
    apply calm_runStages
    simp only [List.forall_mem_cons, List.not_mem_nil, false_implies, implies_true,
      calm_callOpaque_normal, calm_callTransparency, calm_setRecheck, calm_guarded, and_self]
  obtain ⟨s2, h2, e2, new, hn, hnew⟩ := hpre s
  obtain ⟨_, r, _, hr, _, _⟩ := closing_renderOnTop vp fi s2
  refine ⟨s2, r, e2, ?_, hr, ?_⟩
  · intro st hst
    rw [hn] at hst
    rcases List.mem_append.mp hst with h | h
    · exact hq st h
    · exact hnew st h
  · unfold renderOverlay
    have := runStages_append
      [ setRecheck,
        Stage.callTransparency vp fi DrawList.selection TranspBucket.transpselectionsontop
          false,
        Stage.guarded s.p.hlwholeontop
          [ Stage.callOpaque vp fi DrawList.highlight OpaqueBucket.opaquehighlight
              RenderPassNormal,
            Stage.callTransparency vp fi DrawList.highlight TranspBucket.transphighlight
              false ] ]
      [renderOnTop vp fi] s
    rw [h2] at this
    refine this.trans ?_
    show (renderOnTop vp fi s2).bind (runStages []) = some r
    rw [hr]
    rfl

theorem render_overlay (vp : ViewParams) (ids : SelIdBits) (fi : FrameInput)
    (p : SoFCRendererP) (hmap : fi.shadowmap = false)
    (hreach : fi.delayedPaths = true ∨ fi.shadows = false) :
    ∃ s r, SameScene (renderStart ids fi p) s.p
      ∧ (∀ st ∈ s.steps, st.isPrepass = false ∧ st.isLineSolid = false)
      ∧ renderOnTop vp fi s = some r ∧ render vp ids fi p = some r := by
  obtain ⟨hsm, hsr⟩ := renderStart_shadowmapping ids fi p
  have h0 : ∀ st ∈ [RenderStep.op DrawOp.glPushAttrib, RenderStep.op DrawOp.statePush],
      st.isPrepass = false ∧ st.isLineSolid = false := by
    intro st hst
    simp only [List.mem_cons, List.mem_singleton, List.not_mem_nil, or_false] at hst
    rcases hst with h | h <;> rw [h] <;> exact ⟨rfl, rfl⟩
  unfold render
  dsimp only
  rcases Bool.eq_false_or_eq_true fi.delayedPaths with hdel | hdel
  · rw [hdel]
    simp only [Bool.not_true, Bool.false_eq_true, if_false]
    unfold renderAfterBase
    dsimp only
    rw [hsm, hmap]
    simp only [Bool.false_eq_true, if_false]
    obtain ⟨s2, r, e2, hq2, hr, hov⟩ := overlay_from vp fi
      { p := renderStart ids fi p
        steps := [RenderStep.op DrawOp.glPushAttrib, RenderStep.op DrawOp.statePush] } h0
    exact ⟨s2, r, e2, hq2, hr, hov⟩
  · rw [hdel]
    simp only [Bool.not_false, if_true]
    have hsh : fi.shadows = false := by
      rcases hreach with h | h
      · rw [hdel] at h; cases h
      · exact h
    obtain ⟨s1, h1, e1, new, hn, hnew⟩ := calm_renderBase vp fi
      { p := renderStart ids fi p
        steps := [RenderStep.op DrawOp.glPushAttrib, RenderStep.op DrawOp.statePush] }
    rw [h1]
    dsimp only
    have hs1 : s1.p.shadowrendering = false := by
      rw [shadowrendering_sameScene _ _ e1]
      exact hsr.trans hsh
    have hs2 : s1.p.shadowmapping = false := by
      rw [shadowmapping_sameScene _ _ e1]
      exact hsm.trans hmap
    rw [hs1]
    simp only [Bool.false_eq_true, if_false]
    unfold renderAfterBase
    rw [hs2]
    simp only [Bool.false_eq_true, if_false]
    have hq1 : ∀ st ∈ s1.steps, st.isPrepass = false ∧ st.isLineSolid = false := by
      intro st hst
      rw [hn] at hst
      rcases List.mem_append.mp hst with h | h
      · exact h0 st h
      · exact hnew st h
    obtain ⟨s2, r, e2, hq2, hr, hov⟩ := overlay_from vp fi s1 hq1
    exact ⟨s2, r, sameScene_trans _ _ _ e1 e2, hq2, hr, hov⟩

/-- C27, as the code has it: in a frame that reaches the overlay steps (not a
shadow-map pass, and either a delayed-path frame or not a shadow-rendering
one), `render` returns, and it opens the depth-write-only pass (its own
`glColorMask` with all channels off) if and only if, and makes a call of
`renderOpaque` in the line-solid pass if and only if, after the selection
has been brought up to date, the selection has lines or points on top that
are not explicitly selected points (`selsontop` or `selslineontop` is not
empty), or the base scene has on-top triangles as well as on-top lines or
points (`trianglesontop` and `linesontop` are both not empty), or the
whole-object highlight flag is set. -/
theorem render_prepass_iff (vp : ViewParams) (ids : SelIdBits) (fi : FrameInput)
    (p : SoFCRendererP) (hmap : fi.shadowmap = false)
    (hreach : fi.delayedPaths = true ∨ fi.shadows = false) :
    ∃ r, render vp ids fi p = some r
      ∧ ((∃ st ∈ r.steps, st.isPrepass = true) ↔
          (((renderStart ids fi p).selsontop ≠ [] ∨ (renderStart ids fi p).selslineontop ≠ [])
            ∨ ((renderStart ids fi p).trianglesontop ≠ []
                ∧ (renderStart ids fi p).linesontop ≠ [])
            ∨ (renderStart ids fi p).hlwholeontop = true))
      ∧ ((∃ st ∈ r.steps, st.isLineSolid = true) ↔
          (((renderStart ids fi p).selsontop ≠ [] ∨ (renderStart ids fi p).selslineontop ≠ [])
            ∨ ((renderStart ids fi p).trianglesontop ≠ []
                ∧ (renderStart ids fi p).linesontop ≠ [])
            ∨ (renderStart ids fi p).hlwholeontop = true)) := by
  obtain ⟨s, r, hsc, hq, hr, hrender⟩ := render_overlay vp ids fi p hmap hreach
  refine ⟨r, hrender, ?_⟩
  rw [← wantsPrepass_iff, ← wantsPrepass_sameScene _ _ hsc]
  rcases Bool.eq_false_or_eq_true (wantsPrepass s.p) with hw | hw
  · obtain ⟨h1, h2⟩ := marks_renderOnTop vp fi s r hw hr
    exact ⟨⟨fun _ => hw, fun _ => h1⟩, ⟨fun _ => hw, fun _ => h2⟩⟩
  · obtain ⟨r1, hr1, _, new, hn, hnew⟩ := calm_renderOnTop vp fi s hw
    rw [hr] at hr1
    cases hr1
    have hnone : ∀ st ∈ r.steps, st.isPrepass = false ∧ st.isLineSolid = false := by
      intro st hst
      rw [hn] at hst
      rcases List.mem_append.mp hst with h | h
      · exact hq st h
      · exact hnew st h
    constructor
    · constructor
      · rintro ⟨st, hst, hp⟩
        rw [(hnone st hst).1] at hp
        cases hp
      · intro h
        rw [hw] at h
        cases h
    · constructor
      · rintro ⟨st, hst, hp⟩
        rw [(hnone st hst).2] at hp
        cases hp
      · intro h
        rw [hw] at h
        cases h

set_option maxHeartbeats 1000000 in
theorem render_prepass_iff_witness :
    ({} : FrameInput).shadowmap = false ∧
    (({} : FrameInput).delayedPaths = true ∨ ({} : FrameInput).shadows = false) ∧
    (renderStart exampleSelIds {} ontopTriangleLineScene).trianglesontop = [0] ∧
    (renderStart exampleSelIds {} ontopTriangleLineScene).linesontop = [1] ∧
    ∃ r, render {} exampleSelIds {} ontopTriangleLineScene = some r
      ∧ ((∃ st ∈ r.steps, st.isPrepass = true) ↔
          (((renderStart exampleSelIds {} ontopTriangleLineScene).selsontop ≠ []
              ∨ (renderStart exampleSelIds {} ontopTriangleLineScene).selslineontop ≠ [])
            ∨ ((renderStart exampleSelIds {} ontopTriangleLineScene).trianglesontop ≠ []
                ∧ (renderStart exampleSelIds {} ontopTriangleLineScene).linesontop ≠ [])
            ∨ (renderStart exampleSelIds {} ontopTriangleLineScene).hlwholeontop = true))
      ∧ ((∃ st ∈ r.steps, st.isLineSolid = true) ↔
          (((renderStart exampleSelIds {} ontopTriangleLineScene).selsontop ≠ []
              ∨ (renderStart exampleSelIds {} ontopTriangleLineScene).selslineontop ≠ [])
            ∨ ((renderStart exampleSelIds {} ontopTriangleLineScene).trianglesontop ≠ []
                ∧ (renderStart exampleSelIds {} ontopTriangleLineScene).linesontop ≠ [])
            ∨ (renderStart exampleSelIds {} ontopTriangleLineScene).hlwholeontop = true)) :=
  ⟨rfl, Or.inr rfl, by decide!, by decide!,
   render_prepass_iff {} exampleSelIds {} ontopTriangleLineScene rfl (Or.inr rfl)⟩

set_option maxHeartbeats 1000000 in
/-- C27 as stated fails: a frame that reaches the overlay steps takes neither
the depth-write-only pass nor a line-solid call when the only on-top geometry
is a triangle unit of the base scene (in the buckets `opaqueontop` and
`trianglesontop`), and when it is a triangle unit of an on-top selection (in
the bucket `transpselectionsontop`). -/
theorem render_no_prepass_for_triangles :
    ({} : FrameInput).shadowmap = false ∧ ({} : FrameInput).shadows = false ∧
    (renderStart exampleSelIds {} ontopTriangleScene).opaqueontop = [0] ∧
    (renderStart exampleSelIds {} ontopTriangleScene).trianglesontop = [0] ∧
    (render {} exampleSelIds {} ontopTriangleScene).map
      (fun r => (r.steps.any RenderStep.isPrepass, r.steps.any RenderStep.isLineSolid))
        = some (false, false) ∧
    (renderStart exampleSelIds {} ontopSelectedTriangle).transpselectionsontop
      = [{ idx := 0 }] ∧
    (render {} exampleSelIds {} ontopSelectedTriangle).map
      (fun r => (r.steps.any RenderStep.isPrepass, r.steps.any RenderStep.isLineSolid))
        = some (false, false) := by
  decide!

set_option maxHeartbeats 1000000 in
/-- C23: what `render` does at the failing input.  The base scene holds one
transparent unit and the selection two, the far one first.  The call of
`renderTransparency` for the base bucket records the view plane, so the call
for the selection bucket finds the normal unchanged and does not sort: after
the frame the selection bucket holds the far unit (distance 5) before the near
one (distance 1).  With an empty base scene the same selection is sorted. -/
theorem render_selection_unsorted :
    ({} : FrameInput).shadowmap = false ∧ ({} : FrameInput).shadows = false ∧
    (render {} exampleSelIds {} selectedFarNear).map
      (fun r => (r.p.transpvcache.map (fun v => v.idx),
        r.p.transpselections.map (fun v => v.idx),
        distanceOf ({} : FrameInput).viewPlane r.p.slentries 0,
        distanceOf ({} : FrameInput).viewPlane r.p.slentries 1))
        = some ([0], [0, 1], 5, 1) ∧
    (render {} exampleSelIds {} selectedFarNearAlone).map
      (fun r => (r.p.transpvcache.map (fun v => v.idx),
        r.p.transpselections.map (fun v => v.idx),
        distanceOf ({} : FrameInput).viewPlane r.p.slentries 0,
        distanceOf ({} : FrameInput).viewPlane r.p.slentries 1))
        = some ([], [1, 0], 5, 1) := by
  decide!

end SoFCRenderer
